import Mathlib

/-! # kst command line interpreter: `libkstapp/commandlineparser.cpp`

A shallow embedding of `Kst::CommandLineParser`.  The parser object, the
document it writes to (object store, override record, recent-file history),
the plots and the tab widget are fields of one record that every member
function takes and returns.  Pointers to objects that are never changed once
they are set up (vectors, curves, images) are modelled by the object itself,
which carries its creation index in the store as identity; plots are changed
after creation and are referred to by their index.  A dereferenced null pointer
makes a function return `none`.

Library functions (`QString::toInt`, `QString::toDouble`, `QFileInfo`, the data
source plugins, `QMessageBox::question`) are fields of `Env`.  `i18n` is the
untranslated text.  The build modelled is the one with printer support
(`KST_NO_PRINTER` undefined).
-/

namespace Kst

/-! ## Objects of the document -/

/-- Modelled from the spec: `DataVector` (datavector.cpp is not among the
sources).  The record holds the identity of the object and what `change` was
given; `field()`, `filename()`, `reqStartFrame()`, `reqNumFrames()`, `skip()`,
`doSkip()` and `doAve()` are the projections (the fingerprint of the spec). -/
structure DataVector where
  id : Nat
  filename : String
  field : String
  reqStartFrame : Int
  reqNumFrames : Int
  skip : Int
  doSkip : Bool
  doAve : Bool
deriving DecidableEq, Repr

/-- A `VectorPtr` target: a data vector, or an output vector of a spectrum or
histogram object (named by the owner's identity). -/
inductive Vector where
  | data (v : DataVector)
  | psdX (owner : Nat)
  | psdY (owner : Nat)
  | histX (owner : Nat)
  | histY (owner : Nat)
deriving DecidableEq, Repr

/-- A `PSD` object as set up by `change(pv, _sampleRate, true, 14, true, true, "", "")`. -/
structure PSD where
  id : Nat
  input : DataVector
  sampleRate : ℚ
deriving DecidableEq, Repr

/-- A `Histogram` object as set up by `change(hv, -1, 1, 60, Number, true)`. -/
structure Histogram where
  id : Nat
  input : DataVector
  xmin : Int
  xmax : Int
  nBins : Nat
deriving DecidableEq, Repr

/-- A `DataMatrix` as set up by
`change(ds, field, 0, 0, -1, -1, _doAve, _skip>0, _skip, 0.0, 0.0, 1.0, 1.0)`. -/
structure DataMatrix where
  id : Nat
  filename : String
  field : String
  xStart : Int
  yStart : Int
  xNumSteps : Int
  yNumSteps : Int
  doAve : Bool
  doSkip : Bool
  skip : Int
deriving DecidableEq, Repr

/-- A `Curve`.  A null vector pointer is `none`; a style flag the parser never
set is `none` (the constructor's default, curve.cpp is not among the sources). -/
structure Curve where
  id : Nat
  xVector : Option Vector
  yVector : Option Vector
  xError : Option Vector
  xMinusError : Option Vector
  yError : Option Vector
  yMinusError : Option Vector
  color : Nat
  hasPoints : Option Bool
  hasLines : Option Bool
  hasBars : Option Bool
  lineWidth : Int
deriving DecidableEq, Repr

/-- An `Image` as set up by `changeToColorOnly(m, 0.0, 1.0, true, palette 0)`. -/
structure Image where
  id : Nat
  matrix : DataMatrix
deriving DecidableEq, Repr

/-- An object of the store (`ObjectPtr`); `kst_cast<Curve>` succeeds on `curve`. -/
inductive Object where
  | dataVector (v : DataVector)
  | psd (p : PSD)
  | histogram (h : Histogram)
  | dataMatrix (m : DataMatrix)
  | curve (c : Curve)
  | image (i : Image)
deriving DecidableEq, Repr

/-- A `Relation` handed to a plot's render item. -/
inductive Relation where
  | curve (c : Curve)
  | image (i : Image)
deriving DecidableEq, Repr

/-- The override record of the object store. -/
structure Override where
  fileName : String
  f0 : Int
  N : Int
  skip : Int
  doAve : Bool
deriving DecidableEq, Repr

/-- The object store: the objects in creation order and the override record.
`createObject<T>()` appends; the new object's identity is the old length. -/
structure ObjectStore where
  objects : List Object
  override : Override
deriving DecidableEq, Repr

/-- A plot item: descriptive name, the tab (view) it was laid out in, the
relations of its Cartesian render item, and the two axis labels the parser may
set (`none`: still automatic). -/
structure PlotItem where
  descriptiveName : String
  view : Nat
  relations : List Relation
  bottomLabel : Option String
  leftLabel : Option String
deriving DecidableEq, Repr

/-- Modelled from the spec: the main window's tab widget (tabwidget.cpp is not
among the sources): the display texts of the tabs and the current index. -/
structure TabWidget where
  tabs : List String
  currentIndex : Nat
deriving DecidableEq, Repr

/-- Paper sizes used by the print options. -/
inductive PaperSize where
  | A4
  | Letter
deriving DecidableEq, Repr

/-- An opened data source: file name, file type, the field list
(`ds->vector().list()`) and the plugin's own batch curve generator
(`ds->autoCurves(store)`), which returns objects and may create them in the
store. -/
structure DataSource where
  fileName : String
  fileType : String
  fieldList : List String
  autoCurves : ObjectStore → List Object × ObjectStore

/-- The collaborators outside the repository. -/
structure Env where
  /-- The value of `QString::toInt(&ok)`, `none` when `ok` is false. -/
  toInt : String → Option Int
  /-- The value of `QString::toDouble(&ok)`, `none` when `ok` is false. -/
  toDouble : String → Option ℚ
  /-- The answer of `QFileInfo(file).exists()`. -/
  fileExists : String → Bool
  /-- The answer of `QFileInfo(file).isFile()`. -/
  isFile : String → Bool
  /-- The result of `DataSourcePluginManager::findOrLoadSource`, `none` for a null pointer. -/
  findOrLoadSource : String → Option DataSource
  /-- The answer of `QMessageBox::question` for the texts built from
  `curve_count` and `max_count`: true when the answer is `No`. -/
  questionNo : Nat → Nat → Bool
  /-- The value of `dialogDefaults().value("curves/lineWidth",0).toInt()`. -/
  lineWidth : Int
  /-- The paper size of `dialogDefaults().value("print/paperSize", Letter)`. -/
  paperSize : PaperSize
  /-- The value of `dialogDefaults().value("print/landscape",true).toBool()`. -/
  landscape : Bool
  /-- The display text `createView()` gives the tab it adds, from the number of tabs. -/
  newViewName : Nat → String
  /-- The value of the configuration constant `KSTVERSION`. -/
  KSTVERSION : String

/-! ## The parser -/

/-- The members of `CommandLineParser`, the locals of `processCommandLine`
(`ok`, `new_fileList`, `dataPlotted`) and the document the parser writes to. -/
structure CommandLineParser where
  _arguments : List String
  _doAve : Bool
  _doSkip : Bool
  _doConsecutivePlots : Bool
  _useBargraph : Bool
  _useLines : Bool
  _usePoints : Bool
  _overrideStyle : Bool
  _sampleRate : ℚ
  _numFrames : Int
  _startFrame : Int
  _skip : Int
  _plotName : String
  _errorField : String
  _fileName : String
  _xField : String
  _pngFile : String
  _printFile : String
  _landscape : Bool
  _paperSize : PaperSize
  _plotItem : Option Nat
  _fileNames : List String
  _vectors : List DataVector
  _plotItems : List Nat
  _xlabel : String
  _ylabel : String
  ok : Bool
  new_fileList : Bool
  dataPlotted : Bool
  objectStore : ObjectStore
  plots : List PlotItem
  tabWidget : TabWidget
  colorSequence : Nat
  documentRecentDataFiles : List (List String)
  mainWindowRecentDataFiles : List String
  questions : List (Nat × Nat)
  printed : List String
deriving DecidableEq, Repr

/-- The document and main window a parser is constructed on. -/
structure Document where
  objectStore : ObjectStore
  plots : List PlotItem
  tabWidget : TabWidget
  colorSequence : Nat
deriving DecidableEq, Repr

/-- The constructor `CommandLineParser::CommandLineParser`; `args` are the
application arguments after `takeFirst()` removed the program name. -/
def CommandLineParser.new (doc : Document) (args : List String) : CommandLineParser :=
  { _arguments := args
    _doAve := false
    _doSkip := false
    _doConsecutivePlots := true
    _useBargraph := false
    _useLines := true
    _usePoints := false
    _overrideStyle := false
    _sampleRate := 1
    _numFrames := -1
    _startFrame := -1
    _skip := 0
    _plotName := ""
    _errorField := ""
    _fileName := ""
    _xField := "INDEX"
    _pngFile := ""
    _printFile := ""
    _landscape := false
    _paperSize := PaperSize.Letter
    _plotItem := none
    _fileNames := []
    _vectors := []
    _plotItems := []
    _xlabel := ""
    _ylabel := ""
    ok := true
    new_fileList := true
    dataPlotted := false
    objectStore := doc.objectStore
    plots := doc.plots
    tabWidget := doc.tabWidget
    colorSequence := doc.colorSequence
    documentRecentDataFiles := []
    mainWindowRecentDataFiles := []
    questions := []
    printed := [] }

/-- The side effect of `printUsage(t)`: the message is recorded. -/
def printUsage (s : CommandLineParser) (t : String) : CommandLineParser :=
  { s with printed := s.printed ++ [t] }

/-- The function `_setIntArg`: returns `ok`, the value written to `*arg` (the
old value `cur` when nothing is written) and the parser.  `toInt` yields 0 when
it fails. -/
def _setIntArg (env : Env) (s : CommandLineParser) (cur : Int) (Message : String)
    (accept_end : Bool) : Bool × Int × CommandLineParser :=
  match s._arguments with
  | param :: rest =>
    let s1 := { s with _arguments := rest }
    if (param = "end" ∨ param = "end") ∧ accept_end = true then
      (true, -1, s1)
    else
      match env.toInt param with
      | some v => (true, v, s1)
      | none => (false, 0, printUsage s1 Message)
  | [] => (false, cur, printUsage s Message)

/-- The function `_setDoubleArg`; `toDouble` yields 0 when it fails. -/
def _setDoubleArg (env : Env) (s : CommandLineParser) (cur : ℚ) (Message : String) :
    Bool × ℚ × CommandLineParser :=
  match s._arguments with
  | param :: rest =>
    let s1 := { s with _arguments := rest }
    match env.toDouble param with
    | some v => (true, v, s1)
    | none => (false, 0, printUsage s1 Message)
  | [] => (false, cur, printUsage s Message)

/-- The function `_setStringArg`: returns `ok`, the value of `arg` afterwards
(`cur` when nothing is written) and the parser. -/
def _setStringArg (s : CommandLineParser) (cur : String) (Message : String) :
    Bool × String × CommandLineParser :=
  match s._arguments with
  | param :: rest => (true, param, { s with _arguments := rest })
  | [] => (false, cur, printUsage s Message)

/-- The regular expression `^[0-9]{1,2}$` applied with `exactMatch`. -/
def numExactMatch (field : String) : Bool :=
  (field.data.length = 1 ∨ field.data.length = 2) ∧ field.data.all Char.isDigit

/-- The field name after the ASCII column rule of `createOrFindDataVector`. -/
def normalizeField (field : String) (ds : DataSource) : String :=
  if ds.fileType = "ASCII file" then
    if numExactMatch field then "Column " ++ field else field
  else field

/-- The test of the scan in `createOrFindDataVector` on one cached vector. -/
def vectorMatches (s : CommandLineParser) (field : String) (ds : DataSource)
    (xv : DataVector) : Bool :=
  field = xv.field ∧ xv.reqStartFrame = s._startFrame ∧ xv.reqNumFrames = s._numFrames ∧
    xv.skip = s._skip ∧ xv.doSkip = decide (s._skip > 0) ∧ xv.doAve = s._doAve ∧
    xv.filename = ds.fileName

/-- The first statement of `createOrFindDataVector`: with start and count
both -1 the start frame becomes 0. -/
def coerceStart (s : CommandLineParser) : CommandLineParser :=
  if s._startFrame = -1 ∧ s._numFrames = -1 then { s with _startFrame := 0 } else s

/-- The vector `createOrFindDataVector` creates when the scan finds none:
`createObject<DataVector>()` followed by
`change(ds, field, _startFrame, _numFrames, _skip, _skip>0, _doAve)`. -/
def newDataVector (s : CommandLineParser) (field : String) (ds : DataSource) : DataVector :=
  { id := s.objectStore.objects.length
    filename := ds.fileName
    field := field
    reqStartFrame := s._startFrame
    reqNumFrames := s._numFrames
    skip := s._skip
    doSkip := decide (s._skip > 0)
    doAve := s._doAve }

/-- The new vector enters the object store and `_vectors`. -/
def appendVector (s : CommandLineParser) (xv : DataVector) : CommandLineParser :=
  { s with
    objectStore := { s.objectStore with
      objects := s.objectStore.objects ++ [Object.dataVector xv] }
    _vectors := s._vectors ++ [xv] }

/-- The function `createOrFindDataVector`. -/
def createOrFindDataVector (s : CommandLineParser) (field : String) (ds : DataSource) :
    DataVector × CommandLineParser :=
  match (coerceStart s)._vectors.find?
      (vectorMatches (coerceStart s) (normalizeField field ds) ds) with
  | some xv => (xv, coerceStart s)
  | none =>
    (newDataVector (coerceStart s) (normalizeField field ds) ds,
      appendVector (coerceStart s) (newDataVector (coerceStart s) (normalizeField field ds) ds))

/-! ### Placement -/

/-- Apply `f` to the plot with index `p`. -/
def updatePlot (f : PlotItem → PlotItem) : Nat → List PlotItem → List PlotItem
  | _, [] => []
  | 0, pi :: rest => f pi :: rest
  | p + 1, pi :: rest => pi :: updatePlot f p rest

/-- The function `applyLabels`. -/
def applyLabels (s : CommandLineParser) : CommandLineParser :=
  match s._plotItem with
  | none => s
  | some p =>
    let label : PlotItem → PlotItem := fun pi =>
      { pi with
        bottomLabel := if s._xlabel ≠ "" then some s._xlabel else pi.bottomLabel
        leftLabel := if s._ylabel ≠ "" then some s._ylabel else pi.leftLabel }
    { s with plots := updatePlot label p s.plots }

/-- The plot a `CreatePlotForCurve` command creates with `createItem()`,
appended to the layout of the current view: it becomes `_plotItem`. -/
def createPlotForCurve (s : CommandLineParser) : CommandLineParser :=
  { s with
    plots := s.plots ++ [{ descriptiveName := "", view := s.tabWidget.currentIndex,
                           relations := [], bottomLabel := none, leftLabel := none }]
    _plotItem := some s.plots.length }

/-- The call `renderItem->addRelation(r)` on a plot, here for a list of relations. -/
def addRelations (rs : List Relation) (pi : PlotItem) : PlotItem :=
  { pi with relations := pi.relations ++ rs }

/-- The tail shared by `addCurve` and `createImageInPlot`: in consecutive mode
a new plot is created and labelled, then the relation is added to
`_plotItem`; `none` when `_plotItem` points to no plot. -/
def placeRelation (s : CommandLineParser) (r : Relation) : Option CommandLineParser :=
  let s1 := if s._doConsecutivePlots then applyLabels (createPlotForCurve s) else s
  match s1._plotItem with
  | none => none
  | some p =>
    if p < s1.plots.length then
      some { s1 with plots := updatePlot (addRelations [r]) p s1.plots }
    else none

/-- The function `addCurve`. -/
def addCurve (s : CommandLineParser) (curve : Curve) : Option CommandLineParser :=
  placeRelation s (Relation.curve curve)

/-- The curve `createCurveInPlot` creates and sets up. -/
def newCurve (env : Env) (s : CommandLineParser) (xv yv : Vector) (ev : Option Vector) : Curve :=
  { id := s.objectStore.objects.length
    xVector := some xv
    yVector := some yv
    xError := none
    xMinusError := none
    yError := ev
    yMinusError := ev
    color := s.colorSequence
    hasPoints := some s._usePoints
    hasLines := some s._useLines
    hasBars := some s._useBargraph
    lineWidth := env.lineWidth }

/-- The function `createCurveInPlot`. -/
def createCurveInPlot (env : Env) (s : CommandLineParser) (xv yv : Vector)
    (ev : Option Vector) : Option CommandLineParser :=
  addCurve { s with
    objectStore := { s.objectStore with
      objects := s.objectStore.objects ++ [Object.curve (newCurve env s xv yv ev)] }
    colorSequence := s.colorSequence + 1 } (newCurve env s xv yv ev)

/-- The function `createImageInPlot`. -/
def createImageInPlot (s : CommandLineParser) (m : DataMatrix) : Option CommandLineParser :=
  let image : Image := { id := s.objectStore.objects.length, matrix := m }
  placeRelation { s with
    objectStore := { s.objectStore with
      objects := s.objectStore.objects ++ [Object.image image] } } (Relation.image image)

/-- Modelled from the spec: `TabWidget::setCurrentViewName` (not among the
sources) gives the current tab the display text `name`. -/
def setCurrentViewName (w : TabWidget) (name : String) : TabWidget :=
  { w with tabs := w.tabs.set w.currentIndex name }

/-- Modelled from the spec: `TabWidget::createView` (not among the sources)
adds one tab and makes it the current one. -/
def createView (env : Env) (w : TabWidget) : TabWidget :=
  { tabs := w.tabs ++ [env.newViewName w.tabs.length], currentIndex := w.tabs.length }

/-- The function `createOrFindTab`. -/
def createOrFindTab (env : Env) (s : CommandLineParser) (name : String) : CommandLineParser :=
  match s.tabWidget.tabs.findIdx? (fun t => t = name) with
  | some i => { s with tabWidget := { s.tabWidget with currentIndex := i } }
  | none => { s with tabWidget := setCurrentViewName (createView env s.tabWidget) name }

/-- The test of the scan in `createOrFindPlot` on one registered plot. -/
def plotNamed (s : CommandLineParser) (plot_name : String) (pi : Nat) : Bool :=
  (s.plots.get? pi).map (fun p => p.descriptiveName) = some plot_name

/-- The function `createOrFindPlot`. -/
def createOrFindPlot (s : CommandLineParser) (plot_name : String) : CommandLineParser :=
  match s._plotItems.find? (plotNamed s plot_name) with
  | some pi => { s with _plotItem := some pi }
  | none =>
    let pi := s.plots.length
    applyLabels { s with
      plots := s.plots ++ [{ descriptiveName := plot_name, view := s.tabWidget.currentIndex,
                             relations := [], bottomLabel := none, leftLabel := none }]
      _plotItems := s._plotItems ++ [pi]
      _plotItem := some pi }

/-! ### Automatic curves -/

/-- Modelled from the spec: a `Curve` just returned by `createObject<Curve>()`
(curve.cpp is not among the sources) has no vector attached. -/
def Curve.fresh (id : Nat) : Curve :=
  { id := id, xVector := none, yVector := none, xError := none, xMinusError := none,
    yError := none, yMinusError := none, color := 0, hasPoints := none, hasLines := none,
    hasBars := none, lineWidth := 0 }

/-- The `foreach` of `autoCurves` over the field list; `curves` accumulates. -/
def autoCurvesLoop (ds : DataSource) (xv : DataVector) :
    List String → List Object → CommandLineParser → List Object × CommandLineParser
  | [], curves, s => (curves, s)
  | field :: rest, curves, s =>
    if field ≠ "INDEX" then
      let yv : DataVector :=
        { id := s.objectStore.objects.length, filename := ds.fileName, field := field,
          reqStartFrame := 0, reqNumFrames := -1, skip := 0, doSkip := false, doAve := false }
      let curve : Curve :=
        { Curve.fresh (s.objectStore.objects.length + 1) with
          xVector := some (Vector.data xv)
          yVector := some (Vector.data yv)
          xError := none
          xMinusError := none
          yMinusError := none
          color := s.colorSequence
          lineWidth := 1 }
      autoCurvesLoop ds xv rest (curves ++ [Object.curve curve])
        { s with
          objectStore := { s.objectStore with
            objects := s.objectStore.objects ++ [Object.dataVector yv, Object.curve curve] }
          colorSequence := s.colorSequence + 1 }
    else autoCurvesLoop ds xv rest curves s

/-- The function `autoCurves`. -/
def autoCurves (s : CommandLineParser) (ds : DataSource) : List Object × CommandLineParser :=
  if ds.fieldList.isEmpty then ([], s)
  else
    let xv : DataVector :=
      { id := s.objectStore.objects.length, filename := ds.fileName, field := "INDEX",
        reqStartFrame := 0, reqNumFrames := -1, skip := 0, doSkip := false, doAve := false }
    autoCurvesLoop ds xv ds.fieldList []
      { s with objectStore := { s.objectStore with
          objects := s.objectStore.objects ++ [Object.dataVector xv] } }

/-- The test `kst_cast<Curve>(ptr)` of the auto-detect loops. -/
def isCurve : Object → Bool
  | Object.curve _ => true
  | _ => false

/-- The constant `max_count = 6 * 6`. -/
def max_count : Nat := 6 * 6

/-- The effect of the `QMessageBox::question` call of the auto-detect branch:
the question (with `curve_count` and `max_count` in its text) is recorded. -/
def askQuestion (curve_count : Nat) (s : CommandLineParser) : CommandLineParser :=
  { s with questions := s.questions ++ [(curve_count, max_count)] }

/-- The second `foreach` of the auto-detect branch, with its locals `count`
and `asked`. -/
def placeAutoCurves (env : Env) (curve_count : Nat) :
    List Object → Nat → Bool → CommandLineParser → Option CommandLineParser
  | [], _, _, s => some s
  | Object.curve c :: rest, count, asked, s =>
    if asked = false ∧ count ≥ max_count then
      if env.questionNo curve_count max_count then some (askQuestion curve_count s)
      else
        match addCurve (askQuestion curve_count s) c with
        | none => none
        | some s2 => placeAutoCurves env curve_count rest (count + 1) true s2
    else
      match addCurve s c with
      | none => none
      | some s2 => placeAutoCurves env curve_count rest (count + 1) asked s2
  | _ :: rest, count, asked, s => placeAutoCurves env curve_count rest count asked s

/-! ### The directives -/

/-- The body of the `-y` loop up to `createCurveInPlot`: the X vector, the Y
vector, the error vector (null without an error field) and the inferred style. -/
def yVectors (s : CommandLineParser) (field : String) (ds : DataSource) :
    DataVector × DataVector × Option DataVector × CommandLineParser :=
  let rx := createOrFindDataVector s s._xField ds
  let ry := createOrFindDataVector rx.2 field ds
  if ry.2._errorField ≠ "" then
    let r := createOrFindDataVector ry.2 ry.2._errorField ds
    (rx.1, ry.1, some r.1,
      if r.2._overrideStyle = false then
        { r.2 with _useBargraph := false, _useLines := false, _usePoints := true }
      else r.2)
  else
    (rx.1, ry.1, none,
      if ry.2._overrideStyle = false then
        { ry.2 with _useBargraph := false, _useLines := true, _usePoints := false }
      else ry.2)

/-- The `for` loop of the `-y` directive over the file list. -/
def yLoop (env : Env) (field : String) :
    List String → CommandLineParser → Option CommandLineParser
  | [], s => some s
  | file :: rest, s =>
    if env.fileExists file = false then
      some { printUsage s ("file " ++ file ++ " does not exist\n") with ok := false }
    else
      match env.findOrLoadSource file with
      | none => none
      | some ds =>
        match createCurveInPlot env (yVectors s field ds).2.2.2
            (Vector.data (yVectors s field ds).1) (Vector.data (yVectors s field ds).2.1)
            ((yVectors s field ds).2.2.1.map Vector.data) with
        | none => none
        | some s1 => yLoop env field rest { s1 with dataPlotted := true }

/-- The body of the `-p` loop up to `createCurveInPlot`: the spectrum object
and the inferred style. -/
def pSpectrum (s : CommandLineParser) (field : String) (ds : DataSource) :
    PSD × CommandLineParser :=
  let rp := createOrFindDataVector s field ds
  let powerspectrum : PSD :=
    { id := rp.2.objectStore.objects.length, input := rp.1, sampleRate := rp.2._sampleRate }
  let s1 : CommandLineParser :=
    { rp.2 with objectStore := { rp.2.objectStore with
        objects := rp.2.objectStore.objects ++ [Object.psd powerspectrum] } }
  (powerspectrum,
    if s1._overrideStyle = false then
      { s1 with _useBargraph := false, _useLines := true, _usePoints := false }
    else s1)

/-- The `for` loop of the `-p` directive over the file list. -/
def pLoop (env : Env) (field : String) :
    List String → CommandLineParser → Option CommandLineParser
  | [], s => some s
  | file :: rest, s =>
    if env.fileExists file = false then
      some { printUsage s ("file " ++ file ++ " does not exist\n") with ok := false }
    else
      match env.findOrLoadSource file with
      | none => none
      | some ds =>
        match createCurveInPlot env (pSpectrum s field ds).2
            (Vector.psdX (pSpectrum s field ds).1.id)
            (Vector.psdY (pSpectrum s field ds).1.id) none with
        | none => none
        | some s3 => pLoop env field rest { s3 with dataPlotted := true }

/-- The body of the `-h` loop up to `createCurveInPlot`: the histogram object
and the inferred style. -/
def hHistogram (s : CommandLineParser) (field : String) (ds : DataSource) :
    Histogram × CommandLineParser :=
  let rh := createOrFindDataVector s field ds
  let histogram : Histogram :=
    { id := rh.2.objectStore.objects.length, input := rh.1, xmin := -1, xmax := 1,
      nBins := 60 }
  let s1 : CommandLineParser :=
    { rh.2 with objectStore := { rh.2.objectStore with
        objects := rh.2.objectStore.objects ++ [Object.histogram histogram] } }
  (histogram,
    if s1._overrideStyle = false then
      { s1 with _useBargraph := true, _useLines := false, _usePoints := false }
    else s1)

/-- The `for` loop of the `-h` directive over the file list. -/
def hLoop (env : Env) (field : String) :
    List String → CommandLineParser → Option CommandLineParser
  | [], s => some s
  | file :: rest, s =>
    if env.fileExists file = false ∨ env.isFile file = false then
      some { printUsage s ("file " ++ file ++ " does not exist\n") with ok := false }
    else
      match env.findOrLoadSource file with
      | none => none
      | some ds =>
        match createCurveInPlot env (hHistogram s field ds).2
            (Vector.histX (hHistogram s field ds).1.id)
            (Vector.histY (hHistogram s field ds).1.id) none with
        | none => none
        | some s3 => hLoop env field rest { s3 with dataPlotted := true }

/-- The matrix the `-z` loop creates and sets up for one file. -/
def newDataMatrix (s : CommandLineParser) (field : String) (ds : DataSource) : DataMatrix :=
  { id := s.objectStore.objects.length, filename := ds.fileName, field := field,
    xStart := 0, yStart := 0, xNumSteps := -1, yNumSteps := -1, doAve := s._doAve,
    doSkip := decide (s._skip > 0), skip := s._skip }

/-- The `for` loop of the `-z` directive over the file list. -/
def zLoop (env : Env) (field : String) :
    List String → CommandLineParser → Option CommandLineParser
  | [], s => some s
  | file :: rest, s =>
    if env.fileExists file = false ∨ env.isFile file = false then
      some { printUsage s ("file " ++ file ++ " does not exist\n") with ok := false }
    else
      match env.findOrLoadSource file with
      | none => none
      | some ds =>
        match createImageInPlot
            { s with objectStore := { s.objectStore with
                objects := s.objectStore.objects ++
                  [Object.dataMatrix (newDataMatrix s field ds)] } }
            (newDataMatrix s field ds) with
        | none => none
        | some s2 => zLoop env field rest s2

/-- The test `arg.endsWith(".kst")`. -/
def endsWithKst (arg : String) : Bool :=
  ".kst".data.isSuffixOf arg.data

/-- The file branch up to `_fileNames.append(arg)`: a file list that was
used is recorded (once data was plotted) and cleared, then `arg` is appended. -/
def appendFileName (s : CommandLineParser) (arg : String) : CommandLineParser :=
  let s1 : CommandLineParser :=
    if s.new_fileList then
      let s0 : CommandLineParser :=
        if s.dataPlotted then
          { s with documentRecentDataFiles := s.documentRecentDataFiles ++ [s._fileNames] }
        else s
      { s0 with _fileNames := [], new_fileList := false }
    else s
  { s1 with _fileNames := s1._fileNames ++ [arg] }

/-- The list `curves` of the auto-detect branch: what the source's own
`autoCurves` returns, or, when that is empty, the parser's `autoCurves`. -/
def autoDetectCurves (s : CommandLineParser) (ds : DataSource) :
    List Object × CommandLineParser :=
  if (ds.autoCurves s.objectStore).1.isEmpty then
    autoCurves { s with objectStore := (ds.autoCurves s.objectStore).2 } ds
  else ((ds.autoCurves s.objectStore).1, { s with objectStore := (ds.autoCurves s.objectStore).2 })

/-- The last branch of the dispatch: `arg` is not an option, it is a file. -/
def fileArg (env : Env) (s : CommandLineParser) (arg : String) : Option CommandLineParser :=
  if endsWithKst arg = false ∧ (appendFileName s arg)._arguments.length = 0 then
    match env.findOrLoadSource arg with
    | none => some (appendFileName s arg)
    | some ds =>
      if (autoDetectCurves (appendFileName s arg) ds).1.countP isCurve > 0 then
        placeAutoCurves env ((autoDetectCurves (appendFileName s arg) ds).1.countP isCurve)
          (autoDetectCurves (appendFileName s arg) ds).1 0 false
          { (autoDetectCurves (appendFileName s arg) ds).2 with
            mainWindowRecentDataFiles :=
              (autoDetectCurves (appendFileName s arg) ds).2.mainWindowRecentDataFiles ++ [arg] }
      else some (autoDetectCurves (appendFileName s arg) ds).2
  else some (appendFileName s arg)

/-- The branches of the `while` loop of `processCommandLine` for the argument
`arg` that `takeFirst()` has just removed from `_arguments`. -/
def dispatch (env : Env) (s : CommandLineParser) (arg : String) : Option CommandLineParser :=
  if arg = "--help" ∨ arg = "-help" then
    some { printUsage s "" with ok := false }
  else if arg = "--version" ∨ arg = "-version" then
    some { s with printed := s.printed ++ ["Kst " ++ env.KSTVERSION], ok := false }
  else if arg = "-f" then
    let r := _setIntArg env s s._startFrame "Usage: -f <startframe>\n" true
    some { r.2.2 with
      ok := r.1
      _startFrame := r.2.1
      objectStore := { r.2.2.objectStore with
        override := { r.2.2.objectStore.override with f0 := r.2.1 } } }
  else if arg = "-n" then
    let r := _setIntArg env s s._numFrames "Usage: -n <numframes>\n" true
    some { r.2.2 with
      ok := r.1
      _numFrames := r.2.1
      objectStore := { r.2.2.objectStore with
        override := { r.2.2.objectStore.override with N := r.2.1 } } }
  else if arg = "-s" then
    let r := _setIntArg env s s._skip "Usage: -s <frames per sample>\n" false
    some { r.2.2 with
      ok := r.1
      _skip := r.2.1
      objectStore := { r.2.2.objectStore with
        override := { r.2.2.objectStore.override with skip := r.2.1 } } }
  else if arg = "-a" then
    some { s with
      _doAve := true
      objectStore := { s.objectStore with
        override := { s.objectStore.override with doAve := true } } }
  else if arg = "-P" then
    let r := _setStringArg s "" "Usage: -P <plotname>\n"
    some (createOrFindPlot { r.2.2 with ok := r.1, _doConsecutivePlots := false } r.2.1)
  else if arg = "-A" then
    some { s with _doConsecutivePlots := true }
  else if arg = "-T" then
    let r := _setStringArg { s with _doConsecutivePlots := true } "" "Usage: -T <tab name>\n"
    let s1 : CommandLineParser := { r.2.2 with ok := r.1 }
    if s1.dataPlotted then some (createOrFindTab env s1 r.2.1)
    else some { s1 with tabWidget := setCurrentViewName s1.tabWidget r.2.1 }
  else if arg = "-d" then
    some { s with
      _useBargraph := false, _useLines := false, _usePoints := true, _overrideStyle := true }
  else if arg = "-l" then
    some { s with
      _useBargraph := false, _useLines := true, _usePoints := false, _overrideStyle := true }
  else if arg = "-b" then
    some { s with
      _useBargraph := true, _useLines := false, _usePoints := false, _overrideStyle := true }
  else if arg = "-x" then
    let r := _setStringArg s s._xField "Usage: -x <xfieldname>\n"
    some { r.2.2 with ok := r.1, _xField := r.2.1 }
  else if arg = "-e" then
    let r := _setStringArg s s._errorField "Usage: -e <errorfieldname>\n"
    some { r.2.2 with ok := r.1, _errorField := r.2.1 }
  else if arg = "-r" then
    let r := _setDoubleArg env s s._sampleRate "Usage: -r <samplerate>\n"
    some { r.2.2 with ok := r.1, _sampleRate := r.2.1 }
  else if arg = "-y" then
    let r := _setStringArg s "" "Usage: -y <fieldname>\n"
    let s1 : CommandLineParser := { r.2.2 with ok := r.1 }
    if s1._fileNames.length < 1 then
      some { printUsage s1 "No data files specified\n" with ok := false }
    else
      match yLoop env r.2.1 s1._fileNames s1 with
      | none => none
      | some s2 =>
        some { s2 with _errorField := "", new_fileList := true, _overrideStyle := false }
  else if arg = "-p" then
    let r := _setStringArg s "" "Usage: -p <fieldname>\n"
    let s1 : CommandLineParser := { r.2.2 with ok := r.1 }
    if s1.ok then
      match pLoop env r.2.1 s1._fileNames s1 with
      | none => none
      | some s2 => some { s2 with new_fileList := true, _overrideStyle := false }
    else some s1
  else if arg = "--xlabel" then
    let r := _setStringArg s s._xlabel "Usage -xlabel <label>\n"
    some { r.2.2 with ok := r.1, _xlabel := r.2.1 }
  else if arg = "--ylabel" then
    let r := _setStringArg s s._ylabel "Usage -ylabel <label>\n"
    some { r.2.2 with ok := r.1, _ylabel := r.2.1 }
  else if arg = "--xlabelauto" then
    some { s with _xlabel := "" }
  else if arg = "--ylabelauto" then
    some { s with _ylabel := "" }
  else if arg = "-h" then
    let r := _setStringArg s "" "Usage: -h <fieldname>\n"
    let s1 : CommandLineParser := { r.2.2 with ok := r.1 }
    if s1.ok then
      match hLoop env r.2.1 s1._fileNames s1 with
      | none => none
      | some s2 => some { s2 with new_fileList := true, _overrideStyle := false }
    else some s1
  else if arg = "-z" then
    let r := _setStringArg s "" "Usage: -z <fieldname>\n"
    let s1 : CommandLineParser := { r.2.2 with ok := r.1 }
    if s1.ok then
      match zLoop env r.2.1 s1._fileNames s1 with
      | none => none
      | some s2 => some { s2 with new_fileList := true, dataPlotted := true }
    else some s1
  else if arg = "-F" then
    let r := _setStringArg s s.objectStore.override.fileName "Usage: -F <datafile>\n"
    some { r.2.2 with
      ok := r.1
      objectStore := { r.2.2.objectStore with
        override := { r.2.2.objectStore.override with fileName := r.2.1 } } }
  else if arg = "--png" then
    let r := _setStringArg s s._pngFile "Usage: --png <filename>\n"
    some { r.2.2 with ok := r.1, _pngFile := r.2.1 }
  else if arg = "--print" then
    let r := _setStringArg s s._printFile "Usage: --print <filename>\n"
    some { r.2.2 with ok := r.1, _printFile := r.2.1 }
  else if arg = "--landscape" then
    some { s with _landscape := true }
  else if arg = "--portrait" then
    some { s with _landscape := false }
  else if arg = "--A4" then
    some { s with _paperSize := PaperSize.A4 }
  else if arg = "--letter" then
    some { s with _paperSize := PaperSize.Letter }
  else fileArg env s arg

/-- The `while (*ok)` loop of `processCommandLine`; `fuel` bounds the number
of turns (every turn takes at least one argument). -/
def whileLoop (env : Env) : Nat → CommandLineParser → Option CommandLineParser
  | 0, s => some s
  | fuel + 1, s =>
    if s.ok then
      match s._arguments with
      | [] => some s
      | arg :: rest =>
        match dispatch env { s with _arguments := rest } arg with
        | none => none
        | some s1 => whileLoop env fuel s1
    else some s

/-- The function `processCommandLine`: the final parser (with `ok`) and the
returned `dataPlotted`; `none` when a null pointer was dereferenced. -/
def processCommandLine (env : Env) (s : CommandLineParser) :
    Option (Bool × CommandLineParser) :=
  let s0 : CommandLineParser :=
    { s with
      ok := true
      new_fileList := true
      dataPlotted := false
      _paperSize := env.paperSize
      _landscape := if env.landscape then true else false }
  match whileLoop env s0._arguments.length s0 with
  | none => none
  | some s1 =>
    let s2 : CommandLineParser :=
      if s1.dataPlotted then
        { s1 with documentRecentDataFiles := s1.documentRecentDataFiles ++ [s1._fileNames] }
      else s1
    some (s2.dataPlotted, s2)

/-! ## A sample environment -/

/-- The value of a non-empty string of decimal digits. -/
def decimalValue (cs : List Char) : Option Nat :=
  if cs ≠ [] ∧ cs.all Char.isDigit = true then
    some (cs.foldl (fun n c => 10 * n + (c.toNat - 48)) 0)
  else none

/-- A decimal reader for the sample environment: an optional minus sign and
digits, within the range of a 32 bit `int`. -/
def sampleToInt (t : String) : Option Int :=
  let v : Option Int :=
    match t.data with
    | '-' :: cs => (decimalValue cs).map (fun n => - (n : Int))
    | cs => (decimalValue cs).map (fun n => (n : Int))
  match v with
  | some i => if -2147483648 ≤ i ∧ i ≤ 2147483647 then some i else none
  | none => none

/-- A sample ASCII source without a batch curve generator of its own. -/
def sampleSource (name : String) (fields : List String) : DataSource :=
  { fileName := name
    fileType := "ASCII file"
    fieldList := fields
    autoCurves := fun store => ([], store) }

/-- A sample environment: the existing files are `file.dat`, `data.dat`,
`data1.dat` and `data2.dat`, each an ASCII source with the fields `INDEX`,
`Column 1` .. `Column 4`; the user answers `No` exactly when `answerNo`. -/
def sampleEnv (answerNo : Bool) : Env :=
  { toInt := sampleToInt
    toDouble := fun t => (sampleToInt t).map (fun i => (i : ℚ))
    fileExists := fun f => decide (f ∈ ["file.dat", "data.dat", "data1.dat", "data2.dat"])
    isFile := fun f => decide (f ∈ ["file.dat", "data.dat", "data1.dat", "data2.dat"])
    findOrLoadSource := fun f =>
      if f ∈ ["file.dat", "data.dat", "data1.dat", "data2.dat"] then
        some (sampleSource f ["INDEX", "Column 1", "Column 2", "Column 3", "Column 4"])
      else none
    questionNo := fun _ _ => answerNo
    lineWidth := 0
    paperSize := PaperSize.Letter
    landscape := true
    newViewName := fun _ => "View"
    KSTVERSION := "2" }

/-- A sample document: an empty store and one tab. -/
def sampleDocument : Document :=
  { objectStore :=
      { objects := []
        override := { fileName := "", f0 := -5, N := -5, skip := -5, doAve := false } }
    plots := []
    tabWidget := { tabs := ["View"], currentIndex := 0 }
    colorSequence := 0 }

/-- The parser after `processCommandLine` on the sample document. -/
def run (env : Env) (args : List String) : Option CommandLineParser :=
  (processCommandLine env (CommandLineParser.new sampleDocument args)).map (fun r => r.2)

/-- The curves among a list of objects, in order. -/
def curvesIn (objects : List Object) : List Curve :=
  objects.filterMap (fun o => match o with
    | Object.curve c => some c
    | _ => none)

/-- The data vectors among a list of objects, in order. -/
def dataVectorsIn (objects : List Object) : List DataVector :=
  objects.filterMap (fun o => match o with
    | Object.dataVector v => some v
    | _ => none)

/-- The curves of the object store, in creation order. -/
def curvesOf (s : CommandLineParser) : List Curve :=
  curvesIn s.objectStore.objects

/-- The data vectors of the object store, in creation order. -/
def dataVectorsOf (s : CommandLineParser) : List DataVector :=
  dataVectorsIn s.objectStore.objects

/-- A later state `s'` asks with the window, skip and averaging flag that the
call which returned state `r` used, and its cache extends the cache of `r`. -/
def sameRequest (r s' : CommandLineParser) : Prop :=
  s'._startFrame = r._startFrame ∧ s'._numFrames = r._numFrames ∧ s'._skip = r._skip ∧
    s'._doAve = r._doAve ∧ r._vectors <+: s'._vectors

/-- The state in which the sample source resolved field `1` and then field `2`. -/
def afterOneTwo : CommandLineParser :=
  (createOrFindDataVector
    (createOrFindDataVector (CommandLineParser.new sampleDocument []) "1"
      (sampleSource "file.dat" [])).2 "2" (sampleSource "file.dat" [])).2

/-- The vectors a call of `createOrFindDataVector` creates: none when the scan
finds one, else the new one. -/
def createdVector (s : CommandLineParser) (field : String) (ds : DataSource) : List DataVector :=
  match (coerceStart s)._vectors.find?
      (vectorMatches (coerceStart s) (normalizeField field ds) ds) with
  | some _ => []
  | none => [newDataVector (coerceStart s) (normalizeField field ds) ds]

/-- The plot `placeRelation` creates in consecutive mode, with the pending
labels applied and the relation added. -/
def consecutivePlot (s : CommandLineParser) (r : Relation) : PlotItem :=
  { descriptiveName := ""
    view := s.tabWidget.currentIndex
    relations := [r]
    bottomLabel := if s._xlabel ≠ "" then some s._xlabel else none
    leftLabel := if s._ylabel ≠ "" then some s._ylabel else none }

/-- The tokens the dispatch of `processCommandLine` recognizes as options; any
other token is a file name. -/
def optionNames : List String :=
  ["--help", "-help", "--version", "-version", "-f", "-n", "-s", "-a", "-P", "-A", "-T", "-d",
    "-l", "-b", "-x", "-e", "-r", "-y", "-p", "--xlabel", "--ylabel", "--xlabelauto",
    "--ylabelauto", "-h", "-z", "-F", "--png", "--print", "--landscape", "--portrait", "--A4",
    "--letter"]

/-- Placement is pinned to plot `p`: consecutive mode is off and `_plotItem`
points to the existing plot `p`. -/
def pinned (p : Nat) (s : CommandLineParser) : Prop :=
  s._doConsecutivePlots = false ∧ s._plotItem = some p ∧ p < s.plots.length

/-- From `s` to `s'` placement stayed pinned to plot `p`, which received the
relations `rs`; no plot was created and no other plot changed. -/
def attaches (p : Nat) (s s' : CommandLineParser) (rs : List Relation) : Prop :=
  pinned p s' ∧ s'.plots = updatePlot (addRelations rs) p s.plots

/-- The placement target and the curves of `a` are those of `s`. -/
def samePlacement (a s : CommandLineParser) : Prop :=
  a.plots = s.plots ∧ a._doConsecutivePlots = s._doConsecutivePlots ∧
    a._plotItem = s._plotItem ∧ curvesOf a = curvesOf s

/-- The placement target of `a` is that of `s`: same plots, same mode, same
current plot. -/
def sameTarget (a s : CommandLineParser) : Prop :=
  a.plots = s.plots ∧ a._doConsecutivePlots = s._doConsecutivePlots ∧ a._plotItem = s._plotItem

/-- The sample parser after `file.dat -P PlotA`, with `-y 1` still to come. -/
def afterPlotA : CommandLineParser :=
  createOrFindPlot
    { appendFileName (CommandLineParser.new sampleDocument []) "file.dat" with
      _arguments := ["1"], _doConsecutivePlots := false } "PlotA"

/-- A sample ASCII source with the field `INDEX` and 40 more fields. -/
def bigSource : DataSource :=
  sampleSource "big.dat"
    ["INDEX", "V1", "V2", "V3", "V4", "V5", "V6", "V7", "V8", "V9", "V10",
      "V11", "V12", "V13", "V14", "V15", "V16", "V17", "V18", "V19", "V20",
      "V21", "V22", "V23", "V24", "V25", "V26", "V27", "V28", "V29", "V30",
      "V31", "V32", "V33", "V34", "V35", "V36", "V37", "V38", "V39", "V40"]

/-- The sample environment with the additional source `big.dat`. -/
def bigEnv (answerNo : Bool) : Env :=
  { sampleEnv answerNo with
    findOrLoadSource := fun f =>
      if f = "big.dat" then some bigSource else (sampleEnv answerNo).findOrLoadSource f }

/-- A sample list of 40 curve objects. -/
def fortyCurves : List Object :=
  (List.range 40).map (fun i => Object.curve (Curve.fresh i))

/-- The curves the auto-detect loop places: all of them, or the first
`max_count` when there are more and the answer is `No`. -/
def placedCurves (env : Env) (curves : List Object) : List Curve :=
  if max_count < curves.countP isCurve ∧
      env.questionNo (curves.countP isCurve) max_count = true then
    (curvesIn curves).take max_count
  else curvesIn curves

/-- A relation can be placed: consecutive mode is on, or `_plotItem` points to
an existing plot. -/
def placeable (s : CommandLineParser) : Prop :=
  s._doConsecutivePlots = true ∨ ∃ p, s._plotItem = some p ∧ p < s.plots.length

/-- Every existing file of the list has a source. -/
def loadable (env : Env) (files : List String) : Prop :=
  ∀ f ∈ files, env.fileExists f = true → ∃ ds, env.findOrLoadSource f = some ds

/-- The relations placed in the plots, plot by plot. -/
def relationsOf (s : CommandLineParser) : List Relation :=
  s.plots.flatMap (fun p => p.relations)

/-- The images of the object store, in creation order. -/
def imagesOf (s : CommandLineParser) : List Image :=
  s.objectStore.objects.filterMap (fun o => match o with
    | Object.image i => some i
    | _ => none)

/-- The sample environment with the additional name `dir`: it exists, it is
not a regular file and no source reads it. -/
def dirEnv : Env :=
  { sampleEnv false with
    fileExists := fun f => decide (f = "dir") || (sampleEnv false).fileExists f }

/-- A data directive stopped in `t` at a file that failed the check: `ok` is
false, so the loop of `processCommandLine` ends in `t`; the objects, the plots,
the registered plots, the tabs and the vector cache are those of `t0`. -/
def stoppedAfter (env : Env) (t0 t : CommandLineParser) : Prop :=
  t.ok = false ∧ (∀ fuel, whileLoop env fuel t = some t) ∧
    t.objectStore = t0.objectStore ∧ t.plots = t0.plots ∧ t._vectors = t0._vectors ∧
    t._plotItems = t0._plotItems ∧ t.tabWidget = t0.tabWidget

/-- The file a vector of a curve is read from, when it is a data vector. -/
def vectorFile : Option Vector → Option String
  | some (Vector.data v) => some v.filename
  | _ => none

/-- The file name of the source that reads `file`. -/
def sourceName (env : Env) (file : String) : Option String :=
  (env.findOrLoadSource file).map (fun ds => ds.fileName)

/-- The spectra of the object store, in creation order. -/
def psdsOf (s : CommandLineParser) : List PSD :=
  s.objectStore.objects.filterMap (fun o => match o with
    | Object.psd p => some p
    | _ => none)

/-- The histograms of the object store, in creation order. -/
def histogramsOf (s : CommandLineParser) : List Histogram :=
  s.objectStore.objects.filterMap (fun o => match o with
    | Object.histogram p => some p
    | _ => none)

/-- The file list and the flag that says whether it was used. -/
def fileList (s : CommandLineParser) : List String × Bool :=
  (s._fileNames, s.new_fileList)

/-- The directives that create data objects from the file list. -/
def dataObjectFlags : List String := ["-y", "-p", "-h", "-z"]

/-- The plot `createOrFindPlot` creates for a name that is not registered,
with the pending labels applied. -/
def namedPlot (s : CommandLineParser) (plot_name : String) : PlotItem :=
  { descriptiveName := plot_name
    view := s.tabWidget.currentIndex
    relations := []
    bottomLabel := if s._xlabel ≠ "" then some s._xlabel else none
    leftLabel := if s._ylabel ≠ "" then some s._ylabel else none }

/-- The style of a curve: has points, has lines, has bars. -/
def styleOf (c : Curve) : Option Bool × Option Bool × Option Bool :=
  (c.hasPoints, c.hasLines, c.hasBars)

/-- The style flags of the parser: points, lines, bars. -/
def styleFlags (s : CommandLineParser) : Bool × Bool × Bool :=
  (s._usePoints, s._useLines, s._useBargraph)

/-- The style a curve directive uses: the flags as they are under an explicit
override, else the style `inferred` by the directive. -/
def requestedStyle (s : CommandLineParser) (inferred : Bool × Bool × Bool) : Bool × Bool × Bool :=
  if s._overrideStyle then styleFlags s else inferred

/-- The style `-y` infers: points with an error field, else lines. -/
def yInferred (s : CommandLineParser) : Bool × Bool × Bool :=
  if s._errorField ≠ "" then (true, false, false) else (false, true, false)

/-- The style as a curve stores it. -/
def asStyle (f : Bool × Bool × Bool) : Option Bool × Option Bool × Option Bool :=
  (some f.1, some f.2.1, some f.2.2)

/-- The style flags together with the explicit override flag. -/
def styleState (s : CommandLineParser) : (Bool × Bool × Bool) × Bool :=
  (styleFlags s, s._overrideStyle)

/-- The options that set the style or create relations from the file list. -/
def styleOrDataFlags : List String := ["-d", "-l", "-b", "-y", "-p", "-h", "-z"]

/-- The style a curve directive infers without an explicit override: `-y`
points with an error field and lines without, `-p` lines, `-h` bars. -/
def inferredStyle (flag : String) (s : CommandLineParser) : Bool × Bool × Bool :=
  if flag = "-y" then yInferred s
  else if flag = "-p" then (false, true, false)
  else (false, false, true)

/-- What a data vector of a curve asks for: file, field, start frame, frame
count, skip, skip flag and averaging flag. -/
def vectorRequest : Option Vector → Option (String × String × Int × Int × Int × Bool × Bool)
  | some (Vector.data v) =>
    some (v.filename, v.field, v.reqStartFrame, v.reqNumFrames, v.skip, v.doSkip, v.doAve)
  | _ => none

/-- The X vector `autoCurves` creates first: the field `INDEX` of the source,
from frame 0 to the end. -/
def autoIndexVector (s : CommandLineParser) (ds : DataSource) : DataVector :=
  { id := s.objectStore.objects.length, filename := ds.fileName, field := "INDEX",
    reqStartFrame := 0, reqNumFrames := -1, skip := 0, doSkip := false, doAve := false }

/-- A curve without error vectors. -/
def noErrors (c : Curve) : Prop :=
  c.xError = none ∧ c.xMinusError = none ∧ c.yError = none ∧ c.yMinusError = none

/-- The Y vector the loop of `autoCurves` creates for `field`. -/
def autoYVector (s : CommandLineParser) (ds : DataSource) (field : String) : DataVector :=
  { id := s.objectStore.objects.length, filename := ds.fileName, field := field,
    reqStartFrame := 0, reqNumFrames := -1, skip := 0, doSkip := false, doAve := false }

/-- The curve the loop of `autoCurves` creates for `field`. -/
def autoCurve (s : CommandLineParser) (ds : DataSource) (xv : DataVector) (field : String) :
    Curve :=
  { Curve.fresh (s.objectStore.objects.length + 1) with
    xVector := some (Vector.data xv)
    yVector := some (Vector.data (autoYVector s ds field))
    xError := none
    xMinusError := none
    yMinusError := none
    color := s.colorSequence
    lineWidth := 1 }

/-- The sample environment with the additional project file `data.kst`, which
exists and which a source can read. -/
def kstEnv : Env :=
  { sampleEnv false with
    fileExists := fun f => decide (f = "data.kst") || (sampleEnv false).fileExists f
    isFile := fun f => decide (f = "data.kst") || (sampleEnv false).isFile f
    findOrLoadSource := fun f =>
      if f = "data.kst" then some (sampleSource f ["INDEX", "Column 1"])
      else (sampleEnv false).findOrLoadSource f }

/-- The fingerprint of a cached vector: what the scan of
`createOrFindDataVector` compares. -/
def fingerprint (v : DataVector) : String × String × Int × Int × Int × Bool × Bool :=
  (v.field, v.filename, v.reqStartFrame, v.reqNumFrames, v.skip, v.doSkip, v.doAve)

/-- No two entries of the vector cache have the same fingerprint. -/
def cacheOK (s : CommandLineParser) : Prop :=
  (s._vectors.map fingerprint).Nodup

/-- From `s` to `t` skip, frame count, averaging flag and placement mode are
kept; the start frame is kept or was coerced from -1 to 0 (with the frame count
at -1); the vector cache was extended at its end, without a repeated
fingerprint if it had none, and every vector that entered it carries the skip
of the parser. -/
def steady (s t : CommandLineParser) : Prop :=
  t._skip = s._skip ∧ t._numFrames = s._numFrames ∧ t._doAve = s._doAve ∧
  (t._startFrame = s._startFrame ∨
    (s._startFrame = -1 ∧ s._numFrames = -1 ∧ t._startFrame = 0)) ∧
  t._doConsecutivePlots = s._doConsecutivePlots ∧
  s._vectors <+: t._vectors ∧ (cacheOK s → cacheOK t) ∧
  ∀ v ∈ t._vectors, v ∈ s._vectors ∨ (v.skip = s._skip ∧ v.doSkip = decide (s._skip > 0))


/-- The options that set the frame window, the averaging flag or the
placement mode. -/
def settingFlags : List String := ["-f", "-n", "-s", "-a", "-P", "-A", "-T"]

/-- A sample source that is no ASCII file. -/
def binarySource (name : String) (fields : List String) : DataSource :=
  { sampleSource name fields with fileType := "Binary file" }

/-- The parser on which the loop of `processCommandLine` starts. -/
def startState (env : Env) (s : CommandLineParser) : CommandLineParser :=
  { s with
    ok := true
    new_fileList := true
    dataPlotted := false
    _paperSize := env.paperSize
    _landscape := if env.landscape then true else false }

/-- The states the loop of `processCommandLine` passes through when it starts
on `s0`: `s0` itself and, from such a state with `ok = true`, the state after
the turn for its next argument. -/
inductive Reachable (env : Env) (s0 : CommandLineParser) : CommandLineParser → Prop
  | start : Reachable env s0 s0
  | turn (s t : CommandLineParser) (arg : String) (rest : List String) :
      Reachable env s0 s → s.ok = true → s._arguments = arg :: rest →
      dispatch env { s with _arguments := rest } arg = some t → Reachable env s0 t

/-- The fingerprint a call `createOrFindDataVector(f, ds)` asks for in state
`s`: the normalized field, the file of the source, the window after the
coercion of the start frame, the skip with its flag and the averaging flag. -/
def requestFingerprint (s : CommandLineParser) (f : String) (ds : DataSource) :
    String × String × Int × Int × Int × Bool × Bool :=
  (normalizeField f ds, ds.fileName,
    if s._startFrame = -1 ∧ s._numFrames = -1 then 0 else s._startFrame,
    s._numFrames, s._skip, decide (s._skip > 0), s._doAve)

/-- Exactly one of the three style flags (points, lines, bars) is true. -/
def oneHot (f : Bool × Bool × Bool) : Prop :=
  f = (true, false, false) ∨ f = (false, true, false) ∨ f = (false, false, true)

/-! ## The vector view dialog -/

/-- A cell index of the vector table (QModelIndex). The indexes reported by the selection
model are valid cells of the view, so row and column are natural numbers. -/
structure QModelIndex where
  row : Nat
  column : Nat
deriving DecidableEq, Repr

/-- The call qSort(begin, end, qGreater<int>()): the list rearranged so that no element is
followed by a greater one. -/
def qSortGreater (columns : List Nat) : List Nat :=
  columns.insertionSort (fun a b => a ≥ b)

/-- ViewVectorDialog::selectedColumns: go through the selected indexes, append the column of
each one unless the list already contains it, then sort the list in descending order. -/
def selectedColumns (sel : List QModelIndex) : List Nat :=
  qSortGreater
    (sel.foldl
      (fun columns index =>
        if columns.contains index.column then columns else columns ++ [index.column])
      [])

/-- Modelled from the spec: VectorModel::removeVector is not among the sources. Removing the
column at a position takes that vector out of the table and moves every later column one
position down; a position past the end removes nothing. -/
def removeVector {α : Type} (vectors : List α) (order : Nat) : List α :=
  vectors.eraseIdx order

/-- ViewVectorDialog::removeSelected: nothing without a model; otherwise removeVector is called
for each entry of selectedColumns, in the order of that list. The model is the list of the
vectors shown, one per column. -/
def removeSelected {α : Type} (_model : Option (List α)) (sel : List QModelIndex) :
    Option (List α) :=
  match _model with
  | none => none
  | some m => some ((selectedColumns sel).foldl removeVector m)

/-- The vectors of a table whose position, counted from k, is not in the given list of
columns, in their order. -/
def keepFrom {α : Type} (cols : List Nat) (k : Nat) (vectors : List α) : List α :=
  ((vectors.enumFrom k).filter (fun p => decide (p.1 ∉ cols))).map Prod.snd

/-- The table without the originally selected columns: the vectors whose position in the
table is not the column of any selected index. -/
def withoutSelected {α : Type} (sel : List QModelIndex) (vectors : List α) : List α :=
  keepFrom (sel.map (fun index => index.column)) 0 vectors

/-- The sample environment with one more existing regular file, `notes.txt`,
written in a format for which the plugin manager finds no data source. -/
def foreignEnv : Env :=
  { sampleEnv false with
    fileExists := fun f => decide (f = "notes.txt") || (sampleEnv false).fileExists f
    isFile := fun f => decide (f = "notes.txt") || (sampleEnv false).isFile f }

/-- The objects of the store and the flag `dataPlotted`. -/
def storeFlag (s : CommandLineParser) : List Object × Bool :=
  (s.objectStore.objects, s.dataPlotted)

/-- An object carries the decimation `k`: a data vector or a data matrix has
the skip `k` and its skip flag is set exactly when `k > 0`; the other objects
have no decimation. -/
def carries (k : Int) : Object → Prop
  | Object.dataVector v => v.skip = k ∧ v.doSkip = decide (k > 0)
  | Object.dataMatrix m => m.skip = k ∧ m.doSkip = decide (k > 0)
  | _ => True

/-- The decimation of an object is `>= 0`, for the data vectors and the data
matrices. -/
def skipInRange : Object → Prop
  | Object.dataVector v => 0 ≤ v.skip
  | Object.dataMatrix m => 0 ≤ m.skip
  | _ => True

/-- Every object of `t` that is not an object of `s` carries the decimation `k`. -/
def madeWith (k : Int) (s t : CommandLineParser) : Prop :=
  ∀ o ∈ t.objectStore.objects, o ∈ s.objectStore.objects ∨ carries k o

/-- From `s` to `t` the skip stayed and every object constructed carries it. -/
def made (s t : CommandLineParser) : Prop :=
  t._skip = s._skip ∧ madeWith s._skip s t

/-- A `-s` directive of the run that starts on `s0` reads the integer `v`: the
loop passes through a state with `ok = true` whose next argument is `-s`,
followed by a token that `toInt` reads as `v`. -/
def skipRead (env : Env) (s0 : CommandLineParser) (v : Int) : Prop :=
  ∃ s tok rest, Reachable env s0 s ∧ s.ok = true ∧ s._arguments = "-s" :: tok :: rest ∧
    env.toInt tok = some v

/-- An object that the generator `autoCurves` of a data source left in the
store, when it was given the store of a state the run passes through. -/
def pluginObject (env : Env) (s0 : CommandLineParser) (o : Object) : Prop :=
  ∃ a f ds, Reachable env s0 a ∧ env.findOrLoadSource f = some ds ∧
    o ∈ (ds.autoCurves a.objectStore).2.objects

/-! # Properties -/

/-! ## The vector resolution cache -/

theorem vectorMatches_congr (s s' : CommandLineParser) (field : String) (ds : DataSource)
    (h1 : s'._startFrame = s._startFrame) (h2 : s'._numFrames = s._numFrames)
    (h3 : s'._skip = s._skip) (h4 : s'._doAve = s._doAve) :
    vectorMatches s' field ds = vectorMatches s field ds := by
  funext xv
  simp [vectorMatches, h1, h2, h3, h4]

theorem coerceStart_not_both (s : CommandLineParser) :
    ¬ ((coerceStart s)._startFrame = -1 ∧ (coerceStart s)._numFrames = -1) := by
  unfold coerceStart
  split
  · simp
  · assumption

theorem coerceStart_of_not_both (s : CommandLineParser)
    (h : ¬ (s._startFrame = -1 ∧ s._numFrames = -1)) : coerceStart s = s := by
  unfold coerceStart
  rw [if_neg h]

theorem createOrFindDataVector_spec (s : CommandLineParser) (field : String) (ds : DataSource) :
    (createOrFindDataVector s field ds).2._startFrame = (coerceStart s)._startFrame ∧
    (createOrFindDataVector s field ds).2._numFrames = (coerceStart s)._numFrames ∧
    (createOrFindDataVector s field ds).2._skip = (coerceStart s)._skip ∧
    (createOrFindDataVector s field ds).2._doAve = (coerceStart s)._doAve ∧
    (createOrFindDataVector s field ds).2._vectors.find?
      (vectorMatches (coerceStart s) (normalizeField field ds) ds)
        = some (createOrFindDataVector s field ds).1 := by
  unfold createOrFindDataVector
  cases hf : (coerceStart s)._vectors.find?
      (vectorMatches (coerceStart s) (normalizeField field ds) ds) with
  | some xv => exact ⟨rfl, rfl, rfl, rfl, hf⟩
  | none =>
    refine ⟨rfl, rfl, rfl, rfl, ?_⟩
    simp only [appendVector, List.find?_append, hf]
    simp [vectorMatches, newDataVector]

/-- A later request whose normalized field is the same finds the vector of the
earlier call and changes nothing. -/
theorem createOrFindDataVector_later (s s' : CommandLineParser) (f g : String) (ds : DataSource)
    (hfg : normalizeField g ds = normalizeField f ds)
    (h : sameRequest (createOrFindDataVector s f ds).2 s') :
    createOrFindDataVector s' g ds = ((createOrFindDataVector s f ds).1, s') := by
  obtain ⟨h1, h2, h3, h4, ext, h5⟩ := h
  obtain ⟨e1, e2, e3, e4, e5⟩ := createOrFindDataVector_spec s f ds
  have hc : coerceStart s' = s' := by
    apply coerceStart_of_not_both
    rw [h1, h2, e1, e2]
    exact coerceStart_not_both s
  have hm : vectorMatches s' (normalizeField f ds) ds
      = vectorMatches (coerceStart s) (normalizeField f ds) ds :=
    vectorMatches_congr _ _ _ _ (h1.trans e1) (h2.trans e2) (h3.trans e3) (h4.trans e4)
  unfold createOrFindDataVector
  rw [hc, hfg, hm, ← h5, List.find?_append, e5]
  rfl

theorem createOrFindDataVector_field (s : CommandLineParser) (f : String) (ds : DataSource) :
    (createOrFindDataVector s f ds).1.field = normalizeField f ds := by
  obtain ⟨_, _, _, _, e5⟩ := createOrFindDataVector_spec s f ds
  have := List.find?_some e5
  simp [vectorMatches] at this
  exact this.1.symm

theorem sameRequest_refl (s : CommandLineParser) : sameRequest s s :=
  ⟨rfl, rfl, rfl, rfl, List.prefix_refl _⟩

/-- Claim C1: a request for field `f` of source `ds` that is made again with
the same start frame, frame count, skip and averaging flag (`sameRequest`:
whatever else was resolved in between) returns the vector object of the first
call and leaves the parser as it is: no object is created and `_vectors` is
unchanged; in particular the call repeated at once changes nothing.  On the
tokens `file.dat -y 1 -y 2` the `INDEX` vector is created once and is the X
vector of both curves. -/
theorem createOrFindDataVector_dedup (s s' : CommandLineParser) (f : String) (ds : DataSource)
    (h : sameRequest (createOrFindDataVector s f ds).2 s') :
    createOrFindDataVector s' f ds = ((createOrFindDataVector s f ds).1, s') ∧
    createOrFindDataVector (createOrFindDataVector s f ds).2 f ds
      = createOrFindDataVector s f ds ∧
    (run (sampleEnv false) ["file.dat", "-y", "1", "-y", "2"]).map
        (fun t => ((dataVectorsOf t).map (fun v => (v.id, v.field)),
          (curvesOf t).map (fun c => c.xVector), t._vectors.length))
      = some ([(0, "INDEX"), (1, "Column 1"), (3, "Column 2")],
          [some (Vector.data
              { id := 0, filename := "file.dat", field := "INDEX", reqStartFrame := 0,
                reqNumFrames := -1, skip := 0, doSkip := false, doAve := false }),
            some (Vector.data
              { id := 0, filename := "file.dat", field := "INDEX", reqStartFrame := 0,
                reqNumFrames := -1, skip := 0, doSkip := false, doAve := false })], 3) :=
  ⟨createOrFindDataVector_later s s' f f ds rfl h,
    createOrFindDataVector_later s _ f f ds rfl (sameRequest_refl _), by decide⟩

/-- Witness of claim C1: after the sample source resolved field `1` and then field `2`,
field `1` is found again as object 0 and the parser is unchanged. -/
theorem createOrFindDataVector_dedup_witness :
    sameRequest (createOrFindDataVector (CommandLineParser.new sampleDocument []) "1"
        (sampleSource "file.dat" [])).2 afterOneTwo ∧
    (createOrFindDataVector afterOneTwo "1" (sampleSource "file.dat" [])).1.id = 0 ∧
    (createOrFindDataVector afterOneTwo "1" (sampleSource "file.dat" [])).2 = afterOneTwo := by
  have h : sameRequest (createOrFindDataVector (CommandLineParser.new sampleDocument []) "1"
      (sampleSource "file.dat" [])).2 afterOneTwo :=
    ⟨by decide, by decide, by decide, by decide, by decide⟩
  have e := (createOrFindDataVector_dedup _ _ "1" (sampleSource "file.dat" []) h).1
  refine ⟨h, ?_, ?_⟩
  · rw [e]; decide
  · rw [e]

theorem createOrFindDataVector_snd (s : CommandLineParser) (field : String) (ds : DataSource) :
    (createOrFindDataVector s field ds).2 =
      { s with
        _startFrame := if s._startFrame = -1 ∧ s._numFrames = -1 then 0 else s._startFrame
        objectStore := { s.objectStore with
          objects := s.objectStore.objects ++ (createdVector s field ds).map Object.dataVector }
        _vectors := s._vectors ++ createdVector s field ds } := by
  unfold createOrFindDataVector createdVector
  cases hf : (coerceStart s)._vectors.find?
      (vectorMatches (coerceStart s) (normalizeField field ds) ds) with
  | some xv =>
    simp only [coerceStart]
    split <;> simp
  | none =>
    simp only [coerceStart, appendVector]
    split <;> simp

theorem createOrFindDataVector_fst (s : CommandLineParser) (field : String) (ds : DataSource) :
    (createOrFindDataVector s field ds).1.field = normalizeField field ds ∧
    (createOrFindDataVector s field ds).1.filename = ds.fileName ∧
    (createOrFindDataVector s field ds).1.reqStartFrame
      = (if s._startFrame = -1 ∧ s._numFrames = -1 then 0 else s._startFrame) ∧
    (createOrFindDataVector s field ds).1.reqNumFrames = s._numFrames ∧
    (createOrFindDataVector s field ds).1.skip = s._skip ∧
    (createOrFindDataVector s field ds).1.doSkip = decide (s._skip > 0) ∧
    (createOrFindDataVector s field ds).1.doAve = s._doAve := by
  obtain ⟨_, _, _, _, e5⟩ := createOrFindDataVector_spec s field ds
  have h := List.find?_some e5
  simp only [vectorMatches, Bool.decide_and, Bool.and_eq_true, decide_eq_true_eq] at h
  obtain ⟨h1, h2, h3, h4, h5, h6, h7⟩ := h
  refine ⟨h1.symm, h7, ?_, ?_, ?_, ?_, ?_⟩
  · rw [h2]; unfold coerceStart; split <;> rfl
  · rw [h3]; unfold coerceStart; split <;> rfl
  · rw [h4]; unfold coerceStart; split <;> rfl
  · rw [h5]; unfold coerceStart; split <;> rfl
  · rw [h6]; unfold coerceStart; split <;> rfl

theorem createOrFindDataVector_reqStartFrame (s : CommandLineParser) (field : String)
    (ds : DataSource) :
    (createOrFindDataVector s field ds).1.reqStartFrame
      = (if s._startFrame = -1 ∧ s._numFrames = -1 then 0 else s._startFrame) :=
  (createOrFindDataVector_fst s field ds).2.2.1

theorem createOrFindDataVector_reqNumFrames (s : CommandLineParser) (field : String)
    (ds : DataSource) : (createOrFindDataVector s field ds).1.reqNumFrames = s._numFrames :=
  (createOrFindDataVector_fst s field ds).2.2.2.1

theorem createOrFindDataVector_filename (s : CommandLineParser) (field : String)
    (ds : DataSource) : (createOrFindDataVector s field ds).1.filename = ds.fileName :=
  (createOrFindDataVector_fst s field ds).2.1

theorem curvesIn_append (l₁ l₂ : List Object) :
    curvesIn (l₁ ++ l₂) = curvesIn l₁ ++ curvesIn l₂ := by
  simp [curvesIn, List.filterMap_append]

theorem curvesIn_dataVectors (l : List DataVector) : curvesIn (l.map Object.dataVector) = [] := by
  induction l with
  | nil => rfl
  | cons a l ih => simp [curvesIn, List.filterMap_cons]

theorem curvesIn_curve (c : Curve) : curvesIn [Object.curve c] = [c] := rfl

theorem updatePlot_length (f : PlotItem → PlotItem) (p : Nat) (l : List PlotItem) :
    (updatePlot f p l).length = l.length := by
  induction l generalizing p with
  | nil => simp [updatePlot]
  | cons a l ih => cases p <;> simp [updatePlot, ih]

theorem updatePlot_append_last (f : PlotItem → PlotItem) (l : List PlotItem) (x : PlotItem) :
    updatePlot f l.length (l ++ [x]) = l ++ [f x] := by
  induction l with
  | nil => simp [updatePlot]
  | cons a l ih => simp [updatePlot, ih]

theorem placeRelation_consecutive (s : CommandLineParser) (r : Relation)
    (h : s._doConsecutivePlots = true) :
    placeRelation s r =
      some { s with plots := s.plots ++ [consecutivePlot s r], _plotItem := some s.plots.length } := by
  simp [placeRelation, h, applyLabels, createPlotForCurve, updatePlot_append_last,
    updatePlot_length, consecutivePlot, addRelations]

theorem placeRelation_pinned (s : CommandLineParser) (r : Relation) (p : Nat)
    (h : s._doConsecutivePlots = false) (hp : s._plotItem = some p) (hlt : p < s.plots.length) :
    placeRelation s r =
      some { s with plots := updatePlot (addRelations [r]) p s.plots } := by
  simp [placeRelation, h, hp, hlt]

/-! ## The dispatch -/

theorem dispatch_fileArg (env : Env) (s : CommandLineParser) (arg : String)
    (h : arg ∉ optionNames) : dispatch env s arg = fileArg env s arg := by
  simp only [optionNames, List.mem_cons, List.mem_singleton, not_or, List.not_mem_nil,
    not_false_eq_true, and_true] at h
  obtain ⟨h1, h2, h3, h4, h5, h6, h7, h8, h9, h10, h11, h12, h13, h14, h15, h16, h17, h18,
    h19, h20, h21, h22, h23, h24, h25, h26, h27, h28, h29, h30, h31, h32⟩ := h
  unfold dispatch
  simp only [h1, h2, h3, h4, h5, h6, h7, h8, h9, h10, h11, h12, h13, h14, h15, h16, h17, h18,
    h19, h20, h21, h22, h23, h24, h25, h26, h27, h28, h29, h30, h31, h32, or_self, if_false]

/-! ## Claims on whole token lists -/

/-! ## Placement -/

theorem addCurve_consecutive (s : CommandLineParser) (c : Curve)
    (h : s._doConsecutivePlots = true) :
    addCurve s c =
      some { s with
        plots := s.plots ++ [consecutivePlot s (Relation.curve c)]
        _plotItem := some s.plots.length } :=
  placeRelation_consecutive s _ h

theorem foldlM_addCurve_consecutive (cs : List Curve) (s : CommandLineParser)
    (h : s._doConsecutivePlots = true) :
    ∃ s', cs.foldlM addCurve s = some s' ∧ s'._doConsecutivePlots = true ∧
      s'.plots = s.plots ++ cs.map (fun c => consecutivePlot s (Relation.curve c)) ∧
      (cs ≠ [] → s'._plotItem = some (s.plots.length + cs.length - 1)) := by
  induction cs generalizing s with
  | nil => exact ⟨s, rfl, h, by simp, by simp⟩
  | cons c cs ih =>
    obtain ⟨s', h1, h2, h3, h4⟩ := ih
      { s with
        plots := s.plots ++ [consecutivePlot s (Relation.curve c)]
        _plotItem := some s.plots.length } h
    refine ⟨s', ?_, h2, ?_, ?_⟩
    · simp [List.foldlM, addCurve_consecutive s c h, h1]
    · rw [h3]
      simp [consecutivePlot]
    · intro _
      by_cases hcs : cs = []
      · subst hcs
        simp [List.foldlM] at h1
        subst h1
        simp
      · rw [h4 hcs]
        simp

/-- Claim C4: in consecutive placement mode every relation handed to `addCurve`
creates exactly one plot, appended after the plots that exist (which stay as
they are), makes it the current plot and gives it that relation alone; `k`
placements add `k` plots with one relation each, in order.  The tokens
`file.dat -y 1 -y 2` give two plots holding one curve each. -/
theorem addCurve_consecutive_plots (s : CommandLineParser) (c : Curve) (cs : List Curve)
    (h : s._doConsecutivePlots = true) :
    (∃ s' p, addCurve s c = some s' ∧ s'.plots = s.plots ++ [p] ∧
      p.relations = [Relation.curve c] ∧ s'._plotItem = some s.plots.length ∧
      s'._doConsecutivePlots = true) ∧
    (∃ s', cs.foldlM addCurve s = some s' ∧
      s'.plots.length = s.plots.length + cs.length ∧
      s'.plots.take s.plots.length = s.plots ∧
      (s'.plots.drop s.plots.length).map (fun p => p.relations)
        = cs.map (fun c => [Relation.curve c])) ∧
    (run (sampleEnv false) ["file.dat", "-y", "1", "-y", "2"]).map
        (fun t => (t.plots.length, (curvesOf t).map (fun c => c.id),
          decide (t.plots.map (fun p => p.relations)
            = (curvesOf t).map (fun c => [Relation.curve c]))))
      = some (2, [2, 4], true) := by
  refine ⟨⟨_, _, addCurve_consecutive s c h, rfl, rfl, rfl, h⟩, ?_, by decide⟩
  obtain ⟨s', h1, _, h3, _⟩ := foldlM_addCurve_consecutive cs s h
  refine ⟨s', h1, ?_, ?_, ?_⟩
  · simp [h3]
  · simp [h3]
  · simp [h3, consecutivePlot]

/-- Witness of claim C4: three placements on the initial sample parser give three
plots holding one relation each. -/
theorem addCurve_consecutive_plots_witness :
    (CommandLineParser.new sampleDocument [])._doConsecutivePlots = true ∧
    ((Curve.fresh 0 :: [Curve.fresh 1, Curve.fresh 2]).foldlM addCurve
        (CommandLineParser.new sampleDocument [])).map
      (fun t => t.plots.map (fun p => p.relations))
      = some [[Relation.curve (Curve.fresh 0)], [Relation.curve (Curve.fresh 1)],
          [Relation.curve (Curve.fresh 2)]] ∧
    ∃ s', [Curve.fresh 1, Curve.fresh 2].foldlM addCurve
        (CommandLineParser.new sampleDocument []) = some s' ∧ s'.plots.length = 0 + 2 :=
  ⟨rfl, by decide,
    (addCurve_consecutive_plots (CommandLineParser.new sampleDocument []) (Curve.fresh 0)
      [Curve.fresh 1, Curve.fresh 2] rfl).2.1.imp
      (fun _ h => ⟨h.1, h.2.1⟩)⟩

/-! ## Placement pinned to a named plot -/

theorem updatePlot_addRelations_nil (p : Nat) (l : List PlotItem) :
    updatePlot (addRelations []) p l = l := by
  induction l generalizing p with
  | nil => simp [updatePlot]
  | cons a l ih => cases p <;> simp [updatePlot, ih, addRelations]

theorem updatePlot_addRelations_append (rs rs' : List Relation) (p : Nat) (l : List PlotItem) :
    updatePlot (addRelations rs') p (updatePlot (addRelations rs) p l)
      = updatePlot (addRelations (rs ++ rs')) p l := by
  induction l generalizing p with
  | nil => simp [updatePlot]
  | cons a l ih => cases p <;> simp [updatePlot, ih, addRelations]

theorem attaches_refl (p : Nat) (s : CommandLineParser) (h : pinned p s) : attaches p s s [] :=
  ⟨h, (updatePlot_addRelations_nil p s.plots).symm⟩

theorem attaches_trans (p : Nat) (s s' s'' : CommandLineParser) (rs rs' : List Relation)
    (h : attaches p s s' rs) (h' : attaches p s' s'' rs') : attaches p s s'' (rs ++ rs') :=
  ⟨h'.1, by rw [h'.2, h.2, updatePlot_addRelations_append]⟩

theorem attaches_of_samePlacement (p : Nat) (s a : CommandLineParser) (h : pinned p s)
    (ha : samePlacement a s) : attaches p s a [] := by
  obtain ⟨h1, h2, h3⟩ := h
  obtain ⟨a1, a2, a3, _⟩ := ha
  exact ⟨⟨a2.trans h1, a3.trans h2, by rw [a1]; exact h3⟩,
    by rw [a1, updatePlot_addRelations_nil]⟩

theorem createCurveInPlot_pinned (env : Env) (s : CommandLineParser) (xv yv : Vector)
    (ev : Option Vector) (p : Nat) (h : pinned p s) :
    createCurveInPlot env s xv yv ev =
      some { s with
        objectStore := { s.objectStore with
          objects := s.objectStore.objects ++ [Object.curve (newCurve env s xv yv ev)] }
        colorSequence := s.colorSequence + 1
        plots := updatePlot (addRelations [Relation.curve (newCurve env s xv yv ev)]) p s.plots } := by
  obtain ⟨h1, h2, h3⟩ := h
  unfold createCurveInPlot addCurve
  exact placeRelation_pinned _ _ p h1 h2 h3

theorem createOrFindDataVector_samePlacement (s : CommandLineParser) (field : String)
    (ds : DataSource) : samePlacement (createOrFindDataVector s field ds).2 s := by
  rw [createOrFindDataVector_snd]
  simp [samePlacement, curvesOf, curvesIn_append, curvesIn_dataVectors]

theorem samePlacement_trans (a b c : CommandLineParser) (h : samePlacement a b)
    (h' : samePlacement b c) : samePlacement a c :=
  ⟨h.1.trans h'.1, h.2.1.trans h'.2.1, h.2.2.1.trans h'.2.2.1, h.2.2.2.trans h'.2.2.2⟩

theorem yVectors_samePlacement (s : CommandLineParser) (field : String) (ds : DataSource) :
    samePlacement (yVectors s field ds).2.2.2 s := by
  have hx := createOrFindDataVector_samePlacement s s._xField ds
  have hy := createOrFindDataVector_samePlacement (createOrFindDataVector s s._xField ds).2 field ds
  have hxy := samePlacement_trans _ _ _ hy hx
  unfold yVectors
  simp only []
  split
  · have he := createOrFindDataVector_samePlacement
      (createOrFindDataVector (createOrFindDataVector s s._xField ds).2 field ds).2
      (createOrFindDataVector (createOrFindDataVector s s._xField ds).2 field ds).2._errorField ds
    have hxye := samePlacement_trans _ _ _ he hxy
    simp only []
    split
    · exact hxye
    · exact hxye
  · simp only []
    split
    · exact hxy
    · exact hxy

theorem pSpectrum_samePlacement (s : CommandLineParser) (field : String) (ds : DataSource) :
    samePlacement (pSpectrum s field ds).2 s := by
  have hx := createOrFindDataVector_samePlacement s field ds
  unfold pSpectrum
  simp only []
  split
  · simpa [samePlacement, curvesOf, curvesIn_append, curvesIn] using hx
  · simpa [samePlacement, curvesOf, curvesIn_append, curvesIn] using hx

theorem hHistogram_samePlacement (s : CommandLineParser) (field : String) (ds : DataSource) :
    samePlacement (hHistogram s field ds).2 s := by
  have hx := createOrFindDataVector_samePlacement s field ds
  unfold hHistogram
  simp only []
  split
  · simpa [samePlacement, curvesOf, curvesIn_append, curvesIn] using hx
  · simpa [samePlacement, curvesOf, curvesIn_append, curvesIn] using hx

theorem createCurveInPlot_attaches (env : Env) (s a : CommandLineParser) (xv yv : Vector)
    (ev : Option Vector) (p : Nat) (h : pinned p s) (ha : samePlacement a s) :
    ∃ b c, createCurveInPlot env a xv yv ev = some b ∧ curvesOf b = curvesOf s ++ [c] ∧
      attaches p s b [Relation.curve c] := by
  obtain ⟨h1, h2, h3⟩ := h
  obtain ⟨a1, a2, a3, a4⟩ := ha
  have hpa : pinned p a := ⟨a2.trans h1, a3.trans h2, by rw [a1]; exact h3⟩
  refine ⟨_, newCurve env a xv yv ev, createCurveInPlot_pinned env a xv yv ev p hpa, ?_,
    ⟨hpa.1, hpa.2.1, by simpa [updatePlot_length] using hpa.2.2⟩, ?_⟩
  · rw [← a4]
    simp [curvesOf, curvesIn_append, curvesIn_curve]
  · simp [a1]

theorem createImageInPlot_attaches (s a : CommandLineParser) (m : DataMatrix) (p : Nat)
    (h : pinned p s) (ha : samePlacement a s) :
    ∃ b i, createImageInPlot a m = some b ∧ curvesOf b = curvesOf s ∧
      attaches p s b [Relation.image i] := by
  obtain ⟨h1, h2, h3⟩ := h
  obtain ⟨a1, a2, a3, a4⟩ := ha
  have hpa : pinned p a := ⟨a2.trans h1, a3.trans h2, by rw [a1]; exact h3⟩
  refine ⟨_, { id := a.objectStore.objects.length, matrix := m },
    placeRelation_pinned _ _ p hpa.1 hpa.2.1 hpa.2.2, ?_,
    ⟨hpa.1, hpa.2.1, by simpa [updatePlot_length] using hpa.2.2⟩, ?_⟩
  · rw [← a4]
    simp [curvesOf, curvesIn_append, curvesIn]
  · simp [a1]

theorem yLoop_pinned (env : Env) (field : String) (p : Nat) (files : List String)
    (s s' : CommandLineParser) (h : pinned p s) (hs : yLoop env field files s = some s') :
    ∃ cs, curvesOf s' = curvesOf s ++ cs ∧ attaches p s s' (cs.map Relation.curve) := by
  induction files generalizing s with
  | nil =>
    simp [yLoop] at hs
    subst hs
    exact ⟨[], by simp, attaches_refl p s h⟩
  | cons file rest ih =>
    unfold yLoop at hs
    by_cases hex : env.fileExists file = false
    · simp [hex] at hs
      subst hs
      exact ⟨[], by simp [curvesOf, printUsage], by simpa [printUsage] using attaches_refl p s h⟩
    · cases hds : env.findOrLoadSource file with
      | none => simp [hex, hds] at hs
      | some ds =>
        simp only [hex, hds, if_false] at hs
        obtain ⟨b, c, hb, hc, hatt⟩ := createCurveInPlot_attaches env s _
          (Vector.data (yVectors s field ds).1) (Vector.data (yVectors s field ds).2.1)
          ((yVectors s field ds).2.2.1.map Vector.data) p h (yVectors_samePlacement s field ds)
        rw [hb] at hs
        obtain ⟨cs, h1, h2⟩ := ih { b with dataPlotted := true } hatt.1 hs
        refine ⟨c :: cs, ?_, ?_⟩
        · rw [h1]
          show curvesOf b ++ cs = _
          rw [hc]
          simp
        · exact attaches_trans p s { b with dataPlotted := true } s' _ _ hatt h2

theorem pLoop_pinned (env : Env) (field : String) (p : Nat) (files : List String)
    (s s' : CommandLineParser) (h : pinned p s) (hs : pLoop env field files s = some s') :
    ∃ cs, curvesOf s' = curvesOf s ++ cs ∧ attaches p s s' (cs.map Relation.curve) := by
  induction files generalizing s with
  | nil =>
    simp [pLoop] at hs
    subst hs
    exact ⟨[], by simp, attaches_refl p s h⟩
  | cons file rest ih =>
    unfold pLoop at hs
    by_cases hex : env.fileExists file = false
    · simp [hex] at hs
      subst hs
      exact ⟨[], by simp [curvesOf, printUsage], by simpa [printUsage] using attaches_refl p s h⟩
    · cases hds : env.findOrLoadSource file with
      | none => simp [hex, hds] at hs
      | some ds =>
        simp only [hex, hds, if_false] at hs
        obtain ⟨b, c, hb, hc, hatt⟩ := createCurveInPlot_attaches env s _
          (Vector.psdX (pSpectrum s field ds).1.id) (Vector.psdY (pSpectrum s field ds).1.id)
          none p h (pSpectrum_samePlacement s field ds)
        rw [hb] at hs
        obtain ⟨cs, h1, h2⟩ := ih { b with dataPlotted := true } hatt.1 hs
        refine ⟨c :: cs, ?_, ?_⟩
        · rw [h1]
          show curvesOf b ++ cs = _
          rw [hc]
          simp
        · exact attaches_trans p s { b with dataPlotted := true } s' _ _ hatt h2

theorem hLoop_pinned (env : Env) (field : String) (p : Nat) (files : List String)
    (s s' : CommandLineParser) (h : pinned p s) (hs : hLoop env field files s = some s') :
    ∃ cs, curvesOf s' = curvesOf s ++ cs ∧ attaches p s s' (cs.map Relation.curve) := by
  induction files generalizing s with
  | nil =>
    simp [hLoop] at hs
    subst hs
    exact ⟨[], by simp, attaches_refl p s h⟩
  | cons file rest ih =>
    unfold hLoop at hs
    by_cases hex : env.fileExists file = false ∨ env.isFile file = false
    · simp only [hex, if_true, Option.some.injEq] at hs
      subst hs
      exact ⟨[], by simp [curvesOf, printUsage], by simpa [printUsage] using attaches_refl p s h⟩
    · cases hds : env.findOrLoadSource file with
      | none => simp [hex, hds] at hs
      | some ds =>
        simp only [hex, hds, if_false] at hs
        obtain ⟨b, c, hb, hc, hatt⟩ := createCurveInPlot_attaches env s _
          (Vector.histX (hHistogram s field ds).1.id) (Vector.histY (hHistogram s field ds).1.id)
          none p h (hHistogram_samePlacement s field ds)
        rw [hb] at hs
        obtain ⟨cs, h1, h2⟩ := ih { b with dataPlotted := true } hatt.1 hs
        refine ⟨c :: cs, ?_, ?_⟩
        · rw [h1]
          show curvesOf b ++ cs = _
          rw [hc]
          simp
        · exact attaches_trans p s { b with dataPlotted := true } s' _ _ hatt h2

theorem zLoop_pinned (env : Env) (field : String) (p : Nat) (files : List String)
    (s s' : CommandLineParser) (h : pinned p s) (hs : zLoop env field files s = some s') :
    ∃ rs, curvesOf s' = curvesOf s ∧ attaches p s s' rs := by
  induction files generalizing s with
  | nil =>
    simp [zLoop] at hs
    subst hs
    exact ⟨[], rfl, attaches_refl p s h⟩
  | cons file rest ih =>
    unfold zLoop at hs
    by_cases hex : env.fileExists file = false ∨ env.isFile file = false
    · simp only [hex, if_true, Option.some.injEq] at hs
      subst hs
      exact ⟨[], by simp [curvesOf, printUsage], by simpa [printUsage] using attaches_refl p s h⟩
    · cases hds : env.findOrLoadSource file with
      | none => simp [hex, hds] at hs
      | some ds =>
        simp only [hex, hds, if_false] at hs
        obtain ⟨b, i, hb, hc, hatt⟩ := createImageInPlot_attaches s
          { s with objectStore := { s.objectStore with
              objects := s.objectStore.objects ++
                [Object.dataMatrix (newDataMatrix s field ds)] } }
          (newDataMatrix s field ds) p h
          ⟨rfl, rfl, rfl, by simp [curvesOf, curvesIn_append, curvesIn]⟩
        rw [hb] at hs
        obtain ⟨rs, h1, h2⟩ := ih b hatt.1 hs
        exact ⟨_, h1.trans hc, attaches_trans p s b s' _ _ hatt h2⟩

theorem placeRelation_attaches (s a : CommandLineParser) (r : Relation) (p : Nat)
    (h : pinned p s)
    (ha : a.plots = s.plots ∧ a._doConsecutivePlots = s._doConsecutivePlots ∧
      a._plotItem = s._plotItem) :
    ∃ b, placeRelation a r = some b ∧ attaches p s b [r] := by
  obtain ⟨h1, h2, h3⟩ := h
  obtain ⟨a1, a2, a3⟩ := ha
  have hpa : pinned p a := ⟨a2.trans h1, a3.trans h2, by rw [a1]; exact h3⟩
  refine ⟨_, placeRelation_pinned _ _ p hpa.1 hpa.2.1 hpa.2.2,
    ⟨hpa.1, hpa.2.1, by simpa [updatePlot_length] using hpa.2.2⟩, ?_⟩
  simp [a1]

theorem placeAutoCurves_pinned (env : Env) (curve_count p : Nat) (curves : List Object)
    (count : Nat) (asked : Bool) (s s' : CommandLineParser) (h : pinned p s)
    (hs : placeAutoCurves env curve_count curves count asked s = some s') :
    ∃ rs, attaches p s s' rs := by
  induction curves generalizing s count asked with
  | nil =>
    simp [placeAutoCurves] at hs
    subst hs
    exact ⟨[], attaches_refl p s h⟩
  | cons o rest ih =>
    cases o with
    | curve c =>
      unfold placeAutoCurves at hs
      split at hs
      · split at hs
        · simp only [Option.some.injEq] at hs
          subst hs
          exact ⟨[], h, (updatePlot_addRelations_nil p s.plots).symm⟩
        · obtain ⟨b, hb, hatt⟩ := placeRelation_attaches s (askQuestion curve_count s)
            (Relation.curve c) p h ⟨rfl, rfl, rfl⟩
          simp only [addCurve, hb] at hs
          obtain ⟨rs, hrs⟩ := ih _ _ b hatt.1 hs
          exact ⟨_, attaches_trans p s b s' _ _ hatt hrs⟩
      · obtain ⟨b, hb, hatt⟩ := placeRelation_attaches s s (Relation.curve c) p h ⟨rfl, rfl, rfl⟩
        simp only [addCurve, hb] at hs
        obtain ⟨rs, hrs⟩ := ih _ _ b hatt.1 hs
        exact ⟨_, attaches_trans p s b s' _ _ hatt hrs⟩
    | dataVector v => exact ih _ _ _ h (by simpa [placeAutoCurves] using hs)
    | psd v => exact ih _ _ _ h (by simpa [placeAutoCurves] using hs)
    | histogram v => exact ih _ _ _ h (by simpa [placeAutoCurves] using hs)
    | dataMatrix v => exact ih _ _ _ h (by simpa [placeAutoCurves] using hs)
    | image v => exact ih _ _ _ h (by simpa [placeAutoCurves] using hs)

/-! ## The argument readers -/

theorem _setStringArg_snd (s : CommandLineParser) (cur Message : String) :
    (_setStringArg s cur Message).2.2 =
      { s with
        _arguments := s._arguments.tail
        printed := if s._arguments = [] then s.printed ++ [Message] else s.printed } := by
  unfold _setStringArg
  cases h : s._arguments <;> simp [printUsage, h]

theorem _setIntArg_snd (env : Env) (s : CommandLineParser) (cur : Int) (Message : String)
    (accept_end : Bool) :
    (_setIntArg env s cur Message accept_end).2.2 =
      { s with
        _arguments := s._arguments.tail
        printed := if (_setIntArg env s cur Message accept_end).1 = false
          then s.printed ++ [Message] else s.printed } := by
  cases h : s._arguments with
  | nil => simp [_setIntArg, printUsage, h]
  | cons param rest =>
    by_cases hp : param = "end"
    · subst hp
      cases accept_end <;> cases h2 : env.toInt "end" <;> simp [_setIntArg, h, h2, printUsage]
    · cases accept_end <;> cases h2 : env.toInt param <;>
        simp [_setIntArg, h, hp, h2, printUsage]

theorem _setDoubleArg_snd (env : Env) (s : CommandLineParser) (cur : ℚ) (Message : String) :
    (_setDoubleArg env s cur Message).2.2 =
      { s with
        _arguments := s._arguments.tail
        printed := if (_setDoubleArg env s cur Message).1 = false
          then s.printed ++ [Message] else s.printed } := by
  cases h : s._arguments with
  | nil => simp [_setDoubleArg, printUsage, h]
  | cons param rest =>
    cases h2 : env.toDouble param <;> simp [_setDoubleArg, h, h2, printUsage]

/-! ## The branches of the dispatch -/

theorem dispatch_dd_help (env : Env) (s : CommandLineParser) :
    dispatch env s "--help" =
        some { printUsage s "" with ok := false } := by
  rfl

theorem dispatch_d_help (env : Env) (s : CommandLineParser) :
    dispatch env s "-help" =
        some { printUsage s "" with ok := false } := by
  rfl

theorem dispatch_dd_version (env : Env) (s : CommandLineParser) :
    dispatch env s "--version" =
        some { s with printed := s.printed ++ ["Kst " ++ env.KSTVERSION], ok := false } := by
  rfl

theorem dispatch_d_version (env : Env) (s : CommandLineParser) :
    dispatch env s "-version" =
        some { s with printed := s.printed ++ ["Kst " ++ env.KSTVERSION], ok := false } := by
  rfl

theorem dispatch_d_f (env : Env) (s : CommandLineParser) :
    dispatch env s "-f" =
        let r := _setIntArg env s s._startFrame "Usage: -f <startframe>\n" true
        some { r.2.2 with
          ok := r.1
          _startFrame := r.2.1
          objectStore := { r.2.2.objectStore with
            override := { r.2.2.objectStore.override with f0 := r.2.1 } } } := by
  rfl

theorem dispatch_d_n (env : Env) (s : CommandLineParser) :
    dispatch env s "-n" =
        let r := _setIntArg env s s._numFrames "Usage: -n <numframes>\n" true
        some { r.2.2 with
          ok := r.1
          _numFrames := r.2.1
          objectStore := { r.2.2.objectStore with
            override := { r.2.2.objectStore.override with N := r.2.1 } } } := by
  rfl

theorem dispatch_d_s (env : Env) (s : CommandLineParser) :
    dispatch env s "-s" =
        let r := _setIntArg env s s._skip "Usage: -s <frames per sample>\n" false
        some { r.2.2 with
          ok := r.1
          _skip := r.2.1
          objectStore := { r.2.2.objectStore with
            override := { r.2.2.objectStore.override with skip := r.2.1 } } } := by
  rfl

theorem dispatch_d_a (env : Env) (s : CommandLineParser) :
    dispatch env s "-a" =
        some { s with
          _doAve := true
          objectStore := { s.objectStore with
            override := { s.objectStore.override with doAve := true } } } := by
  rfl

theorem dispatch_d_P (env : Env) (s : CommandLineParser) :
    dispatch env s "-P" =
        let r := _setStringArg s "" "Usage: -P <plotname>\n"
        some (createOrFindPlot { r.2.2 with ok := r.1, _doConsecutivePlots := false } r.2.1) := by
  rfl

theorem dispatch_d_A (env : Env) (s : CommandLineParser) :
    dispatch env s "-A" =
        some { s with _doConsecutivePlots := true } := by
  rfl

theorem dispatch_d_T (env : Env) (s : CommandLineParser) :
    dispatch env s "-T" =
        let r := _setStringArg { s with _doConsecutivePlots := true } "" "Usage: -T <tab name>\n"
        let s1 : CommandLineParser := { r.2.2 with ok := r.1 }
        if s1.dataPlotted then some (createOrFindTab env s1 r.2.1)
        else some { s1 with tabWidget := setCurrentViewName s1.tabWidget r.2.1 } := by
  rfl

theorem dispatch_d_d (env : Env) (s : CommandLineParser) :
    dispatch env s "-d" =
        some { s with
          _useBargraph := false, _useLines := false, _usePoints := true, _overrideStyle := true } := by
  rfl

theorem dispatch_d_l (env : Env) (s : CommandLineParser) :
    dispatch env s "-l" =
        some { s with
          _useBargraph := false, _useLines := true, _usePoints := false, _overrideStyle := true } := by
  rfl

theorem dispatch_d_b (env : Env) (s : CommandLineParser) :
    dispatch env s "-b" =
        some { s with
          _useBargraph := true, _useLines := false, _usePoints := false, _overrideStyle := true } := by
  rfl

theorem dispatch_d_x (env : Env) (s : CommandLineParser) :
    dispatch env s "-x" =
        let r := _setStringArg s s._xField "Usage: -x <xfieldname>\n"
        some { r.2.2 with ok := r.1, _xField := r.2.1 } := by
  rfl

theorem dispatch_d_e (env : Env) (s : CommandLineParser) :
    dispatch env s "-e" =
        let r := _setStringArg s s._errorField "Usage: -e <errorfieldname>\n"
        some { r.2.2 with ok := r.1, _errorField := r.2.1 } := by
  rfl

theorem dispatch_d_r (env : Env) (s : CommandLineParser) :
    dispatch env s "-r" =
        let r := _setDoubleArg env s s._sampleRate "Usage: -r <samplerate>\n"
        some { r.2.2 with ok := r.1, _sampleRate := r.2.1 } := by
  rfl

theorem dispatch_d_y (env : Env) (s : CommandLineParser) :
    dispatch env s "-y" =
        let r := _setStringArg s "" "Usage: -y <fieldname>\n"
        let s1 : CommandLineParser := { r.2.2 with ok := r.1 }
        if s1._fileNames.length < 1 then
          some { printUsage s1 "No data files specified\n" with ok := false }
        else
          match yLoop env r.2.1 s1._fileNames s1 with
          | none => none
          | some s2 =>
            some { s2 with _errorField := "", new_fileList := true, _overrideStyle := false } := by
  rfl

theorem dispatch_d_p (env : Env) (s : CommandLineParser) :
    dispatch env s "-p" =
        let r := _setStringArg s "" "Usage: -p <fieldname>\n"
        let s1 : CommandLineParser := { r.2.2 with ok := r.1 }
        if s1.ok then
          match pLoop env r.2.1 s1._fileNames s1 with
          | none => none
          | some s2 => some { s2 with new_fileList := true, _overrideStyle := false }
        else some s1 := by
  rfl

theorem dispatch_dd_xlabel (env : Env) (s : CommandLineParser) :
    dispatch env s "--xlabel" =
        let r := _setStringArg s s._xlabel "Usage -xlabel <label>\n"
        some { r.2.2 with ok := r.1, _xlabel := r.2.1 } := by
  rfl

theorem dispatch_dd_ylabel (env : Env) (s : CommandLineParser) :
    dispatch env s "--ylabel" =
        let r := _setStringArg s s._ylabel "Usage -ylabel <label>\n"
        some { r.2.2 with ok := r.1, _ylabel := r.2.1 } := by
  rfl

theorem dispatch_dd_xlabelauto (env : Env) (s : CommandLineParser) :
    dispatch env s "--xlabelauto" =
        some { s with _xlabel := "" } := by
  rfl

theorem dispatch_dd_ylabelauto (env : Env) (s : CommandLineParser) :
    dispatch env s "--ylabelauto" =
        some { s with _ylabel := "" } := by
  rfl

theorem dispatch_d_h (env : Env) (s : CommandLineParser) :
    dispatch env s "-h" =
        let r := _setStringArg s "" "Usage: -h <fieldname>\n"
        let s1 : CommandLineParser := { r.2.2 with ok := r.1 }
        if s1.ok then
          match hLoop env r.2.1 s1._fileNames s1 with
          | none => none
          | some s2 => some { s2 with new_fileList := true, _overrideStyle := false }
        else some s1 := by
  rfl

theorem dispatch_d_z (env : Env) (s : CommandLineParser) :
    dispatch env s "-z" =
        let r := _setStringArg s "" "Usage: -z <fieldname>\n"
        let s1 : CommandLineParser := { r.2.2 with ok := r.1 }
        if s1.ok then
          match zLoop env r.2.1 s1._fileNames s1 with
          | none => none
          | some s2 => some { s2 with new_fileList := true, dataPlotted := true }
        else some s1 := by
  rfl

theorem dispatch_d_F (env : Env) (s : CommandLineParser) :
    dispatch env s "-F" =
        let r := _setStringArg s s.objectStore.override.fileName "Usage: -F <datafile>\n"
        some { r.2.2 with
          ok := r.1
          objectStore := { r.2.2.objectStore with
            override := { r.2.2.objectStore.override with fileName := r.2.1 } } } := by
  rfl

theorem dispatch_dd_png (env : Env) (s : CommandLineParser) :
    dispatch env s "--png" =
        let r := _setStringArg s s._pngFile "Usage: --png <filename>\n"
        some { r.2.2 with ok := r.1, _pngFile := r.2.1 } := by
  rfl

theorem dispatch_dd_print (env : Env) (s : CommandLineParser) :
    dispatch env s "--print" =
        let r := _setStringArg s s._printFile "Usage: --print <filename>\n"
        some { r.2.2 with ok := r.1, _printFile := r.2.1 } := by
  rfl

theorem dispatch_dd_landscape (env : Env) (s : CommandLineParser) :
    dispatch env s "--landscape" =
        some { s with _landscape := true } := by
  rfl

theorem dispatch_dd_portrait (env : Env) (s : CommandLineParser) :
    dispatch env s "--portrait" =
        some { s with _landscape := false } := by
  rfl

theorem dispatch_dd_A4 (env : Env) (s : CommandLineParser) :
    dispatch env s "--A4" =
        some { s with _paperSize := PaperSize.A4 } := by
  rfl

theorem dispatch_dd_letter (env : Env) (s : CommandLineParser) :
    dispatch env s "--letter" =
        some { s with _paperSize := PaperSize.Letter } := by
  rfl

theorem pinned_of_sameTarget (p : Nat) (s a : CommandLineParser) (h : pinned p s)
    (ha : sameTarget a s) : pinned p a :=
  ⟨ha.2.1.trans h.1, ha.2.2.trans h.2.1, by rw [ha.1]; exact h.2.2⟩

theorem attaches_of_sameTarget (p : Nat) (s a : CommandLineParser) (h : pinned p s)
    (ha : sameTarget a s) : attaches p s a [] :=
  ⟨pinned_of_sameTarget p s a h ha, by rw [ha.1, updatePlot_addRelations_nil]⟩

theorem attaches_congr (p : Nat) (s a s' : CommandLineParser) (rs : List Relation)
    (ha : sameTarget a s) (h : attaches p a s' rs) : attaches p s s' rs :=
  ⟨h.1, by rw [h.2, ha.1]⟩

theorem autoCurvesLoop_sameTarget (ds : DataSource) (xv : DataVector) (fields : List String)
    (curves : List Object) (s : CommandLineParser) :
    sameTarget (autoCurvesLoop ds xv fields curves s).2 s := by
  induction fields generalizing curves s with
  | nil => exact ⟨rfl, rfl, rfl⟩
  | cons f rest ih =>
    unfold autoCurvesLoop
    split
    · exact ih _ _
    · exact ih _ _

theorem autoCurves_sameTarget (s : CommandLineParser) (ds : DataSource) :
    sameTarget (autoCurves s ds).2 s := by
  unfold autoCurves
  split
  · exact ⟨rfl, rfl, rfl⟩
  · exact autoCurvesLoop_sameTarget _ _ _ _ _

theorem dispatch_y_pinned (env : Env) (p : Nat) (s s' : CommandLineParser)
    (h : pinned p s) (hs : dispatch env s "-y" = some s') :
    ∃ cs, curvesOf s' = curvesOf s ++ cs ∧ attaches p s s' (cs.map Relation.curve) := by
  rw [dispatch_d_y] at hs
  simp only [_setStringArg_snd] at hs
  split at hs
  · simp only [Option.some.injEq] at hs
    subst hs
    exact ⟨[], by simp [curvesOf, printUsage], attaches_of_sameTarget p s _ h ⟨rfl, rfl, rfl⟩⟩
  · split at hs
    · exact absurd hs (by simp)
    · rename_i s2 hy
      simp only [Option.some.injEq] at hs
      subst hs
      obtain ⟨cs, hc, hatt⟩ := yLoop_pinned env _ p _ _ s2
        (by exact pinned_of_sameTarget p s _ h ⟨rfl, rfl, rfl⟩) hy
      exact ⟨cs, hc, attaches_congr p s _ _ _ ⟨rfl, rfl, rfl⟩ ⟨hatt.1, hatt.2⟩⟩

theorem dispatch_p_pinned (env : Env) (p : Nat) (s s' : CommandLineParser)
    (h : pinned p s) (hs : dispatch env s "-p" = some s') :
    ∃ cs, curvesOf s' = curvesOf s ++ cs ∧ attaches p s s' (cs.map Relation.curve) := by
  rw [dispatch_d_p] at hs
  simp only [_setStringArg_snd] at hs
  split at hs
  · split at hs
    · exact absurd hs (by simp)
    · rename_i s2 hy
      simp only [Option.some.injEq] at hs
      subst hs
      obtain ⟨cs, hc, hatt⟩ := pLoop_pinned env _ p _ _ s2
        (by exact pinned_of_sameTarget p s _ h ⟨rfl, rfl, rfl⟩) hy
      exact ⟨cs, hc, attaches_congr p s _ _ _ ⟨rfl, rfl, rfl⟩ ⟨hatt.1, hatt.2⟩⟩
  · simp only [Option.some.injEq] at hs
    subst hs
    exact ⟨[], by simp [curvesOf], attaches_of_sameTarget p s _ h ⟨rfl, rfl, rfl⟩⟩

theorem dispatch_h_pinned (env : Env) (p : Nat) (s s' : CommandLineParser)
    (h : pinned p s) (hs : dispatch env s "-h" = some s') :
    ∃ cs, curvesOf s' = curvesOf s ++ cs ∧ attaches p s s' (cs.map Relation.curve) := by
  rw [dispatch_d_h] at hs
  simp only [_setStringArg_snd] at hs
  split at hs
  · split at hs
    · exact absurd hs (by simp)
    · rename_i s2 hy
      simp only [Option.some.injEq] at hs
      subst hs
      obtain ⟨cs, hc, hatt⟩ := hLoop_pinned env _ p _ _ s2
        (by exact pinned_of_sameTarget p s _ h ⟨rfl, rfl, rfl⟩) hy
      exact ⟨cs, hc, attaches_congr p s _ _ _ ⟨rfl, rfl, rfl⟩ ⟨hatt.1, hatt.2⟩⟩
  · simp only [Option.some.injEq] at hs
    subst hs
    exact ⟨[], by simp [curvesOf], attaches_of_sameTarget p s _ h ⟨rfl, rfl, rfl⟩⟩

theorem dispatch_z_pinned (env : Env) (p : Nat) (s s' : CommandLineParser)
    (h : pinned p s) (hs : dispatch env s "-z" = some s') :
    ∃ rs, attaches p s s' rs := by
  rw [dispatch_d_z] at hs
  simp only [_setStringArg_snd] at hs
  split at hs
  · split at hs
    · exact absurd hs (by simp)
    · rename_i s2 hy
      simp only [Option.some.injEq] at hs
      subst hs
      obtain ⟨rs, _, hatt⟩ := zLoop_pinned env _ p _ _ s2
        (by exact pinned_of_sameTarget p s _ h ⟨rfl, rfl, rfl⟩) hy
      exact ⟨rs, attaches_congr p s _ _ _ ⟨rfl, rfl, rfl⟩ ⟨hatt.1, hatt.2⟩⟩
  · simp only [Option.some.injEq] at hs
    subst hs
    exact ⟨[], attaches_of_sameTarget p s _ h ⟨rfl, rfl, rfl⟩⟩

theorem appendFileName_sameTarget (s : CommandLineParser) (arg : String) :
    sameTarget (appendFileName s arg) s := by
  unfold appendFileName
  simp only []
  split
  · split
    · exact ⟨rfl, rfl, rfl⟩
    · exact ⟨rfl, rfl, rfl⟩
  · exact ⟨rfl, rfl, rfl⟩

theorem sameTarget_trans (a b c : CommandLineParser) (h : sameTarget a b) (h' : sameTarget b c) :
    sameTarget a c :=
  ⟨h.1.trans h'.1, h.2.1.trans h'.2.1, h.2.2.trans h'.2.2⟩

theorem autoDetectCurves_sameTarget (s : CommandLineParser) (ds : DataSource) :
    sameTarget (autoDetectCurves s ds).2 s := by
  unfold autoDetectCurves
  split
  · exact sameTarget_trans _ _ _ (autoCurves_sameTarget _ ds) ⟨rfl, rfl, rfl⟩
  · exact ⟨rfl, rfl, rfl⟩

theorem fileArg_pinned (env : Env) (p : Nat) (s s' : CommandLineParser) (arg : String)
    (h : pinned p s) (hs : fileArg env s arg = some s') : ∃ rs, attaches p s s' rs := by
  have h2 := appendFileName_sameTarget s arg
  unfold fileArg at hs
  split at hs
  · split at hs
    · simp only [Option.some.injEq] at hs
      subst hs
      exact ⟨[], attaches_of_sameTarget p s _ h h2⟩
    · rename_i ds _
      have h3 := sameTarget_trans _ _ _ (autoDetectCurves_sameTarget (appendFileName s arg) ds) h2
      split at hs
      · obtain ⟨rs, hatt⟩ := placeAutoCurves_pinned env _ p _ _ _ _ s'
          (by exact pinned_of_sameTarget p s _ h ⟨h3.1, h3.2.1, h3.2.2⟩) hs
        exact ⟨rs, attaches_congr p s _ _ _ ⟨h3.1, h3.2.1, h3.2.2⟩ hatt⟩
      · simp only [Option.some.injEq] at hs
        subst hs
        exact ⟨[], attaches_of_sameTarget p s _ h h3⟩
  · simp only [Option.some.injEq] at hs
    subst hs
    exact ⟨[], attaches_of_sameTarget p s _ h h2⟩

theorem dispatch_pinned (env : Env) (p : Nat) (s s' : CommandLineParser) (arg : String)
    (h : pinned p s) (harg : arg ≠ "-P" ∧ arg ≠ "-A" ∧ arg ≠ "-T")
    (hs : dispatch env s arg = some s') : ∃ rs, attaches p s s' rs := by
  by_cases hmem : arg ∈ optionNames
  swap
  · rw [dispatch_fileArg env s arg hmem] at hs
    exact fileArg_pinned env p s s' arg h hs
  simp only [optionNames, List.mem_cons, List.mem_singleton, List.not_mem_nil, or_false] at hmem
  rcases hmem with rfl | rfl | rfl | rfl | rfl | rfl | rfl | rfl | rfl | rfl | rfl | rfl | rfl | rfl | rfl | rfl | rfl | rfl | rfl | rfl | rfl | rfl | rfl | rfl | rfl | rfl | rfl | rfl | rfl | rfl | rfl | rfl
  · rw [dispatch_dd_help] at hs
    simp only [_setIntArg_snd, _setStringArg_snd, _setDoubleArg_snd, Option.some.injEq] at hs
    subst hs
    exact ⟨[], attaches_of_sameTarget p s _ h ⟨rfl, rfl, rfl⟩⟩
  · rw [dispatch_d_help] at hs
    simp only [_setIntArg_snd, _setStringArg_snd, _setDoubleArg_snd, Option.some.injEq] at hs
    subst hs
    exact ⟨[], attaches_of_sameTarget p s _ h ⟨rfl, rfl, rfl⟩⟩
  · rw [dispatch_dd_version] at hs
    simp only [_setIntArg_snd, _setStringArg_snd, _setDoubleArg_snd, Option.some.injEq] at hs
    subst hs
    exact ⟨[], attaches_of_sameTarget p s _ h ⟨rfl, rfl, rfl⟩⟩
  · rw [dispatch_d_version] at hs
    simp only [_setIntArg_snd, _setStringArg_snd, _setDoubleArg_snd, Option.some.injEq] at hs
    subst hs
    exact ⟨[], attaches_of_sameTarget p s _ h ⟨rfl, rfl, rfl⟩⟩
  · rw [dispatch_d_f] at hs
    simp only [_setIntArg_snd, _setStringArg_snd, _setDoubleArg_snd, Option.some.injEq] at hs
    subst hs
    exact ⟨[], attaches_of_sameTarget p s _ h ⟨rfl, rfl, rfl⟩⟩
  · rw [dispatch_d_n] at hs
    simp only [_setIntArg_snd, _setStringArg_snd, _setDoubleArg_snd, Option.some.injEq] at hs
    subst hs
    exact ⟨[], attaches_of_sameTarget p s _ h ⟨rfl, rfl, rfl⟩⟩
  · rw [dispatch_d_s] at hs
    simp only [_setIntArg_snd, _setStringArg_snd, _setDoubleArg_snd, Option.some.injEq] at hs
    subst hs
    exact ⟨[], attaches_of_sameTarget p s _ h ⟨rfl, rfl, rfl⟩⟩
  · rw [dispatch_d_a] at hs
    simp only [_setIntArg_snd, _setStringArg_snd, _setDoubleArg_snd, Option.some.injEq] at hs
    subst hs
    exact ⟨[], attaches_of_sameTarget p s _ h ⟨rfl, rfl, rfl⟩⟩
  · exact absurd rfl harg.1
  · exact absurd rfl harg.2.1
  · exact absurd rfl harg.2.2
  · rw [dispatch_d_d] at hs
    simp only [_setIntArg_snd, _setStringArg_snd, _setDoubleArg_snd, Option.some.injEq] at hs
    subst hs
    exact ⟨[], attaches_of_sameTarget p s _ h ⟨rfl, rfl, rfl⟩⟩
  · rw [dispatch_d_l] at hs
    simp only [_setIntArg_snd, _setStringArg_snd, _setDoubleArg_snd, Option.some.injEq] at hs
    subst hs
    exact ⟨[], attaches_of_sameTarget p s _ h ⟨rfl, rfl, rfl⟩⟩
  · rw [dispatch_d_b] at hs
    simp only [_setIntArg_snd, _setStringArg_snd, _setDoubleArg_snd, Option.some.injEq] at hs
    subst hs
    exact ⟨[], attaches_of_sameTarget p s _ h ⟨rfl, rfl, rfl⟩⟩
  · rw [dispatch_d_x] at hs
    simp only [_setIntArg_snd, _setStringArg_snd, _setDoubleArg_snd, Option.some.injEq] at hs
    subst hs
    exact ⟨[], attaches_of_sameTarget p s _ h ⟨rfl, rfl, rfl⟩⟩
  · rw [dispatch_d_e] at hs
    simp only [_setIntArg_snd, _setStringArg_snd, _setDoubleArg_snd, Option.some.injEq] at hs
    subst hs
    exact ⟨[], attaches_of_sameTarget p s _ h ⟨rfl, rfl, rfl⟩⟩
  · rw [dispatch_d_r] at hs
    simp only [_setIntArg_snd, _setStringArg_snd, _setDoubleArg_snd, Option.some.injEq] at hs
    subst hs
    exact ⟨[], attaches_of_sameTarget p s _ h ⟨rfl, rfl, rfl⟩⟩
  · obtain ⟨cs, _, hatt⟩ := dispatch_y_pinned env p s s' h hs
    exact ⟨_, hatt⟩
  · obtain ⟨cs, _, hatt⟩ := dispatch_p_pinned env p s s' h hs
    exact ⟨_, hatt⟩
  · rw [dispatch_dd_xlabel] at hs
    simp only [_setIntArg_snd, _setStringArg_snd, _setDoubleArg_snd, Option.some.injEq] at hs
    subst hs
    exact ⟨[], attaches_of_sameTarget p s _ h ⟨rfl, rfl, rfl⟩⟩
  · rw [dispatch_dd_ylabel] at hs
    simp only [_setIntArg_snd, _setStringArg_snd, _setDoubleArg_snd, Option.some.injEq] at hs
    subst hs
    exact ⟨[], attaches_of_sameTarget p s _ h ⟨rfl, rfl, rfl⟩⟩
  · rw [dispatch_dd_xlabelauto] at hs
    simp only [_setIntArg_snd, _setStringArg_snd, _setDoubleArg_snd, Option.some.injEq] at hs
    subst hs
    exact ⟨[], attaches_of_sameTarget p s _ h ⟨rfl, rfl, rfl⟩⟩
  · rw [dispatch_dd_ylabelauto] at hs
    simp only [_setIntArg_snd, _setStringArg_snd, _setDoubleArg_snd, Option.some.injEq] at hs
    subst hs
    exact ⟨[], attaches_of_sameTarget p s _ h ⟨rfl, rfl, rfl⟩⟩
  · obtain ⟨cs, _, hatt⟩ := dispatch_h_pinned env p s s' h hs
    exact ⟨_, hatt⟩
  · exact dispatch_z_pinned env p s s' h hs
  · rw [dispatch_d_F] at hs
    simp only [_setIntArg_snd, _setStringArg_snd, _setDoubleArg_snd, Option.some.injEq] at hs
    subst hs
    exact ⟨[], attaches_of_sameTarget p s _ h ⟨rfl, rfl, rfl⟩⟩
  · rw [dispatch_dd_png] at hs
    simp only [_setIntArg_snd, _setStringArg_snd, _setDoubleArg_snd, Option.some.injEq] at hs
    subst hs
    exact ⟨[], attaches_of_sameTarget p s _ h ⟨rfl, rfl, rfl⟩⟩
  · rw [dispatch_dd_print] at hs
    simp only [_setIntArg_snd, _setStringArg_snd, _setDoubleArg_snd, Option.some.injEq] at hs
    subst hs
    exact ⟨[], attaches_of_sameTarget p s _ h ⟨rfl, rfl, rfl⟩⟩
  · rw [dispatch_dd_landscape] at hs
    simp only [_setIntArg_snd, _setStringArg_snd, _setDoubleArg_snd, Option.some.injEq] at hs
    subst hs
    exact ⟨[], attaches_of_sameTarget p s _ h ⟨rfl, rfl, rfl⟩⟩
  · rw [dispatch_dd_portrait] at hs
    simp only [_setIntArg_snd, _setStringArg_snd, _setDoubleArg_snd, Option.some.injEq] at hs
    subst hs
    exact ⟨[], attaches_of_sameTarget p s _ h ⟨rfl, rfl, rfl⟩⟩
  · rw [dispatch_dd_A4] at hs
    simp only [_setIntArg_snd, _setStringArg_snd, _setDoubleArg_snd, Option.some.injEq] at hs
    subst hs
    exact ⟨[], attaches_of_sameTarget p s _ h ⟨rfl, rfl, rfl⟩⟩
  · rw [dispatch_dd_letter] at hs
    simp only [_setIntArg_snd, _setStringArg_snd, _setDoubleArg_snd, Option.some.injEq] at hs
    subst hs
    exact ⟨[], attaches_of_sameTarget p s _ h ⟨rfl, rfl, rfl⟩⟩

theorem createOrFindPlot_pinned (s : CommandLineParser) (plot_name : String)
    (h : s._doConsecutivePlots = false) :
    ∃ p, pinned p (createOrFindPlot s plot_name) ∧
      ((createOrFindPlot s plot_name).plots.get? p).map (fun q => q.descriptiveName)
        = some plot_name ∧
      p ∈ (createOrFindPlot s plot_name)._plotItems ∧
      (createOrFindPlot s plot_name)._arguments = s._arguments ∧
      (createOrFindPlot s plot_name).ok = s.ok := by
  unfold createOrFindPlot
  cases hf : s._plotItems.find? (plotNamed s plot_name) with
  | some pi =>
    have h1 := List.find?_some hf
    have h2 := List.mem_of_find?_eq_some hf
    simp only [plotNamed, decide_eq_true_eq] at h1
    refine ⟨pi, ⟨h, rfl, ?_⟩, h1, h2, rfl, rfl⟩
    cases hg : s.plots.get? pi with
    | none =>
      rw [hg] at h1
      exact absurd h1 (by simp)
    | some q =>
      obtain ⟨hlt, _⟩ := List.get?_eq_some.mp hg
      exact hlt
  | none =>
    refine ⟨s.plots.length, ⟨?_, ?_, ?_⟩, ?_, ?_, ?_, ?_⟩
    · simp [applyLabels, h]
    · simp [applyLabels]
    · simp [applyLabels, updatePlot_length]
    · simp [applyLabels, updatePlot_append_last]
    · simp [applyLabels]
    · simp [applyLabels]
    · simp [applyLabels]

theorem createOrFindDataVector_field_eq (s : CommandLineParser) (field : String)
    (ds : DataSource) : (createOrFindDataVector s field ds).1.field = normalizeField field ds :=
  (createOrFindDataVector_fst s field ds).1

theorem curvesIn_cons_curve (c : Curve) (l : List Object) :
    curvesIn (Object.curve c :: l) = c :: curvesIn l := rfl

theorem curvesIn_nil : curvesIn [] = [] := rfl

/-! ## The auto-detect loop -/

theorem curvesIn_cons_other (o : Object) (l : List Object) (h : isCurve o = false) :
    curvesIn (o :: l) = curvesIn l := by
  cases o <;> first | rfl | exact absurd h (by simp [isCurve])

theorem curvesIn_length (l : List Object) : (curvesIn l).length = l.countP isCurve := by
  induction l with
  | nil => rfl
  | cons o l ih =>
    cases o <;> simp [curvesIn_cons_curve, curvesIn_cons_other, isCurve, ih]

theorem placeAutoCurves_no_question (env : Env) (curve_count : Nat) (curves : List Object)
    (count : Nat) (asked : Bool) (s : CommandLineParser)
    (h : asked = true ∨ count + (curvesIn curves).length ≤ max_count) :
    placeAutoCurves env curve_count curves count asked s = (curvesIn curves).foldlM addCurve s := by
  induction curves generalizing count s with
  | nil => rfl
  | cons o rest ih =>
    cases o with
    | curve c =>
      have hc : ¬ (asked = false ∧ count ≥ max_count) := by
        rcases h with h | h
        · simp [h]
        · simp [curvesIn_cons_curve] at h
          omega
      have h' : asked = true ∨ count + 1 + (curvesIn rest).length ≤ max_count := by
        rcases h with h | h
        · exact Or.inl h
        · simp [curvesIn_cons_curve] at h
          exact Or.inr (by omega)
      rw [placeAutoCurves, if_neg hc, curvesIn_cons_curve, List.foldlM_cons]
      cases addCurve s c with
      | none => rfl
      | some s2 => exact ih (count + 1) s2 h'
    | dataVector v => exact ih count s h
    | psd v => exact ih count s h
    | histogram v => exact ih count s h
    | dataMatrix v => exact ih count s h
    | image v => exact ih count s h

theorem placeAutoCurves_question (env : Env) (curve_count : Nat) (curves : List Object)
    (count : Nat) (s : CommandLineParser)
    (hle : count ≤ max_count) (h : max_count < count + (curvesIn curves).length) :
    placeAutoCurves env curve_count curves count false s =
      (((curvesIn curves).take (max_count - count)).foldlM addCurve s).bind (fun s1 =>
        if env.questionNo curve_count max_count then some (askQuestion curve_count s1)
        else ((curvesIn curves).drop (max_count - count)).foldlM addCurve
          (askQuestion curve_count s1)) := by
  induction curves generalizing count s with
  | nil => simp [curvesIn_nil] at h; omega
  | cons o rest ih =>
    cases o with
    | curve c =>
      by_cases hc : count ≥ max_count
      · have hz : max_count - count = 0 := by omega
        rw [placeAutoCurves, if_pos ⟨rfl, hc⟩, hz]
        simp only [List.take_zero, List.drop_zero, List.foldlM_nil, curvesIn_cons_curve,
          List.foldlM_cons]
        show _ = if _ then _ else _
        split
        · rfl
        · cases addCurve (askQuestion curve_count s) c with
          | none => rfl
          | some s2 =>
            exact placeAutoCurves_no_question env curve_count rest (count + 1) true s2 (Or.inl rfl)
      · have hs : max_count - count = (max_count - (count + 1)) + 1 := by omega
        rw [placeAutoCurves, if_neg (by simp [hc]), curvesIn_cons_curve, hs, List.take_succ_cons,
          List.drop_succ_cons, List.foldlM_cons]
        cases addCurve s c with
        | none => rfl
        | some s2 =>
          simp only [curvesIn_cons_curve, List.length_cons] at h
          exact ih (count + 1) s2 (by omega) (by omega)
    | dataVector v => exact ih count s hle h
    | psd v => exact ih count s hle h
    | histogram v => exact ih count s hle h
    | dataMatrix v => exact ih count s hle h
    | image v => exact ih count s hle h

theorem placeRelation_questions (s s' : CommandLineParser) (r : Relation)
    (h : placeRelation s r = some s') : s'.questions = s.questions := by
  by_cases hc : s._doConsecutivePlots = true
  · rw [placeRelation_consecutive s r hc] at h
    cases h
    rfl
  · have hc' : s._doConsecutivePlots = false := by simpa using hc
    cases hp : s._plotItem with
    | none => simp [placeRelation, hc', hp] at h
    | some p =>
      by_cases hlt : p < s.plots.length
      · rw [placeRelation_pinned s r p hc' hp hlt] at h
        cases h
        rfl
      · simp [placeRelation, hc', hp, hlt] at h

theorem foldlM_addCurve_questions (cs : List Curve) (s s' : CommandLineParser)
    (h : cs.foldlM addCurve s = some s') : s'.questions = s.questions := by
  induction cs generalizing s with
  | nil =>
    simp only [List.foldlM_nil] at h
    cases h
    rfl
  | cons c cs ih =>
    rw [List.foldlM_cons] at h
    cases h1 : addCurve s c with
    | none => rw [h1] at h; exact absurd h (by simp)
    | some s1 =>
      rw [h1] at h
      exact (ih s1 h).trans (placeRelation_questions s s1 _ h1)

theorem foldlM_addCurve_consecutive_labels (cs : List Curve) (s s' : CommandLineParser)
    (h : s._doConsecutivePlots = true) (hs : cs.foldlM addCurve s = some s') (r : Relation) :
    consecutivePlot s' r = consecutivePlot s r := by
  induction cs generalizing s with
  | nil =>
    simp only [List.foldlM_nil] at hs
    cases hs
    rfl
  | cons c cs ih =>
    rw [List.foldlM_cons, addCurve_consecutive s c h] at hs
    simp only [Option.bind_eq_bind, Option.some_bind] at hs
    exact (ih _ (by exact h) hs).trans rfl

theorem placeAutoCurves_consecutive (env : Env) (curves : List Object) (s : CommandLineParser)
    (h : s._doConsecutivePlots = true) :
    ∃ s', placeAutoCurves env (curves.countP isCurve) curves 0 false s = some s' ∧
      s'.plots = s.plots ++
        (placedCurves env curves).map (fun c => consecutivePlot s (Relation.curve c)) := by
  by_cases hc : curves.countP isCurve ≤ max_count
  · rw [placeAutoCurves_no_question env _ curves 0 false s
      (Or.inr (by rw [curvesIn_length]; omega))]
    obtain ⟨s', h1, _, h3, _⟩ := foldlM_addCurve_consecutive (curvesIn curves) s h
    refine ⟨s', h1, ?_⟩
    rw [h3, placedCurves, if_neg (by omega)]
  · rw [placeAutoCurves_question env _ curves 0 s (by omega)
      (by rw [curvesIn_length]; omega)]
    obtain ⟨s1, h1, h2, h3, _⟩ :=
      foldlM_addCurve_consecutive ((curvesIn curves).take max_count) s h
    simp only [Nat.sub_zero, h1, Option.some_bind]
    by_cases hq : env.questionNo (curves.countP isCurve) max_count = true
    · refine ⟨_, by rw [if_pos hq], ?_⟩
      rw [placedCurves, if_pos ⟨by omega, hq⟩]
      exact h3
    · obtain ⟨s2, g1, _, g3, _⟩ := foldlM_addCurve_consecutive
        ((curvesIn curves).drop max_count) (askQuestion (curves.countP isCurve) s1) h2
      refine ⟨s2, by rw [if_neg hq]; exact g1, ?_⟩
      rw [g3, placedCurves, if_neg (by simp [hq])]
      show s1.plots ++ _ = _
      have hl : ∀ r, consecutivePlot (askQuestion (curves.countP isCurve) s1) r
          = consecutivePlot s r :=
        fun r => foldlM_addCurve_consecutive_labels _ s s1 h h1 r
      rw [h3, List.append_assoc]
      simp only [hl]
      rw [← List.map_append, List.take_append_drop]

/-- Claim C7: with `c` the number of curves in the list the auto-detect branch
obtained, the placement loop hands to `addCurve`, in list order, all `c`
curves when `c <= 36`, all `c` curves when `c > 36` and the answer is not
`No`, and exactly the first 36 when `c > 36` and the answer is `No`; the
question is asked exactly once when `c > 36` (after the first 36 placements)
and never when `c <= 36`.  In consecutive mode the loop returns and has added
one plot per placed curve.  With 40 fields the run gives 40 plots on `Yes`
and 36 on `No`, and all 40 curves stay in the store. -/
theorem autoDetect_cap (env : Env) (curves : List Object) (s : CommandLineParser) :
    (curves.countP isCurve ≤ max_count →
      placeAutoCurves env (curves.countP isCurve) curves 0 false s
        = (curvesIn curves).foldlM addCurve s) ∧
    (max_count < curves.countP isCurve →
      env.questionNo (curves.countP isCurve) max_count = false →
      placeAutoCurves env (curves.countP isCurve) curves 0 false s
        = (((curvesIn curves).take max_count).foldlM addCurve s).bind (fun s1 =>
            ((curvesIn curves).drop max_count).foldlM addCurve
              (askQuestion (curves.countP isCurve) s1))) ∧
    (max_count < curves.countP isCurve →
      env.questionNo (curves.countP isCurve) max_count = true →
      placeAutoCurves env (curves.countP isCurve) curves 0 false s
        = (((curvesIn curves).take max_count).foldlM addCurve s).bind (fun s1 =>
            some (askQuestion (curves.countP isCurve) s1))) ∧
    (placedCurves env curves).length
      = (if max_count < curves.countP isCurve ∧
            env.questionNo (curves.countP isCurve) max_count = true
          then 36 else curves.countP isCurve) ∧
    (∀ s', placeAutoCurves env (curves.countP isCurve) curves 0 false s = some s' →
      s'.questions = s.questions ++
        (if max_count < curves.countP isCurve then [(curves.countP isCurve, 36)] else [])) ∧
    (s._doConsecutivePlots = true →
      ∃ s', placeAutoCurves env (curves.countP isCurve) curves 0 false s = some s' ∧
        s'.plots = s.plots ++
          (placedCurves env curves).map (fun c => consecutivePlot s (Relation.curve c))) ∧
    (run (bigEnv false) ["big.dat"]).map
        (fun t => (t.plots.length, (curvesOf t).length, t.questions)) = some (40, 40, [(40, 36)]) ∧
    (run (bigEnv true) ["big.dat"]).map
        (fun t => (t.plots.length, (curvesOf t).length, t.questions,
          decide (t.plots.map (fun q => q.relations)
            = ((curvesOf t).take 36).map (fun c => [Relation.curve c]))))
      = some (36, 40, [(40, 36)], true) := by
  have e1 : curves.countP isCurve ≤ max_count →
      placeAutoCurves env (curves.countP isCurve) curves 0 false s
        = (curvesIn curves).foldlM addCurve s := fun hc =>
    placeAutoCurves_no_question env _ curves 0 false s (Or.inr (by rw [curvesIn_length]; omega))
  have e2 : max_count < curves.countP isCurve →
      placeAutoCurves env (curves.countP isCurve) curves 0 false s
        = (((curvesIn curves).take max_count).foldlM addCurve s).bind (fun s1 =>
          if env.questionNo (curves.countP isCurve) max_count then
            some (askQuestion (curves.countP isCurve) s1)
          else ((curvesIn curves).drop max_count).foldlM addCurve
            (askQuestion (curves.countP isCurve) s1)) := fun hc =>
    placeAutoCurves_question env _ curves 0 s (by omega) (by rw [curvesIn_length]; omega)
  refine ⟨e1, ?_, ?_, ?_, ?_, placeAutoCurves_consecutive env curves s, by decide, by decide⟩
  · intro hc hq
    rw [e2 hc]
    simp [hq]
  · intro hc hq
    rw [e2 hc]
    simp [hq]
  · unfold placedCurves
    split
    · rename_i h
      rw [List.length_take, curvesIn_length]
      have : max_count = 36 := rfl
      omega
    · exact curvesIn_length curves
  · intro s' hs'
    by_cases hc : curves.countP isCurve ≤ max_count
    · rw [e1 hc] at hs'
      rw [if_neg (by omega), List.append_nil]
      exact foldlM_addCurve_questions _ s s' hs'
    · rw [e2 (by omega), if_pos (by omega)] at *
      cases h1 : ((curvesIn curves).take max_count).foldlM addCurve s with
      | none => rw [h1] at hs'; exact absurd hs' (by simp)
      | some s1 =>
        rw [h1, Option.some_bind] at hs'
        have q1 := foldlM_addCurve_questions _ s s1 h1
        split at hs'
        · cases hs'
          show s1.questions ++ _ = _
          rw [q1]
          rfl
        · rw [foldlM_addCurve_questions _ _ s' hs']
          show s1.questions ++ _ = _
          rw [q1]
          rfl

/-- Witness of claim C7: forty curves and the answer `No` place the first 36. -/
theorem autoDetect_cap_witness :
    max_count < fortyCurves.countP isCurve ∧
    (bigEnv true).questionNo (fortyCurves.countP isCurve) max_count = true ∧
    (CommandLineParser.new sampleDocument [])._doConsecutivePlots = true ∧
    placeAutoCurves (bigEnv true) (fortyCurves.countP isCurve) fortyCurves 0 false
        (CommandLineParser.new sampleDocument [])
      = (((curvesIn fortyCurves).take max_count).foldlM addCurve
          (CommandLineParser.new sampleDocument [])).bind (fun s1 =>
            some (askQuestion (fortyCurves.countP isCurve) s1)) ∧
    ∃ s', placeAutoCurves (bigEnv true) (fortyCurves.countP isCurve) fortyCurves 0 false
        (CommandLineParser.new sampleDocument []) = some s' ∧
      s'.plots = (CommandLineParser.new sampleDocument []).plots ++
        (placedCurves (bigEnv true) fortyCurves).map (fun c =>
          consecutivePlot (CommandLineParser.new sampleDocument []) (Relation.curve c)) :=
  ⟨by decide, rfl, rfl,
    (autoDetect_cap (bigEnv true) fortyCurves (CommandLineParser.new sampleDocument [])).2.2.1
      (by decide) rfl,
    (autoDetect_cap (bigEnv true) fortyCurves
      (CommandLineParser.new sampleDocument [])).2.2.2.2.2.1 rfl⟩

/-! ## The argument stream -/

theorem createOrFindDataVector_arguments (s : CommandLineParser) (field : String)
    (ds : DataSource) : (createOrFindDataVector s field ds).2._arguments = s._arguments := by
  rw [createOrFindDataVector_snd]

theorem yVectors_arguments (s : CommandLineParser) (field : String) (ds : DataSource) :
    (yVectors s field ds).2.2.2._arguments = s._arguments := by
  unfold yVectors
  simp only []
  split <;> split <;> simp [createOrFindDataVector_arguments]

theorem pSpectrum_arguments (s : CommandLineParser) (field : String) (ds : DataSource) :
    (pSpectrum s field ds).2._arguments = s._arguments := by
  unfold pSpectrum
  simp only []
  split <;> simp [createOrFindDataVector_arguments]

theorem hHistogram_arguments (s : CommandLineParser) (field : String) (ds : DataSource) :
    (hHistogram s field ds).2._arguments = s._arguments := by
  unfold hHistogram
  simp only []
  split <;> simp [createOrFindDataVector_arguments]

theorem placeRelation_arguments (s s' : CommandLineParser) (r : Relation)
    (h : placeRelation s r = some s') : s'._arguments = s._arguments := by
  by_cases hc : s._doConsecutivePlots = true
  · rw [placeRelation_consecutive s r hc] at h
    cases h
    rfl
  · have hc' : s._doConsecutivePlots = false := by simpa using hc
    cases hp : s._plotItem with
    | none => simp [placeRelation, hc', hp] at h
    | some p =>
      by_cases hlt : p < s.plots.length
      · rw [placeRelation_pinned s r p hc' hp hlt] at h
        cases h
        rfl
      · simp [placeRelation, hc', hp, hlt] at h

theorem createCurveInPlot_arguments (env : Env) (s s' : CommandLineParser) (xv yv : Vector)
    (ev : Option Vector) (h : createCurveInPlot env s xv yv ev = some s') :
    s'._arguments = s._arguments := by
  unfold createCurveInPlot addCurve at h
  exact (placeRelation_arguments _ s' _ h).trans rfl

theorem createImageInPlot_arguments (s s' : CommandLineParser) (m : DataMatrix)
    (h : createImageInPlot s m = some s') : s'._arguments = s._arguments := by
  unfold createImageInPlot at h
  exact (placeRelation_arguments _ s' _ h).trans rfl

theorem yLoop_arguments (env : Env) (field : String) (files : List String)
    (s s' : CommandLineParser) (hs : yLoop env field files s = some s') :
    s'._arguments = s._arguments := by
  induction files generalizing s with
  | nil =>
    simp [yLoop] at hs
    subst hs
    rfl
  | cons file rest ih =>
    unfold yLoop at hs
    split at hs
    · cases hs
      rfl
    · split at hs
      · exact absurd hs (by simp)
      · split at hs
        · exact absurd hs (by simp)
        · rename_i s1 h1
          exact (ih _ hs).trans ((createCurveInPlot_arguments env _ s1 _ _ _ h1).trans
            (yVectors_arguments s field _))

theorem pLoop_arguments (env : Env) (field : String) (files : List String)
    (s s' : CommandLineParser) (hs : pLoop env field files s = some s') :
    s'._arguments = s._arguments := by
  induction files generalizing s with
  | nil =>
    simp [pLoop] at hs
    subst hs
    rfl
  | cons file rest ih =>
    unfold pLoop at hs
    split at hs
    · cases hs
      rfl
    · split at hs
      · exact absurd hs (by simp)
      · split at hs
        · exact absurd hs (by simp)
        · rename_i s1 h1
          exact (ih _ hs).trans ((createCurveInPlot_arguments env _ s1 _ _ _ h1).trans
            (pSpectrum_arguments s field _))

theorem hLoop_arguments (env : Env) (field : String) (files : List String)
    (s s' : CommandLineParser) (hs : hLoop env field files s = some s') :
    s'._arguments = s._arguments := by
  induction files generalizing s with
  | nil =>
    simp [hLoop] at hs
    subst hs
    rfl
  | cons file rest ih =>
    unfold hLoop at hs
    split at hs
    · cases hs
      rfl
    · split at hs
      · exact absurd hs (by simp)
      · split at hs
        · exact absurd hs (by simp)
        · rename_i s1 h1
          exact (ih _ hs).trans ((createCurveInPlot_arguments env _ s1 _ _ _ h1).trans
            (hHistogram_arguments s field _))

theorem zLoop_arguments (env : Env) (field : String) (files : List String)
    (s s' : CommandLineParser) (hs : zLoop env field files s = some s') :
    s'._arguments = s._arguments := by
  induction files generalizing s with
  | nil =>
    simp [zLoop] at hs
    subst hs
    rfl
  | cons file rest ih =>
    unfold zLoop at hs
    split at hs
    · cases hs
      rfl
    · split at hs
      · exact absurd hs (by simp)
      · split at hs
        · exact absurd hs (by simp)
        · rename_i s1 h1
          exact (ih _ hs).trans ((createImageInPlot_arguments _ s1 _ h1).trans rfl)

theorem placeAutoCurves_arguments (env : Env) (curve_count : Nat) (curves : List Object)
    (count : Nat) (asked : Bool) (s s' : CommandLineParser)
    (hs : placeAutoCurves env curve_count curves count asked s = some s') :
    s'._arguments = s._arguments := by
  induction curves generalizing s count asked with
  | nil =>
    simp [placeAutoCurves] at hs
    subst hs
    rfl
  | cons o rest ih =>
    cases o with
    | curve c =>
      unfold placeAutoCurves at hs
      split at hs
      · split at hs
        · cases hs
          rfl
        · split at hs
          · exact absurd hs (by simp)
          · rename_i s2 h2
            exact (ih _ _ _ hs).trans ((placeRelation_arguments _ s2 _ h2).trans rfl)
      · split at hs
        · exact absurd hs (by simp)
        · rename_i s2 h2
          exact (ih _ _ _ hs).trans (placeRelation_arguments _ s2 _ h2)
    | dataVector v => exact ih _ _ _ (by simpa [placeAutoCurves] using hs)
    | psd v => exact ih _ _ _ (by simpa [placeAutoCurves] using hs)
    | histogram v => exact ih _ _ _ (by simpa [placeAutoCurves] using hs)
    | dataMatrix v => exact ih _ _ _ (by simpa [placeAutoCurves] using hs)
    | image v => exact ih _ _ _ (by simpa [placeAutoCurves] using hs)

theorem autoCurvesLoop_arguments (ds : DataSource) (xv : DataVector) (fields : List String)
    (curves : List Object) (s : CommandLineParser) :
    (autoCurvesLoop ds xv fields curves s).2._arguments = s._arguments := by
  induction fields generalizing curves s with
  | nil => rfl
  | cons f rest ih =>
    unfold autoCurvesLoop
    split
    · exact ih _ _
    · exact ih _ _

theorem autoDetectCurves_arguments (s : CommandLineParser) (ds : DataSource) :
    (autoDetectCurves s ds).2._arguments = s._arguments := by
  unfold autoDetectCurves
  split
  · unfold autoCurves
    split
    · rfl
    · exact autoCurvesLoop_arguments _ _ _ _ _
  · rfl

theorem appendFileName_arguments (s : CommandLineParser) (arg : String) :
    (appendFileName s arg)._arguments = s._arguments := by
  unfold appendFileName
  simp only []
  split
  · split <;> rfl
  · rfl

theorem fileArg_arguments (env : Env) (s s' : CommandLineParser) (arg : String)
    (hs : fileArg env s arg = some s') : s'._arguments = s._arguments := by
  unfold fileArg at hs
  split at hs
  · split at hs
    · cases hs
      exact appendFileName_arguments s arg
    · split at hs
      · exact (placeAutoCurves_arguments env _ _ _ _ _ s' hs).trans
          ((autoDetectCurves_arguments _ _).trans (appendFileName_arguments s arg))
      · cases hs
        exact (autoDetectCurves_arguments _ _).trans (appendFileName_arguments s arg)
  · cases hs
    exact appendFileName_arguments s arg

theorem createOrFindPlot_arguments (s : CommandLineParser) (plot_name : String) :
    (createOrFindPlot s plot_name)._arguments = s._arguments := by
  unfold createOrFindPlot
  split
  · rfl
  · simp [applyLabels]

theorem createOrFindTab_arguments (env : Env) (s : CommandLineParser) (name : String) :
    (createOrFindTab env s name)._arguments = s._arguments := by
  unfold createOrFindTab
  split <;> rfl

/-- A turn of the loop takes no argument or one argument from the stream. -/
theorem dispatch_arguments (env : Env) (s s' : CommandLineParser) (arg : String)
    (hs : dispatch env s arg = some s') :
    s'._arguments = s._arguments ∨ s'._arguments = s._arguments.tail := by
  by_cases hmem : arg ∈ optionNames
  swap
  · rw [dispatch_fileArg env s arg hmem] at hs
    exact Or.inl (fileArg_arguments env s s' arg hs)
  simp only [optionNames, List.mem_cons, List.mem_singleton, List.not_mem_nil, or_false] at hmem
  rcases hmem with rfl | rfl | rfl | rfl | rfl | rfl | rfl | rfl | rfl | rfl | rfl | rfl | rfl | rfl | rfl | rfl | rfl | rfl | rfl | rfl | rfl | rfl | rfl | rfl | rfl | rfl | rfl | rfl | rfl | rfl | rfl | rfl
  · rw [dispatch_dd_help] at hs
    simp only [_setIntArg_snd, _setStringArg_snd, _setDoubleArg_snd, Option.some.injEq] at hs
    subst hs
    exact Or.inl rfl
  · rw [dispatch_d_help] at hs
    simp only [_setIntArg_snd, _setStringArg_snd, _setDoubleArg_snd, Option.some.injEq] at hs
    subst hs
    exact Or.inl rfl
  · rw [dispatch_dd_version] at hs
    simp only [_setIntArg_snd, _setStringArg_snd, _setDoubleArg_snd, Option.some.injEq] at hs
    subst hs
    exact Or.inl rfl
  · rw [dispatch_d_version] at hs
    simp only [_setIntArg_snd, _setStringArg_snd, _setDoubleArg_snd, Option.some.injEq] at hs
    subst hs
    exact Or.inl rfl
  · rw [dispatch_d_f] at hs
    simp only [_setIntArg_snd, _setStringArg_snd, _setDoubleArg_snd, Option.some.injEq] at hs
    subst hs
    exact Or.inr rfl
  · rw [dispatch_d_n] at hs
    simp only [_setIntArg_snd, _setStringArg_snd, _setDoubleArg_snd, Option.some.injEq] at hs
    subst hs
    exact Or.inr rfl
  · rw [dispatch_d_s] at hs
    simp only [_setIntArg_snd, _setStringArg_snd, _setDoubleArg_snd, Option.some.injEq] at hs
    subst hs
    exact Or.inr rfl
  · rw [dispatch_d_a] at hs
    simp only [_setIntArg_snd, _setStringArg_snd, _setDoubleArg_snd, Option.some.injEq] at hs
    subst hs
    exact Or.inl rfl
  · rw [dispatch_d_P] at hs
    simp only [Option.some.injEq] at hs
    subst hs
    exact Or.inr ((createOrFindPlot_arguments _ _).trans
      (congrArg CommandLineParser._arguments (_setStringArg_snd s "" _)))
  · rw [dispatch_d_A] at hs
    simp only [_setIntArg_snd, _setStringArg_snd, _setDoubleArg_snd, Option.some.injEq] at hs
    subst hs
    exact Or.inl rfl
  · rw [dispatch_d_T] at hs
    simp only [_setStringArg_snd] at hs
    split at hs
    · simp only [Option.some.injEq] at hs
      subst hs
      exact Or.inr (createOrFindTab_arguments env _ _)
    · simp only [Option.some.injEq] at hs
      subst hs
      exact Or.inr rfl
  · rw [dispatch_d_d] at hs
    simp only [_setIntArg_snd, _setStringArg_snd, _setDoubleArg_snd, Option.some.injEq] at hs
    subst hs
    exact Or.inl rfl
  · rw [dispatch_d_l] at hs
    simp only [_setIntArg_snd, _setStringArg_snd, _setDoubleArg_snd, Option.some.injEq] at hs
    subst hs
    exact Or.inl rfl
  · rw [dispatch_d_b] at hs
    simp only [_setIntArg_snd, _setStringArg_snd, _setDoubleArg_snd, Option.some.injEq] at hs
    subst hs
    exact Or.inl rfl
  · rw [dispatch_d_x] at hs
    simp only [_setIntArg_snd, _setStringArg_snd, _setDoubleArg_snd, Option.some.injEq] at hs
    subst hs
    exact Or.inr rfl
  · rw [dispatch_d_e] at hs
    simp only [_setIntArg_snd, _setStringArg_snd, _setDoubleArg_snd, Option.some.injEq] at hs
    subst hs
    exact Or.inr rfl
  · rw [dispatch_d_r] at hs
    simp only [_setIntArg_snd, _setStringArg_snd, _setDoubleArg_snd, Option.some.injEq] at hs
    subst hs
    exact Or.inr rfl
  · rw [dispatch_d_y] at hs
    simp only [_setStringArg_snd] at hs
    split at hs
    · simp only [Option.some.injEq] at hs
      subst hs
      exact Or.inr rfl
    · split at hs
      · exact absurd hs (by simp)
      · rename_i s2 hy
        simp only [Option.some.injEq] at hs
        subst hs
        exact Or.inr (yLoop_arguments env _ _ _ s2 hy)
  · rw [dispatch_d_p] at hs
    simp only [_setStringArg_snd] at hs
    split at hs
    · split at hs
      · exact absurd hs (by simp)
      · rename_i s2 hy
        simp only [Option.some.injEq] at hs
        subst hs
        exact Or.inr (pLoop_arguments env _ _ _ s2 hy)
    · simp only [Option.some.injEq] at hs
      subst hs
      exact Or.inr rfl
  · rw [dispatch_dd_xlabel] at hs
    simp only [_setIntArg_snd, _setStringArg_snd, _setDoubleArg_snd, Option.some.injEq] at hs
    subst hs
    exact Or.inr rfl
  · rw [dispatch_dd_ylabel] at hs
    simp only [_setIntArg_snd, _setStringArg_snd, _setDoubleArg_snd, Option.some.injEq] at hs
    subst hs
    exact Or.inr rfl
  · rw [dispatch_dd_xlabelauto] at hs
    simp only [_setIntArg_snd, _setStringArg_snd, _setDoubleArg_snd, Option.some.injEq] at hs
    subst hs
    exact Or.inl rfl
  · rw [dispatch_dd_ylabelauto] at hs
    simp only [_setIntArg_snd, _setStringArg_snd, _setDoubleArg_snd, Option.some.injEq] at hs
    subst hs
    exact Or.inl rfl
  · rw [dispatch_d_h] at hs
    simp only [_setStringArg_snd] at hs
    split at hs
    · split at hs
      · exact absurd hs (by simp)
      · rename_i s2 hy
        simp only [Option.some.injEq] at hs
        subst hs
        exact Or.inr (hLoop_arguments env _ _ _ s2 hy)
    · simp only [Option.some.injEq] at hs
      subst hs
      exact Or.inr rfl
  · rw [dispatch_d_z] at hs
    simp only [_setStringArg_snd] at hs
    split at hs
    · split at hs
      · exact absurd hs (by simp)
      · rename_i s2 hy
        simp only [Option.some.injEq] at hs
        subst hs
        exact Or.inr (zLoop_arguments env _ _ _ s2 hy)
    · simp only [Option.some.injEq] at hs
      subst hs
      exact Or.inr rfl
  · rw [dispatch_d_F] at hs
    simp only [_setIntArg_snd, _setStringArg_snd, _setDoubleArg_snd, Option.some.injEq] at hs
    subst hs
    exact Or.inr rfl
  · rw [dispatch_dd_png] at hs
    simp only [_setIntArg_snd, _setStringArg_snd, _setDoubleArg_snd, Option.some.injEq] at hs
    subst hs
    exact Or.inr rfl
  · rw [dispatch_dd_print] at hs
    simp only [_setIntArg_snd, _setStringArg_snd, _setDoubleArg_snd, Option.some.injEq] at hs
    subst hs
    exact Or.inr rfl
  · rw [dispatch_dd_landscape] at hs
    simp only [_setIntArg_snd, _setStringArg_snd, _setDoubleArg_snd, Option.some.injEq] at hs
    subst hs
    exact Or.inl rfl
  · rw [dispatch_dd_portrait] at hs
    simp only [_setIntArg_snd, _setStringArg_snd, _setDoubleArg_snd, Option.some.injEq] at hs
    subst hs
    exact Or.inl rfl
  · rw [dispatch_dd_A4] at hs
    simp only [_setIntArg_snd, _setStringArg_snd, _setDoubleArg_snd, Option.some.injEq] at hs
    subst hs
    exact Or.inl rfl
  · rw [dispatch_dd_letter] at hs
    simp only [_setIntArg_snd, _setStringArg_snd, _setDoubleArg_snd, Option.some.injEq] at hs
    subst hs
    exact Or.inl rfl

theorem dispatch_arguments_length (env : Env) (s s' : CommandLineParser) (arg : String)
    (hs : dispatch env s arg = some s') : s'._arguments.length ≤ s._arguments.length := by
  rcases dispatch_arguments env s s' arg hs with h | h
  · rw [h]
  · rw [h, List.length_tail]
    omega

theorem whileLoop_not_ok (env : Env) (fuel : Nat) (s : CommandLineParser) (h : s.ok = false) :
    whileLoop env fuel s = some s := by
  cases fuel with
  | zero => rfl
  | succ n => simp [whileLoop, h]

/-- With as much fuel as there are arguments the loop runs to its end: it
stops only with `ok = false` or with every argument taken. -/
theorem whileLoop_fuel (env : Env) (fuel : Nat) (s s' : CommandLineParser)
    (hf : s._arguments.length ≤ fuel) (hs : whileLoop env fuel s = some s') :
    s'.ok = false ∨ s'._arguments = [] := by
  induction fuel generalizing s with
  | zero =>
    simp only [whileLoop, Option.some.injEq] at hs
    subst hs
    exact Or.inr (List.length_eq_zero.mp (by omega))
  | succ n ih =>
    unfold whileLoop at hs
    split at hs
    · split at hs
      · rename_i hnil
        cases hs
        exact Or.inr hnil
      · rename_i arg rest hargs
        split at hs
        · exact absurd hs (by simp)
        · rename_i s1 h1
          have hl := dispatch_arguments_length env _ s1 arg h1
          refine ih s1 ?_ hs
          rw [hargs] at hf
          simp only [List.length_cons] at hf
          exact le_trans hl (by simpa using Nat.le_of_succ_le_succ hf)
    · cases hs
      rename_i hok
      exact Or.inl (by simpa using hok)

/-- Claim C8: when the directive `arg` taken from the stream leaves `ok = false`
(`--help` and `--version` always do), the loop of `processCommandLine` returns
exactly the parser that directive left: no further token is taken, the tokens
after the directive and its argument are still in `_arguments`, and running
the loop on from that parser changes nothing.  The loop stops in no other way
than with `ok = false` or an empty stream.  On `-f abc -a` the averaging flag
stays false and `-a` stays in the stream. -/
theorem fail_fast (env : Env) (fuel : Nat) (s s1 : CommandLineParser) (arg : String)
    (rest : List String) (hok : s.ok = true) (hargs : s._arguments = arg :: rest)
    (hd : dispatch env { s with _arguments := rest } arg = some s1) (hfail : s1.ok = false) :
    whileLoop env (fuel + 1) s = some s1 ∧
    (s1._arguments = rest ∨ s1._arguments = rest.tail) ∧
    (∀ fuel', whileLoop env fuel' s1 = some s1) ∧
    (∀ a, (dispatch env a "--help").map (fun t => (t.ok, t._arguments))
        = some (false, a._arguments) ∧
      (dispatch env a "--version").map (fun t => (t.ok, t._arguments))
        = some (false, a._arguments)) ∧
    (∀ a b a', processCommandLine env a = some (b, a') → a'.ok = false ∨ a'._arguments = []) ∧
    (run (sampleEnv false) ["-f", "abc", "-a"]).map
        (fun t => (t.ok, t._doAve, t._arguments)) = some (false, false, ["-a"]) := by
  refine ⟨?_, dispatch_arguments env _ s1 arg hd, fun fuel' => whileLoop_not_ok env fuel' s1 hfail,
    fun a => ⟨by rw [dispatch_dd_help]; rfl, by rw [dispatch_dd_version]; rfl⟩, ?_, by decide⟩
  · rw [whileLoop, if_pos hok, hargs]
    simp only [hd]
    exact whileLoop_not_ok env fuel s1 hfail
  · intro a b a' h
    unfold processCommandLine at h
    simp only [] at h
    split at h
    · exact absurd h (by simp)
    · rename_i s2 h2
      simp only [Option.some.injEq, Prod.mk.injEq] at h
      obtain ⟨_, rfl⟩ := h
      have := whileLoop_fuel env a._arguments.length _ s2 (by exact le_refl _) h2
      split <;> exact this

/-- Witness of claim C8: on `-f abc -a` the loop returns what `-f` left, with
`ok = false`, the averaging flag false and `-a` in the stream. -/
theorem fail_fast_witness :
    whileLoop (sampleEnv false) (2 + 1) (CommandLineParser.new sampleDocument ["-f", "abc", "-a"])
      = dispatch (sampleEnv false) (CommandLineParser.new sampleDocument ["abc", "-a"]) "-f" ∧
    (dispatch (sampleEnv false) (CommandLineParser.new sampleDocument ["abc", "-a"]) "-f").map
      (fun t => (t.ok, t._doAve, t._arguments)) = some (false, false, ["-a"]) := by
  cases h : dispatch (sampleEnv false) (CommandLineParser.new sampleDocument ["abc", "-a"]) "-f"
    with
  | none => exact absurd h (by decide)
  | some s1 =>
    have hfail : s1.ok = false := by
      have : (dispatch (sampleEnv false) (CommandLineParser.new sampleDocument ["abc", "-a"])
        "-f").map (fun t => t.ok) = some false := by decide
      rw [h] at this
      simpa using this
    refine ⟨(fail_fast (sampleEnv false) 2
      (CommandLineParser.new sampleDocument ["-f", "abc", "-a"]) s1 "-f" ["abc", "-a"] rfl rfl
      h hfail).1, ?_⟩
    rw [← h]
    decide

/-! ## Directives without their prerequisites -/

/-- Claim C9 (evaluation of the code): with an empty file list, `-y field`
ends with `ok = false` and the message `No data files specified`, while
`-p field`, `-h field` and `-z field` end with `ok = true` and print nothing;
none of the four creates an object or a plot. -/
theorem no_data_files (env : Env) (doc : Document) (field : String) :
    (processCommandLine env (CommandLineParser.new doc ["-y", field])).map
        (fun r => (r.2.ok, r.2.printed, r.2.objectStore.objects, r.2.plots))
      = some (false, ["No data files specified\n"], doc.objectStore.objects, doc.plots) ∧
    (processCommandLine env (CommandLineParser.new doc ["-p", field])).map
        (fun r => (r.2.ok, r.2.printed, r.2.objectStore.objects, r.2.plots))
      = some (true, [], doc.objectStore.objects, doc.plots) ∧
    (processCommandLine env (CommandLineParser.new doc ["-h", field])).map
        (fun r => (r.2.ok, r.2.printed, r.2.objectStore.objects, r.2.plots))
      = some (true, [], doc.objectStore.objects, doc.plots) ∧
    (processCommandLine env (CommandLineParser.new doc ["-z", field])).map
        (fun r => (r.2.ok, r.2.printed, r.2.objectStore.objects, r.2.plots))
      = some (true, [], doc.objectStore.objects, doc.plots) := by
  refine ⟨?_, ?_, ?_, ?_⟩
  · simp [processCommandLine, whileLoop, CommandLineParser.new, dispatch_d_y, _setStringArg,
      printUsage]
  · simp [processCommandLine, whileLoop, CommandLineParser.new, dispatch_d_p, _setStringArg,
      pLoop]
  · simp [processCommandLine, whileLoop, CommandLineParser.new, dispatch_d_h, _setStringArg,
      hLoop]
  · simp [processCommandLine, whileLoop, CommandLineParser.new, dispatch_d_z, _setStringArg,
      zLoop]

/-! ## Totality of the `-y` loop -/

theorem placeRelation_placeable (s : CommandLineParser) (r : Relation) (h : placeable s) :
    ∃ s', placeRelation s r = some s' ∧ placeable s' ∧ s'.ok = s.ok := by
  by_cases hc : s._doConsecutivePlots = true
  · exact ⟨_, placeRelation_consecutive s r hc, Or.inl hc, rfl⟩
  · have hc' : s._doConsecutivePlots = false := by simpa using hc
    rcases h with h | ⟨p, hp, hlt⟩
    · exact absurd h hc
    · exact ⟨_, placeRelation_pinned s r p hc' hp hlt,
        Or.inr ⟨p, hp, by simpa [updatePlot_length] using hlt⟩, rfl⟩

theorem placeable_of_sameTarget (a s : CommandLineParser) (h : placeable s)
    (ha : sameTarget a s) : placeable a := by
  rcases h with h | ⟨p, hp, hlt⟩
  · exact Or.inl (ha.2.1.trans h)
  · exact Or.inr ⟨p, ha.2.2.trans hp, by rw [ha.1]; exact hlt⟩

theorem createOrFindDataVector_ok (s : CommandLineParser) (field : String) (ds : DataSource) :
    (createOrFindDataVector s field ds).2.ok = s.ok := by
  rw [createOrFindDataVector_snd]

theorem yVectors_ok (s : CommandLineParser) (field : String) (ds : DataSource) :
    (yVectors s field ds).2.2.2.ok = s.ok := by
  unfold yVectors
  simp only []
  split <;> split <;> simp [createOrFindDataVector_ok]

theorem createCurveInPlot_placeable (env : Env) (s a : CommandLineParser) (xv yv : Vector)
    (ev : Option Vector) (h : placeable s) (ha : sameTarget a s) :
    ∃ b, createCurveInPlot env a xv yv ev = some b ∧ placeable b ∧ b.ok = a.ok := by
  unfold createCurveInPlot addCurve
  exact placeRelation_placeable _ _ (placeable_of_sameTarget _ s h ⟨ha.1, ha.2.1, ha.2.2⟩)

/-- The `-y` loop returns when relations can be placed and every existing file
has a source; it never sets `ok` back to true. -/
theorem yLoop_returns (env : Env) (field : String) (files : List String)
    (s : CommandLineParser) (h : placeable s) (hl : loadable env files) :
    ∃ s', yLoop env field files s = some s' ∧ (s.ok = false → s'.ok = false) := by
  induction files generalizing s with
  | nil => exact ⟨s, rfl, id⟩
  | cons file rest ih =>
    unfold yLoop
    by_cases hex : env.fileExists file = false
    · exact ⟨_, by rw [if_pos hex], fun _ => rfl⟩
    · obtain ⟨ds, hds⟩ := hl file (List.mem_cons_self _ _) (by simpa using hex)
      have hv := yVectors_samePlacement s field ds
      obtain ⟨b, hb, hpb, hok⟩ := createCurveInPlot_placeable env s (yVectors s field ds).2.2.2
        (Vector.data (yVectors s field ds).1) (Vector.data (yVectors s field ds).2.1)
        ((yVectors s field ds).2.2.1.map Vector.data) h ⟨hv.1, hv.2.1, hv.2.2.1⟩
      obtain ⟨s', hs', hok'⟩ := ih { b with dataPlotted := true } hpb
        (fun f hf => hl f (List.mem_cons_of_mem _ hf))
      refine ⟨s', ?_, fun h0 => hok' ?_⟩
      · rw [if_neg hex, hds]
        simp only [hb]
        exact hs'
      · show b.ok = false
        rw [hok, yVectors_ok]
        exact h0

theorem pLoop_returns (env : Env) (field : String) (files : List String)
    (s : CommandLineParser) (h : placeable s) (hl : loadable env files) :
    ∃ s', pLoop env field files s = some s' := by
  induction files generalizing s with
  | nil => exact ⟨s, rfl⟩
  | cons file rest ih =>
    unfold pLoop
    by_cases hex : env.fileExists file = false
    · exact ⟨_, by rw [if_pos hex]⟩
    · obtain ⟨ds, hds⟩ := hl file (List.mem_cons_self _ _) (by simpa using hex)
      have hv := pSpectrum_samePlacement s field ds
      obtain ⟨b, hb, hpb, _⟩ := createCurveInPlot_placeable env s (pSpectrum s field ds).2
        (Vector.psdX (pSpectrum s field ds).1.id) (Vector.psdY (pSpectrum s field ds).1.id)
        none h ⟨hv.1, hv.2.1, hv.2.2.1⟩
      obtain ⟨s', hs'⟩ := ih { b with dataPlotted := true } hpb
        (fun f hf => hl f (List.mem_cons_of_mem _ hf))
      refine ⟨s', ?_⟩
      rw [if_neg hex, hds]
      simp only [hb]
      exact hs'

theorem hLoop_returns (env : Env) (field : String) (files : List String)
    (s : CommandLineParser) (h : placeable s) (hl : loadable env files) :
    ∃ s', hLoop env field files s = some s' := by
  induction files generalizing s with
  | nil => exact ⟨s, rfl⟩
  | cons file rest ih =>
    unfold hLoop
    by_cases hex : env.fileExists file = false ∨ env.isFile file = false
    · exact ⟨_, by rw [if_pos hex]⟩
    · obtain ⟨ds, hds⟩ := hl file (List.mem_cons_self _ _) (by
        cases hx : env.fileExists file
        · exact absurd (Or.inl hx) hex
        · rfl)
      have hv := hHistogram_samePlacement s field ds
      obtain ⟨b, hb, hpb, _⟩ := createCurveInPlot_placeable env s (hHistogram s field ds).2
        (Vector.histX (hHistogram s field ds).1.id) (Vector.histY (hHistogram s field ds).1.id)
        none h ⟨hv.1, hv.2.1, hv.2.2.1⟩
      obtain ⟨s', hs'⟩ := ih { b with dataPlotted := true } hpb
        (fun f hf => hl f (List.mem_cons_of_mem _ hf))
      refine ⟨s', ?_⟩
      rw [if_neg hex, hds]
      simp only [hb]
      exact hs'

/-- The `-y` directive returns when relations can be placed and every existing
file of the list has a source. -/
theorem dispatch_y_returns (env : Env) (s : CommandLineParser) (hp : placeable s)
    (hl : loadable env s._fileNames) : ∃ s', dispatch env s "-y" = some s' := by
  rw [dispatch_d_y]
  simp only [_setStringArg_snd]
  split
  · exact ⟨_, rfl⟩
  · obtain ⟨s2, h2, _⟩ := yLoop_returns env (_setStringArg s "" "Usage: -y <fieldname>\n").2.1
      s._fileNames
      { s with
        _arguments := s._arguments.tail
        printed := if s._arguments = [] then s.printed ++ ["Usage: -y <fieldname>\n"]
          else s.printed
        ok := (_setStringArg s "" "Usage: -y <fieldname>\n").1 }
      (placeable_of_sameTarget _ s hp ⟨rfl, rfl, rfl⟩) hl
    split
    · rename_i hnone
      exact absurd (h2.symm.trans hnone) (by simp)
    · exact ⟨_, rfl⟩

/-- The `-p` directive returns under the same conditions. -/
theorem dispatch_p_returns (env : Env) (s : CommandLineParser) (hp : placeable s)
    (hl : loadable env s._fileNames) : ∃ s', dispatch env s "-p" = some s' := by
  rw [dispatch_d_p]
  simp only [_setStringArg_snd]
  split
  · obtain ⟨s2, h2⟩ := pLoop_returns env (_setStringArg s "" "Usage: -p <fieldname>\n").2.1
      s._fileNames
      { s with
        _arguments := s._arguments.tail
        printed := if s._arguments = [] then s.printed ++ ["Usage: -p <fieldname>\n"]
          else s.printed
        ok := (_setStringArg s "" "Usage: -p <fieldname>\n").1 }
      (placeable_of_sameTarget _ s hp ⟨rfl, rfl, rfl⟩) hl
    split
    · rename_i hnone
      exact absurd (h2.symm.trans hnone) (by simp)
    · exact ⟨_, rfl⟩
  · exact ⟨_, rfl⟩

/-- The `-h` directive returns under the same conditions. -/
theorem dispatch_h_returns (env : Env) (s : CommandLineParser) (hp : placeable s)
    (hl : loadable env s._fileNames) : ∃ s', dispatch env s "-h" = some s' := by
  rw [dispatch_d_h]
  simp only [_setStringArg_snd]
  split
  · obtain ⟨s2, h2⟩ := hLoop_returns env (_setStringArg s "" "Usage: -h <fieldname>\n").2.1
      s._fileNames
      { s with
        _arguments := s._arguments.tail
        printed := if s._arguments = [] then s.printed ++ ["Usage: -h <fieldname>\n"]
          else s.printed
        ok := (_setStringArg s "" "Usage: -h <fieldname>\n").1 }
      (placeable_of_sameTarget _ s hp ⟨rfl, rfl, rfl⟩) hl
    split
    · rename_i hnone
      exact absurd (h2.symm.trans hnone) (by simp)
    · exact ⟨_, rfl⟩
  · exact ⟨_, rfl⟩

/-- Claim C5: the directive `-P name` switches consecutive mode off and makes
the plot registered under `name` the current plot (`pinned`).  From then on any
directive other than `-P`, `-A`, `-T` that returns keeps placement pinned to
that plot, creates no plot and changes no other plot (`attaches`: the plots
are the old ones with relations added to plot `p`); a `-y`, `-p` or `-h`
directive returns (when every existing file of the list has a source) and the
curves it creates are exactly the relations it adds to that plot.  On `file.dat -P PlotA -y 1 -y 2` there is one plot, `PlotA`, holding
both curves; on `data.dat -P P1 -y 2 -y 3 -P P2 -y 4` plot `P1` holds the
first two curves and `P2` the third. -/
theorem named_plot_placement (env : Env) (s : CommandLineParser) (name : String)
    (rest : List String) (hargs : s._arguments = name :: rest) :
    (∃ s1 p, dispatch env s "-P" = some s1 ∧ s1._arguments = rest ∧ s1.ok = true ∧
      pinned p s1 ∧ (s1.plots.get? p).map (fun q => q.descriptiveName) = some name ∧
      p ∈ s1._plotItems) ∧
    (∀ p a a' arg, pinned p a → arg ≠ "-P" → arg ≠ "-A" → arg ≠ "-T" →
      dispatch env a arg = some a' →
      ∃ rs, attaches p a a' rs ∧ a'.plots.length = a.plots.length) ∧
    (∀ p a arg, pinned p a → loadable env a._fileNames →
      arg = "-y" ∨ arg = "-p" ∨ arg = "-h" →
      ∃ a' cs, dispatch env a arg = some a' ∧ curvesOf a' = curvesOf a ++ cs ∧
        attaches p a a' (cs.map Relation.curve)) ∧
    (run (sampleEnv false) ["file.dat", "-P", "PlotA", "-y", "1", "-y", "2"]).map
        (fun t => (t.plots.map (fun q => (q.descriptiveName, q.relations.length)),
          decide (t.plots.map (fun q => q.relations) = [(curvesOf t).map Relation.curve])))
      = some ([("PlotA", 2)], true) ∧
    (run (sampleEnv false)
        ["data.dat", "-P", "P1", "-y", "2", "-y", "3", "-P", "P2", "-y", "4"]).map
        (fun t => (t.plots.map (fun q => (q.descriptiveName, q.relations.length)),
          decide (t.plots.map (fun q => q.relations)
            = [((curvesOf t).take 2).map Relation.curve,
                ((curvesOf t).drop 2).map Relation.curve])))
      = some ([("P1", 2), ("P2", 1)], true) := by
  refine ⟨?_, ?_, ?_, by decide, by decide⟩
  · obtain ⟨p, h1, h2, h3, h4, h5⟩ := createOrFindPlot_pinned
      { s with _arguments := rest, ok := true, _doConsecutivePlots := false } name rfl
    refine ⟨_, p, ?_, h4, h5, h1, h2, h3⟩
    rw [dispatch_d_P]
    simp [_setStringArg, hargs]
  · intro p a a' arg hp h1 h2 h3 hs
    obtain ⟨rs, hatt⟩ := dispatch_pinned env p a a' arg hp ⟨h1, h2, h3⟩ hs
    exact ⟨rs, hatt, by rw [hatt.2, updatePlot_length]⟩
  · intro p a arg hp hl harg
    have hpl : placeable a := Or.inr ⟨p, hp.2.1, hp.2.2⟩
    rcases harg with rfl | rfl | rfl
    · obtain ⟨a', ha'⟩ := dispatch_y_returns env a hpl hl
      obtain ⟨cs, h1, h2⟩ := dispatch_y_pinned env p a a' hp ha'
      exact ⟨a', cs, ha', h1, h2⟩
    · obtain ⟨a', ha'⟩ := dispatch_p_returns env a hpl hl
      obtain ⟨cs, h1, h2⟩ := dispatch_p_pinned env p a a' hp ha'
      exact ⟨a', cs, ha', h1, h2⟩
    · obtain ⟨a', ha'⟩ := dispatch_h_returns env a hpl hl
      obtain ⟨cs, h1, h2⟩ := dispatch_h_pinned env p a a' hp ha'
      exact ⟨a', cs, ha', h1, h2⟩

/-- Witness of claim C5: `-P PlotA` on the sample parser pins placement to the plot
named `PlotA`, and the following `-y 1` adds its curve to that plot. -/
theorem named_plot_placement_witness :
    (∃ s1 p, dispatch (sampleEnv false)
        (CommandLineParser.new sampleDocument ["PlotA", "-y", "1"]) "-P" = some s1 ∧
      s1._arguments = ["-y", "1"] ∧ s1.ok = true ∧ pinned p s1 ∧
      (s1.plots.get? p).map (fun q => q.descriptiveName) = some "PlotA" ∧
      p ∈ s1._plotItems) ∧
    pinned 0 afterPlotA ∧ loadable (sampleEnv false) afterPlotA._fileNames ∧
    ∃ a' cs, dispatch (sampleEnv false) afterPlotA "-y" = some a' ∧
      curvesOf a' = curvesOf afterPlotA ++ cs ∧
      attaches 0 afterPlotA a' (cs.map Relation.curve) := by
  have hp : pinned 0 afterPlotA := ⟨by decide, by decide, by decide⟩
  have hl : loadable (sampleEnv false) afterPlotA._fileNames := by
    intro f hf _
    have hf' : f = "file.dat" := by
      have : afterPlotA._fileNames = ["file.dat"] := by decide
      rw [this] at hf
      simpa using hf
    subst hf'
    exact ⟨_, rfl⟩
  exact ⟨(named_plot_placement (sampleEnv false)
    (CommandLineParser.new sampleDocument ["PlotA", "-y", "1"]) "PlotA" ["-y", "1"] rfl).1,
    hp, hl,
    (named_plot_placement (sampleEnv false)
      (CommandLineParser.new sampleDocument ["PlotA", "-y", "1"]) "PlotA" ["-y", "1"]
      rfl).2.2.1 0 afterPlotA "-y" hp hl (Or.inl rfl)⟩


theorem relations_updatePlot (r : Relation) (p : Nat) (l : List PlotItem) (h : p < l.length) :
    ((updatePlot (addRelations [r]) p l).flatMap (fun q => q.relations)).Perm
      (l.flatMap (fun q => q.relations) ++ [r]) := by
  induction l generalizing p with
  | nil => simp at h
  | cons a l ih =>
    cases p with
    | zero =>
      simp only [updatePlot, List.flatMap_cons, addRelations, List.append_assoc]
      exact List.Perm.append_left _ List.perm_append_comm
    | succ p =>
      simp only [updatePlot, List.flatMap_cons, List.append_assoc]
      exact List.Perm.append_left _ (ih p (by simpa using h))

theorem placeRelation_relationsOf (s t : CommandLineParser) (r : Relation)
    (h : placeRelation s r = some t) :
    (relationsOf t).Perm (relationsOf s ++ [r]) ∧ t.objectStore = s.objectStore := by
  by_cases hc : s._doConsecutivePlots = true
  · rw [placeRelation_consecutive s r hc] at h
    cases h
    simp [relationsOf, consecutivePlot]
  · have hc' : s._doConsecutivePlots = false := by simpa using hc
    cases hp : s._plotItem with
    | none => simp [placeRelation, hc', hp] at h
    | some p =>
      by_cases hlt : p < s.plots.length
      · rw [placeRelation_pinned s r p hc' hp hlt] at h
        cases h
        exact ⟨relations_updatePlot r p s.plots hlt, rfl⟩
      · simp [placeRelation, hc', hp, hlt] at h

theorem createCurveInPlot_curvesOf (env : Env) (s t : CommandLineParser) (xv yv : Vector)
    (ev : Option Vector) (h : createCurveInPlot env s xv yv ev = some t) :
    curvesOf t = curvesOf s ++ [newCurve env s xv yv ev] ∧
    (relationsOf t).Perm (relationsOf s ++ [Relation.curve (newCurve env s xv yv ev)]) := by
  unfold createCurveInPlot addCurve at h
  obtain ⟨h1, h2⟩ := placeRelation_relationsOf _ t _ h
  refine ⟨?_, h1⟩
  unfold curvesOf
  rw [h2]
  simp [curvesIn_append, curvesIn_curve]

theorem yLoop_upTo (env : Env) (field : String) (pre tail : List String)
    (s : CommandLineParser) (hpre : ∀ f ∈ pre, env.fileExists f = true)
    (hl : loadable env pre) (h : placeable s) :
    ∃ t cs, yLoop env field pre s = some t ∧
      yLoop env field (pre ++ tail) s = yLoop env field tail t ∧ placeable t ∧
      cs.length = pre.length ∧ curvesOf t = curvesOf s ++ cs ∧
      (relationsOf t).Perm (relationsOf s ++ cs.map Relation.curve) := by
  induction pre generalizing s with
  | nil => exact ⟨s, [], rfl, rfl, h, rfl, by simp, by simp⟩
  | cons file rest ih =>
    have hex : env.fileExists file = true := hpre file (List.mem_cons_self _ _)
    obtain ⟨ds, hds⟩ := hl file (List.mem_cons_self _ _) hex
    have hv := yVectors_samePlacement s field ds
    obtain ⟨b, hb, hpb, -⟩ := createCurveInPlot_placeable env s (yVectors s field ds).2.2.2
      (Vector.data (yVectors s field ds).1) (Vector.data (yVectors s field ds).2.1)
      ((yVectors s field ds).2.2.1.map Vector.data) h ⟨hv.1, hv.2.1, hv.2.2.1⟩
    obtain ⟨hc, hr⟩ := createCurveInPlot_curvesOf env _ b _ _ _ hb
    obtain ⟨t, cs, h1, h2, h3, h4, h5, h6⟩ := ih { b with dataPlotted := true }
      (fun f hf => hpre f (List.mem_cons_of_mem _ hf))
      (fun f hf => hl f (List.mem_cons_of_mem _ hf)) hpb
    have e1 : yLoop env field (file :: rest) s
        = yLoop env field rest { b with dataPlotted := true } := by
      rw [yLoop, if_neg (by simp [hex]), hds]
      simp only [hb]
    have e2 : yLoop env field (file :: rest ++ tail) s
        = yLoop env field (rest ++ tail) { b with dataPlotted := true } := by
      rw [List.cons_append, yLoop, if_neg (by simp [hex]), hds]
      simp only [hb]
    refine ⟨t, newCurve env (yVectors s field ds).2.2.2 (Vector.data (yVectors s field ds).1)
      (Vector.data (yVectors s field ds).2.1) ((yVectors s field ds).2.2.1.map Vector.data) :: cs,
      e1.trans h1, e2.trans h2, h3, by simp [h4], ?_, ?_⟩
    · rw [h5]
      show curvesOf b ++ cs = _
      rw [hc, hv.2.2.2, List.append_assoc]
      rfl
    · refine h6.trans ?_
      show (relationsOf b ++ _).Perm _
      refine (List.Perm.append_right _ hr).trans ?_
      have : relationsOf (yVectors s field ds).2.2.2 = relationsOf s := by
        unfold relationsOf
        rw [hv.1]
      rw [this, List.append_assoc]
      rfl

theorem pLoop_upTo (env : Env) (field : String) (pre tail : List String)
    (s : CommandLineParser) (hpre : ∀ f ∈ pre, env.fileExists f = true)
    (hl : loadable env pre) (h : placeable s) :
    ∃ t cs, pLoop env field pre s = some t ∧
      pLoop env field (pre ++ tail) s = pLoop env field tail t ∧ placeable t ∧
      cs.length = pre.length ∧ curvesOf t = curvesOf s ++ cs ∧
      (relationsOf t).Perm (relationsOf s ++ cs.map Relation.curve) := by
  induction pre generalizing s with
  | nil => exact ⟨s, [], rfl, rfl, h, rfl, by simp, by simp⟩
  | cons file rest ih =>
    have hex := hpre file (List.mem_cons_self _ _)
    obtain ⟨ds, hds⟩ := hl file (List.mem_cons_self _ _) hex
    have hv := pSpectrum_samePlacement s field ds
    obtain ⟨b, hb, hpb, -⟩ := createCurveInPlot_placeable env s (pSpectrum s field ds).2
      (Vector.psdX (pSpectrum s field ds).1.id) (Vector.psdY (pSpectrum s field ds).1.id)
      none h ⟨hv.1, hv.2.1, hv.2.2.1⟩
    obtain ⟨hc, hr⟩ := createCurveInPlot_curvesOf env _ b _ _ _ hb
    obtain ⟨t, cs, h1, h2, h3, h4, h5, h6⟩ := ih { b with dataPlotted := true }
      (fun f hf => hpre f (List.mem_cons_of_mem _ hf))
      (fun f hf => hl f (List.mem_cons_of_mem _ hf)) hpb
    have e1 : pLoop env field (file :: rest) s
        = pLoop env field rest { b with dataPlotted := true } := by
      rw [pLoop, if_neg (by simp [hex]), hds]
      simp only [hb]
    have e2 : pLoop env field (file :: rest ++ tail) s
        = pLoop env field (rest ++ tail) { b with dataPlotted := true } := by
      rw [List.cons_append, pLoop, if_neg (by simp [hex]), hds]
      simp only [hb]
    refine ⟨t, newCurve env (pSpectrum s field ds).2 (Vector.psdX (pSpectrum s field ds).1.id)
      (Vector.psdY (pSpectrum s field ds).1.id) none :: cs, e1.trans h1, e2.trans h2, h3,
      by simp [h4], ?_, ?_⟩
    · rw [h5]
      show curvesOf b ++ cs = _
      rw [hc, hv.2.2.2, List.append_assoc]
      rfl
    · refine h6.trans ?_
      show (relationsOf b ++ _).Perm _
      refine (List.Perm.append_right _ hr).trans ?_
      have : relationsOf (pSpectrum s field ds).2 = relationsOf s := by
        unfold relationsOf
        rw [hv.1]
      rw [this, List.append_assoc]
      rfl

theorem hLoop_upTo (env : Env) (field : String) (pre tail : List String)
    (s : CommandLineParser) (hpre : ∀ f ∈ pre, env.fileExists f = true ∧ env.isFile f = true)
    (hl : loadable env pre) (h : placeable s) :
    ∃ t cs, hLoop env field pre s = some t ∧
      hLoop env field (pre ++ tail) s = hLoop env field tail t ∧ placeable t ∧
      cs.length = pre.length ∧ curvesOf t = curvesOf s ++ cs ∧
      (relationsOf t).Perm (relationsOf s ++ cs.map Relation.curve) := by
  induction pre generalizing s with
  | nil => exact ⟨s, [], rfl, rfl, h, rfl, by simp, by simp⟩
  | cons file rest ih =>
    have hex := hpre file (List.mem_cons_self _ _)
    obtain ⟨ds, hds⟩ := hl file (List.mem_cons_self _ _) hex.1
    have hv := hHistogram_samePlacement s field ds
    obtain ⟨b, hb, hpb, -⟩ := createCurveInPlot_placeable env s (hHistogram s field ds).2
      (Vector.histX (hHistogram s field ds).1.id) (Vector.histY (hHistogram s field ds).1.id)
      none h ⟨hv.1, hv.2.1, hv.2.2.1⟩
    obtain ⟨hc, hr⟩ := createCurveInPlot_curvesOf env _ b _ _ _ hb
    obtain ⟨t, cs, h1, h2, h3, h4, h5, h6⟩ := ih { b with dataPlotted := true }
      (fun f hf => hpre f (List.mem_cons_of_mem _ hf))
      (fun f hf => hl f (List.mem_cons_of_mem _ hf)) hpb
    have e1 : hLoop env field (file :: rest) s
        = hLoop env field rest { b with dataPlotted := true } := by
      rw [hLoop, if_neg (by simp [hex]), hds]
      simp only [hb]
    have e2 : hLoop env field (file :: rest ++ tail) s
        = hLoop env field (rest ++ tail) { b with dataPlotted := true } := by
      rw [List.cons_append, hLoop, if_neg (by simp [hex]), hds]
      simp only [hb]
    refine ⟨t, newCurve env (hHistogram s field ds).2 (Vector.histX (hHistogram s field ds).1.id)
      (Vector.histY (hHistogram s field ds).1.id) none :: cs, e1.trans h1, e2.trans h2, h3,
      by simp [h4], ?_, ?_⟩
    · rw [h5]
      show curvesOf b ++ cs = _
      rw [hc, hv.2.2.2, List.append_assoc]
      rfl
    · refine h6.trans ?_
      show (relationsOf b ++ _).Perm _
      refine (List.Perm.append_right _ hr).trans ?_
      have : relationsOf (hHistogram s field ds).2 = relationsOf s := by
        unfold relationsOf
        rw [hv.1]
      rw [this, List.append_assoc]
      rfl

theorem createImageInPlot_imagesOf (s t : CommandLineParser) (m : DataMatrix)
    (h : createImageInPlot s m = some t) :
    imagesOf t = imagesOf s ++ [{ id := s.objectStore.objects.length, matrix := m }] ∧
    curvesOf t = curvesOf s ∧
    (relationsOf t).Perm (relationsOf s ++
      [Relation.image { id := s.objectStore.objects.length, matrix := m }]) := by
  unfold createImageInPlot at h
  obtain ⟨h1, h2⟩ := placeRelation_relationsOf _ t _ h
  refine ⟨?_, ?_, h1⟩
  · unfold imagesOf
    rw [h2]
    simp [List.filterMap_append]
  · unfold curvesOf
    rw [h2]
    simp [curvesIn_append, curvesIn]

theorem zLoop_upTo (env : Env) (field : String) (pre tail : List String)
    (s : CommandLineParser) (hpre : ∀ f ∈ pre, env.fileExists f = true ∧ env.isFile f = true)
    (hl : loadable env pre) (h : placeable s) :
    ∃ t is, zLoop env field pre s = some t ∧
      zLoop env field (pre ++ tail) s = zLoop env field tail t ∧ placeable t ∧
      is.length = pre.length ∧ imagesOf t = imagesOf s ++ is ∧ curvesOf t = curvesOf s ∧
      (relationsOf t).Perm (relationsOf s ++ is.map Relation.image) := by
  induction pre generalizing s with
  | nil => exact ⟨s, [], rfl, rfl, h, rfl, by simp, rfl, by simp⟩
  | cons file rest ih =>
    have hex := hpre file (List.mem_cons_self _ _)
    obtain ⟨ds, hds⟩ := hl file (List.mem_cons_self _ _) hex.1
    obtain ⟨b, hb, hpb, -⟩ := placeRelation_placeable
      { s with objectStore := { s.objectStore with
          objects := s.objectStore.objects ++
            [Object.dataMatrix (newDataMatrix s field ds)] ++
            [Object.image (Image.mk (s.objectStore.objects ++
              [Object.dataMatrix (newDataMatrix s field ds)]).length (newDataMatrix s field ds))] } }
      (Relation.image (Image.mk (s.objectStore.objects ++
              [Object.dataMatrix (newDataMatrix s field ds)]).length (newDataMatrix s field ds))) h
    have hb' : createImageInPlot
        { s with objectStore := { s.objectStore with
            objects := s.objectStore.objects ++
              [Object.dataMatrix (newDataMatrix s field ds)] } }
        (newDataMatrix s field ds) = some b := hb
    obtain ⟨hi, hc, hr⟩ := createImageInPlot_imagesOf _ b _ hb'
    obtain ⟨t, is, h1, h2, h3, h4, h5, h5c, h6⟩ := ih b
      (fun f hf => hpre f (List.mem_cons_of_mem _ hf))
      (fun f hf => hl f (List.mem_cons_of_mem _ hf)) hpb
    have e1 : zLoop env field (file :: rest) s = zLoop env field rest b := by
      rw [zLoop, if_neg (by simp [hex]), hds]
      simp only [hb']
    have e2 : zLoop env field (file :: rest ++ tail) s = zLoop env field (rest ++ tail) b := by
      rw [List.cons_append, zLoop, if_neg (by simp [hex]), hds]
      simp only [hb']
    refine ⟨t, (Image.mk (s.objectStore.objects ++
              [Object.dataMatrix (newDataMatrix s field ds)]).length (newDataMatrix s field ds)) :: is, e1.trans h1, e2.trans h2, h3,
      by simp [h4], ?_, ?_, ?_⟩
    · rw [h5, hi, List.append_assoc]
      simp [imagesOf, List.filterMap_append]
    · rw [h5c, hc]
      simp [curvesOf, curvesIn_append, curvesIn]
    · refine h6.trans ?_
      refine (List.Perm.append_right _ hr).trans ?_
      rw [List.append_assoc]
      rfl

theorem stoppedAfter_intro (env : Env) (t0 t : CommandLineParser) (h : t.ok = false)
    (h1 : t.objectStore = t0.objectStore) (h2 : t.plots = t0.plots)
    (h3 : t._vectors = t0._vectors) (h4 : t._plotItems = t0._plotItems)
    (h5 : t.tabWidget = t0.tabWidget) : stoppedAfter env t0 t :=
  ⟨h, fun fuel => whileLoop_not_ok env fuel t h, h1, h2, h3, h4, h5⟩

theorem dispatch_y_stops (env : Env) (s t0 : CommandLineParser) (field fk : String)
    (rest pre post : List String)
    (hargs : s._arguments = field :: rest) (hfiles : s._fileNames = pre ++ fk :: post)
    (hk : env.fileExists fk = false)
    (h2 : yLoop env field (pre ++ fk :: post) { s with _arguments := rest, ok := true }
      = yLoop env field (fk :: post) t0) :
    ∃ t, dispatch env s "-y" = some t ∧ stoppedAfter env t0 t := by
  refine ⟨{ printUsage t0 ("file " ++ fk ++ " does not exist\n") with
      ok := false
      _errorField := ""
      new_fileList := true
      _overrideStyle := false }, ?_, stoppedAfter_intro env _ _ rfl rfl rfl rfl rfl rfl⟩
  have h3 : yLoop env field (fk :: post) t0
      = some { printUsage t0 ("file " ++ fk ++ " does not exist\n") with ok := false } := by
    rw [yLoop, if_pos hk]
  rw [h3, ← hfiles] at h2
  rw [dispatch_d_y]
  simp only [_setStringArg, hargs]
  rw [if_neg (by rw [hfiles]; simp), h2]

theorem dispatch_p_stops (env : Env) (s t0 : CommandLineParser) (field fk : String)
    (rest pre post : List String)
    (hargs : s._arguments = field :: rest) (hfiles : s._fileNames = pre ++ fk :: post)
    (hk : env.fileExists fk = false)
    (h2 : pLoop env field (pre ++ fk :: post) { s with _arguments := rest, ok := true }
      = pLoop env field (fk :: post) t0) :
    ∃ t, dispatch env s "-p" = some t ∧ stoppedAfter env t0 t := by
  refine ⟨{ printUsage t0 ("file " ++ fk ++ " does not exist\n") with
      ok := false
      new_fileList := true
      _overrideStyle := false }, ?_, stoppedAfter_intro env _ _ rfl rfl rfl rfl rfl rfl⟩
  have h3 : pLoop env field (fk :: post) t0
      = some { printUsage t0 ("file " ++ fk ++ " does not exist\n") with ok := false } := by
    rw [pLoop, if_pos hk]
  rw [h3, ← hfiles] at h2
  rw [dispatch_d_p]
  simp only [_setStringArg, hargs]
  rw [if_pos trivial, h2]

theorem dispatch_h_stops (env : Env) (s t0 : CommandLineParser) (field fk : String)
    (rest pre post : List String)
    (hargs : s._arguments = field :: rest) (hfiles : s._fileNames = pre ++ fk :: post)
    (hk : env.fileExists fk = false ∨ env.isFile fk = false)
    (h2 : hLoop env field (pre ++ fk :: post) { s with _arguments := rest, ok := true }
      = hLoop env field (fk :: post) t0) :
    ∃ t, dispatch env s "-h" = some t ∧ stoppedAfter env t0 t := by
  refine ⟨{ printUsage t0 ("file " ++ fk ++ " does not exist\n") with
      ok := false
      new_fileList := true
      _overrideStyle := false }, ?_, stoppedAfter_intro env _ _ rfl rfl rfl rfl rfl rfl⟩
  have h3 : hLoop env field (fk :: post) t0
      = some { printUsage t0 ("file " ++ fk ++ " does not exist\n") with ok := false } := by
    rw [hLoop, if_pos hk]
  rw [h3, ← hfiles] at h2
  rw [dispatch_d_h]
  simp only [_setStringArg, hargs]
  rw [if_pos trivial, h2]

theorem dispatch_z_stops (env : Env) (s t0 : CommandLineParser) (field fk : String)
    (rest pre post : List String)
    (hargs : s._arguments = field :: rest) (hfiles : s._fileNames = pre ++ fk :: post)
    (hk : env.fileExists fk = false ∨ env.isFile fk = false)
    (h2 : zLoop env field (pre ++ fk :: post) { s with _arguments := rest, ok := true }
      = zLoop env field (fk :: post) t0) :
    ∃ t, dispatch env s "-z" = some t ∧ stoppedAfter env t0 t := by
  refine ⟨{ printUsage t0 ("file " ++ fk ++ " does not exist\n") with
      ok := false
      new_fileList := true
      dataPlotted := true }, ?_, stoppedAfter_intro env _ _ rfl rfl rfl rfl rfl rfl⟩
  have h3 : zLoop env field (fk :: post) t0
      = some { printUsage t0 ("file " ++ fk ++ " does not exist\n") with ok := false } := by
    rw [zLoop, if_pos hk]
  rw [h3, ← hfiles] at h2
  rw [dispatch_d_z]
  simp only [_setStringArg, hargs]
  rw [if_pos trivial, h2]

/-- Claim C12, amended: let the file list be `pre ++ fk :: post`, let every
file of `pre` exist and have a source, and let relations be placeable.  When
`fk` does not exist, `-y field` and `-p field` return a state `t` with
`ok = false` in which the loop of `processCommandLine` ends; exactly
`pre.length` curves were created, each one placed in a plot; the objects, the
plots and the vector cache are those left by the loop over `pre` alone, so that
nothing is created for `fk` or a file of `post`.  The same holds for `-h` and,
with images in place of curves, for `-z`, where the files of `pre` are regular
files and `fk` is the first file that does not exist or is not a regular
file. -/
theorem missing_file_mid_batch (env : Env) (s : CommandLineParser) (field fk : String)
    (rest pre post : List String)
    (hargs : s._arguments = field :: rest) (hfiles : s._fileNames = pre ++ fk :: post)
    (hpre : ∀ f ∈ pre, env.fileExists f = true) (hload : loadable env pre)
    (hplace : placeable s) :
    (env.fileExists fk = false →
      (∃ t0 cs t, yLoop env field pre { s with _arguments := rest, ok := true } = some t0 ∧
        dispatch env s "-y" = some t ∧ stoppedAfter env t0 t ∧ cs.length = pre.length ∧
        curvesOf t = curvesOf s ++ cs ∧
        (relationsOf t).Perm (relationsOf s ++ cs.map Relation.curve)) ∧
      (∃ t0 cs t, pLoop env field pre { s with _arguments := rest, ok := true } = some t0 ∧
        dispatch env s "-p" = some t ∧ stoppedAfter env t0 t ∧ cs.length = pre.length ∧
        curvesOf t = curvesOf s ++ cs ∧
        (relationsOf t).Perm (relationsOf s ++ cs.map Relation.curve))) ∧
    ((∀ f ∈ pre, env.isFile f = true) → (env.fileExists fk = false ∨ env.isFile fk = false) →
      (∃ t0 cs t, hLoop env field pre { s with _arguments := rest, ok := true } = some t0 ∧
        dispatch env s "-h" = some t ∧ stoppedAfter env t0 t ∧ cs.length = pre.length ∧
        curvesOf t = curvesOf s ++ cs ∧
        (relationsOf t).Perm (relationsOf s ++ cs.map Relation.curve)) ∧
      (∃ t0 is t, zLoop env field pre { s with _arguments := rest, ok := true } = some t0 ∧
        dispatch env s "-z" = some t ∧ stoppedAfter env t0 t ∧ is.length = pre.length ∧
        imagesOf t = imagesOf s ++ is ∧ curvesOf t = curvesOf s ∧
        (relationsOf t).Perm (relationsOf s ++ is.map Relation.image))) := by
  refine ⟨fun hk => ⟨?_, ?_⟩, fun hfile hk => ⟨?_, ?_⟩⟩
  · obtain ⟨t0, cs, h1, h2, -, h4, h5, h6⟩ := yLoop_upTo env field pre (fk :: post)
      { s with _arguments := rest, ok := true } hpre hload hplace
    obtain ⟨t, ht, hst⟩ := dispatch_y_stops env s t0 field fk rest pre post hargs hfiles hk h2
    refine ⟨t0, cs, t, h1, ht, hst, h4, ?_, ?_⟩
    · unfold curvesOf
      rw [hst.2.2.1]
      exact h5
    · unfold relationsOf
      rw [hst.2.2.2.1]
      exact h6
  · obtain ⟨t0, cs, h1, h2, -, h4, h5, h6⟩ := pLoop_upTo env field pre (fk :: post)
      { s with _arguments := rest, ok := true } hpre hload hplace
    obtain ⟨t, ht, hst⟩ := dispatch_p_stops env s t0 field fk rest pre post hargs hfiles hk h2
    refine ⟨t0, cs, t, h1, ht, hst, h4, ?_, ?_⟩
    · unfold curvesOf
      rw [hst.2.2.1]
      exact h5
    · unfold relationsOf
      rw [hst.2.2.2.1]
      exact h6
  · obtain ⟨t0, cs, h1, h2, -, h4, h5, h6⟩ := hLoop_upTo env field pre (fk :: post)
      { s with _arguments := rest, ok := true } (fun f hf => ⟨hpre f hf, hfile f hf⟩) hload hplace
    obtain ⟨t, ht, hst⟩ := dispatch_h_stops env s t0 field fk rest pre post hargs hfiles hk h2
    refine ⟨t0, cs, t, h1, ht, hst, h4, ?_, ?_⟩
    · unfold curvesOf
      rw [hst.2.2.1]
      exact h5
    · unfold relationsOf
      rw [hst.2.2.2.1]
      exact h6
  · obtain ⟨t0, is, h1, h2, -, h4, h5, h5c, h6⟩ := zLoop_upTo env field pre (fk :: post)
      { s with _arguments := rest, ok := true } (fun f hf => ⟨hpre f hf, hfile f hf⟩) hload hplace
    obtain ⟨t, ht, hst⟩ := dispatch_z_stops env s t0 field fk rest pre post hargs hfiles hk h2
    refine ⟨t0, is, t, h1, ht, hst, h4, ?_, ?_, ?_⟩
    · unfold imagesOf
      rw [hst.2.2.1]
      exact h5
    · unfold curvesOf
      rw [hst.2.2.1]
      exact h5c
    · unfold relationsOf
      rw [hst.2.2.2.1]
      exact h6

/-- Claim C12 as stated fails for `-h`: in `file.dat dir nofile.dat -h 1` the
first file that does not exist is the third one, yet the directive stops at
`dir`, which exists and is not a regular file, after one curve instead of two. -/
theorem missing_file_mid_batch_counterexample :
    dirEnv.fileExists "file.dat" = true ∧ dirEnv.fileExists "dir" = true ∧
    dirEnv.fileExists "nofile.dat" = false ∧
    (processCommandLine dirEnv
        (CommandLineParser.new sampleDocument ["file.dat", "dir", "nofile.dat", "-h", "1"])).map
      (fun r => (r.2.ok, (curvesOf r.2).length, r.2.printed))
      = some (false, 1, ["file dir does not exist\n"]) := by
  refine ⟨by decide, by decide, by decide, by decide⟩

/-- Witness of claim C12: the file list `file.dat nofile.dat data.dat` with the
field `1` still to be read; and the run `file.dat nofile.dat data.dat -y 1`
creates one curve, the two vectors of `file.dat` and one plot. -/
theorem missing_file_mid_batch_witness :
    (∃ t, dispatch (sampleEnv false)
        { CommandLineParser.new sampleDocument ["1"] with
          _fileNames := ["file.dat", "nofile.dat", "data.dat"] } "-y" = some t ∧
      t.ok = false ∧ (curvesOf t).length = 1) ∧
    (run (sampleEnv false) ["file.dat", "nofile.dat", "data.dat", "-y", "1"]).map
      (fun t => (t.ok, (curvesOf t).length, t.plots.length, t.printed))
      = some (false, 1, 1, ["file nofile.dat does not exist\n"]) ∧
    (run (sampleEnv false) ["file.dat", "nofile.dat", "data.dat", "-y", "1"]).map
      (fun t => (dataVectorsOf t).map (fun v => (v.filename, v.field)))
      = some [("file.dat", "INDEX"), ("file.dat", "Column 1")] := by
  refine ⟨?_, by decide, by decide⟩
  obtain ⟨t0, cs, t, -, ht, hst, hcs, hc, -⟩ := ((missing_file_mid_batch (sampleEnv false)
    { CommandLineParser.new sampleDocument ["1"] with
      _fileNames := ["file.dat", "nofile.dat", "data.dat"] } "1" "nofile.dat" []
    ["file.dat"] ["data.dat"] rfl rfl (by decide)
    (fun f hf _ => ⟨sampleSource f ["INDEX", "Column 1", "Column 2", "Column 3", "Column 4"], by
      rw [List.mem_singleton] at hf
      subst hf
      rfl⟩) (Or.inl rfl)).1 (by decide)).1
  exact ⟨t, ht, hst.1, by rw [hc, List.length_append, hcs]; rfl⟩

/-! ## Directives whose token is missing -/

/-- Claim C14 (evaluation of the code): `-p`, `-h` and `-z` as last token fail
and leave the objects, the plots and the tabs of the document as they were,
but `-P` as last token fails and still registers a new plot with the empty
name and makes it the current plot with consecutive mode off, `-T` as last
token fails and still gives the current tab the empty name, and
`file.dat -y` fails and still creates the vectors `INDEX` and the empty
field, one curve and one plot. -/
theorem missing_token_effects (env : Env) (doc : Document) :
    (∀ flag ∈ ["-p", "-h", "-z"],
      (processCommandLine env (CommandLineParser.new doc [flag])).map
        (fun r => (r.2.ok, r.2.objectStore, r.2.plots, r.2.tabWidget, r.2._plotItems))
        = some (false, doc.objectStore, doc.plots, doc.tabWidget, [])) ∧
    (processCommandLine env (CommandLineParser.new doc ["-P"])).map
        (fun r => (r.2.ok, r.2.plots, r.2._plotItems, r.2._plotItem, r.2._doConsecutivePlots))
      = some (false,
          doc.plots ++ [{ descriptiveName := "", view := doc.tabWidget.currentIndex,
                          relations := [], bottomLabel := none, leftLabel := none }],
          [doc.plots.length], some doc.plots.length, false) ∧
    (processCommandLine env (CommandLineParser.new doc ["-T"])).map
        (fun r => (r.2.ok, r.2.tabWidget))
      = some (false, { doc.tabWidget with
          tabs := doc.tabWidget.tabs.set doc.tabWidget.currentIndex "" }) ∧
    (run (sampleEnv false) ["-T"]).map (fun t => (t.ok, t.tabWidget.tabs)) = some (false, [""]) ∧
    (run (sampleEnv false) ["file.dat", "-y"]).map
        (fun t => (t.ok, (dataVectorsOf t).map (fun v => (v.filename, v.field)),
          (curvesOf t).length, t.plots.length))
      = some (false, [("file.dat", "INDEX"), ("file.dat", "")], 1, 1) ∧
    (run (sampleEnv false) ["file.dat", "-p"]).map
        (fun t => (t.ok, (dataVectorsOf t).map (fun v => (v.filename, v.field)),
          (curvesOf t).length, t.plots.length))
      = some (false, [], 0, 0) := by
  refine ⟨?_, ?_, ?_, by decide, by decide, by decide⟩
  · intro flag hf
    simp only [List.mem_cons, List.mem_singleton, List.not_mem_nil, or_false] at hf
    rcases hf with rfl | rfl | rfl
    · simp [processCommandLine, whileLoop, CommandLineParser.new, dispatch_d_p, _setStringArg,
        printUsage]
    · simp [processCommandLine, whileLoop, CommandLineParser.new, dispatch_d_h, _setStringArg,
        printUsage]
    · simp [processCommandLine, whileLoop, CommandLineParser.new, dispatch_d_z, _setStringArg,
        printUsage]
  · simp [processCommandLine, whileLoop, CommandLineParser.new, dispatch_d_P, _setStringArg,
      printUsage, createOrFindPlot, applyLabels, updatePlot_append_last]
  · simp [processCommandLine, whileLoop, CommandLineParser.new, dispatch_d_T, _setStringArg,
      printUsage, setCurrentViewName]

/-! ## The X field and the file list -/

theorem yVectors_fst (s : CommandLineParser) (field : String) (ds : DataSource) :
    (yVectors s field ds).1.filename = ds.fileName ∧
    (yVectors s field ds).2.1.filename = ds.fileName := by
  unfold yVectors
  simp only []
  split <;> exact ⟨createOrFindDataVector_filename _ _ _, createOrFindDataVector_filename _ _ _⟩

theorem yLoop_sameFile (env : Env) (field : String) (files : List String)
    (s s' : CommandLineParser) (hs : yLoop env field files s = some s') :
    ∃ cs, curvesOf s' = curvesOf s ++ cs ∧
      ∀ c ∈ cs, ∃ file ∈ files, ∃ ds, env.findOrLoadSource file = some ds ∧
        vectorFile c.xVector = some ds.fileName ∧ vectorFile c.yVector = some ds.fileName := by
  induction files generalizing s with
  | nil =>
    simp only [yLoop, Option.some.injEq] at hs
    subst hs
    exact ⟨[], by simp, by simp⟩
  | cons file rest ih =>
    unfold yLoop at hs
    split at hs
    · cases hs
      exact ⟨[], by simp [curvesOf, printUsage], by simp⟩
    · split at hs
      · exact absurd hs (by simp)
      · rename_i ds hds
        split at hs
        · exact absurd hs (by simp)
        · rename_i b hb
          obtain ⟨hc, -⟩ := createCurveInPlot_curvesOf env _ b _ _ _ hb
          obtain ⟨cs, h1, h2⟩ := ih _ hs
          refine ⟨newCurve env (yVectors s field ds).2.2.2 (Vector.data (yVectors s field ds).1)
            (Vector.data (yVectors s field ds).2.1)
            ((yVectors s field ds).2.2.1.map Vector.data) :: cs, ?_, ?_⟩
          · rw [h1]
            show curvesOf b ++ cs = _
            rw [hc, (yVectors_samePlacement s field ds).2.2.2, List.append_assoc]
            rfl
          · intro c hcm
            rcases List.mem_cons.1 hcm with rfl | hcm
            · exact ⟨file, List.mem_cons_self _ _, ds, hds,
                congrArg some (yVectors_fst s field ds).1,
                congrArg some (yVectors_fst s field ds).2⟩
            · obtain ⟨f, hf, d, hd, hx, hy⟩ := h2 c hcm
              exact ⟨f, List.mem_cons_of_mem _ hf, d, hd, hx, hy⟩

/-- Claim C15 (evaluation of the code): `-x field` only stores the name of the
X field; every curve a `-y` directive creates takes its X vector and its Y
vector from the source of one and the same file of the list.  The tokens
`data1.dat -x 1 data2.dat -y 1` of the usage text end with the file list
`data1.dat data2.dat` and two curves, one with X and Y from `data1.dat` and one
with X and Y from `data2.dat`. -/
theorem usage_cross_file_x (env : Env) (field : String) (files : List String)
    (s s' : CommandLineParser) (hs : yLoop env field files s = some s') :
    (∀ tok rest, dispatch env { s with _arguments := tok :: rest } "-x"
      = some { s with _arguments := rest, ok := true, _xField := tok }) ∧
    (∃ cs, curvesOf s' = curvesOf s ++ cs ∧
      ∀ c ∈ cs, ∃ file ∈ files, ∃ ds, env.findOrLoadSource file = some ds ∧
        vectorFile c.xVector = some ds.fileName ∧ vectorFile c.yVector = some ds.fileName) ∧
    (run (sampleEnv false) ["data1.dat", "-x", "1", "data2.dat", "-y", "1"]).map
        (fun t => (t.ok, t._fileNames,
          (curvesOf t).map (fun c => (vectorFile c.xVector, vectorFile c.yVector))))
      = some (true, ["data1.dat", "data2.dat"],
          [(some "data1.dat", some "data1.dat"), (some "data2.dat", some "data2.dat")]) := by
  refine ⟨fun tok rest => ?_, yLoop_sameFile env field files s s' hs, by decide⟩
  simp [dispatch_d_x, _setStringArg]

/-- Witness of claim C15: the `-y` loop for the field `1` over the file list
`data1.dat data2.dat` with the X field `1`. -/
theorem usage_cross_file_x_witness :
    ∃ s', yLoop (sampleEnv false) "1" ["data1.dat", "data2.dat"]
        { CommandLineParser.new sampleDocument [] with _xField := "1" } = some s' ∧
      ∃ cs, curvesOf s' = [] ++ cs ∧
        ∀ c ∈ cs, ∃ file ∈ ["data1.dat", "data2.dat"], ∃ ds,
          (sampleEnv false).findOrLoadSource file = some ds ∧
          vectorFile c.xVector = some ds.fileName ∧ vectorFile c.yVector = some ds.fileName := by
  cases h : yLoop (sampleEnv false) "1" ["data1.dat", "data2.dat"]
      { CommandLineParser.new sampleDocument [] with _xField := "1" } with
  | none => exact absurd h (by decide)
  | some s' => exact ⟨s', rfl, (usage_cross_file_x (sampleEnv false) "1"
      ["data1.dat", "data2.dat"] _ s' h).2.1⟩

/-! ## The file list -/

theorem placeRelation_footprint (s t : CommandLineParser) (r : Relation)
    (h : placeRelation s r = some t) :
    ∃ plots pi, t = { s with plots := plots, _plotItem := pi } := by
  by_cases hc : s._doConsecutivePlots = true
  · rw [placeRelation_consecutive s r hc] at h
    cases h
    exact ⟨_, _, rfl⟩
  · have hc' : s._doConsecutivePlots = false := by simpa using hc
    cases hp : s._plotItem with
    | none => simp [placeRelation, hc', hp] at h
    | some p =>
      by_cases hlt : p < s.plots.length
      · rw [placeRelation_pinned s r p hc' hp hlt] at h
        cases h
        exact ⟨_, some p, by rw [← hp]⟩
      · simp [placeRelation, hc', hp, hlt] at h

theorem createCurveInPlot_footprint (env : Env) (s t : CommandLineParser) (xv yv : Vector)
    (ev : Option Vector) (h : createCurveInPlot env s xv yv ev = some t) :
    ∃ plots pi, t = { s with
      objectStore := { s.objectStore with
        objects := s.objectStore.objects ++ [Object.curve (newCurve env s xv yv ev)] }
      colorSequence := s.colorSequence + 1
      plots := plots
      _plotItem := pi } := by
  unfold createCurveInPlot addCurve at h
  obtain ⟨plots, pi, h1⟩ := placeRelation_footprint _ t _ h
  exact ⟨plots, pi, h1⟩

theorem createImageInPlot_footprint (s t : CommandLineParser) (m : DataMatrix)
    (h : createImageInPlot s m = some t) :
    ∃ plots pi, t = { s with
      objectStore := { s.objectStore with
        objects := s.objectStore.objects ++
          [Object.image (Image.mk s.objectStore.objects.length m)] }
      plots := plots
      _plotItem := pi } := by
  unfold createImageInPlot at h
  obtain ⟨plots, pi, h1⟩ := placeRelation_footprint _ t _ h
  exact ⟨plots, pi, h1⟩

theorem createOrFindDataVector_fileList (s : CommandLineParser) (field : String)
    (ds : DataSource) : fileList (createOrFindDataVector s field ds).2 = fileList s := by
  rw [createOrFindDataVector_snd]
  rfl

theorem yVectors_fileList (s : CommandLineParser) (field : String) (ds : DataSource) :
    fileList (yVectors s field ds).2.2.2 = fileList s := by
  unfold yVectors
  simp only []
  split <;> split <;> simp [fileList, createOrFindDataVector_snd]

theorem pSpectrum_fileList (s : CommandLineParser) (field : String) (ds : DataSource) :
    fileList (pSpectrum s field ds).2 = fileList s := by
  unfold pSpectrum
  simp only []
  split <;> simp [fileList, createOrFindDataVector_snd]

theorem hHistogram_fileList (s : CommandLineParser) (field : String) (ds : DataSource) :
    fileList (hHistogram s field ds).2 = fileList s := by
  unfold hHistogram
  simp only []
  split <;> simp [fileList, createOrFindDataVector_snd]

theorem createCurveInPlot_fileList (env : Env) (s t : CommandLineParser) (xv yv : Vector)
    (ev : Option Vector) (h : createCurveInPlot env s xv yv ev = some t) :
    fileList t = fileList s := by
  obtain ⟨plots, pi, rfl⟩ := createCurveInPlot_footprint env s t xv yv ev h
  rfl

theorem createImageInPlot_fileList (s t : CommandLineParser) (m : DataMatrix)
    (h : createImageInPlot s m = some t) : fileList t = fileList s := by
  obtain ⟨plots, pi, rfl⟩ := createImageInPlot_footprint s t m h
  rfl

/-- What a `-y` loop that returned `t` did: the file list is untouched; the
curves it created are placed, the Y vector of the i-th one is read from the
source of the i-th file, and a final `ok = true` means one curve per file. -/
theorem yLoop_batch (env : Env) (field : String) (files : List String)
    (s t : CommandLineParser) (hs : yLoop env field files s = some t) :
    fileList t = fileList s ∧
    ∃ cs, curvesOf t = curvesOf s ++ cs ∧
      (relationsOf t).Perm (relationsOf s ++ cs.map Relation.curve) ∧
      cs.map (fun c => vectorFile c.yVector) = (files.take cs.length).map (sourceName env) ∧
      (t.ok = true → cs.length = files.length) := by
  induction files generalizing s with
  | nil =>
    simp only [yLoop, Option.some.injEq] at hs
    subst hs
    exact ⟨rfl, [], by simp, by simp, by simp, fun _ => rfl⟩
  | cons file rest ih =>
    unfold yLoop at hs
    split at hs
    · cases hs
      exact ⟨rfl, [], by simp [curvesOf, printUsage], by simp [relationsOf, printUsage], by simp,
        fun h => absurd h (by simp)⟩
    · split at hs
      · exact absurd hs (by simp)
      · rename_i ds hds
        split at hs
        · exact absurd hs (by simp)
        · rename_i b hb
          obtain ⟨hc, hr⟩ := createCurveInPlot_curvesOf env _ b _ _ _ hb
          have hv := yVectors_samePlacement s field ds
          obtain ⟨h0, cs, h1, h2, h3, h4⟩ := ih _ hs
          refine ⟨h0.trans (((createCurveInPlot_fileList env _ b _ _ _ hb)).trans
              (yVectors_fileList s field ds)),
            newCurve env (yVectors s field ds).2.2.2 (Vector.data (yVectors s field ds).1)
              (Vector.data (yVectors s field ds).2.1)
              ((yVectors s field ds).2.2.1.map Vector.data) :: cs, ?_, ?_, ?_, ?_⟩
          · rw [h1]
            show curvesOf b ++ cs = _
            rw [hc, hv.2.2.2, List.append_assoc]
            rfl
          · refine h2.trans ?_
            show (relationsOf b ++ _).Perm _
            refine (List.Perm.append_right _ hr).trans ?_
            have : relationsOf (yVectors s field ds).2.2.2 = relationsOf s := by
              unfold relationsOf
              rw [hv.1]
            rw [this, List.append_assoc]
            rfl
          · simp only [List.map_cons, List.length_cons, List.take_succ_cons, h3, sourceName, hds]
            exact congrArg (fun x => some x :: _) (yVectors_fst s field ds).2
          · intro hok
            simp [h4 hok]

theorem pSpectrum_psdsOf (s : CommandLineParser) (field : String) (ds : DataSource) :
    psdsOf (pSpectrum s field ds).2 = psdsOf s ++ [(pSpectrum s field ds).1] ∧
    (pSpectrum s field ds).1.input.filename = ds.fileName := by
  refine ⟨?_, createOrFindDataVector_filename s field ds⟩
  unfold pSpectrum
  simp only []
  split <;>
    simp [psdsOf, createOrFindDataVector_snd, List.filterMap_append, List.filterMap_map,
      Function.comp_def]

theorem createCurveInPlot_psdsOf (env : Env) (s t : CommandLineParser) (xv yv : Vector)
    (ev : Option Vector) (h : createCurveInPlot env s xv yv ev = some t) :
    psdsOf t = psdsOf s := by
  obtain ⟨plots, pi, rfl⟩ := createCurveInPlot_footprint env s t xv yv ev h
  simp [psdsOf, List.filterMap_append]

/-- What a `-p` loop that returned `t` did: the file list is untouched; the
curves it created are placed, the Y vector of the i-th one is the output of the
i-th new spectrum, which reads the source of the i-th file, and a final
`ok = true` means one curve per file. -/
theorem pLoop_batch (env : Env) (field : String) (files : List String)
    (s t : CommandLineParser) (hs : pLoop env field files s = some t) :
    fileList t = fileList s ∧
    ∃ ps cs, psdsOf t = psdsOf s ++ ps ∧ curvesOf t = curvesOf s ++ cs ∧
      (relationsOf t).Perm (relationsOf s ++ cs.map Relation.curve) ∧
      cs.map (fun c => c.yVector) = ps.map (fun p => some (Vector.psdY p.id)) ∧
      ps.map (fun p => some p.input.filename) = (files.take ps.length).map (sourceName env) ∧
      (t.ok = true → cs.length = files.length) := by
  induction files generalizing s with
  | nil =>
    simp only [pLoop, Option.some.injEq] at hs
    subst hs
    exact ⟨rfl, [], [], by simp, by simp, by simp, by simp, by simp, fun _ => rfl⟩
  | cons file rest ih =>
    unfold pLoop at hs
    split at hs
    · cases hs
      exact ⟨rfl, [], [], by simp [psdsOf, printUsage], by simp [curvesOf, printUsage],
        by simp [relationsOf, printUsage], by simp, by simp, fun h => absurd h (by simp)⟩
    · split at hs
      · exact absurd hs (by simp)
      · rename_i ds hds
        split at hs
        · exact absurd hs (by simp)
        · rename_i b hb
          obtain ⟨hc, hr⟩ := createCurveInPlot_curvesOf env _ b _ _ _ hb
          have hp := createCurveInPlot_psdsOf env _ b _ _ _ hb
          have hv := pSpectrum_samePlacement s field ds
          obtain ⟨hq, hf⟩ := pSpectrum_psdsOf s field ds
          obtain ⟨h0, ps, cs, h1p, h1, h2, h3, h3p, h4⟩ := ih _ hs
          refine ⟨h0.trans (((createCurveInPlot_fileList env _ b _ _ _ hb)).trans
              (pSpectrum_fileList s field ds)),
            (pSpectrum s field ds).1 :: ps,
            newCurve env (pSpectrum s field ds).2 (Vector.psdX (pSpectrum s field ds).1.id)
              (Vector.psdY (pSpectrum s field ds).1.id) none :: cs, ?_, ?_, ?_, ?_, ?_, ?_⟩
          · rw [h1p]
            show psdsOf b ++ ps = _
            rw [hp, hq, List.append_assoc]
            rfl
          · rw [h1]
            show curvesOf b ++ cs = _
            rw [hc, hv.2.2.2, List.append_assoc]
            rfl
          · refine h2.trans ?_
            show (relationsOf b ++ _).Perm _
            refine (List.Perm.append_right _ hr).trans ?_
            have : relationsOf (pSpectrum s field ds).2 = relationsOf s := by
              unfold relationsOf
              rw [hv.1]
            rw [this, List.append_assoc]
            rfl
          · simp only [List.map_cons, h3]
            rfl
          · simp only [List.map_cons, List.length_cons, List.take_succ_cons, h3p, sourceName, hds]
            exact congrArg (fun x => some x :: _) hf
          · intro hok
            simp [h4 hok]

theorem hHistogram_histogramsOf (s : CommandLineParser) (field : String) (ds : DataSource) :
    histogramsOf (hHistogram s field ds).2 = histogramsOf s ++ [(hHistogram s field ds).1] ∧
    (hHistogram s field ds).1.input.filename = ds.fileName := by
  refine ⟨?_, createOrFindDataVector_filename s field ds⟩
  unfold hHistogram
  simp only []
  split <;>
    simp [histogramsOf, createOrFindDataVector_snd, List.filterMap_append, List.filterMap_map,
      Function.comp_def]

theorem createCurveInPlot_histogramsOf (env : Env) (s t : CommandLineParser) (xv yv : Vector)
    (ev : Option Vector) (h : createCurveInPlot env s xv yv ev = some t) :
    histogramsOf t = histogramsOf s := by
  obtain ⟨plots, pi, rfl⟩ := createCurveInPlot_footprint env s t xv yv ev h
  simp [histogramsOf, List.filterMap_append]

/-- What a `-h` loop that returned `t` did: the file list is untouched; the
curves it created are placed, the Y vector of the i-th one is the output of the
i-th new histogram, which reads the source of the i-th file, and a final
`ok = true` means one curve per file. -/
theorem hLoop_batch (env : Env) (field : String) (files : List String)
    (s t : CommandLineParser) (hs : hLoop env field files s = some t) :
    fileList t = fileList s ∧
    ∃ ps cs, histogramsOf t = histogramsOf s ++ ps ∧ curvesOf t = curvesOf s ++ cs ∧
      (relationsOf t).Perm (relationsOf s ++ cs.map Relation.curve) ∧
      cs.map (fun c => c.yVector) = ps.map (fun p => some (Vector.histY p.id)) ∧
      ps.map (fun p => some p.input.filename) = (files.take ps.length).map (sourceName env) ∧
      (t.ok = true → cs.length = files.length) := by
  induction files generalizing s with
  | nil =>
    simp only [hLoop, Option.some.injEq] at hs
    subst hs
    exact ⟨rfl, [], [], by simp, by simp, by simp, by simp, by simp, fun _ => rfl⟩
  | cons file rest ih =>
    unfold hLoop at hs
    split at hs
    · cases hs
      exact ⟨rfl, [], [], by simp [histogramsOf, printUsage], by simp [curvesOf, printUsage],
        by simp [relationsOf, printUsage], by simp, by simp, fun h => absurd h (by simp)⟩
    · split at hs
      · exact absurd hs (by simp)
      · rename_i ds hds
        split at hs
        · exact absurd hs (by simp)
        · rename_i b hb
          obtain ⟨hc, hr⟩ := createCurveInPlot_curvesOf env _ b _ _ _ hb
          have hp := createCurveInPlot_histogramsOf env _ b _ _ _ hb
          have hv := hHistogram_samePlacement s field ds
          obtain ⟨hq, hf⟩ := hHistogram_histogramsOf s field ds
          obtain ⟨h0, ps, cs, h1p, h1, h2, h3, h3p, h4⟩ := ih _ hs
          refine ⟨h0.trans (((createCurveInPlot_fileList env _ b _ _ _ hb)).trans
              (hHistogram_fileList s field ds)),
            (hHistogram s field ds).1 :: ps,
            newCurve env (hHistogram s field ds).2 (Vector.histX (hHistogram s field ds).1.id)
              (Vector.histY (hHistogram s field ds).1.id) none :: cs, ?_, ?_, ?_, ?_, ?_, ?_⟩
          · rw [h1p]
            show histogramsOf b ++ ps = _
            rw [hp, hq, List.append_assoc]
            rfl
          · rw [h1]
            show curvesOf b ++ cs = _
            rw [hc, hv.2.2.2, List.append_assoc]
            rfl
          · refine h2.trans ?_
            show (relationsOf b ++ _).Perm _
            refine (List.Perm.append_right _ hr).trans ?_
            have : relationsOf (hHistogram s field ds).2 = relationsOf s := by
              unfold relationsOf
              rw [hv.1]
            rw [this, List.append_assoc]
            rfl
          · simp only [List.map_cons, h3]
            rfl
          · simp only [List.map_cons, List.length_cons, List.take_succ_cons, h3p, sourceName, hds]
            exact congrArg (fun x => some x :: _) hf
          · intro hok
            simp [h4 hok]

/-- What a `-z` loop that returned `t` did: the file list is untouched; the
images it created are placed, the matrix of the i-th one is read from the
source of the i-th file, and a final `ok = true` means one image per file. -/
theorem zLoop_batch (env : Env) (field : String) (files : List String)
    (s t : CommandLineParser) (hs : zLoop env field files s = some t) :
    fileList t = fileList s ∧
    ∃ is, imagesOf t = imagesOf s ++ is ∧
      (relationsOf t).Perm (relationsOf s ++ is.map Relation.image) ∧
      is.map (fun i => some i.matrix.filename) = (files.take is.length).map (sourceName env) ∧
      (t.ok = true → is.length = files.length) := by
  induction files generalizing s with
  | nil =>
    simp only [zLoop, Option.some.injEq] at hs
    subst hs
    exact ⟨rfl, [], by simp, by simp, by simp, fun _ => rfl⟩
  | cons file rest ih =>
    unfold zLoop at hs
    split at hs
    · cases hs
      exact ⟨rfl, [], by simp [imagesOf, printUsage], by simp [relationsOf, printUsage], by simp,
        fun h => absurd h (by simp)⟩
    · split at hs
      · exact absurd hs (by simp)
      · rename_i ds hds
        split at hs
        · exact absurd hs (by simp)
        · rename_i b hb
          obtain ⟨hi, -, hr⟩ := createImageInPlot_imagesOf _ b _ hb
          obtain ⟨h0, is, h1, h2, h3, h4⟩ := ih _ hs
          refine ⟨h0.trans ((createImageInPlot_fileList _ b _ hb).trans rfl),
            Image.mk (s.objectStore.objects ++
              [Object.dataMatrix (newDataMatrix s field ds)]).length (newDataMatrix s field ds)
              :: is, ?_, ?_, ?_, ?_⟩
          · rw [h1, hi, List.append_assoc]
            simp [imagesOf, List.filterMap_append]
          · refine h2.trans ?_
            refine (List.Perm.append_right _ hr).trans ?_
            rw [List.append_assoc]
            rfl
          · simp only [List.map_cons, List.length_cons, List.take_succ_cons, h3, sourceName, hds]
            rfl
          · intro hok
            simp [h4 hok]

theorem createOrFindPlot_fileList (s : CommandLineParser) (plot_name : String) :
    fileList (createOrFindPlot s plot_name) = fileList s := by
  unfold createOrFindPlot
  split
  · rfl
  · simp only [applyLabels]
    rfl

theorem createOrFindTab_fileList (env : Env) (s : CommandLineParser) (name : String) :
    fileList (createOrFindTab env s name) = fileList s := by
  unfold createOrFindTab
  split <;> rfl

theorem placeRelation_fileList (s t : CommandLineParser) (r : Relation)
    (h : placeRelation s r = some t) : fileList t = fileList s := by
  obtain ⟨plots, pi, rfl⟩ := placeRelation_footprint s t r h
  rfl

theorem placeAutoCurves_fileList (env : Env) (curve_count : Nat) (curves : List Object)
    (count : Nat) (asked : Bool) (s s' : CommandLineParser)
    (hs : placeAutoCurves env curve_count curves count asked s = some s') :
    fileList s' = fileList s := by
  induction curves generalizing s count asked with
  | nil =>
    simp [placeAutoCurves] at hs
    subst hs
    rfl
  | cons o rest ih =>
    cases o with
    | curve c =>
      unfold placeAutoCurves at hs
      split at hs
      · split at hs
        · cases hs
          rfl
        · split at hs
          · exact absurd hs (by simp)
          · rename_i s2 h2
            exact (ih _ _ _ hs).trans ((placeRelation_fileList _ s2 _ h2).trans rfl)
      · split at hs
        · exact absurd hs (by simp)
        · rename_i s2 h2
          exact (ih _ _ _ hs).trans (placeRelation_fileList _ s2 _ h2)
    | dataVector v => exact ih _ _ _ (by simpa [placeAutoCurves] using hs)
    | psd v => exact ih _ _ _ (by simpa [placeAutoCurves] using hs)
    | histogram v => exact ih _ _ _ (by simpa [placeAutoCurves] using hs)
    | dataMatrix v => exact ih _ _ _ (by simpa [placeAutoCurves] using hs)
    | image v => exact ih _ _ _ (by simpa [placeAutoCurves] using hs)

theorem autoCurvesLoop_fileList (ds : DataSource) (xv : DataVector) (fields : List String)
    (curves : List Object) (s : CommandLineParser) :
    fileList (autoCurvesLoop ds xv fields curves s).2 = fileList s := by
  induction fields generalizing curves s with
  | nil => rfl
  | cons f rest ih =>
    unfold autoCurvesLoop
    split
    · exact ih _ _
    · exact ih _ _

theorem autoDetectCurves_fileList (s : CommandLineParser) (ds : DataSource) :
    fileList (autoDetectCurves s ds).2 = fileList s := by
  unfold autoDetectCurves
  split
  · unfold autoCurves
    split
    · rfl
    · exact autoCurvesLoop_fileList _ _ _ _ _
  · rfl

theorem appendFileName_fileList (s : CommandLineParser) (arg : String) :
    fileList (appendFileName s arg)
      = ((if s.new_fileList then [] else s._fileNames) ++ [arg], false) := by
  unfold appendFileName fileList
  simp only []
  cases h : s.new_fileList
  · simp [h]
  · cases h2 : s.dataPlotted <;> simp [h, h2]

theorem fileArg_fileList (env : Env) (s s' : CommandLineParser) (arg : String)
    (hs : fileArg env s arg = some s') :
    fileList s' = ((if s.new_fileList then [] else s._fileNames) ++ [arg], false) := by
  unfold fileArg at hs
  split at hs
  · split at hs
    · cases hs
      exact appendFileName_fileList s arg
    · split at hs
      · exact (placeAutoCurves_fileList env _ _ _ _ _ s' hs).trans
          ((autoDetectCurves_fileList _ _).trans (appendFileName_fileList s arg))
      · cases hs
        exact (autoDetectCurves_fileList _ _).trans (appendFileName_fileList s arg)
  · cases hs
    exact appendFileName_fileList s arg

theorem dispatch_keeps_fileList (env : Env) (s : CommandLineParser) (flag : String)
    (hmem : flag ∈ optionNames) (hdata : flag ∉ dataObjectFlags) :
    (dispatch env s flag).map fileList = some (fileList s) := by
  simp only [optionNames, List.mem_cons, List.mem_singleton, List.not_mem_nil, or_false] at hmem
  rcases hmem with rfl | rfl | rfl | rfl | rfl | rfl | rfl | rfl | rfl | rfl | rfl | rfl | rfl | rfl | rfl | rfl | rfl | rfl | rfl | rfl | rfl | rfl | rfl | rfl | rfl | rfl | rfl | rfl | rfl | rfl | rfl | rfl
  · rw [dispatch_dd_help]
    simp [fileList, printUsage, _setIntArg_snd, _setStringArg_snd, _setDoubleArg_snd]
  · rw [dispatch_d_help]
    simp [fileList, printUsage, _setIntArg_snd, _setStringArg_snd, _setDoubleArg_snd]
  · rw [dispatch_dd_version]
    simp [fileList, printUsage, _setIntArg_snd, _setStringArg_snd, _setDoubleArg_snd]
  · rw [dispatch_d_version]
    simp [fileList, printUsage, _setIntArg_snd, _setStringArg_snd, _setDoubleArg_snd]
  · rw [dispatch_d_f]
    simp [fileList, printUsage, _setIntArg_snd, _setStringArg_snd, _setDoubleArg_snd]
  · rw [dispatch_d_n]
    simp [fileList, printUsage, _setIntArg_snd, _setStringArg_snd, _setDoubleArg_snd]
  · rw [dispatch_d_s]
    simp [fileList, printUsage, _setIntArg_snd, _setStringArg_snd, _setDoubleArg_snd]
  · rw [dispatch_d_a]
    simp [fileList, printUsage, _setIntArg_snd, _setStringArg_snd, _setDoubleArg_snd]
  · rw [dispatch_d_P]
    simp only [Option.map_some', createOrFindPlot_fileList, _setStringArg_snd]
    rfl
  · rw [dispatch_d_A]
    simp [fileList, printUsage, _setIntArg_snd, _setStringArg_snd, _setDoubleArg_snd]
  · rw [dispatch_d_T]
    simp only [_setStringArg_snd]
    split
    · simp only [Option.map_some', createOrFindTab_fileList]
      rfl
    · rfl
  · rw [dispatch_d_d]
    simp [fileList, printUsage, _setIntArg_snd, _setStringArg_snd, _setDoubleArg_snd]
  · rw [dispatch_d_l]
    simp [fileList, printUsage, _setIntArg_snd, _setStringArg_snd, _setDoubleArg_snd]
  · rw [dispatch_d_b]
    simp [fileList, printUsage, _setIntArg_snd, _setStringArg_snd, _setDoubleArg_snd]
  · rw [dispatch_d_x]
    simp [fileList, printUsage, _setIntArg_snd, _setStringArg_snd, _setDoubleArg_snd]
  · rw [dispatch_d_e]
    simp [fileList, printUsage, _setIntArg_snd, _setStringArg_snd, _setDoubleArg_snd]
  · rw [dispatch_d_r]
    simp [fileList, printUsage, _setIntArg_snd, _setStringArg_snd, _setDoubleArg_snd]
  · exact absurd (by decide) hdata
  · exact absurd (by decide) hdata
  · rw [dispatch_dd_xlabel]
    simp [fileList, printUsage, _setIntArg_snd, _setStringArg_snd, _setDoubleArg_snd]
  · rw [dispatch_dd_ylabel]
    simp [fileList, printUsage, _setIntArg_snd, _setStringArg_snd, _setDoubleArg_snd]
  · rw [dispatch_dd_xlabelauto]
    simp [fileList, printUsage, _setIntArg_snd, _setStringArg_snd, _setDoubleArg_snd]
  · rw [dispatch_dd_ylabelauto]
    simp [fileList, printUsage, _setIntArg_snd, _setStringArg_snd, _setDoubleArg_snd]
  · exact absurd (by decide) hdata
  · exact absurd (by decide) hdata
  · rw [dispatch_d_F]
    simp [fileList, printUsage, _setIntArg_snd, _setStringArg_snd, _setDoubleArg_snd]
  · rw [dispatch_dd_png]
    simp [fileList, printUsage, _setIntArg_snd, _setStringArg_snd, _setDoubleArg_snd]
  · rw [dispatch_dd_print]
    simp [fileList, printUsage, _setIntArg_snd, _setStringArg_snd, _setDoubleArg_snd]
  · rw [dispatch_dd_landscape]
    simp [fileList, printUsage, _setIntArg_snd, _setStringArg_snd, _setDoubleArg_snd]
  · rw [dispatch_dd_portrait]
    simp [fileList, printUsage, _setIntArg_snd, _setStringArg_snd, _setDoubleArg_snd]
  · rw [dispatch_dd_A4]
    simp [fileList, printUsage, _setIntArg_snd, _setStringArg_snd, _setDoubleArg_snd]
  · rw [dispatch_dd_letter]
    simp [fileList, printUsage, _setIntArg_snd, _setStringArg_snd, _setDoubleArg_snd]

theorem _setStringArg_frame (s : CommandLineParser) (cur Message : String) :
    fileList (_setStringArg s cur Message).2.2 = fileList s ∧
    (_setStringArg s cur Message).2.2.objectStore = s.objectStore ∧
    (_setStringArg s cur Message).2.2.plots = s.plots := by
  rw [_setStringArg_snd]
  exact ⟨rfl, rfl, rfl⟩

theorem dispatch_y_batch (env : Env) (s t : CommandLineParser)
    (hs : dispatch env s "-y" = some t) (hok : t.ok = true) :
    fileList t = (s._fileNames, true) ∧
    ∃ cs, curvesOf t = curvesOf s ++ cs ∧
      (relationsOf t).Perm (relationsOf s ++ cs.map Relation.curve) ∧
      cs.map (fun c => vectorFile c.yVector) = s._fileNames.map (sourceName env) := by
  obtain ⟨f1, f2, f3⟩ := _setStringArg_frame s "" "Usage: -y <fieldname>\n"
  rw [dispatch_d_y] at hs
  simp only [] at hs
  split at hs
  · cases hs
    exact absurd hok (by simp)
  · split at hs
    · exact absurd hs (by simp)
    · rename_i s2 h2
      cases hs
      obtain ⟨h0, cs, h1, h3, h4, h5⟩ := yLoop_batch env _ _ _ s2 h2
      have hlen := h5 hok
      rw [hlen, List.take_length] at h4
      have hfl : fileList s2 = fileList s := h0.trans f1
      refine ⟨?_, cs, ?_, ?_, ?_⟩
      · show (s2._fileNames, true) = _
        rw [show s2._fileNames = s._fileNames from congrArg Prod.fst hfl]
      · show curvesOf s2 = _
        rw [h1]
        unfold curvesOf
        exact congrArg (fun o => curvesIn o.objects ++ cs) f2
      · show (relationsOf s2).Perm _
        refine h3.trans ?_
        unfold relationsOf
        exact List.Perm.of_eq (congrArg (fun p => List.flatMap p (fun q => q.relations) ++ _) f3)
      · rw [h4]
        exact congrArg (fun l => List.map (sourceName env) l.1) f1

theorem dispatch_p_batch (env : Env) (s t : CommandLineParser)
    (hs : dispatch env s "-p" = some t) (hok : t.ok = true) :
    fileList t = (s._fileNames, true) ∧
    ∃ ps cs, psdsOf t = psdsOf s ++ ps ∧ curvesOf t = curvesOf s ++ cs ∧
      (relationsOf t).Perm (relationsOf s ++ cs.map Relation.curve) ∧
      cs.map (fun c => c.yVector) = ps.map (fun p => some (Vector.psdY p.id)) ∧
      ps.map (fun p => some p.input.filename) = s._fileNames.map (sourceName env) := by
  obtain ⟨f1, f2, f3⟩ := _setStringArg_frame s "" "Usage: -p <fieldname>\n"
  rw [dispatch_d_p] at hs
  simp only [] at hs
  split at hs
  · split at hs
    · exact absurd hs (by simp)
    · rename_i s2 h2
      cases hs
      obtain ⟨h0, ps, cs, h1p, h1, h3, h4, h4p, h5⟩ := pLoop_batch env _ _ _ s2 h2
      have hlen := (congrArg List.length h4).symm.trans
        ((List.length_map _ _).trans (h5 hok))
      rw [List.length_map] at hlen
      rw [hlen, List.take_length] at h4p
      have hfl : fileList s2 = fileList s := h0.trans f1
      refine ⟨?_, ps, cs, ?_, ?_, ?_, h4, ?_⟩
      · show (s2._fileNames, true) = _
        rw [show s2._fileNames = s._fileNames from congrArg Prod.fst hfl]
      · show psdsOf s2 = _
        rw [h1p]
        unfold psdsOf
        exact congrArg (fun o => List.filterMap _ o.objects ++ ps) f2
      · show curvesOf s2 = _
        rw [h1]
        unfold curvesOf
        exact congrArg (fun o => curvesIn o.objects ++ cs) f2
      · show (relationsOf s2).Perm _
        refine h3.trans ?_
        unfold relationsOf
        exact List.Perm.of_eq (congrArg (fun p => List.flatMap p (fun q => q.relations) ++ _) f3)
      · rw [h4p]
        exact congrArg (fun l => List.map (sourceName env) l.1) f1
  · rename_i hno
    cases hs
    exact absurd hok hno

theorem dispatch_h_batch (env : Env) (s t : CommandLineParser)
    (hs : dispatch env s "-h" = some t) (hok : t.ok = true) :
    fileList t = (s._fileNames, true) ∧
    ∃ ps cs, histogramsOf t = histogramsOf s ++ ps ∧ curvesOf t = curvesOf s ++ cs ∧
      (relationsOf t).Perm (relationsOf s ++ cs.map Relation.curve) ∧
      cs.map (fun c => c.yVector) = ps.map (fun p => some (Vector.histY p.id)) ∧
      ps.map (fun p => some p.input.filename) = s._fileNames.map (sourceName env) := by
  obtain ⟨f1, f2, f3⟩ := _setStringArg_frame s "" "Usage: -h <fieldname>\n"
  rw [dispatch_d_h] at hs
  simp only [] at hs
  split at hs
  · split at hs
    · exact absurd hs (by simp)
    · rename_i s2 h2
      cases hs
      obtain ⟨h0, ps, cs, h1p, h1, h3, h4, h4p, h5⟩ := hLoop_batch env _ _ _ s2 h2
      have hlen := (congrArg List.length h4).symm.trans
        ((List.length_map _ _).trans (h5 hok))
      rw [List.length_map] at hlen
      rw [hlen, List.take_length] at h4p
      have hfl : fileList s2 = fileList s := h0.trans f1
      refine ⟨?_, ps, cs, ?_, ?_, ?_, h4, ?_⟩
      · show (s2._fileNames, true) = _
        rw [show s2._fileNames = s._fileNames from congrArg Prod.fst hfl]
      · show histogramsOf s2 = _
        rw [h1p]
        unfold histogramsOf
        exact congrArg (fun o => List.filterMap _ o.objects ++ ps) f2
      · show curvesOf s2 = _
        rw [h1]
        unfold curvesOf
        exact congrArg (fun o => curvesIn o.objects ++ cs) f2
      · show (relationsOf s2).Perm _
        refine h3.trans ?_
        unfold relationsOf
        exact List.Perm.of_eq (congrArg (fun p => List.flatMap p (fun q => q.relations) ++ _) f3)
      · rw [h4p]
        exact congrArg (fun l => List.map (sourceName env) l.1) f1
  · rename_i hno
    cases hs
    exact absurd hok hno

theorem dispatch_z_batch (env : Env) (s t : CommandLineParser)
    (hs : dispatch env s "-z" = some t) (hok : t.ok = true) :
    fileList t = (s._fileNames, true) ∧
    ∃ is, imagesOf t = imagesOf s ++ is ∧
      (relationsOf t).Perm (relationsOf s ++ is.map Relation.image) ∧
      is.map (fun i => some i.matrix.filename) = s._fileNames.map (sourceName env) := by
  obtain ⟨f1, f2, f3⟩ := _setStringArg_frame s "" "Usage: -z <fieldname>\n"
  rw [dispatch_d_z] at hs
  simp only [] at hs
  split at hs
  · split at hs
    · exact absurd hs (by simp)
    · rename_i s2 h2
      cases hs
      obtain ⟨h0, is, h1, h3, h4, h5⟩ := zLoop_batch env _ _ _ s2 h2
      have hlen := h5 hok
      rw [hlen, List.take_length] at h4
      have hfl : fileList s2 = fileList s := h0.trans f1
      refine ⟨?_, is, ?_, ?_, ?_⟩
      · show (s2._fileNames, true) = _
        rw [show s2._fileNames = s._fileNames from congrArg Prod.fst hfl]
      · show imagesOf s2 = _
        rw [h1]
        unfold imagesOf
        exact congrArg (fun o => List.filterMap _ o.objects ++ is) f2
      · show (relationsOf s2).Perm _
        refine h3.trans ?_
        unfold relationsOf
        exact List.Perm.of_eq (congrArg (fun p => List.flatMap p (fun q => q.relations) ++ _) f3)
      · rw [h4]
        exact congrArg (fun l => List.map (sourceName env) l.1) f1
  · rename_i hno
    cases hs
    exact absurd hok hno

/-- Claim C16: a token that is no option is appended to the file list, which
is emptied first when the flag `new_fileList` says that it was used; every
option except `-y`, `-p`, `-h` and `-z` leaves the list and the flag alone; a
successful `-y`, `-p`, `-h` or `-z` keeps the list, sets the flag and creates
and places one relation per file; in list order the i-th new curve of `-y` has
its Y vector read from the source of the i-th file, the i-th new curve of `-p`
(of `-h`) has as Y vector the output of the i-th new spectrum (histogram),
which reads the source of the i-th file, and the i-th new image of `-z` has
its matrix read from the source of the i-th file. -/
theorem file_list_batching (env : Env) (s t : CommandLineParser) (arg : String)
    (hs : dispatch env s arg = some t) :
    (arg ∉ optionNames →
      t._fileNames = (if s.new_fileList then [] else s._fileNames) ++ [arg] ∧
      t.new_fileList = false) ∧
    (arg ∈ optionNames → arg ∉ dataObjectFlags →
      t._fileNames = s._fileNames ∧ t.new_fileList = s.new_fileList) ∧
    (arg ∈ dataObjectFlags → t.ok = true →
      t._fileNames = s._fileNames ∧ t.new_fileList = true ∧
      ∃ rs, rs.length = s._fileNames.length ∧ (relationsOf t).Perm (relationsOf s ++ rs)) ∧
    (arg = "-y" → t.ok = true →
      ∃ cs, curvesOf t = curvesOf s ++ cs ∧
        cs.map (fun c => vectorFile c.yVector) = s._fileNames.map (sourceName env)) ∧
    (arg = "-p" → t.ok = true →
      ∃ ps cs, psdsOf t = psdsOf s ++ ps ∧ curvesOf t = curvesOf s ++ cs ∧
        cs.map (fun c => c.yVector) = ps.map (fun p => some (Vector.psdY p.id)) ∧
        ps.map (fun p => some p.input.filename) = s._fileNames.map (sourceName env)) ∧
    (arg = "-h" → t.ok = true →
      ∃ ps cs, histogramsOf t = histogramsOf s ++ ps ∧ curvesOf t = curvesOf s ++ cs ∧
        cs.map (fun c => c.yVector) = ps.map (fun p => some (Vector.histY p.id)) ∧
        ps.map (fun p => some p.input.filename) = s._fileNames.map (sourceName env)) ∧
    (arg = "-z" → t.ok = true →
      ∃ is, imagesOf t = imagesOf s ++ is ∧
        is.map (fun i => some i.matrix.filename) = s._fileNames.map (sourceName env)) := by
  refine ⟨fun hno => ?_, fun hmem hdata => ?_, fun hmem hok => ?_, fun ha hok => ?_,
    fun ha hok => ?_, fun ha hok => ?_, fun ha hok => ?_⟩
  · rw [dispatch_fileArg env s arg hno] at hs
    have h := fileArg_fileList env s t arg hs
    exact ⟨congrArg Prod.fst h, congrArg Prod.snd h⟩
  · have h := dispatch_keeps_fileList env s arg hmem hdata
    rw [hs] at h
    have h2 : fileList t = fileList s := Option.some.inj h
    exact ⟨congrArg Prod.fst h2, congrArg Prod.snd h2⟩
  · simp only [dataObjectFlags, List.mem_cons, List.mem_singleton, List.not_mem_nil,
      or_false] at hmem
    rcases hmem with rfl | rfl | rfl | rfl
    · obtain ⟨h0, cs, -, h2, h3⟩ := dispatch_y_batch env s t hs hok
      exact ⟨congrArg Prod.fst h0, congrArg Prod.snd h0, cs.map Relation.curve,
        by simpa using congrArg List.length h3, h2⟩
    · obtain ⟨h0, ps, cs, -, -, h2, h3, h4⟩ := dispatch_p_batch env s t hs hok
      have l1 : cs.length = ps.length := by simpa using congrArg List.length h3
      have l2 : ps.length = s._fileNames.length := by simpa using congrArg List.length h4
      exact ⟨congrArg Prod.fst h0, congrArg Prod.snd h0, cs.map Relation.curve,
        (List.length_map _ _).trans (l1.trans l2), h2⟩
    · obtain ⟨h0, ps, cs, -, -, h2, h3, h4⟩ := dispatch_h_batch env s t hs hok
      have l1 : cs.length = ps.length := by simpa using congrArg List.length h3
      have l2 : ps.length = s._fileNames.length := by simpa using congrArg List.length h4
      exact ⟨congrArg Prod.fst h0, congrArg Prod.snd h0, cs.map Relation.curve,
        (List.length_map _ _).trans (l1.trans l2), h2⟩
    · obtain ⟨h0, is, -, h2, h3⟩ := dispatch_z_batch env s t hs hok
      exact ⟨congrArg Prod.fst h0, congrArg Prod.snd h0, is.map Relation.image,
        by simpa using congrArg List.length h3, h2⟩
  · subst ha
    obtain ⟨-, cs, h1, -, h3⟩ := dispatch_y_batch env s t hs hok
    exact ⟨cs, h1, h3⟩
  · subst ha
    obtain ⟨-, ps, cs, h1, h2, -, h3, h4⟩ := dispatch_p_batch env s t hs hok
    exact ⟨ps, cs, h1, h2, h3, h4⟩
  · subst ha
    obtain ⟨-, ps, cs, h1, h2, -, h3, h4⟩ := dispatch_h_batch env s t hs hok
    exact ⟨ps, cs, h1, h2, h3, h4⟩
  · subst ha
    obtain ⟨-, is, h1, -, h3⟩ := dispatch_z_batch env s t hs hok
    exact ⟨is, h1, h3⟩

/-- Witness of claim C16: `-y 1` on the file list `data1.dat data2.dat`; and
the runs `data1.dat data2.dat -y 1`, `data.dat -y 2 data2.dat -y 1` and
`data1.dat -f 3 -x 2 -P p data2.dat -y 1` with the files of their curves. -/
theorem file_list_batching_witness :
    (∃ t, dispatch (sampleEnv false)
        { CommandLineParser.new sampleDocument ["1"] with
          _fileNames := ["data1.dat", "data2.dat"], new_fileList := false } "-y" = some t ∧
      t._fileNames = ["data1.dat", "data2.dat"] ∧ t.new_fileList = true ∧
      ∃ rs, rs.length = 2 ∧ (relationsOf t).Perm ([] ++ rs)) ∧
    (run (sampleEnv false) ["data1.dat", "data2.dat", "-y", "1"]).map
        (fun t => (t.ok, t._fileNames, (curvesOf t).map (fun c => vectorFile c.yVector)))
      = some (true, ["data1.dat", "data2.dat"], [some "data1.dat", some "data2.dat"]) ∧
    (run (sampleEnv false) ["data.dat", "-y", "2", "data2.dat", "-y", "1"]).map
        (fun t => (t.ok, t._fileNames, (curvesOf t).map (fun c => vectorFile c.yVector)))
      = some (true, ["data2.dat"], [some "data.dat", some "data2.dat"]) ∧
    (run (sampleEnv false)
        ["data1.dat", "-f", "3", "-x", "2", "-P", "p", "data2.dat", "-y", "1"]).map
        (fun t => (t.ok, t._fileNames, (curvesOf t).map (fun c => vectorFile c.yVector)))
      = some (true, ["data1.dat", "data2.dat"], [some "data1.dat", some "data2.dat"]) := by
  refine ⟨?_, by decide, by decide, by decide⟩
  cases h : dispatch (sampleEnv false)
      { CommandLineParser.new sampleDocument ["1"] with
        _fileNames := ["data1.dat", "data2.dat"], new_fileList := false } "-y" with
  | none => exact absurd h (by decide)
  | some t =>
    have hok : t.ok = true := by
      have : (dispatch (sampleEnv false)
        { CommandLineParser.new sampleDocument ["1"] with
          _fileNames := ["data1.dat", "data2.dat"], new_fileList := false } "-y").map
          (fun t => t.ok) = some true := by decide
      rw [h] at this
      simpa using this
    exact ⟨t, rfl, (file_list_batching (sampleEnv false) _ t "-y" h).2.2.1 (by decide) hok⟩

/-! ## Named plots -/

theorem createOrFindPlot_found (s : CommandLineParser) (plot_name : String) (pi : Nat)
    (h : s._plotItems.find? (plotNamed s plot_name) = some pi) :
    createOrFindPlot s plot_name = { s with _plotItem := some pi } := by
  unfold createOrFindPlot
  rw [h]

theorem createOrFindPlot_new (s : CommandLineParser) (plot_name : String)
    (h : s._plotItems.find? (plotNamed s plot_name) = none) :
    createOrFindPlot s plot_name = { s with
      plots := s.plots ++ [namedPlot s plot_name]
      _plotItems := s._plotItems ++ [s.plots.length]
      _plotItem := some s.plots.length } := by
  unfold createOrFindPlot
  rw [h]
  simp [applyLabels, updatePlot_append_last, namedPlot]

theorem get?_append_length (l : List PlotItem) (x : PlotItem) :
    (l ++ [x]).get? l.length = some x := by
  induction l with
  | nil => rfl
  | cons a l ih => simp

theorem get?_append_lt (l : List PlotItem) (x : PlotItem) (i : Nat) (h : i < l.length) :
    (l ++ [x]).get? i = l.get? i := by
  induction l generalizing i with
  | nil => simp at h
  | cons a l ih =>
    cases i with
    | zero => rfl
    | succ i => simpa using ih i (by simpa using h)

theorem get?_append_gt (l : List PlotItem) (x : PlotItem) (i : Nat) (h : l.length < i) :
    (l ++ [x]).get? i = none := by
  rw [List.get?_eq_none]
  simp
  omega

theorem createOrFindPlot_idem (s : CommandLineParser) (plot_name : String) :
    createOrFindPlot (createOrFindPlot s plot_name) plot_name = createOrFindPlot s plot_name := by
  cases hf : s._plotItems.find? (plotNamed s plot_name) with
  | some pi =>
    rw [createOrFindPlot_found s plot_name pi hf]
    exact createOrFindPlot_found _ plot_name pi hf
  | none =>
    rw [createOrFindPlot_new s plot_name hf]
    have hnew : plotNamed { s with
        plots := s.plots ++ [namedPlot s plot_name]
        _plotItems := s._plotItems ++ [s.plots.length]
        _plotItem := some s.plots.length } plot_name s.plots.length = true := by
      simp [plotNamed, get?_append_length, namedPlot]
    cases hg : (s._plotItems ++ [s.plots.length]).find? (plotNamed { s with
        plots := s.plots ++ [namedPlot s plot_name]
        _plotItems := s._plotItems ++ [s.plots.length]
        _plotItem := some s.plots.length } plot_name) with
    | none =>
      have := List.find?_eq_none.1 hg s.plots.length (by simp)
      exact absurd hnew this
    | some x =>
      have hx := List.find?_some hg
      have hxm := List.mem_of_find?_eq_some hg
      have hxe : x = s.plots.length := by
        rcases List.mem_append.1 hxm with hm | hm
        · rcases Nat.lt_trichotomy x s.plots.length with hlt | heq | hgt
          · have h0 := List.find?_eq_none.1 hf x hm
            simp only [plotNamed, decide_eq_true_eq] at hx h0
            rw [get?_append_lt _ _ _ hlt] at hx
            exact absurd hx h0
          · exact heq
          · simp only [plotNamed, decide_eq_true_eq] at hx
            rw [get?_append_gt _ _ _ hgt] at hx
            exact absurd hx (by simp)
        · simpa using hm
      subst hxe
      exact createOrFindPlot_found _ plot_name _ hg

theorem whileLoop_P (env : Env) (fuel : Nat) (s : CommandLineParser) (name : String)
    (rest : List String) (hok : s.ok = true) (hargs : s._arguments = "-P" :: name :: rest) :
    whileLoop env (fuel + 1) s = whileLoop env fuel (createOrFindPlot
      { s with _arguments := rest, ok := true, _doConsecutivePlots := false } name) := by
  rw [whileLoop, if_pos hok]
  simp only [hargs, dispatch_d_P, _setStringArg]

/-- Claim C17: when a registered plot has the descriptive name `name`,
`createOrFindPlot name` changes nothing but the current plot, which becomes a
registered plot of that name; when none has, it appends one plot of that name
to the plots, registers it and makes it the current plot; a second call with
the same name changes nothing.  For names `a ≠ b` the tokens `-P a -P b -P a`
on a new parser add the two plots `a` and `b`, register exactly these two and
end with the plot `a` as current plot and consecutive mode off. -/
theorem named_plot_reuse (env : Env) (doc : Document) (s : CommandLineParser)
    (name a b : String) (hab : a ≠ b) :
    ((∃ pi ∈ s._plotItems, (s.plots.get? pi).map (fun q => q.descriptiveName) = some name) →
      ∃ pi ∈ s._plotItems, (s.plots.get? pi).map (fun q => q.descriptiveName) = some name ∧
        createOrFindPlot s name = { s with _plotItem := some pi }) ∧
    ((∀ pi ∈ s._plotItems, (s.plots.get? pi).map (fun q => q.descriptiveName) ≠ some name) →
      createOrFindPlot s name = { s with
        plots := s.plots ++ [namedPlot s name]
        _plotItems := s._plotItems ++ [s.plots.length]
        _plotItem := some s.plots.length }) ∧
    createOrFindPlot (createOrFindPlot s name) name = createOrFindPlot s name ∧
    (processCommandLine env (CommandLineParser.new doc ["-P", a, "-P", b, "-P", a])).map
        (fun r => (r.2.ok, r.2.plots, r.2._plotItems, r.2._plotItem, r.2._doConsecutivePlots))
      = some (true,
          doc.plots ++ [namedPlot (CommandLineParser.new doc []) a,
            namedPlot (CommandLineParser.new doc []) b],
          [doc.plots.length, doc.plots.length + 1], some doc.plots.length, false) := by
  refine ⟨?_, ?_, createOrFindPlot_idem s name, ?_⟩
  · rintro ⟨pi, hm, hn⟩
    cases hf : s._plotItems.find? (plotNamed s name) with
    | none =>
      have := List.find?_eq_none.1 hf pi hm
      simp only [plotNamed, decide_eq_true_eq] at this
      exact absurd hn this
    | some x =>
      have hx := List.find?_some hf
      simp only [plotNamed, decide_eq_true_eq] at hx
      exact ⟨x, List.mem_of_find?_eq_some hf, hx, createOrFindPlot_found s name x hf⟩
  · intro hno
    refine createOrFindPlot_new s name (List.find?_eq_none.2 fun x hx => ?_)
    simp only [plotNamed, decide_eq_true_eq]
    exact hno x hx
  · have hba : b ≠ a := fun h => hab h.symm
    unfold processCommandLine
    simp only []
    rw [show (CommandLineParser.new doc ["-P", a, "-P", b, "-P", a])._arguments.length = 5 + 1
      from rfl, whileLoop_P env 5 _ a ["-P", b, "-P", a] rfl rfl, createOrFindPlot_new,
      whileLoop_P env 4 _ b ["-P", a] rfl rfl, createOrFindPlot_new,
      whileLoop_P env 3 _ a [] rfl rfl, createOrFindPlot_found _ _ doc.plots.length]
    · simp [whileLoop, namedPlot, CommandLineParser.new]
    · simp [plotNamed, CommandLineParser.new, namedPlot, List.getElem_append_right]
    · simp [plotNamed, CommandLineParser.new, get?_append_length, namedPlot, hab]
    · rfl

/-- Witness of claim C17: the names `a` and `b` on the sample document, and
the name `PlotA` in the state that has registered it. -/
theorem named_plot_reuse_witness :
    "a" ≠ "b" ∧
    (processCommandLine (sampleEnv false)
        (CommandLineParser.new sampleDocument ["-P", "a", "-P", "b", "-P", "a"])).map
        (fun r => (r.2.ok, r.2.plots.map (fun q => q.descriptiveName), r.2._plotItems,
          r.2._plotItem, r.2._doConsecutivePlots))
      = some (true, ["a", "b"], [0, 1], some 0, false) ∧
    createOrFindPlot (createOrFindPlot afterPlotA "PlotA") "PlotA"
      = createOrFindPlot afterPlotA "PlotA" ∧
    (∃ pi ∈ afterPlotA._plotItems,
      (afterPlotA.plots.get? pi).map (fun q => q.descriptiveName) = some "PlotA" ∧
      createOrFindPlot afterPlotA "PlotA" = { afterPlotA with _plotItem := some pi }) := by
  have h := named_plot_reuse (sampleEnv false) sampleDocument afterPlotA "PlotA" "a" "b"
    (by decide)
  refine ⟨by decide, ?_, h.2.2.1, h.1 ⟨0, by decide, by decide⟩⟩
  have h4 := congrArg (Option.map (fun r : Bool × List PlotItem × List Nat × Option Nat × Bool =>
    (r.1, r.2.1.map (fun q => q.descriptiveName), r.2.2))) h.2.2.2
  simpa [Option.map_map, Function.comp_def, namedPlot, sampleDocument] using h4

/-! ## The style of the curves -/

theorem yVectors_style (s : CommandLineParser) (field : String) (ds : DataSource) :
    (yVectors s field ds).2.2.2._overrideStyle = s._overrideStyle ∧
    (yVectors s field ds).2.2.2._errorField = s._errorField ∧
    styleFlags (yVectors s field ds).2.2.2 = requestedStyle s (yInferred s) := by
  unfold yVectors
  simp only [createOrFindDataVector_snd]
  cases ho : s._overrideStyle <;> by_cases he : s._errorField = "" <;>
    simp [ho, he, requestedStyle, yInferred, styleFlags]

theorem pSpectrum_style (s : CommandLineParser) (field : String) (ds : DataSource) :
    (pSpectrum s field ds).2._overrideStyle = s._overrideStyle ∧
    (pSpectrum s field ds).2._errorField = s._errorField ∧
    styleFlags (pSpectrum s field ds).2 = requestedStyle s (false, true, false) := by
  unfold pSpectrum
  simp only [createOrFindDataVector_snd]
  cases ho : s._overrideStyle <;> simp [ho, requestedStyle, styleFlags]

theorem hHistogram_style (s : CommandLineParser) (field : String) (ds : DataSource) :
    (hHistogram s field ds).2._overrideStyle = s._overrideStyle ∧
    (hHistogram s field ds).2._errorField = s._errorField ∧
    styleFlags (hHistogram s field ds).2 = requestedStyle s (false, false, true) := by
  unfold hHistogram
  simp only [createOrFindDataVector_snd]
  cases ho : s._overrideStyle <;> simp [ho, requestedStyle, styleFlags]

theorem createCurveInPlot_style (env : Env) (s t : CommandLineParser) (xv yv : Vector)
    (ev : Option Vector) (h : createCurveInPlot env s xv yv ev = some t) :
    t._overrideStyle = s._overrideStyle ∧ t._errorField = s._errorField ∧
    styleFlags t = styleFlags s ∧
    styleOf (newCurve env s xv yv ev) = asStyle (styleFlags s) := by
  obtain ⟨plots, pi, rfl⟩ := createCurveInPlot_footprint env s t xv yv ev h
  exact ⟨rfl, rfl, rfl, rfl⟩

theorem requestedStyle_idem (s a : CommandLineParser) (inferred : Bool × Bool × Bool)
    (h1 : a._overrideStyle = s._overrideStyle)
    (h2 : styleFlags a = requestedStyle s inferred) :
    requestedStyle a inferred = requestedStyle s inferred := by
  unfold requestedStyle at *
  rw [h1]
  cases ho : s._overrideStyle
  · simp
  · simp [h2, ho]

theorem yLoop_style (env : Env) (field : String) (files : List String)
    (s t : CommandLineParser) (hs : yLoop env field files s = some t) :
    t._overrideStyle = s._overrideStyle ∧ t._errorField = s._errorField ∧
    (s._overrideStyle = true → styleFlags t = styleFlags s) ∧
    ∃ cs, curvesOf t = curvesOf s ++ cs ∧
      ∀ c ∈ cs, styleOf c = asStyle (requestedStyle s (yInferred s)) := by
  induction files generalizing s with
  | nil =>
    simp only [yLoop, Option.some.injEq] at hs
    subst hs
    exact ⟨rfl, rfl, fun _ => rfl, [], by simp, by simp⟩
  | cons file rest ih =>
    unfold yLoop at hs
    split at hs
    · cases hs
      exact ⟨rfl, rfl, fun _ => rfl, [], by simp [curvesOf, printUsage], by simp⟩
    · split at hs
      · exact absurd hs (by simp)
      · rename_i ds hds
        split at hs
        · exact absurd hs (by simp)
        · rename_i b hb
          obtain ⟨hc, -⟩ := createCurveInPlot_curvesOf env _ b _ _ _ hb
          obtain ⟨b1, b2, b3, b4⟩ := createCurveInPlot_style env _ b _ _ _ hb
          obtain ⟨a1, a2, a3⟩ := yVectors_style s field ds
          have hv := yVectors_samePlacement s field ds
          obtain ⟨h1, h2, h3, cs, h4, h5⟩ := ih _ hs
          have e1 : b._overrideStyle = s._overrideStyle := b1.trans a1
          have e2 : b._errorField = s._errorField := b2.trans a2
          have e3 : styleFlags b = requestedStyle s (yInferred s) := b3.trans a3
          have e4 : requestedStyle { b with dataPlotted := true } (yInferred { b with dataPlotted := true })
              = requestedStyle s (yInferred s) := by
            have : yInferred { b with dataPlotted := true } = yInferred s := by
              unfold yInferred
              rw [show ({ b with dataPlotted := true } : CommandLineParser)._errorField
                = s._errorField from e2]
            rw [this]
            exact requestedStyle_idem s { b with dataPlotted := true } _ e1 e3
          refine ⟨h1.trans e1, h2.trans e2, fun ho => ?_, newCurve env (yVectors s field ds).2.2.2 (Vector.data (yVectors s field ds).1)
            (Vector.data (yVectors s field ds).2.1) ((yVectors s field ds).2.2.1.map Vector.data) :: cs,
            ?_, ?_⟩
          · rw [h3 (e1.trans ho)]
            show styleFlags b = _
            rw [e3, requestedStyle, if_pos ho]
          · rw [h4]
            show curvesOf b ++ cs = _
            rw [hc, hv.2.2.2, List.append_assoc]
            rfl
          · intro c hcm
            rcases List.mem_cons.1 hcm with rfl | hcm
            · rw [b4, a3]
            · rw [h5 c hcm, e4]

theorem pLoop_style (env : Env) (field : String) (files : List String)
    (s t : CommandLineParser) (hs : pLoop env field files s = some t) :
    t._overrideStyle = s._overrideStyle ∧ t._errorField = s._errorField ∧
    (s._overrideStyle = true → styleFlags t = styleFlags s) ∧
    ∃ cs, curvesOf t = curvesOf s ++ cs ∧
      ∀ c ∈ cs, styleOf c = asStyle (requestedStyle s (false, true, false)) := by
  induction files generalizing s with
  | nil =>
    simp only [pLoop, Option.some.injEq] at hs
    subst hs
    exact ⟨rfl, rfl, fun _ => rfl, [], by simp, by simp⟩
  | cons file rest ih =>
    unfold pLoop at hs
    split at hs
    · cases hs
      exact ⟨rfl, rfl, fun _ => rfl, [], by simp [curvesOf, printUsage], by simp⟩
    · split at hs
      · exact absurd hs (by simp)
      · rename_i ds hds
        split at hs
        · exact absurd hs (by simp)
        · rename_i b hb
          obtain ⟨hc, -⟩ := createCurveInPlot_curvesOf env _ b _ _ _ hb
          obtain ⟨b1, b2, b3, b4⟩ := createCurveInPlot_style env _ b _ _ _ hb
          obtain ⟨a1, a2, a3⟩ := pSpectrum_style s field ds
          have hv := pSpectrum_samePlacement s field ds
          obtain ⟨h1, h2, h3, cs, h4, h5⟩ := ih _ hs
          have e1 : b._overrideStyle = s._overrideStyle := b1.trans a1
          have e2 : b._errorField = s._errorField := b2.trans a2
          have e3 : styleFlags b = requestedStyle s (false, true, false) := b3.trans a3
          have e4 : requestedStyle { b with dataPlotted := true } (false, true, false)
              = requestedStyle s (false, true, false) := by
            exact requestedStyle_idem s { b with dataPlotted := true } _ e1 e3
          refine ⟨h1.trans e1, h2.trans e2, fun ho => ?_, newCurve env (pSpectrum s field ds).2 (Vector.psdX (pSpectrum s field ds).1.id)
            (Vector.psdY (pSpectrum s field ds).1.id) none :: cs,
            ?_, ?_⟩
          · rw [h3 (e1.trans ho)]
            show styleFlags b = _
            rw [e3, requestedStyle, if_pos ho]
          · rw [h4]
            show curvesOf b ++ cs = _
            rw [hc, hv.2.2.2, List.append_assoc]
            rfl
          · intro c hcm
            rcases List.mem_cons.1 hcm with rfl | hcm
            · rw [b4, a3]
            · rw [h5 c hcm, e4]

theorem hLoop_style (env : Env) (field : String) (files : List String)
    (s t : CommandLineParser) (hs : hLoop env field files s = some t) :
    t._overrideStyle = s._overrideStyle ∧ t._errorField = s._errorField ∧
    (s._overrideStyle = true → styleFlags t = styleFlags s) ∧
    ∃ cs, curvesOf t = curvesOf s ++ cs ∧
      ∀ c ∈ cs, styleOf c = asStyle (requestedStyle s (false, false, true)) := by
  induction files generalizing s with
  | nil =>
    simp only [hLoop, Option.some.injEq] at hs
    subst hs
    exact ⟨rfl, rfl, fun _ => rfl, [], by simp, by simp⟩
  | cons file rest ih =>
    unfold hLoop at hs
    split at hs
    · cases hs
      exact ⟨rfl, rfl, fun _ => rfl, [], by simp [curvesOf, printUsage], by simp⟩
    · split at hs
      · exact absurd hs (by simp)
      · rename_i ds hds
        split at hs
        · exact absurd hs (by simp)
        · rename_i b hb
          obtain ⟨hc, -⟩ := createCurveInPlot_curvesOf env _ b _ _ _ hb
          obtain ⟨b1, b2, b3, b4⟩ := createCurveInPlot_style env _ b _ _ _ hb
          obtain ⟨a1, a2, a3⟩ := hHistogram_style s field ds
          have hv := hHistogram_samePlacement s field ds
          obtain ⟨h1, h2, h3, cs, h4, h5⟩ := ih _ hs
          have e1 : b._overrideStyle = s._overrideStyle := b1.trans a1
          have e2 : b._errorField = s._errorField := b2.trans a2
          have e3 : styleFlags b = requestedStyle s (false, false, true) := b3.trans a3
          have e4 : requestedStyle { b with dataPlotted := true } (false, false, true)
              = requestedStyle s (false, false, true) := by
            exact requestedStyle_idem s { b with dataPlotted := true } _ e1 e3
          refine ⟨h1.trans e1, h2.trans e2, fun ho => ?_, newCurve env (hHistogram s field ds).2 (Vector.histX (hHistogram s field ds).1.id)
            (Vector.histY (hHistogram s field ds).1.id) none :: cs,
            ?_, ?_⟩
          · rw [h3 (e1.trans ho)]
            show styleFlags b = _
            rw [e3, requestedStyle, if_pos ho]
          · rw [h4]
            show curvesOf b ++ cs = _
            rw [hc, hv.2.2.2, List.append_assoc]
            rfl
          · intro c hcm
            rcases List.mem_cons.1 hcm with rfl | hcm
            · rw [b4, a3]
            · rw [h5 c hcm, e4]

theorem createOrFindPlot_styleState (s : CommandLineParser) (plot_name : String) :
    styleState (createOrFindPlot s plot_name) = styleState s := by
  unfold createOrFindPlot
  split
  · rfl
  · simp only [applyLabels]
    rfl

theorem createOrFindTab_styleState (env : Env) (s : CommandLineParser) (name : String) :
    styleState (createOrFindTab env s name) = styleState s := by
  unfold createOrFindTab
  split <;> rfl

theorem placeRelation_styleState (s t : CommandLineParser) (r : Relation)
    (h : placeRelation s r = some t) : styleState t = styleState s := by
  obtain ⟨plots, pi, rfl⟩ := placeRelation_footprint s t r h
  rfl

theorem placeAutoCurves_styleState (env : Env) (curve_count : Nat) (curves : List Object)
    (count : Nat) (asked : Bool) (s s' : CommandLineParser)
    (hs : placeAutoCurves env curve_count curves count asked s = some s') :
    styleState s' = styleState s := by
  induction curves generalizing s count asked with
  | nil =>
    simp [placeAutoCurves] at hs
    subst hs
    rfl
  | cons o rest ih =>
    cases o with
    | curve c =>
      unfold placeAutoCurves at hs
      split at hs
      · split at hs
        · cases hs
          rfl
        · split at hs
          · exact absurd hs (by simp)
          · rename_i s2 h2
            exact (ih _ _ _ hs).trans ((placeRelation_styleState _ s2 _ h2).trans rfl)
      · split at hs
        · exact absurd hs (by simp)
        · rename_i s2 h2
          exact (ih _ _ _ hs).trans (placeRelation_styleState _ s2 _ h2)
    | dataVector v => exact ih _ _ _ (by simpa [placeAutoCurves] using hs)
    | psd v => exact ih _ _ _ (by simpa [placeAutoCurves] using hs)
    | histogram v => exact ih _ _ _ (by simpa [placeAutoCurves] using hs)
    | dataMatrix v => exact ih _ _ _ (by simpa [placeAutoCurves] using hs)
    | image v => exact ih _ _ _ (by simpa [placeAutoCurves] using hs)

theorem autoCurvesLoop_styleState (ds : DataSource) (xv : DataVector) (fields : List String)
    (curves : List Object) (s : CommandLineParser) :
    styleState (autoCurvesLoop ds xv fields curves s).2 = styleState s := by
  induction fields generalizing curves s with
  | nil => rfl
  | cons f rest ih =>
    unfold autoCurvesLoop
    split
    · exact ih _ _
    · exact ih _ _

theorem autoDetectCurves_styleState (s : CommandLineParser) (ds : DataSource) :
    styleState (autoDetectCurves s ds).2 = styleState s := by
  unfold autoDetectCurves
  split
  · unfold autoCurves
    split
    · rfl
    · exact autoCurvesLoop_styleState _ _ _ _ _
  · rfl

theorem appendFileName_styleState (s : CommandLineParser) (arg : String) :
    styleState (appendFileName s arg) = styleState s := by
  unfold appendFileName
  simp only []
  split
  · split <;> rfl
  · rfl

theorem fileArg_styleState (env : Env) (s s' : CommandLineParser) (arg : String)
    (hs : fileArg env s arg = some s') : styleState s' = styleState s := by
  unfold fileArg at hs
  split at hs
  · split at hs
    · cases hs
      exact appendFileName_styleState s arg
    · split at hs
      · exact (placeAutoCurves_styleState env _ _ _ _ _ s' hs).trans
          ((autoDetectCurves_styleState _ _).trans (appendFileName_styleState s arg))
      · cases hs
        exact (autoDetectCurves_styleState _ _).trans (appendFileName_styleState s arg)
  · cases hs
    exact appendFileName_styleState s arg

theorem dispatch_keeps_styleState (env : Env) (s : CommandLineParser) (flag : String)
    (hmem : flag ∈ optionNames) (hstyle : flag ∉ styleOrDataFlags) :
    (dispatch env s flag).map styleState = some (styleState s) := by
  simp only [optionNames, List.mem_cons, List.mem_singleton, List.not_mem_nil, or_false] at hmem
  rcases hmem with rfl | rfl | rfl | rfl | rfl | rfl | rfl | rfl | rfl | rfl | rfl | rfl | rfl | rfl | rfl | rfl | rfl | rfl | rfl | rfl | rfl | rfl | rfl | rfl | rfl | rfl | rfl | rfl | rfl | rfl | rfl | rfl
  · rw [dispatch_dd_help]
    simp [styleState, styleFlags, printUsage, _setIntArg_snd, _setStringArg_snd, _setDoubleArg_snd]
  · rw [dispatch_d_help]
    simp [styleState, styleFlags, printUsage, _setIntArg_snd, _setStringArg_snd, _setDoubleArg_snd]
  · rw [dispatch_dd_version]
    simp [styleState, styleFlags, printUsage, _setIntArg_snd, _setStringArg_snd, _setDoubleArg_snd]
  · rw [dispatch_d_version]
    simp [styleState, styleFlags, printUsage, _setIntArg_snd, _setStringArg_snd, _setDoubleArg_snd]
  · rw [dispatch_d_f]
    simp [styleState, styleFlags, printUsage, _setIntArg_snd, _setStringArg_snd, _setDoubleArg_snd]
  · rw [dispatch_d_n]
    simp [styleState, styleFlags, printUsage, _setIntArg_snd, _setStringArg_snd, _setDoubleArg_snd]
  · rw [dispatch_d_s]
    simp [styleState, styleFlags, printUsage, _setIntArg_snd, _setStringArg_snd, _setDoubleArg_snd]
  · rw [dispatch_d_a]
    simp [styleState, styleFlags, printUsage, _setIntArg_snd, _setStringArg_snd, _setDoubleArg_snd]
  · rw [dispatch_d_P]
    simp only [Option.map_some', createOrFindPlot_styleState, _setStringArg_snd]
    rfl
  · rw [dispatch_d_A]
    simp [styleState, styleFlags, printUsage, _setIntArg_snd, _setStringArg_snd, _setDoubleArg_snd]
  · rw [dispatch_d_T]
    simp only [_setStringArg_snd]
    split
    · simp only [Option.map_some', createOrFindTab_styleState]
      rfl
    · rfl
  · exact absurd (by decide) hstyle
  · exact absurd (by decide) hstyle
  · exact absurd (by decide) hstyle
  · rw [dispatch_d_x]
    simp [styleState, styleFlags, printUsage, _setIntArg_snd, _setStringArg_snd, _setDoubleArg_snd]
  · rw [dispatch_d_e]
    simp [styleState, styleFlags, printUsage, _setIntArg_snd, _setStringArg_snd, _setDoubleArg_snd]
  · rw [dispatch_d_r]
    simp [styleState, styleFlags, printUsage, _setIntArg_snd, _setStringArg_snd, _setDoubleArg_snd]
  · exact absurd (by decide) hstyle
  · exact absurd (by decide) hstyle
  · rw [dispatch_dd_xlabel]
    simp [styleState, styleFlags, printUsage, _setIntArg_snd, _setStringArg_snd, _setDoubleArg_snd]
  · rw [dispatch_dd_ylabel]
    simp [styleState, styleFlags, printUsage, _setIntArg_snd, _setStringArg_snd, _setDoubleArg_snd]
  · rw [dispatch_dd_xlabelauto]
    simp [styleState, styleFlags, printUsage, _setIntArg_snd, _setStringArg_snd, _setDoubleArg_snd]
  · rw [dispatch_dd_ylabelauto]
    simp [styleState, styleFlags, printUsage, _setIntArg_snd, _setStringArg_snd, _setDoubleArg_snd]
  · exact absurd (by decide) hstyle
  · exact absurd (by decide) hstyle
  · rw [dispatch_d_F]
    simp [styleState, styleFlags, printUsage, _setIntArg_snd, _setStringArg_snd, _setDoubleArg_snd]
  · rw [dispatch_dd_png]
    simp [styleState, styleFlags, printUsage, _setIntArg_snd, _setStringArg_snd, _setDoubleArg_snd]
  · rw [dispatch_dd_print]
    simp [styleState, styleFlags, printUsage, _setIntArg_snd, _setStringArg_snd, _setDoubleArg_snd]
  · rw [dispatch_dd_landscape]
    simp [styleState, styleFlags, printUsage, _setIntArg_snd, _setStringArg_snd, _setDoubleArg_snd]
  · rw [dispatch_dd_portrait]
    simp [styleState, styleFlags, printUsage, _setIntArg_snd, _setStringArg_snd, _setDoubleArg_snd]
  · rw [dispatch_dd_A4]
    simp [styleState, styleFlags, printUsage, _setIntArg_snd, _setStringArg_snd, _setDoubleArg_snd]
  · rw [dispatch_dd_letter]
    simp [styleState, styleFlags, printUsage, _setIntArg_snd, _setStringArg_snd, _setDoubleArg_snd]

theorem dispatch_y_style (env : Env) (s t : CommandLineParser)
    (hs : dispatch env s "-y" = some t) :
    (t.ok = true → t._overrideStyle = false) ∧
    ∃ cs, curvesOf t = curvesOf s ++ cs ∧
      ∀ c ∈ cs, styleOf c = asStyle (requestedStyle s (yInferred s)) := by
  obtain ⟨-, f2, -⟩ := _setStringArg_frame s "" "Usage: -y <fieldname>\n"
  rw [dispatch_d_y] at hs
  simp only [] at hs
  split at hs
  · cases hs
    refine ⟨fun h => absurd h (by simp), [], ?_, by simp⟩
    rw [List.append_nil]
    unfold curvesOf
    exact congrArg (fun o => curvesIn o.objects) f2
  · split at hs
    · exact absurd hs (by simp)
    · rename_i s2 h2
      cases hs
      obtain ⟨-, -, -, cs, h4, h5⟩ := yLoop_style env _ _ _ s2 h2
      refine ⟨fun _ => rfl, cs, ?_, ?_⟩
      · show curvesOf s2 = _
        rw [h4]
        unfold curvesOf
        exact congrArg (fun o => curvesIn o.objects ++ cs) f2
      · intro c hc
        rw [h5 c hc]
        simp only [requestedStyle, yInferred, styleFlags, _setStringArg_snd]

theorem dispatch_p_style (env : Env) (s t : CommandLineParser)
    (hs : dispatch env s "-p" = some t) :
    (t.ok = true → t._overrideStyle = false) ∧
    ∃ cs, curvesOf t = curvesOf s ++ cs ∧
      ∀ c ∈ cs, styleOf c = asStyle (requestedStyle s (false, true, false)) := by
  obtain ⟨-, f2, -⟩ := _setStringArg_frame s "" "Usage: -p <fieldname>\n"
  rw [dispatch_d_p] at hs
  simp only [] at hs
  split at hs
  · split at hs
    · exact absurd hs (by simp)
    · rename_i s2 h2
      cases hs
      obtain ⟨-, -, -, cs, h4, h5⟩ := pLoop_style env _ _ _ s2 h2
      refine ⟨fun _ => rfl, cs, ?_, ?_⟩
      · show curvesOf s2 = _
        rw [h4]
        unfold curvesOf
        exact congrArg (fun o => curvesIn o.objects ++ cs) f2
      · intro c hc
        rw [h5 c hc]
        simp only [requestedStyle, styleFlags, _setStringArg_snd]
  · rename_i hno
    cases hs
    refine ⟨fun h => absurd h hno, [], ?_, by simp⟩
    rw [List.append_nil]
    unfold curvesOf
    exact congrArg (fun o => curvesIn o.objects) f2

theorem dispatch_h_style (env : Env) (s t : CommandLineParser)
    (hs : dispatch env s "-h" = some t) :
    (t.ok = true → t._overrideStyle = false) ∧
    ∃ cs, curvesOf t = curvesOf s ++ cs ∧
      ∀ c ∈ cs, styleOf c = asStyle (requestedStyle s (false, false, true)) := by
  obtain ⟨-, f2, -⟩ := _setStringArg_frame s "" "Usage: -h <fieldname>\n"
  rw [dispatch_d_h] at hs
  simp only [] at hs
  split at hs
  · split at hs
    · exact absurd hs (by simp)
    · rename_i s2 h2
      cases hs
      obtain ⟨-, -, -, cs, h4, h5⟩ := hLoop_style env _ _ _ s2 h2
      refine ⟨fun _ => rfl, cs, ?_, ?_⟩
      · show curvesOf s2 = _
        rw [h4]
        unfold curvesOf
        exact congrArg (fun o => curvesIn o.objects ++ cs) f2
      · intro c hc
        rw [h5 c hc]
        simp only [requestedStyle, styleFlags, _setStringArg_snd]
  · rename_i hno
    cases hs
    refine ⟨fun h => absurd h hno, [], ?_, by simp⟩
    rw [List.append_nil]
    unfold curvesOf
    exact congrArg (fun o => curvesIn o.objects) f2

/-- Claim C18, amended: `-d`, `-l` and `-b` set the style flags to points,
lines and bars and switch the explicit override on; every other option except
`-y`, `-p`, `-h`, `-z` and every file token leaves flags and override as they
are.  Every curve a `-y`, `-p` or `-h` directive creates has the style of the
flags when the override is on, whatever the error field is; a directive that
ends with `ok = true` leaves the override off.  With the override off the
curves of `-y` have points when an error field is set and lines when none is
set, the curves of `-p` have lines and the curves of `-h` have bars, for `-p`
and `-h` whether or not an error field is set. -/
theorem explicit_style (env : Env) (s t : CommandLineParser) (arg : String)
    (hs : dispatch env s arg = some t) :
    (arg = "-d" → styleState t = ((true, false, false), true)) ∧
    (arg = "-l" → styleState t = ((false, true, false), true)) ∧
    (arg = "-b" → styleState t = ((false, false, true), true)) ∧
    (arg ∉ styleOrDataFlags → styleState t = styleState s) ∧
    (arg = "-y" ∨ arg = "-p" ∨ arg = "-h" →
      (t.ok = true → t._overrideStyle = false) ∧
      ∃ cs, curvesOf t = curvesOf s ++ cs ∧
        (s._overrideStyle = true → ∀ c ∈ cs, styleOf c = asStyle (styleFlags s)) ∧
        (s._overrideStyle = false → ∀ c ∈ cs, styleOf c = asStyle (inferredStyle arg s))) := by
  refine ⟨fun ha => ?_, fun ha => ?_, fun ha => ?_, fun ha => ?_, fun ha => ?_⟩
  · subst ha
    rw [dispatch_d_d] at hs
    cases hs
    rfl
  · subst ha
    rw [dispatch_d_l] at hs
    cases hs
    rfl
  · subst ha
    rw [dispatch_d_b] at hs
    cases hs
    rfl
  · by_cases hmem : arg ∈ optionNames
    · have h := dispatch_keeps_styleState env s arg hmem ha
      rw [hs] at h
      exact Option.some.inj h
    · rw [dispatch_fileArg env s arg hmem] at hs
      exact fileArg_styleState env s t arg hs
  · rcases ha with rfl | rfl | rfl
    · obtain ⟨h1, cs, h2, h3⟩ := dispatch_y_style env s t hs
      refine ⟨h1, cs, h2, fun ho c hc => ?_, fun ho c hc => ?_⟩
      · rw [h3 c hc, requestedStyle, if_pos ho]
      · rw [h3 c hc, requestedStyle, if_neg (by simp [ho])]
        rfl
    · obtain ⟨h1, cs, h2, h3⟩ := dispatch_p_style env s t hs
      refine ⟨h1, cs, h2, fun ho c hc => ?_, fun ho c hc => ?_⟩
      · rw [h3 c hc, requestedStyle, if_pos ho]
      · rw [h3 c hc, requestedStyle, if_neg (by simp [ho])]
        rfl
    · obtain ⟨h1, cs, h2, h3⟩ := dispatch_h_style env s t hs
      refine ⟨h1, cs, h2, fun ho c hc => ?_, fun ho c hc => ?_⟩
      · rw [h3 c hc, requestedStyle, if_pos ho]
      · rw [h3 c hc, requestedStyle, if_neg (by simp [ho])]
        rfl

/-- Claim C18 as stated fails for `-p`: in `file.dat -e 2 -p 1` an error field
is set when `-p` runs and no style flag was given, and the curve has lines, not
points. -/
theorem explicit_style_counterexample :
    (run (sampleEnv false) ["file.dat", "-e", "2", "-p", "1"]).map
        (fun t => (t.ok, t._errorField, t._overrideStyle)) = some (true, "2", false) ∧
    (run (sampleEnv false) ["file.dat", "-e", "2", "-p", "1"]).map
        (fun t => (curvesOf t).map styleOf) = some [(some false, some true, some false)] ∧
    (run (sampleEnv false) ["file.dat", "-e", "2", "-p", "1"]).map
        (fun t => (curvesOf t).map styleOf) ≠ some [(some true, some false, some false)] := by
  refine ⟨by decide, by decide, by decide⟩

/-- Witness of claim C18: `-y 1` after `file.dat -d`; and the runs
`file.dat -d -y 1 -y 2` (a points curve, then a lines curve),
`file.dat -b -e 2 -y 1 -e 2 -y 1` (bars, then points) and
`file.dat -d -f 3 -h 1 -h 1` (points, then bars). -/
theorem explicit_style_witness :
    (∃ t, dispatch (sampleEnv false)
        { CommandLineParser.new sampleDocument ["1"] with
          _fileNames := ["file.dat"], new_fileList := false,
          _usePoints := true, _useLines := false, _overrideStyle := true } "-y" = some t ∧
      t._overrideStyle = false ∧
      ∃ cs, curvesOf t = [] ++ cs ∧
        ∀ c ∈ cs, styleOf c = (some true, some false, some false)) ∧
    (run (sampleEnv false) ["file.dat", "-d", "-y", "1", "-y", "2"]).map
        (fun t => (t.ok, (curvesOf t).map styleOf))
      = some (true, [(some true, some false, some false), (some false, some true, some false)]) ∧
    (run (sampleEnv false) ["file.dat", "-b", "-e", "2", "-y", "1", "-e", "2", "-y", "1"]).map
        (fun t => (t.ok, (curvesOf t).map styleOf))
      = some (true, [(some false, some false, some true), (some true, some false, some false)]) ∧
    (run (sampleEnv false) ["file.dat", "-d", "-f", "3", "-h", "1", "-h", "1"]).map
        (fun t => (t.ok, (curvesOf t).map styleOf))
      = some (true, [(some true, some false, some false), (some false, some false, some true)]) := by
  refine ⟨?_, by decide, by decide, by decide⟩
  cases h : dispatch (sampleEnv false)
      { CommandLineParser.new sampleDocument ["1"] with
        _fileNames := ["file.dat"], new_fileList := false,
        _usePoints := true, _useLines := false, _overrideStyle := true } "-y" with
  | none => exact absurd h (by decide)
  | some t =>
    have hok : t.ok = true := by
      have : (dispatch (sampleEnv false)
        { CommandLineParser.new sampleDocument ["1"] with
          _fileNames := ["file.dat"], new_fileList := false,
          _usePoints := true, _useLines := false, _overrideStyle := true } "-y").map
          (fun t => t.ok) = some true := by decide
      rw [h] at this
      simpa using this
    obtain ⟨h1, cs, h2, h3, -⟩ := (explicit_style (sampleEnv false) _ t "-y" h).2.2.2.2
      (Or.inl rfl)
    exact ⟨t, rfl, h1 hok, cs, h2, h3 rfl⟩

/-! ## The curves of `autoCurves` -/

theorem autoCurvesLoop_cons (ds : DataSource) (xv : DataVector) (field : String)
    (rest : List String) (acc : List Object) (s : CommandLineParser) (hf : field ≠ "INDEX") :
    autoCurvesLoop ds xv (field :: rest) acc s =
      autoCurvesLoop ds xv rest (acc ++ [Object.curve (autoCurve s ds xv field)])
        { s with
          objectStore := { s.objectStore with
            objects := s.objectStore.objects ++
              [Object.dataVector (autoYVector s ds field),
                Object.curve (autoCurve s ds xv field)] }
          colorSequence := s.colorSequence + 1 } := by
  rw [autoCurvesLoop, if_pos hf]
  rfl

theorem autoCurvesLoop_result (ds : DataSource) (xv : DataVector) (fields : List String)
    (acc : List Object) (s : CommandLineParser) :
    ∃ cs objs, autoCurvesLoop ds xv fields acc s =
        (acc ++ cs.map Object.curve,
          { s with
            objectStore := { s.objectStore with objects := s.objectStore.objects ++ objs }
            colorSequence := s.colorSequence + cs.length }) ∧
      curvesIn objs = cs ∧ objs.length = 2 * cs.length ∧
      (∀ c ∈ cs, c.xVector = some (Vector.data xv) ∧ noErrors c) ∧
      cs.map (fun c => vectorRequest c.yVector)
        = (fields.filter (fun f => f ≠ "INDEX")).map
            (fun f => some (ds.fileName, f, 0, -1, 0, false, false)) ∧
      cs.map (fun c => c.yVector) = (dataVectorsIn objs).map (fun v => some (Vector.data v)) := by
  induction fields generalizing acc s with
  | nil =>
    refine ⟨[], [], ?_, rfl, rfl, by simp, by simp, by simp [dataVectorsIn]⟩
    simp [autoCurvesLoop]
  | cons field rest ih =>
    by_cases hf : field = "INDEX"
    · obtain ⟨cs, objs, h1, h2, h3, h4, h5, h6⟩ := ih acc s
      refine ⟨cs, objs, ?_, h2, h3, h4, ?_, h6⟩
      · rw [autoCurvesLoop, if_neg (by simp [hf])]
        exact h1
      · simp [hf, h5]
    · obtain ⟨cs, objs, h1, h2, h3, h4, h5, h6⟩ := ih
        (acc ++ [Object.curve (autoCurve s ds xv field)])
        { s with
          objectStore := { s.objectStore with
            objects := s.objectStore.objects ++
              [Object.dataVector (autoYVector s ds field),
                Object.curve (autoCurve s ds xv field)] }
          colorSequence := s.colorSequence + 1 }
      refine ⟨autoCurve s ds xv field :: cs,
        Object.dataVector (autoYVector s ds field) :: Object.curve (autoCurve s ds xv field)
          :: objs, ?_, ?_, ?_, ?_, ?_, ?_⟩
      · rw [autoCurvesLoop_cons ds xv field rest acc s hf, h1]
        simp [List.append_assoc]
        omega
      · rw [← h2]
        simp [curvesIn, List.filterMap_cons]
      · simp [h3]
        omega
      · intro c hc
        rcases List.mem_cons.1 hc with rfl | hc
        · exact ⟨rfl, rfl, rfl, rfl, rfl⟩
        · exact h4 c hc
      · rw [List.map_cons, h5, List.filter_cons_of_pos (by simp [hf])]
        rfl
      · rw [List.map_cons, h6]
        simp [dataVectorsIn, List.filterMap_cons, autoCurve]

/-- Claim C20: with an empty field list `autoCurves` returns no curve and the
parser as it was.  Otherwise it creates the vector `INDEX` (from frame 0, count
-1, no skip, no averaging) and then, for every field of the list other than
`INDEX` and in the order of the list, one Y vector of that field with the same
window and one curve; the returned list holds exactly these curves; every
curve has that one `INDEX` vector as X vector and no error vector; its Y vector
is the vector created for its field.  Only the object store and the colour
sequence change: the vectors are not entered in the cache `_vectors`. -/
theorem autoCurves_result (s : CommandLineParser) (ds : DataSource) :
    (ds.fieldList = [] → autoCurves s ds = ([], s)) ∧
    (ds.fieldList ≠ [] →
      ∃ cs objs, (autoCurves s ds).1 = cs.map Object.curve ∧
        (autoCurves s ds).2 = { s with
          objectStore := { s.objectStore with
            objects := s.objectStore.objects ++ Object.dataVector (autoIndexVector s ds) :: objs }
          colorSequence := s.colorSequence + cs.length } ∧
        curvesIn objs = cs ∧ objs.length = 2 * cs.length ∧
        (∀ c ∈ cs, c.xVector = some (Vector.data (autoIndexVector s ds)) ∧ noErrors c) ∧
        cs.map (fun c => vectorRequest c.yVector)
          = (ds.fieldList.filter (fun f => f ≠ "INDEX")).map
              (fun f => some (ds.fileName, f, 0, -1, 0, false, false)) ∧
        cs.map (fun c => c.yVector)
          = (dataVectorsIn objs).map (fun v => some (Vector.data v))) ∧
    (autoCurves s ds).2._vectors = s._vectors := by
  refine ⟨fun h => ?_, fun h => ?_, ?_⟩
  · rw [autoCurves, if_pos (by simp [h])]
  · obtain ⟨cs, objs, h1, h2, h3, h4, h5, h6⟩ := autoCurvesLoop_result ds (autoIndexVector s ds)
      ds.fieldList []
      { s with objectStore := { s.objectStore with
          objects := s.objectStore.objects ++ [Object.dataVector (autoIndexVector s ds)] } }
    have e : autoCurves s ds = autoCurvesLoop ds (autoIndexVector s ds) ds.fieldList []
        { s with objectStore := { s.objectStore with
            objects := s.objectStore.objects ++ [Object.dataVector (autoIndexVector s ds)] } } := by
      rw [autoCurves, if_neg (by simpa using h)]
      rfl
    rw [e, h1]
    refine ⟨cs, objs, by simp, ?_, h2, h3, h4, h5, h6⟩
    simp [List.append_assoc]
  · unfold autoCurves
    split
    · rfl
    · obtain ⟨cs, objs, h1, -⟩ := autoCurvesLoop_result ds (autoIndexVector s ds)
        ds.fieldList []
        { s with objectStore := { s.objectStore with
            objects := s.objectStore.objects ++ [Object.dataVector (autoIndexVector s ds)] } }
      exact (congrArg (fun r => r.2._vectors) h1).trans rfl

/-- Witness of claim C20: a source without fields, and a source with the
fields `INDEX`, `Column 1`, `Column 2`. -/
theorem autoCurves_result_witness :
    autoCurves (CommandLineParser.new sampleDocument []) (sampleSource "empty.dat" [])
      = ([], CommandLineParser.new sampleDocument []) ∧
    (∃ cs objs, (autoCurves (CommandLineParser.new sampleDocument [])
          (sampleSource "file.dat" ["INDEX", "Column 1", "Column 2"])).1
        = cs.map Object.curve ∧
      curvesIn objs = cs ∧ objs.length = 2 * cs.length ∧
      (∀ c ∈ cs, c.xVector = some (Vector.data (autoIndexVector
          (CommandLineParser.new sampleDocument [])
          (sampleSource "file.dat" ["INDEX", "Column 1", "Column 2"]))) ∧ noErrors c) ∧
      cs.map (fun c => vectorRequest c.yVector)
        = [some ("file.dat", "Column 1", 0, -1, 0, false, false),
            some ("file.dat", "Column 2", 0, -1, 0, false, false)]) ∧
    ((autoCurves (CommandLineParser.new sampleDocument [])
        (sampleSource "file.dat" ["INDEX", "Column 1", "Column 2"])).1.length,
      (autoCurves (CommandLineParser.new sampleDocument [])
        (sampleSource "file.dat" ["INDEX", "Column 1", "Column 2"])).2.objectStore.objects.length)
      = (2, 5) := by
  refine ⟨(autoCurves_result (CommandLineParser.new sampleDocument [])
    (sampleSource "empty.dat" [])).1 rfl, ?_, by decide⟩
  obtain ⟨cs, objs, h1, -, h2, h3, h4, h5, -⟩ :=
    (autoCurves_result (CommandLineParser.new sampleDocument [])
      (sampleSource "file.dat" ["INDEX", "Column 1", "Column 2"])).2.1 (by decide)
  exact ⟨cs, objs, h1, h2, h3, h4, h5⟩

/-! ## The auto-detect branch -/

theorem appendFileName_frame (s : CommandLineParser) (arg : String) :
    (appendFileName s arg).objectStore = s.objectStore ∧
    (appendFileName s arg).plots = s.plots ∧
    (appendFileName s arg)._vectors = s._vectors ∧
    (appendFileName s arg)._doConsecutivePlots = s._doConsecutivePlots := by
  unfold appendFileName
  simp only []
  split
  · split <;> exact ⟨rfl, rfl, rfl, rfl⟩
  · exact ⟨rfl, rfl, rfl, rfl⟩

/-- Claim C19: for a token `arg` that is no option, the auto-detect branch is
entered exactly when no token follows and `arg` does not end with `.kst`.  A
file name that is followed by a token, or that ends with `.kst`, is appended to
the file list and nothing else happens: objects, plots and vector cache stay.
A last token without that suffix is appended too; when it has no source
nothing else happens; when it has the source `ds`, the curves of the source
(`autoDetectCurves`) are created and, if there is one, handed to the placement
loop with the file recorded as recent file, which in consecutive mode returns
with one new plot per placed curve. -/
theorem autoDetect_trigger (env : Env) (s : CommandLineParser) (arg : String)
    (hno : arg ∉ optionNames) :
    (endsWithKst arg = true ∨ s._arguments ≠ [] →
      dispatch env s arg = some (appendFileName s arg) ∧
      (appendFileName s arg).objectStore = s.objectStore ∧
      (appendFileName s arg).plots = s.plots ∧
      (appendFileName s arg)._vectors = s._vectors) ∧
    (endsWithKst arg = false → s._arguments = [] →
      (env.findOrLoadSource arg = none → dispatch env s arg = some (appendFileName s arg)) ∧
      (∀ ds, env.findOrLoadSource arg = some ds →
        dispatch env s arg =
          (if (autoDetectCurves (appendFileName s arg) ds).1.countP isCurve > 0 then
            placeAutoCurves env ((autoDetectCurves (appendFileName s arg) ds).1.countP isCurve)
              (autoDetectCurves (appendFileName s arg) ds).1 0 false
              { (autoDetectCurves (appendFileName s arg) ds).2 with
                mainWindowRecentDataFiles :=
                  (autoDetectCurves (appendFileName s arg) ds).2.mainWindowRecentDataFiles
                    ++ [arg] }
          else some (autoDetectCurves (appendFileName s arg) ds).2) ∧
        (s._doConsecutivePlots = true →
          ∃ t, dispatch env s arg = some t ∧
            t.plots.length = s.plots.length +
              (placedCurves env (autoDetectCurves (appendFileName s arg) ds).1).length))) := by
  have hargs := appendFileName_arguments s arg
  obtain ⟨f1, f2, f3, f4⟩ := appendFileName_frame s arg
  rw [dispatch_fileArg env s arg hno]
  refine ⟨fun h => ⟨?_, f1, f2, f3⟩, fun hk hlast => ⟨fun hds => ?_, fun ds hds => ?_⟩⟩
  · rw [fileArg, if_neg]
    rintro ⟨h1, h2⟩
    rw [hargs] at h2
    rcases h with h | h
    · rw [h] at h1
      exact absurd h1 (by simp)
    · exact h (List.length_eq_zero.1 h2)
  · rw [fileArg, if_pos ⟨hk, by rw [hargs, hlast]; rfl⟩, hds]
  · have e : fileArg env s arg =
        (if (autoDetectCurves (appendFileName s arg) ds).1.countP isCurve > 0 then
          placeAutoCurves env ((autoDetectCurves (appendFileName s arg) ds).1.countP isCurve)
            (autoDetectCurves (appendFileName s arg) ds).1 0 false
            { (autoDetectCurves (appendFileName s arg) ds).2 with
              mainWindowRecentDataFiles :=
                (autoDetectCurves (appendFileName s arg) ds).2.mainWindowRecentDataFiles
                  ++ [arg] }
        else some (autoDetectCurves (appendFileName s arg) ds).2) := by
      rw [fileArg, if_pos ⟨hk, by rw [hargs, hlast]; rfl⟩, hds]
    refine ⟨e, fun hc => ?_⟩
    have hst := autoDetectCurves_sameTarget (appendFileName s arg) ds
    have hpl : (autoDetectCurves (appendFileName s arg) ds).2.plots = s.plots := hst.1.trans f2
    have hcm : (autoDetectCurves (appendFileName s arg) ds).2._doConsecutivePlots = true :=
      hst.2.1.trans (f4.trans hc)
    rw [e]
    by_cases hcount : (autoDetectCurves (appendFileName s arg) ds).1.countP isCurve > 0
    · rw [if_pos hcount]
      obtain ⟨t, h1, h2⟩ := placeAutoCurves_consecutive env
        (autoDetectCurves (appendFileName s arg) ds).1
        { (autoDetectCurves (appendFileName s arg) ds).2 with
          mainWindowRecentDataFiles :=
            (autoDetectCurves (appendFileName s arg) ds).2.mainWindowRecentDataFiles
              ++ [arg] } hcm
      refine ⟨t, h1, ?_⟩
      rw [h2, List.length_append, List.length_map]
      exact congrArg (fun l => List.length l + _) hpl
    · rw [if_neg hcount]
      refine ⟨_, rfl, ?_⟩
      have h0 : (autoDetectCurves (appendFileName s arg) ds).1.countP isCurve = 0 := by omega
      have : (placedCurves env (autoDetectCurves (appendFileName s arg) ds).1).length = 0 := by
        unfold placedCurves
        rw [if_neg (by omega), curvesIn_length, h0]
      rw [this, hpl]
      rfl

/-- Witness of claim C19: `file.dat` followed by `-a` is only appended; the
run `file.dat` creates five vectors, four curves and four plots, the runs
`file.dat -a` and `data.kst` (a name with a source) create nothing. -/
theorem autoDetect_trigger_witness :
    "file.dat" ∉ optionNames ∧
    dispatch (sampleEnv false) (CommandLineParser.new sampleDocument ["-a"]) "file.dat"
      = some (appendFileName (CommandLineParser.new sampleDocument ["-a"]) "file.dat") ∧
    (run (sampleEnv false) ["file.dat"]).map
        (fun t => (t.ok, t._fileNames, t.objectStore.objects.length, (curvesOf t).length,
          t.plots.length)) = some (true, ["file.dat"], 9, 4, 4) ∧
    (run (sampleEnv false) ["file.dat", "-a"]).map
        (fun t => (t.ok, t._fileNames, t.objectStore.objects.length, (curvesOf t).length,
          t.plots.length)) = some (true, ["file.dat"], 0, 0, 0) ∧
    (kstEnv.findOrLoadSource "data.kst").isSome = true ∧
    (processCommandLine kstEnv (CommandLineParser.new sampleDocument ["data.kst"])).map
        (fun r => (r.2.ok, r.2._fileNames, r.2.objectStore.objects.length, r.2.plots.length))
      = some (true, ["data.kst"], 0, 0) ∧
    (processCommandLine kstEnv (CommandLineParser.new sampleDocument ["data.dat"])).map
        (fun r => (r.2.ok, r.2._fileNames, r.2.objectStore.objects.length, r.2.plots.length))
      = some (true, ["data.dat"], 9, 4) := by
  refine ⟨by decide, ((autoDetect_trigger (sampleEnv false)
    (CommandLineParser.new sampleDocument ["-a"]) "file.dat" (by decide)).1
      (Or.inr (by decide))).1, by decide, by decide, by decide, by decide, by decide⟩

/-! ## What every directive keeps -/

theorem steady_refl (s : CommandLineParser) : steady s s :=
  ⟨rfl, rfl, rfl, Or.inl rfl, rfl, List.prefix_refl _, id, fun _ h => Or.inl h⟩

theorem steady_trans (a b c : CommandLineParser) (h1 : steady a b) (h2 : steady b c) :
    steady a c := by
  obtain ⟨a1, a2, a3, a4, a5, a6, a7, a8⟩ := h1
  obtain ⟨b1, b2, b3, b4, b5, b6, b7, b8⟩ := h2
  refine ⟨b1.trans a1, b2.trans a2, b3.trans a3, ?_, b5.trans a5, a6.trans b6,
    fun h => b7 (a7 h), fun v hv => ?_⟩
  swap
  · rcases b8 v hv with hb | hb
    · exact a8 v hb
    · rw [a1] at hb
      exact Or.inr hb
  rcases a4 with a4 | ⟨a4, a4', a4''⟩
  · rcases b4 with b4 | ⟨b4, b4', b4''⟩
    · exact Or.inl (b4.trans a4)
    · exact Or.inr ⟨a4 ▸ b4, a2 ▸ b4', b4''⟩
  · rcases b4 with b4 | ⟨b4, b4', b4''⟩
    · exact Or.inr ⟨a4, a4', b4.trans a4''⟩
    · rw [a4''] at b4
      exact absurd b4 (by decide)

theorem createOrFindDataVector_steady (s : CommandLineParser) (field : String)
    (ds : DataSource) : steady s (createOrFindDataVector s field ds).2 := by
  rw [createOrFindDataVector_snd]
  refine ⟨rfl, rfl, rfl, ?_, rfl, List.prefix_append _ _, fun h => ?_, fun v hv => ?_⟩
  · show (if s._startFrame = -1 ∧ s._numFrames = -1 then 0 else s._startFrame) = _ ∨ _
    split
    · rename_i hb
      exact Or.inr ⟨hb.1, hb.2, rfl⟩
    · exact Or.inl rfl
  swap
  · rcases List.mem_append.1 hv with hv | hv
    · exact Or.inl hv
    · right
      unfold createdVector at hv
      split at hv
      · simp at hv
      · rw [List.mem_singleton] at hv
        subst hv
        have hk : (coerceStart s)._skip = s._skip := by
          unfold coerceStart
          split <;> rfl
        exact ⟨hk, by rw [← hk]; rfl⟩
  · show ((s._vectors ++ createdVector s field ds).map fingerprint).Nodup
    unfold createdVector
    cases hf : (coerceStart s)._vectors.find?
        (vectorMatches (coerceStart s) (normalizeField field ds) ds) with
    | some xv => simpa using h
    | none =>
      have hv : (coerceStart s)._vectors = s._vectors := by
        unfold coerceStart
        split <;> rfl
      rw [hv] at hf
      simp only [List.map_append, List.map_cons, List.map_nil]
      refine List.Nodup.append h (List.nodup_singleton _) ?_
      rw [List.disjoint_singleton]
      intro hm
      obtain ⟨v, hvm, hfp⟩ := List.mem_map.1 hm
      have := List.find?_eq_none.1 hf v hvm
      apply this
      simp only [fingerprint, newDataVector, Prod.mk.injEq] at hfp
      obtain ⟨e1, e2, e3, e4, e5, e6, e7⟩ := hfp
      simp [vectorMatches, e1, e2, e3, e4, e5, e6, e7]

theorem steady_of_eq (s t : CommandLineParser) (h1 : t._skip = s._skip)
    (h2 : t._numFrames = s._numFrames) (h3 : t._doAve = s._doAve)
    (h4 : t._startFrame = s._startFrame)
    (h5 : t._doConsecutivePlots = s._doConsecutivePlots) (h6 : t._vectors = s._vectors) :
    steady s t :=
  ⟨h1, h2, h3, Or.inl h4, h5, by rw [h6], fun h => by unfold cacheOK at *; rw [h6]; exact h,
    fun v hv => Or.inl (by rw [← h6]; exact hv)⟩

theorem yVectors_steady (s : CommandLineParser) (field : String) (ds : DataSource) :
    steady s (yVectors s field ds).2.2.2 := by
  have hx := createOrFindDataVector_steady s s._xField ds
  have hy := createOrFindDataVector_steady (createOrFindDataVector s s._xField ds).2 field ds
  have hxy := steady_trans _ _ _ hx hy
  unfold yVectors
  simp only []
  split
  · have he := createOrFindDataVector_steady
      (createOrFindDataVector (createOrFindDataVector s s._xField ds).2 field ds).2
      (createOrFindDataVector (createOrFindDataVector s s._xField ds).2 field ds).2._errorField ds
    have hxye := steady_trans _ _ _ hxy he
    simp only []
    split
    · exact steady_trans _ _ _ hxye (steady_of_eq _ _ rfl rfl rfl rfl rfl rfl)
    · exact hxye
  · simp only []
    split
    · exact steady_trans _ _ _ hxy (steady_of_eq _ _ rfl rfl rfl rfl rfl rfl)
    · exact hxy

theorem pSpectrum_steady (s : CommandLineParser) (field : String) (ds : DataSource) :
    steady s (pSpectrum s field ds).2 := by
  have hx := createOrFindDataVector_steady s field ds
  unfold pSpectrum
  simp only []
  split
  · exact steady_trans _ _ _ hx (steady_of_eq _ _ rfl rfl rfl rfl rfl rfl)
  · exact steady_trans _ _ _ hx (steady_of_eq _ _ rfl rfl rfl rfl rfl rfl)

theorem hHistogram_steady (s : CommandLineParser) (field : String) (ds : DataSource) :
    steady s (hHistogram s field ds).2 := by
  have hx := createOrFindDataVector_steady s field ds
  unfold hHistogram
  simp only []
  split
  · exact steady_trans _ _ _ hx (steady_of_eq _ _ rfl rfl rfl rfl rfl rfl)
  · exact steady_trans _ _ _ hx (steady_of_eq _ _ rfl rfl rfl rfl rfl rfl)

theorem placeRelation_steady (s t : CommandLineParser) (r : Relation)
    (h : placeRelation s r = some t) : steady s t := by
  obtain ⟨plots, pi, rfl⟩ := placeRelation_footprint s t r h
  exact steady_of_eq _ _ rfl rfl rfl rfl rfl rfl

theorem createCurveInPlot_steady (env : Env) (s t : CommandLineParser) (xv yv : Vector)
    (ev : Option Vector) (h : createCurveInPlot env s xv yv ev = some t) : steady s t := by
  obtain ⟨plots, pi, rfl⟩ := createCurveInPlot_footprint env s t xv yv ev h
  exact steady_of_eq _ _ rfl rfl rfl rfl rfl rfl

theorem createImageInPlot_steady (s t : CommandLineParser) (m : DataMatrix)
    (h : createImageInPlot s m = some t) : steady s t := by
  obtain ⟨plots, pi, rfl⟩ := createImageInPlot_footprint s t m h
  exact steady_of_eq _ _ rfl rfl rfl rfl rfl rfl

theorem yLoop_steady (env : Env) (field : String) (files : List String)
    (s t : CommandLineParser) (hs : yLoop env field files s = some t) : steady s t := by
  induction files generalizing s with
  | nil =>
    simp only [yLoop, Option.some.injEq] at hs
    subst hs
    exact steady_refl s
  | cons file rest ih =>
    unfold yLoop at hs
    split at hs
    · cases hs
      exact steady_of_eq _ _ rfl rfl rfl rfl rfl rfl
    · split at hs
      · exact absurd hs (by simp)
      · rename_i ds hds
        split at hs
        · exact absurd hs (by simp)
        · rename_i b hb
          have h1 := yVectors_steady s field ds
          have h2 := createCurveInPlot_steady env _ b _ _ _ hb
          have h3 : steady b { b with dataPlotted := true } :=
            steady_of_eq _ _ rfl rfl rfl rfl rfl rfl
          have h4 := ih _ hs
          exact steady_trans _ _ _ h1 (steady_trans _ _ _ h2 (steady_trans _ _ _ h3 h4))

theorem pLoop_steady (env : Env) (field : String) (files : List String)
    (s t : CommandLineParser) (hs : pLoop env field files s = some t) : steady s t := by
  induction files generalizing s with
  | nil =>
    simp only [pLoop, Option.some.injEq] at hs
    subst hs
    exact steady_refl s
  | cons file rest ih =>
    unfold pLoop at hs
    split at hs
    · cases hs
      exact steady_of_eq _ _ rfl rfl rfl rfl rfl rfl
    · split at hs
      · exact absurd hs (by simp)
      · rename_i ds hds
        split at hs
        · exact absurd hs (by simp)
        · rename_i b hb
          have h1 := pSpectrum_steady s field ds
          have h2 := createCurveInPlot_steady env _ b _ _ _ hb
          have h3 : steady b { b with dataPlotted := true } :=
            steady_of_eq _ _ rfl rfl rfl rfl rfl rfl
          have h4 := ih _ hs
          exact steady_trans _ _ _ h1 (steady_trans _ _ _ h2 (steady_trans _ _ _ h3 h4))

theorem hLoop_steady (env : Env) (field : String) (files : List String)
    (s t : CommandLineParser) (hs : hLoop env field files s = some t) : steady s t := by
  induction files generalizing s with
  | nil =>
    simp only [hLoop, Option.some.injEq] at hs
    subst hs
    exact steady_refl s
  | cons file rest ih =>
    unfold hLoop at hs
    split at hs
    · cases hs
      exact steady_of_eq _ _ rfl rfl rfl rfl rfl rfl
    · split at hs
      · exact absurd hs (by simp)
      · rename_i ds hds
        split at hs
        · exact absurd hs (by simp)
        · rename_i b hb
          have h1 := hHistogram_steady s field ds
          have h2 := createCurveInPlot_steady env _ b _ _ _ hb
          have h3 : steady b { b with dataPlotted := true } :=
            steady_of_eq _ _ rfl rfl rfl rfl rfl rfl
          have h4 := ih _ hs
          exact steady_trans _ _ _ h1 (steady_trans _ _ _ h2 (steady_trans _ _ _ h3 h4))

theorem zLoop_steady (env : Env) (field : String) (files : List String)
    (s t : CommandLineParser) (hs : zLoop env field files s = some t) : steady s t := by
  induction files generalizing s with
  | nil =>
    simp only [zLoop, Option.some.injEq] at hs
    subst hs
    exact steady_refl s
  | cons file rest ih =>
    unfold zLoop at hs
    split at hs
    · cases hs
      exact steady_of_eq _ _ rfl rfl rfl rfl rfl rfl
    · split at hs
      · exact absurd hs (by simp)
      · rename_i ds hds
        split at hs
        · exact absurd hs (by simp)
        · rename_i b hb
          have h2 := createImageInPlot_steady _ b _ hb
          have h4 := ih _ hs
          exact steady_trans _ _ _ (steady_trans s _ _
            (steady_of_eq _ _ rfl rfl rfl rfl rfl rfl) h2) h4

theorem placeAutoCurves_steady (env : Env) (curve_count : Nat) (curves : List Object)
    (count : Nat) (asked : Bool) (s s' : CommandLineParser)
    (hs : placeAutoCurves env curve_count curves count asked s = some s') : steady s s' := by
  induction curves generalizing s count asked with
  | nil =>
    simp [placeAutoCurves] at hs
    subst hs
    exact steady_refl s
  | cons o rest ih =>
    cases o with
    | curve c =>
      unfold placeAutoCurves at hs
      split at hs
      · split at hs
        · cases hs
          exact steady_of_eq _ _ rfl rfl rfl rfl rfl rfl
        · split at hs
          · exact absurd hs (by simp)
          · rename_i s2 h2
            have h3 := placeRelation_steady _ s2 _ h2
            have h4 := ih _ _ _ hs
            exact steady_trans _ _ _ (steady_trans s _ _
              (steady_of_eq _ _ rfl rfl rfl rfl rfl rfl) h3) h4
      · split at hs
        · exact absurd hs (by simp)
        · rename_i s2 h2
          exact steady_trans _ _ _ (placeRelation_steady _ s2 _ h2) (ih _ _ _ hs)
    | dataVector v => exact ih _ _ _ (by simpa [placeAutoCurves] using hs)
    | psd v => exact ih _ _ _ (by simpa [placeAutoCurves] using hs)
    | histogram v => exact ih _ _ _ (by simpa [placeAutoCurves] using hs)
    | dataMatrix v => exact ih _ _ _ (by simpa [placeAutoCurves] using hs)
    | image v => exact ih _ _ _ (by simpa [placeAutoCurves] using hs)

theorem autoCurvesLoop_steady (ds : DataSource) (xv : DataVector) (fields : List String)
    (curves : List Object) (s : CommandLineParser) :
    steady s (autoCurvesLoop ds xv fields curves s).2 := by
  induction fields generalizing curves s with
  | nil => exact steady_refl s
  | cons f rest ih =>
    unfold autoCurvesLoop
    split
    · exact steady_trans s _ _ (steady_of_eq _ _ rfl rfl rfl rfl rfl rfl) (ih _ _)
    · exact ih _ _

theorem autoDetectCurves_steady (s : CommandLineParser) (ds : DataSource) :
    steady s (autoDetectCurves s ds).2 := by
  unfold autoDetectCurves
  split
  · unfold autoCurves
    split
    · exact steady_of_eq _ _ rfl rfl rfl rfl rfl rfl
    · exact steady_trans s _ _ (steady_of_eq _ _ rfl rfl rfl rfl rfl rfl)
        (autoCurvesLoop_steady _ _ _ _ _)
  · exact steady_of_eq _ _ rfl rfl rfl rfl rfl rfl

theorem appendFileName_steady (s : CommandLineParser) (arg : String) :
    steady s (appendFileName s arg) := by
  unfold appendFileName
  simp only []
  split
  · split <;> exact steady_of_eq _ _ rfl rfl rfl rfl rfl rfl
  · exact steady_of_eq _ _ rfl rfl rfl rfl rfl rfl

theorem fileArg_steady (env : Env) (s s' : CommandLineParser) (arg : String)
    (hs : fileArg env s arg = some s') : steady s s' := by
  unfold fileArg at hs
  split at hs
  · split at hs
    · cases hs
      exact appendFileName_steady s arg
    · split at hs
      · rename_i ds hds hcount
        have h1 := appendFileName_steady s arg
        have h2 := autoDetectCurves_steady (appendFileName s arg) ds
        have h4 := placeAutoCurves_steady env _ _ _ _ _ s' hs
        exact steady_trans _ _ _ (steady_trans _ _ _ h1 h2)
          (steady_trans _ _ _ (steady_of_eq _ _ rfl rfl rfl rfl rfl rfl) h4)
      · cases hs
        exact steady_trans _ _ _ (appendFileName_steady s arg) (autoDetectCurves_steady _ _)
  · cases hs
    exact appendFileName_steady s arg

theorem createOrFindPlot_frame (s : CommandLineParser) (plot_name : String) :
    (createOrFindPlot s plot_name)._skip = s._skip ∧
    (createOrFindPlot s plot_name)._numFrames = s._numFrames ∧
    (createOrFindPlot s plot_name)._doAve = s._doAve ∧
    (createOrFindPlot s plot_name)._startFrame = s._startFrame ∧
    (createOrFindPlot s plot_name)._doConsecutivePlots = s._doConsecutivePlots ∧
    (createOrFindPlot s plot_name)._vectors = s._vectors := by
  unfold createOrFindPlot
  split
  · exact ⟨rfl, rfl, rfl, rfl, rfl, rfl⟩
  · simp [applyLabels]

theorem createOrFindTab_frame (env : Env) (s : CommandLineParser) (name : String) :
    (createOrFindTab env s name)._skip = s._skip ∧
    (createOrFindTab env s name)._numFrames = s._numFrames ∧
    (createOrFindTab env s name)._doAve = s._doAve ∧
    (createOrFindTab env s name)._startFrame = s._startFrame ∧
    (createOrFindTab env s name)._doConsecutivePlots = s._doConsecutivePlots ∧
    (createOrFindTab env s name)._vectors = s._vectors := by
  unfold createOrFindTab
  split <;> exact ⟨rfl, rfl, rfl, rfl, rfl, rfl⟩

theorem _setStringArg_steady (s : CommandLineParser) (cur Message : String) :
    steady s (_setStringArg s cur Message).2.2 := by
  rw [_setStringArg_snd]
  exact steady_of_eq _ _ rfl rfl rfl rfl rfl rfl


/-- Every token that is not one of the setting options is `steady`. -/
theorem dispatch_steady (env : Env) (s t : CommandLineParser) (arg : String)
    (hset : arg ∉ settingFlags) (hs : dispatch env s arg = some t) : steady s t := by
  by_cases hmem : arg ∈ optionNames
  swap
  · rw [dispatch_fileArg env s arg hmem] at hs
    exact fileArg_steady env s t arg hs
  simp only [optionNames, List.mem_cons, List.mem_singleton, List.not_mem_nil, or_false] at hmem
  rcases hmem with rfl | rfl | rfl | rfl | rfl | rfl | rfl | rfl | rfl | rfl | rfl | rfl | rfl | rfl | rfl | rfl | rfl | rfl | rfl | rfl | rfl | rfl | rfl | rfl | rfl | rfl | rfl | rfl | rfl | rfl | rfl | rfl
  · rw [dispatch_dd_help] at hs
    simp only [_setIntArg_snd, _setStringArg_snd, _setDoubleArg_snd, Option.some.injEq] at hs
    subst hs
    exact steady_of_eq _ _ rfl rfl rfl rfl rfl rfl
  · rw [dispatch_d_help] at hs
    simp only [_setIntArg_snd, _setStringArg_snd, _setDoubleArg_snd, Option.some.injEq] at hs
    subst hs
    exact steady_of_eq _ _ rfl rfl rfl rfl rfl rfl
  · rw [dispatch_dd_version] at hs
    simp only [_setIntArg_snd, _setStringArg_snd, _setDoubleArg_snd, Option.some.injEq] at hs
    subst hs
    exact steady_of_eq _ _ rfl rfl rfl rfl rfl rfl
  · rw [dispatch_d_version] at hs
    simp only [_setIntArg_snd, _setStringArg_snd, _setDoubleArg_snd, Option.some.injEq] at hs
    subst hs
    exact steady_of_eq _ _ rfl rfl rfl rfl rfl rfl
  · exact absurd (by decide) hset
  · exact absurd (by decide) hset
  · exact absurd (by decide) hset
  · exact absurd (by decide) hset
  · exact absurd (by decide) hset
  · exact absurd (by decide) hset
  · exact absurd (by decide) hset
  · rw [dispatch_d_d] at hs
    simp only [_setIntArg_snd, _setStringArg_snd, _setDoubleArg_snd, Option.some.injEq] at hs
    subst hs
    exact steady_of_eq _ _ rfl rfl rfl rfl rfl rfl
  · rw [dispatch_d_l] at hs
    simp only [_setIntArg_snd, _setStringArg_snd, _setDoubleArg_snd, Option.some.injEq] at hs
    subst hs
    exact steady_of_eq _ _ rfl rfl rfl rfl rfl rfl
  · rw [dispatch_d_b] at hs
    simp only [_setIntArg_snd, _setStringArg_snd, _setDoubleArg_snd, Option.some.injEq] at hs
    subst hs
    exact steady_of_eq _ _ rfl rfl rfl rfl rfl rfl
  · rw [dispatch_d_x] at hs
    simp only [_setIntArg_snd, _setStringArg_snd, _setDoubleArg_snd, Option.some.injEq] at hs
    subst hs
    exact steady_of_eq _ _ rfl rfl rfl rfl rfl rfl
  · rw [dispatch_d_e] at hs
    simp only [_setIntArg_snd, _setStringArg_snd, _setDoubleArg_snd, Option.some.injEq] at hs
    subst hs
    exact steady_of_eq _ _ rfl rfl rfl rfl rfl rfl
  · rw [dispatch_d_r] at hs
    simp only [_setIntArg_snd, _setStringArg_snd, _setDoubleArg_snd, Option.some.injEq] at hs
    subst hs
    exact steady_of_eq _ _ rfl rfl rfl rfl rfl rfl
  · rw [dispatch_d_y] at hs
    simp only [] at hs
    split at hs
    · cases hs
      exact steady_trans s _ _ (_setStringArg_steady s _ _)
        (steady_of_eq _ _ rfl rfl rfl rfl rfl rfl)
    · split at hs
      · exact absurd hs (by simp)
      · rename_i s2 h2
        cases hs
        have h := yLoop_steady env _ _ _ s2 h2
        exact steady_trans s _ _ (steady_trans s _ _ (_setStringArg_steady s _ _)
          (steady_of_eq _ _ rfl rfl rfl rfl rfl rfl))
          (steady_trans _ _ _ h (steady_of_eq _ _ rfl rfl rfl rfl rfl rfl))
  · rw [dispatch_d_p] at hs
    simp only [] at hs
    split at hs
    · split at hs
      · exact absurd hs (by simp)
      · rename_i s2 h2
        cases hs
        have h := pLoop_steady env _ _ _ s2 h2
        exact steady_trans s _ _ (steady_trans s _ _ (_setStringArg_steady s _ _)
          (steady_of_eq _ _ rfl rfl rfl rfl rfl rfl))
          (steady_trans _ _ _ h (steady_of_eq _ _ rfl rfl rfl rfl rfl rfl))
    · cases hs
      exact steady_trans s _ _ (_setStringArg_steady s _ _)
        (steady_of_eq _ _ rfl rfl rfl rfl rfl rfl)
  · rw [dispatch_dd_xlabel] at hs
    simp only [_setIntArg_snd, _setStringArg_snd, _setDoubleArg_snd, Option.some.injEq] at hs
    subst hs
    exact steady_of_eq _ _ rfl rfl rfl rfl rfl rfl
  · rw [dispatch_dd_ylabel] at hs
    simp only [_setIntArg_snd, _setStringArg_snd, _setDoubleArg_snd, Option.some.injEq] at hs
    subst hs
    exact steady_of_eq _ _ rfl rfl rfl rfl rfl rfl
  · rw [dispatch_dd_xlabelauto] at hs
    simp only [_setIntArg_snd, _setStringArg_snd, _setDoubleArg_snd, Option.some.injEq] at hs
    subst hs
    exact steady_of_eq _ _ rfl rfl rfl rfl rfl rfl
  · rw [dispatch_dd_ylabelauto] at hs
    simp only [_setIntArg_snd, _setStringArg_snd, _setDoubleArg_snd, Option.some.injEq] at hs
    subst hs
    exact steady_of_eq _ _ rfl rfl rfl rfl rfl rfl
  · rw [dispatch_d_h] at hs
    simp only [] at hs
    split at hs
    · split at hs
      · exact absurd hs (by simp)
      · rename_i s2 h2
        cases hs
        have h := hLoop_steady env _ _ _ s2 h2
        exact steady_trans s _ _ (steady_trans s _ _ (_setStringArg_steady s _ _)
          (steady_of_eq _ _ rfl rfl rfl rfl rfl rfl))
          (steady_trans _ _ _ h (steady_of_eq _ _ rfl rfl rfl rfl rfl rfl))
    · cases hs
      exact steady_trans s _ _ (_setStringArg_steady s _ _)
        (steady_of_eq _ _ rfl rfl rfl rfl rfl rfl)
  · rw [dispatch_d_z] at hs
    simp only [] at hs
    split at hs
    · split at hs
      · exact absurd hs (by simp)
      · rename_i s2 h2
        cases hs
        have h := zLoop_steady env _ _ _ s2 h2
        exact steady_trans s _ _ (steady_trans s _ _ (_setStringArg_steady s _ _)
          (steady_of_eq _ _ rfl rfl rfl rfl rfl rfl))
          (steady_trans _ _ _ h (steady_of_eq _ _ rfl rfl rfl rfl rfl rfl))
    · cases hs
      exact steady_trans s _ _ (_setStringArg_steady s _ _)
        (steady_of_eq _ _ rfl rfl rfl rfl rfl rfl)
  · rw [dispatch_d_F] at hs
    simp only [_setIntArg_snd, _setStringArg_snd, _setDoubleArg_snd, Option.some.injEq] at hs
    subst hs
    exact steady_of_eq _ _ rfl rfl rfl rfl rfl rfl
  · rw [dispatch_dd_png] at hs
    simp only [_setIntArg_snd, _setStringArg_snd, _setDoubleArg_snd, Option.some.injEq] at hs
    subst hs
    exact steady_of_eq _ _ rfl rfl rfl rfl rfl rfl
  · rw [dispatch_dd_print] at hs
    simp only [_setIntArg_snd, _setStringArg_snd, _setDoubleArg_snd, Option.some.injEq] at hs
    subst hs
    exact steady_of_eq _ _ rfl rfl rfl rfl rfl rfl
  · rw [dispatch_dd_landscape] at hs
    simp only [_setIntArg_snd, _setStringArg_snd, _setDoubleArg_snd, Option.some.injEq] at hs
    subst hs
    exact steady_of_eq _ _ rfl rfl rfl rfl rfl rfl
  · rw [dispatch_dd_portrait] at hs
    simp only [_setIntArg_snd, _setStringArg_snd, _setDoubleArg_snd, Option.some.injEq] at hs
    subst hs
    exact steady_of_eq _ _ rfl rfl rfl rfl rfl rfl
  · rw [dispatch_dd_A4] at hs
    simp only [_setIntArg_snd, _setStringArg_snd, _setDoubleArg_snd, Option.some.injEq] at hs
    subst hs
    exact steady_of_eq _ _ rfl rfl rfl rfl rfl rfl
  · rw [dispatch_dd_letter] at hs
    simp only [_setIntArg_snd, _setStringArg_snd, _setDoubleArg_snd, Option.some.injEq] at hs
    subst hs
    exact steady_of_eq _ _ rfl rfl rfl rfl rfl rfl

/-! ## The frame window -/

theorem coerceStart_both (s : CommandLineParser) (h1 : s._startFrame = -1)
    (h2 : s._numFrames = -1) : coerceStart s = { s with _startFrame := 0 } := by
  unfold coerceStart
  rw [if_pos ⟨h1, h2⟩]

theorem dispatch_startFrame (env : Env) (s t : CommandLineParser) (arg : String)
    (harg : arg ≠ "-f") (hs : dispatch env s arg = some t) :
    t._startFrame = s._startFrame ∨
      (s._startFrame = -1 ∧ s._numFrames = -1 ∧ t._startFrame = 0) := by
  by_cases hset : arg ∈ settingFlags
  · simp only [settingFlags, List.mem_cons, List.mem_singleton, List.not_mem_nil,
      or_false] at hset
    rcases hset with rfl | rfl | rfl | rfl | rfl | rfl | rfl
    · exact absurd rfl harg
    · rw [dispatch_d_n] at hs
      simp only [_setIntArg_snd, Option.some.injEq] at hs
      subst hs
      exact Or.inl rfl
    · rw [dispatch_d_s] at hs
      simp only [_setIntArg_snd, Option.some.injEq] at hs
      subst hs
      exact Or.inl rfl
    · rw [dispatch_d_a] at hs
      cases hs
      exact Or.inl rfl
    · rw [dispatch_d_P] at hs
      simp only [_setStringArg_snd, Option.some.injEq] at hs
      subst hs
      exact Or.inl (createOrFindPlot_frame _ _).2.2.2.1
    · rw [dispatch_d_A] at hs
      cases hs
      exact Or.inl rfl
    · rw [dispatch_d_T] at hs
      simp only [_setStringArg_snd] at hs
      split at hs
      · cases hs
        exact Or.inl (createOrFindTab_frame env _ _).2.2.2.1
      · cases hs
        exact Or.inl rfl
  · exact (dispatch_steady env s t arg hset hs).2.2.2.1

/-- Claim C21: a call of `createOrFindDataVector` with start frame and frame
count both -1 is the call with the start frame 0: the lookup and the vector use
the window 0, -1, and the parser keeps the start frame 0, so that a later call
finds the start frame 0 and coerces nothing.  With at least one of the two
different from -1 the vector has the window of the parser, which stays as it
is.  A start frame different from -1 is changed by no directive except `-f`. -/
theorem frame_window_default (env : Env) (s : CommandLineParser) (field g : String)
    (ds : DataSource) :
    (s._startFrame = -1 → s._numFrames = -1 →
      createOrFindDataVector s field ds
        = createOrFindDataVector { s with _startFrame := 0 } field ds ∧
      (createOrFindDataVector s field ds).1.reqStartFrame = 0 ∧
      (createOrFindDataVector s field ds).1.reqNumFrames = -1 ∧
      (createOrFindDataVector s field ds).2._startFrame = 0 ∧
      (createOrFindDataVector s field ds).2._numFrames = -1 ∧
      coerceStart (createOrFindDataVector s field ds).2 = (createOrFindDataVector s field ds).2 ∧
      (createOrFindDataVector (createOrFindDataVector s field ds).2 g ds).1.reqStartFrame = 0 ∧
      (createOrFindDataVector (createOrFindDataVector s field ds).2 g ds).2._startFrame = 0) ∧
    (¬ (s._startFrame = -1 ∧ s._numFrames = -1) →
      coerceStart s = s ∧
      (createOrFindDataVector s field ds).1.reqStartFrame = s._startFrame ∧
      (createOrFindDataVector s field ds).1.reqNumFrames = s._numFrames ∧
      (createOrFindDataVector s field ds).2._startFrame = s._startFrame ∧
      (createOrFindDataVector s field ds).2._numFrames = s._numFrames) ∧
    (∀ t arg, arg ≠ "-f" → s._startFrame ≠ -1 → dispatch env s arg = some t →
      t._startFrame = s._startFrame) := by
  refine ⟨fun h1 h2 => ?_, fun hn => ?_, fun t arg harg hne hs => ?_⟩
  · have e : createOrFindDataVector s field ds
        = createOrFindDataVector { s with _startFrame := 0 } field ds := by
      have c1 := coerceStart_both s h1 h2
      have c2 : coerceStart { s with _startFrame := 0 } = { s with _startFrame := 0 } :=
        coerceStart_of_not_both _ (by simp)
      unfold createOrFindDataVector
      rw [c1, c2]
    have hs1 : (createOrFindDataVector s field ds).2._startFrame = 0 := by
      rw [createOrFindDataVector_snd]
      simp [h1, h2]
    have hs2 : (createOrFindDataVector s field ds).2._numFrames = -1 := by
      rw [createOrFindDataVector_snd]
      exact h2
    have hc : coerceStart (createOrFindDataVector s field ds).2
        = (createOrFindDataVector s field ds).2 :=
      coerceStart_of_not_both _ (by rw [hs1]; simp)
    refine ⟨e, ?_, ?_, hs1, hs2, hc, ?_, ?_⟩
    · rw [createOrFindDataVector_reqStartFrame]
      simp [h1, h2]
    · rw [createOrFindDataVector_reqNumFrames]
      exact h2
    · rw [createOrFindDataVector_reqStartFrame, hs1]
      simp
    · rw [createOrFindDataVector_snd (createOrFindDataVector s field ds).2]
      simp [hs1]
  · refine ⟨coerceStart_of_not_both s hn, ?_, createOrFindDataVector_reqNumFrames s field ds,
      ?_, ?_⟩
    · rw [createOrFindDataVector_reqStartFrame, if_neg hn]
    · rw [createOrFindDataVector_snd]
      simp [hn]
    · rw [createOrFindDataVector_snd]
  · rcases dispatch_startFrame env s t arg harg hs with h | ⟨h, -, -⟩
    · exact h
    · exact absurd h hne

/-- Witness of claim C21: the first call on a new parser, and the run
`file.dat -y 1 -n 5 -y 2`, whose vectors have the start frame 0 and which ends
with the start frame 0. -/
theorem frame_window_default_witness :
    (createOrFindDataVector (CommandLineParser.new sampleDocument []) "1"
        (sampleSource "file.dat" [])).1.reqStartFrame = 0 ∧
    (createOrFindDataVector (CommandLineParser.new sampleDocument []) "1"
        (sampleSource "file.dat" [])).2._startFrame = 0 ∧
    (run (sampleEnv false) ["file.dat", "-y", "1", "-n", "5", "-y", "2"]).map
        (fun t => (t._startFrame, t._numFrames,
          (dataVectorsOf t).map (fun v => (v.field, v.reqStartFrame, v.reqNumFrames))))
      = some (0, 5, [("INDEX", 0, -1), ("Column 1", 0, -1), ("INDEX", 0, 5),
          ("Column 2", 0, 5)]) := by
  have h := (frame_window_default (sampleEnv false) (CommandLineParser.new sampleDocument [])
    "1" "2" (sampleSource "file.dat" [])).1 rfl rfl
  exact ⟨h.2.1, h.2.2.2.1, by decide⟩

/-! ## The field name -/

theorem column_ne (f : String) : "Column " ++ f ≠ f := by
  intro h
  have := congrArg String.length h
  rw [String.length_append] at this
  have h7 : "Column ".length = 7 := by decide
  omega

/-- Claim C22: the vector `createOrFindDataVector` returns (found or created)
has the field `normalizeField f ds`.  That field is `Column f` exactly when the
file type of the source is `ASCII file` and `f` consists of one or two decimal
digits, and it is `f` itself in every other case: for a source of another
kind, and for an ASCII source when `f` is empty, has three or more characters
or contains a character that is no digit. -/
theorem normalize_scope (s : CommandLineParser) (f : String) (ds : DataSource) :
    (createOrFindDataVector s f ds).1.field = normalizeField f ds ∧
    (normalizeField f ds = "Column " ++ f ↔
      ds.fileType = "ASCII file" ∧
        (f.data.length = 1 ∨ f.data.length = 2) ∧ ∀ c ∈ f.data, c.isDigit = true) ∧
    (¬ (ds.fileType = "ASCII file" ∧
        (f.data.length = 1 ∨ f.data.length = 2) ∧ ∀ c ∈ f.data, c.isDigit = true) →
      normalizeField f ds = f) ∧
    (ds.fileType ≠ "ASCII file" → normalizeField f ds = f) ∧
    (f = "" ∨ 3 ≤ f.data.length ∨ (∃ c ∈ f.data, c.isDigit = false) →
      normalizeField f ds = f) := by
  have hnum : numExactMatch f = true ↔
      (f.data.length = 1 ∨ f.data.length = 2) ∧ ∀ c ∈ f.data, c.isDigit = true := by
    simp [numExactMatch, List.all_eq_true]
  have hno : ¬ (ds.fileType = "ASCII file" ∧
      (f.data.length = 1 ∨ f.data.length = 2) ∧ ∀ c ∈ f.data, c.isDigit = true) →
      normalizeField f ds = f := by
    intro h
    unfold normalizeField
    split
    · rename_i ha
      rw [if_neg]
      intro hn
      exact h ⟨ha, hnum.1 hn⟩
    · rfl
  refine ⟨createOrFindDataVector_field s f ds, ⟨fun h => ?_, fun h => ?_⟩, hno,
    fun h => hno (fun hh => h hh.1), fun h => hno (fun hh => ?_)⟩
  · by_contra hc
    rw [hno hc] at h
    exact column_ne f h.symm
  · unfold normalizeField
    rw [if_pos h.1, if_pos (hnum.2 h.2)]
  · obtain ⟨-, hl, hd⟩ := hh
    rcases h with rfl | h | ⟨c, hc, hcd⟩
    · simp at hl
    · omega
    · rw [hd c hc] at hcd
      exact absurd hcd (by simp)

/-- Witness of claim C22: `2` on a source that is no ASCII file; `100`, `2a`
and the empty name on an ASCII source; `7` and `42` on an ASCII source. -/
theorem normalize_scope_witness :
    normalizeField "2" (binarySource "data.bin" []) = "2" ∧
    normalizeField "100" (sampleSource "file.dat" []) = "100" ∧
    normalizeField "2a" (sampleSource "file.dat" []) = "2a" ∧
    normalizeField "" (sampleSource "file.dat" []) = "" ∧
    normalizeField "7" (sampleSource "file.dat" []) = "Column 7" ∧
    normalizeField "42" (sampleSource "file.dat" []) = "Column 42" ∧
    (createOrFindDataVector (CommandLineParser.new sampleDocument []) "2"
      (binarySource "data.bin" [])).1.field = "2" ∧
    (createOrFindDataVector (CommandLineParser.new sampleDocument []) "2"
      (sampleSource "file.dat" [])).1.field = "Column 2" := by
  have h1 := normalize_scope (CommandLineParser.new sampleDocument []) "2"
    (binarySource "data.bin" [])
  have h2 := normalize_scope (CommandLineParser.new sampleDocument []) "100"
    (sampleSource "file.dat" [])
  have h3 := normalize_scope (CommandLineParser.new sampleDocument []) "2a"
    (sampleSource "file.dat" [])
  have h4 := normalize_scope (CommandLineParser.new sampleDocument []) "2"
    (sampleSource "file.dat" [])
  refine ⟨h1.2.2.2.1 (by decide), h2.2.2.2.2 (Or.inr (Or.inl (by decide))),
    h3.2.2.2.2 (Or.inr (Or.inr ⟨'a', by decide, by decide⟩)), by decide, by decide, by decide,
    h1.1.trans (h1.2.2.2.1 (by decide)), h4.1.trans ((h4.2.1).2 ⟨rfl, by decide, by decide⟩)⟩

/-! ## Named tabs -/

theorem set_append_length (l : List String) (x y : String) :
    (l ++ [x]).set l.length y = l ++ [y] := by
  rw [List.set_append_right _ _ (le_refl _)]
  simp

/-! ## Pending axis labels -/

/-- Claim C24: in consecutive mode `addCurve` and `createImageInPlot` append
one plot and leave the other plots as they are; `-P`'s `createOrFindPlot` does
so for a name that no registered plot has.  The new plot has the pending X
label as bottom label exactly when that label is not empty, and no bottom
label of its own otherwise; likewise the pending Y label as left label.
`createOrFindPlot` with the name of a registered plot changes no plot.
`--xlabelauto` empties the pending X label and `--ylabelauto` the pending Y
label, and neither changes anything else. -/
theorem pending_labels (env : Env) (s : CommandLineParser) (c : Curve) (m : DataMatrix)
    (name : String) :
    (s._doConsecutivePlots = true →
      addCurve s c = some { s with
        plots := s.plots ++ [consecutivePlot s (Relation.curve c)]
        _plotItem := some s.plots.length } ∧
      ∃ t, createImageInPlot s m = some t ∧
        t.plots = s.plots ++ [consecutivePlot s
          (Relation.image (Image.mk s.objectStore.objects.length m))]) ∧
    (∀ r, (consecutivePlot s r).bottomLabel = (if s._xlabel ≠ "" then some s._xlabel else none) ∧
      (consecutivePlot s r).leftLabel = (if s._ylabel ≠ "" then some s._ylabel else none)) ∧
    ((∀ pi ∈ s._plotItems, (s.plots.get? pi).map (fun q => q.descriptiveName) ≠ some name) →
      createOrFindPlot s name = { s with
        plots := s.plots ++ [namedPlot s name]
        _plotItems := s._plotItems ++ [s.plots.length]
        _plotItem := some s.plots.length } ∧
      (namedPlot s name).bottomLabel = (if s._xlabel ≠ "" then some s._xlabel else none) ∧
      (namedPlot s name).leftLabel = (if s._ylabel ≠ "" then some s._ylabel else none)) ∧
    ((∃ pi ∈ s._plotItems, (s.plots.get? pi).map (fun q => q.descriptiveName) = some name) →
      (createOrFindPlot s name).plots = s.plots) ∧
    dispatch env s "--xlabelauto" = some { s with _xlabel := "" } ∧
    dispatch env s "--ylabelauto" = some { s with _ylabel := "" } := by
  refine ⟨fun hc => ⟨placeRelation_consecutive s _ hc, ?_⟩, fun r => ⟨rfl, rfl⟩,
    fun hno => ⟨?_, rfl, rfl⟩, ?_, rfl, rfl⟩
  · refine ⟨_, placeRelation_consecutive _ _ hc, rfl⟩
  · refine createOrFindPlot_new s name (List.find?_eq_none.2 fun x hx => ?_)
    simp only [plotNamed, decide_eq_true_eq]
    exact hno x hx
  · rintro ⟨pi, hm, hn⟩
    cases hf : s._plotItems.find? (plotNamed s name) with
    | none =>
      have := List.find?_eq_none.1 hf pi hm
      simp only [plotNamed, decide_eq_true_eq] at this
      exact absurd hn this
    | some x =>
      rw [createOrFindPlot_found s name x hf]

/-- Witness of claim C24: a run with pending labels set and cleared between
two `-y` directives and three `-P` directives, the last of which reuses the
plot `p`. -/
theorem pending_labels_witness :
    (run (sampleEnv false) ["file.dat", "--xlabel", "X", "-y", "1", "--xlabelauto",
        "--ylabel", "Y", "-y", "2", "-P", "p", "--ylabelauto", "--xlabel", "Z", "-P", "q",
        "-P", "p"]).map
      (fun t => (t.ok, t._xlabel, t._ylabel)) = some (true, "Z", "") ∧
    (run (sampleEnv false) ["file.dat", "--xlabel", "X", "-y", "1", "--xlabelauto",
        "--ylabel", "Y", "-y", "2", "-P", "p", "--ylabelauto", "--xlabel", "Z", "-P", "q",
        "-P", "p"]).map
      (fun t => t.plots.map (fun q => (q.descriptiveName, q.bottomLabel, q.leftLabel)))
      = some [("", some "X", none), ("", none, some "Y"), ("p", none, some "Y"),
            ("q", some "Z", none)] ∧
    addCurve { CommandLineParser.new sampleDocument [] with _xlabel := "X" } (Curve.fresh 0)
      = some { CommandLineParser.new sampleDocument [] with
          _xlabel := "X"
          plots := [{ descriptiveName := "", view := 0, relations := [Relation.curve (Curve.fresh 0)],
                      bottomLabel := some "X", leftLabel := none }]
          _plotItem := some 0 } :=
  ⟨by decide, by decide, ((pending_labels (sampleEnv false)
    { CommandLineParser.new sampleDocument [] with _xlabel := "X" } (Curve.fresh 0)
    (newDataMatrix (CommandLineParser.new sampleDocument []) "1" (sampleSource "file.dat" []))
    "p").1 rfl).1⟩

/-! ## The states the loop passes through -/

theorem whileLoop_reachable (env : Env) (s0 : CommandLineParser) (fuel : Nat)
    (s t : CommandLineParser) (hr : Reachable env s0 s) (hs : whileLoop env fuel s = some t) :
    Reachable env s0 t := by
  induction fuel generalizing s with
  | zero =>
    simp only [whileLoop, Option.some.injEq] at hs
    subst hs
    exact hr
  | succ n ih =>
    unfold whileLoop at hs
    split at hs
    · rename_i hok
      split at hs
      · cases hs
        exact hr
      · rename_i arg rest hargs
        split at hs
        · exact absurd hs (by simp)
        · rename_i s1 h1
          exact ih s1 (Reachable.turn s s1 arg rest hr hok hargs h1) hs
    · cases hs
      exact hr

theorem processCommandLine_reachable (env : Env) (s t : CommandLineParser) (b : Bool)
    (h : processCommandLine env s = some (b, t)) :
    ∃ t1, Reachable env (startState env s) t1 ∧
      t = (if t1.dataPlotted then
        { t1 with documentRecentDataFiles := t1.documentRecentDataFiles ++ [t1._fileNames] }
      else t1) := by
  unfold processCommandLine at h
  simp only [] at h
  split at h
  · exact absurd h (by simp)
  · rename_i s1 h1
    refine ⟨s1, whileLoop_reachable env _ _ _ s1 Reachable.start h1, ?_⟩
    simp only [Option.some.injEq, Prod.mk.injEq] at h
    exact h.2.symm

/-- The setting options leave the vector cache alone, and each of them leaves
alone the settings that are not its own. -/
theorem dispatch_setting (env : Env) (s t : CommandLineParser) (arg : String)
    (hset : arg ∈ settingFlags) (hs : dispatch env s arg = some t) :
    t._vectors = s._vectors ∧ (arg ≠ "-s" → t._skip = s._skip) ∧
    (arg ≠ "-n" → t._numFrames = s._numFrames) ∧ (arg ≠ "-a" → t._doAve = s._doAve) ∧
    (arg ≠ "-f" → t._startFrame = s._startFrame) ∧
    (arg ≠ "-P" → arg ≠ "-A" → arg ≠ "-T" → t._doConsecutivePlots = s._doConsecutivePlots) := by
  simp only [settingFlags, List.mem_cons, List.mem_singleton, List.not_mem_nil,
    or_false] at hset
  rcases hset with rfl | rfl | rfl | rfl | rfl | rfl | rfl
  · rw [dispatch_d_f] at hs
    simp only [_setIntArg_snd, Option.some.injEq] at hs
    subst hs
    exact ⟨rfl, fun _ => rfl, fun _ => rfl, fun _ => rfl, fun h => absurd rfl h,
      fun _ _ _ => rfl⟩
  · rw [dispatch_d_n] at hs
    simp only [_setIntArg_snd, Option.some.injEq] at hs
    subst hs
    exact ⟨rfl, fun _ => rfl, fun h => absurd rfl h, fun _ => rfl, fun _ => rfl,
      fun _ _ _ => rfl⟩
  · rw [dispatch_d_s] at hs
    simp only [_setIntArg_snd, Option.some.injEq] at hs
    subst hs
    exact ⟨rfl, fun h => absurd rfl h, fun _ => rfl, fun _ => rfl, fun _ => rfl,
      fun _ _ _ => rfl⟩
  · rw [dispatch_d_a] at hs
    cases hs
    exact ⟨rfl, fun _ => rfl, fun _ => rfl, fun h => absurd rfl h, fun _ => rfl,
      fun _ _ _ => rfl⟩
  · rw [dispatch_d_P] at hs
    simp only [_setStringArg_snd, Option.some.injEq] at hs
    subst hs
    obtain ⟨h1, h2, h3, h4, -, h6⟩ := createOrFindPlot_frame
      { s with
        _arguments := s._arguments.tail
        printed := if s._arguments = [] then s.printed ++ ["Usage: -P <plotname>\n"]
          else s.printed
        ok := (_setStringArg s "" "Usage: -P <plotname>\n").1
        _doConsecutivePlots := false } (_setStringArg s "" "Usage: -P <plotname>\n").2.1
    exact ⟨h6, fun _ => h1, fun _ => h2, fun _ => h3, fun _ => h4, fun h => absurd rfl h⟩
  · rw [dispatch_d_A] at hs
    cases hs
    exact ⟨rfl, fun _ => rfl, fun _ => rfl, fun _ => rfl, fun _ => rfl,
      fun _ h _ => absurd rfl h⟩
  · rw [dispatch_d_T] at hs
    simp only [_setStringArg_snd] at hs
    split at hs
    · cases hs
      obtain ⟨h1, h2, h3, h4, -, h6⟩ := createOrFindTab_frame env
        { s with
          _arguments := s._arguments.tail
          printed := if s._arguments = [] then s.printed ++ ["Usage: -T <tab name>\n"]
            else s.printed
          ok := (_setStringArg { s with _doConsecutivePlots := true } ""
            "Usage: -T <tab name>\n").1
          _doConsecutivePlots := true }
        (_setStringArg { s with _doConsecutivePlots := true } "" "Usage: -T <tab name>\n").2.1
      exact ⟨h6, fun _ => h1, fun _ => h2, fun _ => h3, fun _ => h4,
        fun _ _ h => absurd rfl h⟩
    · cases hs
      exact ⟨rfl, fun _ => rfl, fun _ => rfl, fun _ => rfl, fun _ => rfl,
        fun _ _ h => absurd rfl h⟩

/-! ## The range of the skip -/

theorem dispatch_keeps_skip (env : Env) (s t : CommandLineParser) (arg : String)
    (hne : arg ≠ "-s") (hs : dispatch env s arg = some t) :
    t._skip = s._skip ∧
    ∀ v ∈ t._vectors, v ∈ s._vectors ∨ (v.skip = s._skip ∧ v.doSkip = decide (s._skip > 0)) := by
  by_cases hset : arg ∈ settingFlags
  · obtain ⟨h1, h2, -⟩ := dispatch_setting env s t arg hset hs
    exact ⟨h2 hne, fun v hv => Or.inl (by rw [← h1]; exact hv)⟩
  · obtain ⟨h1, -, -, -, -, -, -, h8⟩ := dispatch_steady env s t arg hset hs
    exact ⟨h1, h8⟩

theorem dispatch_s_skip (env : Env) (s t : CommandLineParser)
    (hs : dispatch env s "-s" = some t) :
    t._vectors = s._vectors ∧
    (t._skip = s._skip ∨ t._skip = 0 ∨ ∃ tok ∈ s._arguments, env.toInt tok = some t._skip) := by
  refine ⟨(dispatch_setting env s t "-s" (by decide) hs).1, ?_⟩
  rw [dispatch_d_s] at hs
  cases hargs : s._arguments with
  | nil =>
    simp only [_setIntArg, hargs, Option.some.injEq] at hs
    subst hs
    exact Or.inl rfl
  | cons tok rest =>
    cases hv : env.toInt tok with
    | none =>
      simp only [_setIntArg, hargs, hv, Option.some.injEq] at hs
      subst hs
      simp
    | some v =>
      simp only [_setIntArg, hargs, hv, Option.some.injEq] at hs
      subst hs
      simp [hv]

/-! ## A plot to place in -/

theorem dispatch_placeable (env : Env) (s t : CommandLineParser) (arg : String)
    (h : placeable s) (hs : dispatch env s arg = some t) : placeable t := by
  by_cases hP : arg = "-P"
  · subst hP
    rw [dispatch_d_P] at hs
    cases hs
    obtain ⟨p, hp, -⟩ := createOrFindPlot_pinned
      { (_setStringArg s "" "Usage: -P <plotname>\n").2.2 with
        ok := (_setStringArg s "" "Usage: -P <plotname>\n").1
        _doConsecutivePlots := false } (_setStringArg s "" "Usage: -P <plotname>\n").2.1 rfl
    exact Or.inr ⟨p, hp.2.1, hp.2.2⟩
  by_cases hA : arg = "-A"
  · subst hA
    rw [dispatch_d_A] at hs
    cases hs
    exact Or.inl rfl
  by_cases hT : arg = "-T"
  · subst hT
    rw [dispatch_d_T] at hs
    simp only [_setStringArg_snd] at hs
    split at hs
    · cases hs
      exact Or.inl (createOrFindTab_frame env _ _).2.2.2.2.1
    · cases hs
      exact Or.inl rfl
  rcases h with h | ⟨p, hp, hlt⟩
  · left
    by_cases hset : arg ∈ settingFlags
    · exact ((dispatch_setting env s t arg hset hs).2.2.2.2.2 hP hA hT).trans h
    · exact (dispatch_steady env s t arg hset hs).2.2.2.2.1.trans h
  · by_cases hc : s._doConsecutivePlots = true
    · left
      by_cases hset : arg ∈ settingFlags
      · exact ((dispatch_setting env s t arg hset hs).2.2.2.2.2 hP hA hT).trans hc
      · exact (dispatch_steady env s t arg hset hs).2.2.2.2.1.trans hc
    · obtain ⟨rs, hatt⟩ := dispatch_pinned env p s t arg ⟨by simpa using hc, hp, hlt⟩
        ⟨hP, hA, hT⟩ hs
      exact Or.inr ⟨p, hatt.1.2.1, hatt.1.2.2⟩

/-- Claim C26: in every state the loop of `processCommandLine` passes through
on a new parser, consecutive mode being off implies that `_plotItem` points to
an existing plot; in such a state `addCurve`, `createCurveInPlot` and
`createImageInPlot` return for every relation. -/
theorem placement_has_plot (env : Env) (doc : Document) (args : List String)
    (s : CommandLineParser)
    (hr : Reachable env (startState env (CommandLineParser.new doc args)) s) :
    (s._doConsecutivePlots = false → ∃ p, s._plotItem = some p ∧ p < s.plots.length) ∧
    (∀ c, ∃ t, addCurve s c = some t) ∧
    (∀ xv yv ev, ∃ t, createCurveInPlot env s xv yv ev = some t) ∧
    (∀ m, ∃ t, createImageInPlot s m = some t) := by
  have hp : placeable s := by
    induction hr with
    | start => exact Or.inl rfl
    | turn s t arg rest _ hok hargs hd ih =>
      exact dispatch_placeable env { s with _arguments := rest } t arg ih hd
  refine ⟨fun hc => ?_, fun c => ?_, fun xv yv ev => ?_, fun m => ?_⟩
  · rcases hp with h | h
    · rw [hc] at h
      exact absurd h (by simp)
    · exact h
  · obtain ⟨t, ht, -⟩ := placeRelation_placeable s (Relation.curve c) hp
    exact ⟨t, ht⟩
  · obtain ⟨t, ht, -⟩ := createCurveInPlot_placeable env s s xv yv ev hp ⟨rfl, rfl, rfl⟩
    exact ⟨t, ht⟩
  · obtain ⟨t, ht, -⟩ := placeRelation_placeable
      { s with objectStore := { s.objectStore with
          objects := s.objectStore.objects ++
            [Object.image (Image.mk s.objectStore.objects.length m)] } }
      (Relation.image (Image.mk s.objectStore.objects.length m)) hp
    exact ⟨t, ht⟩

/-- Witness of claim C26: the state after the turn for `-P` without a name;
and runs with `-P` without a name, `-P` followed by `-A`, and `-P` followed by
`-T`, each before a `-y`. -/
theorem placement_has_plot_witness :
    (∃ t, dispatch (sampleEnv false)
        (startState (sampleEnv false) (CommandLineParser.new sampleDocument [])) "-P" = some t ∧
      t._doConsecutivePlots = false ∧ ∃ p, t._plotItem = some p ∧ p < t.plots.length) ∧
    (run (sampleEnv false) ["-P"]).map
      (fun t => (t.ok, t._doConsecutivePlots, t._plotItem, t.plots.length))
        = some (false, false, some 0, 1) ∧
    (run (sampleEnv false) ["file.dat", "-P", "a", "-A", "-y", "1", "-z", "2"]).map
      (fun t => (t.ok, t._doConsecutivePlots, t._plotItem,
        t.plots.map (fun q => q.relations.length))) = some (true, true, some 2, [0, 1, 1]) ∧
    (run (sampleEnv false) ["file.dat", "-P", "a", "-T", "t", "-y", "1", "-P", "a", "-y", "2"]).map
      (fun t => (t.ok, t._doConsecutivePlots, t._plotItem,
        t.plots.map (fun q => q.relations.length))) = some (true, false, some 0, [1, 1]) := by
  refine ⟨?_, by decide, by decide, by decide⟩
  cases h : dispatch (sampleEnv false)
      (startState (sampleEnv false) (CommandLineParser.new sampleDocument [])) "-P" with
  | none => exact absurd h (by decide)
  | some t =>
    have hc : t._doConsecutivePlots = false := by
      have : (dispatch (sampleEnv false)
        (startState (sampleEnv false) (CommandLineParser.new sampleDocument [])) "-P").map
          (fun t => t._doConsecutivePlots) = some false := by decide
      rw [h] at this
      simpa using this
    have hr : Reachable (sampleEnv false)
        (startState (sampleEnv false) (CommandLineParser.new sampleDocument ["-P"])) t :=
      Reachable.turn _ t "-P" [] Reachable.start rfl rfl h
    exact ⟨t, rfl, hc, (placement_has_plot (sampleEnv false) sampleDocument ["-P"] t hr).1 hc⟩

/-! ## The vector cache has no repeated fingerprint -/

theorem dispatch_cache (env : Env) (s t : CommandLineParser) (arg : String)
    (hs : dispatch env s arg = some t) :
    s._vectors <+: t._vectors ∧ (cacheOK s → cacheOK t) := by
  by_cases hset : arg ∈ settingFlags
  · obtain ⟨h1, -⟩ := dispatch_setting env s t arg hset hs
    unfold cacheOK
    rw [h1]
    exact ⟨List.prefix_refl _, id⟩
  · obtain ⟨-, -, -, -, -, h6, h7, -⟩ := dispatch_steady env s t arg hset hs
    exact ⟨h6, h7⟩

theorem createdVector_fingerprint (s : CommandLineParser) (f : String) (ds : DataSource) :
    createdVector s f ds = [] ∨
      ∃ v, createdVector s f ds = [v] ∧ fingerprint v = requestFingerprint s f ds := by
  unfold createdVector
  split
  · exact Or.inl rfl
  · refine Or.inr ⟨_, rfl, ?_⟩
    unfold fingerprint requestFingerprint newDataVector coerceStart
    split <;> simp_all

/-- Claim C27: a call of `createOrFindDataVector` returns a vector with the
fingerprint of the request; it leaves the cache as it is or appends exactly
one entry, which has that fingerprint; a cache without a repeated fingerprint
stays so.  Every turn of the loop of `processCommandLine` only extends the
cache at its end and keeps it free of repeated fingerprints, so that every
state the loop passes through on a new parser, and the state it ends in, has a
cache in which no two entries have the same fingerprint. -/
theorem cache_invariant (env : Env) (s : CommandLineParser) (f : String) (ds : DataSource) :
    (fingerprint (createOrFindDataVector s f ds).1 = requestFingerprint s f ds ∧
      ((createOrFindDataVector s f ds).2._vectors = s._vectors ∨
        ∃ v, (createOrFindDataVector s f ds).2._vectors = s._vectors ++ [v] ∧
          fingerprint v = requestFingerprint s f ds) ∧
      (cacheOK s → cacheOK (createOrFindDataVector s f ds).2)) ∧
    (∀ t arg, dispatch env s arg = some t →
      s._vectors <+: t._vectors ∧ (cacheOK s → cacheOK t)) ∧
    (∀ doc args t, Reachable env (startState env (CommandLineParser.new doc args)) t →
      cacheOK t) ∧
    (∀ doc args b t, processCommandLine env (CommandLineParser.new doc args) = some (b, t) →
      cacheOK t) := by
  have hreach : ∀ doc args t,
      Reachable env (startState env (CommandLineParser.new doc args)) t → cacheOK t := by
    intro doc args t hr
    induction hr with
    | start => exact List.nodup_nil
    | turn a b arg rest _ hok hargs hd ih =>
      exact (dispatch_cache env { a with _arguments := rest } b arg hd).2 ih
  refine ⟨⟨?_, ?_, (createOrFindDataVector_steady s f ds).2.2.2.2.2.2.1⟩,
    fun t arg hs => dispatch_cache env s t arg hs, hreach, fun doc args b t h => ?_⟩
  · obtain ⟨h1, h2, h3, h4, h5, h6, h7⟩ := createOrFindDataVector_fst s f ds
    unfold fingerprint requestFingerprint
    rw [h1, h2, h3, h4, h5, h6, h7]
  · rw [createOrFindDataVector_snd]
    rcases createdVector_fingerprint s f ds with h | ⟨v, h, hv⟩
    · left
      show s._vectors ++ createdVector s f ds = _
      rw [h, List.append_nil]
    · right
      exact ⟨v, by show s._vectors ++ createdVector s f ds = _; rw [h], hv⟩
  · obtain ⟨t1, hr, rfl⟩ := processCommandLine_reachable env _ t b h
    have := hreach doc args t1 hr
    split
    · exact this
    · exact this

/-- Witness of claim C27: the run `file.dat -y 1 -y 1 -f 2 -y 1` ends with
four cache entries, all with different fingerprints, and three curves. -/
theorem cache_invariant_witness :
    (∀ b t, processCommandLine (sampleEnv false)
        (CommandLineParser.new sampleDocument ["file.dat", "-y", "1", "-y", "1", "-f", "2", "-y", "1"])
          = some (b, t) → cacheOK t) ∧
    (run (sampleEnv false) ["file.dat", "-y", "1", "-y", "1", "-f", "2", "-y", "1"]).map
      (fun t => t._vectors.map (fun v => (v.field, v.reqStartFrame)))
      = some [("INDEX", 0), ("Column 1", 0), ("INDEX", 2), ("Column 1", 2)] ∧
    (run (sampleEnv false) ["file.dat", "-y", "1", "-y", "1", "-f", "2", "-y", "1"]).map
      (fun t => (curvesOf t).length) = some 3 :=
  ⟨(cache_invariant (sampleEnv false) (CommandLineParser.new sampleDocument []) "1"
    (sampleSource "file.dat" [])).2.2.2 sampleDocument _, by decide, by decide⟩

/-! ## Exactly one style flag -/

theorem requestedStyle_oneHot (s : CommandLineParser) (inferred : Bool × Bool × Bool)
    (h : oneHot (styleFlags s)) (hi : oneHot inferred) : oneHot (requestedStyle s inferred) := by
  unfold requestedStyle
  split
  · exact h
  · exact hi

theorem yInferred_oneHot (s : CommandLineParser) : oneHot (yInferred s) := by
  unfold yInferred
  split
  · exact Or.inl rfl
  · exact Or.inr (Or.inl rfl)

theorem yLoop_oneHot (env : Env) (field : String) (files : List String)
    (s t : CommandLineParser) (h : oneHot (styleFlags s))
    (hs : yLoop env field files s = some t) : oneHot (styleFlags t) := by
  induction files generalizing s with
  | nil =>
    simp only [yLoop, Option.some.injEq] at hs
    subst hs
    exact h
  | cons file rest ih =>
    unfold yLoop at hs
    split at hs
    · cases hs
      exact h
    · split at hs
      · exact absurd hs (by simp)
      · rename_i ds hds
        split at hs
        · exact absurd hs (by simp)
        · rename_i b hb
          obtain ⟨-, -, b3, -⟩ := createCurveInPlot_style env _ b _ _ _ hb
          obtain ⟨-, -, a3⟩ := yVectors_style s field ds
          refine ih { b with dataPlotted := true } ?_ hs
          show oneHot (styleFlags b)
          rw [b3, a3]
          exact requestedStyle_oneHot s _ h (yInferred_oneHot s)

theorem pLoop_oneHot (env : Env) (field : String) (files : List String)
    (s t : CommandLineParser) (h : oneHot (styleFlags s))
    (hs : pLoop env field files s = some t) : oneHot (styleFlags t) := by
  induction files generalizing s with
  | nil =>
    simp only [pLoop, Option.some.injEq] at hs
    subst hs
    exact h
  | cons file rest ih =>
    unfold pLoop at hs
    split at hs
    · cases hs
      exact h
    · split at hs
      · exact absurd hs (by simp)
      · rename_i ds hds
        split at hs
        · exact absurd hs (by simp)
        · rename_i b hb
          obtain ⟨-, -, b3, -⟩ := createCurveInPlot_style env _ b _ _ _ hb
          obtain ⟨-, -, a3⟩ := pSpectrum_style s field ds
          refine ih { b with dataPlotted := true } ?_ hs
          show oneHot (styleFlags b)
          rw [b3, a3]
          exact requestedStyle_oneHot s _ h (Or.inr (Or.inl rfl))

theorem hLoop_oneHot (env : Env) (field : String) (files : List String)
    (s t : CommandLineParser) (h : oneHot (styleFlags s))
    (hs : hLoop env field files s = some t) : oneHot (styleFlags t) := by
  induction files generalizing s with
  | nil =>
    simp only [hLoop, Option.some.injEq] at hs
    subst hs
    exact h
  | cons file rest ih =>
    unfold hLoop at hs
    split at hs
    · cases hs
      exact h
    · split at hs
      · exact absurd hs (by simp)
      · rename_i ds hds
        split at hs
        · exact absurd hs (by simp)
        · rename_i b hb
          obtain ⟨-, -, b3, -⟩ := createCurveInPlot_style env _ b _ _ _ hb
          obtain ⟨-, -, a3⟩ := hHistogram_style s field ds
          refine ih { b with dataPlotted := true } ?_ hs
          show oneHot (styleFlags b)
          rw [b3, a3]
          exact requestedStyle_oneHot s _ h (Or.inr (Or.inr rfl))

theorem zLoop_styleFlags (env : Env) (field : String) (files : List String)
    (s t : CommandLineParser) (hs : zLoop env field files s = some t) :
    styleFlags t = styleFlags s := by
  induction files generalizing s with
  | nil =>
    simp only [zLoop, Option.some.injEq] at hs
    subst hs
    rfl
  | cons file rest ih =>
    unfold zLoop at hs
    split at hs
    · cases hs
      rfl
    · split at hs
      · exact absurd hs (by simp)
      · rename_i ds hds
        split at hs
        · exact absurd hs (by simp)
        · rename_i b hb
          obtain ⟨plots, pi, rfl⟩ := createImageInPlot_footprint _ b _ hb
          exact (ih _ hs).trans rfl

theorem dispatch_oneHot (env : Env) (s t : CommandLineParser) (arg : String)
    (h : oneHot (styleFlags s)) (hs : dispatch env s arg = some t) : oneHot (styleFlags t) := by
  have hfr : oneHot (styleFlags (_setStringArg s "" "Usage: -y <fieldname>\n").2.2) ∧
      oneHot (styleFlags (_setStringArg s "" "Usage: -p <fieldname>\n").2.2) ∧
      oneHot (styleFlags (_setStringArg s "" "Usage: -h <fieldname>\n").2.2) ∧
      styleFlags (_setStringArg s "" "Usage: -z <fieldname>\n").2.2 = styleFlags s := by
    simp only [_setStringArg_snd]
    exact ⟨h, h, h, rfl⟩
  by_cases hsd : arg ∈ styleOrDataFlags
  · simp only [styleOrDataFlags, List.mem_cons, List.mem_singleton, List.not_mem_nil,
      or_false] at hsd
    rcases hsd with rfl | rfl | rfl | rfl | rfl | rfl | rfl
    · rw [dispatch_d_d] at hs
      cases hs
      exact Or.inl rfl
    · rw [dispatch_d_l] at hs
      cases hs
      exact Or.inr (Or.inl rfl)
    · rw [dispatch_d_b] at hs
      cases hs
      exact Or.inr (Or.inr rfl)
    · rw [dispatch_d_y] at hs
      simp only [] at hs
      split at hs
      · cases hs
        exact hfr.1
      · split at hs
        · exact absurd hs (by simp)
        · rename_i s2 h2
          cases hs
          exact yLoop_oneHot env _ _ _ s2 (by exact hfr.1) h2
    · rw [dispatch_d_p] at hs
      simp only [] at hs
      split at hs
      · split at hs
        · exact absurd hs (by simp)
        · rename_i s2 h2
          cases hs
          exact pLoop_oneHot env _ _ _ s2 (by exact hfr.2.1) h2
      · cases hs
        exact hfr.2.1
    · rw [dispatch_d_h] at hs
      simp only [] at hs
      split at hs
      · split at hs
        · exact absurd hs (by simp)
        · rename_i s2 h2
          cases hs
          exact hLoop_oneHot env _ _ _ s2 (by exact hfr.2.2.1) h2
      · cases hs
        exact hfr.2.2.1
    · rw [dispatch_d_z] at hs
      simp only [] at hs
      split at hs
      · split at hs
        · exact absurd hs (by simp)
        · rename_i s2 h2
          cases hs
          show oneHot (styleFlags s2)
          rw [zLoop_styleFlags env _ _ _ s2 h2]
          show oneHot (styleFlags (_setStringArg s "" "Usage: -z <fieldname>\n").2.2)
          rw [hfr.2.2.2]
          exact h
      · cases hs
        show oneHot (styleFlags (_setStringArg s "" "Usage: -z <fieldname>\n").2.2)
        rw [hfr.2.2.2]
        exact h
  · have hst : styleState t = styleState s := by
      by_cases hmem : arg ∈ optionNames
      · have h1 := dispatch_keeps_styleState env s arg hmem hsd
        rw [hs] at h1
        exact Option.some.inj h1
      · rw [dispatch_fileArg env s arg hmem] at hs
        exact fileArg_styleState env s t arg hs
    have : styleFlags t = styleFlags s := congrArg Prod.fst hst
    rw [this]
    exact h

/-- Claim C28: in every state the loop of `processCommandLine` passes through
on a new parser, and in the state it ends in, exactly one of the flags
`_usePoints`, `_useLines`, `_useBargraph` is true, and a curve set up by
`createCurveInPlot` in such a state has exactly one of points, lines and bars.
Every curve a `-y`, `-p` or `-h` directive creates from a state with exactly
one flag true has exactly one of the three. -/
theorem style_one_hot (env : Env) (doc : Document) (args : List String) :
    (∀ s, Reachable env (startState env (CommandLineParser.new doc args)) s →
      oneHot (styleFlags s) ∧
      ∀ xv yv ev, styleOf (newCurve env s xv yv ev) = asStyle (styleFlags s)) ∧
    (∀ b t, processCommandLine env (CommandLineParser.new doc args) = some (b, t) →
      oneHot (styleFlags t)) ∧
    (∀ a t arg, oneHot (styleFlags a) → arg = "-y" ∨ arg = "-p" ∨ arg = "-h" →
      dispatch env a arg = some t →
      ∃ cs, curvesOf t = curvesOf a ++ cs ∧
        ∀ c ∈ cs, ∃ f, oneHot f ∧ styleOf c = asStyle f) := by
  have hreach : ∀ s, Reachable env (startState env (CommandLineParser.new doc args)) s →
      oneHot (styleFlags s) := by
    intro s hr
    induction hr with
    | start => exact Or.inr (Or.inl rfl)
    | turn a b arg rest _ hok hargs hd ih =>
      exact dispatch_oneHot env { a with _arguments := rest } b arg ih hd
  refine ⟨fun s hr => ⟨hreach s hr, fun xv yv ev => rfl⟩, fun b t h => ?_,
    fun a t arg ha harg hs => ?_⟩
  · obtain ⟨t1, hr, rfl⟩ := processCommandLine_reachable env _ t b h
    have := hreach t1 hr
    split
    · exact this
    · exact this
  · rcases harg with rfl | rfl | rfl
    · obtain ⟨-, cs, h2, h3⟩ := dispatch_y_style env a t hs
      exact ⟨cs, h2, fun c hc => ⟨_, requestedStyle_oneHot a _ ha (yInferred_oneHot a),
        h3 c hc⟩⟩
    · obtain ⟨-, cs, h2, h3⟩ := dispatch_p_style env a t hs
      exact ⟨cs, h2, fun c hc => ⟨_, requestedStyle_oneHot a _ ha (Or.inr (Or.inl rfl)),
        h3 c hc⟩⟩
    · obtain ⟨-, cs, h2, h3⟩ := dispatch_h_style env a t hs
      exact ⟨cs, h2, fun c hc => ⟨_, requestedStyle_oneHot a _ ha (Or.inr (Or.inr rfl)),
        h3 c hc⟩⟩

/-- Witness of claim C28: the run `file.dat -d -y 1 -e 2 -y 1 -h 1 -b -p 1`
ends with exactly one flag true, and its curves have points, points, bars and
bars. -/
theorem style_one_hot_witness :
    (∀ b t, processCommandLine (sampleEnv false) (CommandLineParser.new sampleDocument
        ["file.dat", "-d", "-y", "1", "-e", "2", "-y", "1", "-h", "1", "-b", "-p", "1"])
          = some (b, t) → oneHot (styleFlags t)) ∧
    (run (sampleEnv false)
        ["file.dat", "-d", "-y", "1", "-e", "2", "-y", "1", "-h", "1", "-b", "-p", "1"]).map
      (fun t => (t.ok, styleFlags t)) = some (true, (false, false, true)) ∧
    (run (sampleEnv false)
        ["file.dat", "-d", "-y", "1", "-e", "2", "-y", "1", "-h", "1", "-b", "-p", "1"]).map
      (fun t => (curvesOf t).map styleOf)
      = some [(some true, some false, some false), (some true, some false, some false),
          (some false, some false, some true), (some false, some false, some true)] :=
  ⟨(style_one_hot (sampleEnv false) sampleDocument _).2.1, by decide, by decide⟩

/-! ## Selected columns of the vector view -/

theorem collect_mem (sel : List QModelIndex) (acc : List Nat) (c : Nat) :
    c ∈ sel.foldl
        (fun columns index =>
          if columns.contains index.column then columns else columns ++ [index.column]) acc ↔
      c ∈ acc ∨ ∃ index ∈ sel, index.column = c := by
  induction sel generalizing acc with
  | nil => simp
  | cons i rest ih =>
    rw [List.foldl_cons, ih]
    by_cases h : acc.contains i.column = true
    · rw [if_pos h]
      have hm : i.column ∈ acc := by simpa using h
      constructor
      · rintro (h1 | ⟨j, hj, rfl⟩)
        · exact Or.inl h1
        · exact Or.inr ⟨j, List.mem_cons_of_mem _ hj, rfl⟩
      · rintro (h1 | ⟨j, hj, rfl⟩)
        · exact Or.inl h1
        · rcases List.mem_cons.1 hj with rfl | hj
          · exact Or.inl hm
          · exact Or.inr ⟨j, hj, rfl⟩
    · rw [if_neg h]
      constructor
      · rintro (h1 | ⟨j, hj, rfl⟩)
        · rcases List.mem_append.1 h1 with h1 | h1
          · exact Or.inl h1
          · exact Or.inr ⟨i, List.mem_cons_self _ _, (List.mem_singleton.1 h1).symm⟩
        · exact Or.inr ⟨j, List.mem_cons_of_mem _ hj, rfl⟩
      · rintro (h1 | ⟨j, hj, rfl⟩)
        · exact Or.inl (List.mem_append_left _ h1)
        · rcases List.mem_cons.1 hj with rfl | hj
          · exact Or.inl (List.mem_append_right _ (List.mem_singleton.2 rfl))
          · exact Or.inr ⟨j, hj, rfl⟩

theorem collect_nodup (sel : List QModelIndex) (acc : List Nat) (h : acc.Nodup) :
    (sel.foldl
        (fun columns index =>
          if columns.contains index.column then columns else columns ++ [index.column])
        acc).Nodup := by
  induction sel generalizing acc with
  | nil => simpa using h
  | cons i rest ih =>
    rw [List.foldl_cons]
    apply ih
    by_cases hc : acc.contains i.column = true
    · rw [if_pos hc]; exact h
    · rw [if_neg hc]
      have hm : i.column ∉ acc := by simpa using hc
      rw [List.nodup_append]
      refine ⟨h, List.nodup_singleton _, ?_⟩
      intro a ha hb
      rw [List.mem_singleton] at hb
      subst hb
      exact hm ha

theorem selectedColumns_mem (sel : List QModelIndex) (c : Nat) :
    c ∈ selectedColumns sel ↔ ∃ index ∈ sel, index.column = c := by
  unfold selectedColumns qSortGreater
  rw [(List.perm_insertionSort _ _).mem_iff, collect_mem]
  simp

theorem selectedColumns_nodup (sel : List QModelIndex) : (selectedColumns sel).Nodup := by
  unfold selectedColumns qSortGreater
  rw [(List.perm_insertionSort _ _).nodup_iff]
  exact collect_nodup sel [] List.nodup_nil

theorem selectedColumns_desc (sel : List QModelIndex) :
    (selectedColumns sel).Pairwise (fun a b => a > b) := by
  have h1 : (selectedColumns sel).Pairwise (fun a b => a ≥ b) := by
    unfold selectedColumns qSortGreater
    exact List.sorted_insertionSort (fun a b : Nat => a ≥ b) _
  have h2 : (selectedColumns sel).Pairwise (fun a b => a ≠ b) := selectedColumns_nodup sel
  refine (h1.and h2).imp ?_
  intro a b hab
  exact lt_of_le_of_ne hab.1 (Ne.symm hab.2)

theorem keepFrom_cons {α : Type} (d : List Nat) (x : α) (xs : List α) (k : Nat) :
    keepFrom d k (x :: xs) =
      if k ∈ d then keepFrom d (k + 1) xs else x :: keepFrom d (k + 1) xs := by
  unfold keepFrom
  by_cases hk : k ∈ d <;> simp [List.enumFrom_cons, hk]

theorem keepFrom_all {α : Type} (d : List Nat) (xs : List α) (k : Nat)
    (h : ∀ j ∈ d, j < k) : keepFrom d k xs = xs := by
  induction xs generalizing k with
  | nil => rfl
  | cons x xs ih =>
    have hk : k ∉ d := fun hm => Nat.lt_irrefl _ (h k hm)
    rw [keepFrom_cons, if_neg hk, ih (k + 1) (fun j hj => Nat.lt_succ_of_lt (h j hj))]

theorem keepFrom_erase {α : Type} (rest : List Nat) (xs : List α) (k i : Nat)
    (h : ∀ j ∈ rest, j < k + i) :
    keepFrom rest k (xs.eraseIdx i) = keepFrom ((k + i) :: rest) k xs := by
  induction xs generalizing k i with
  | nil => rfl
  | cons x xs ih =>
    cases i with
    | zero =>
      rw [List.eraseIdx_cons_zero, keepFrom_cons, if_pos (by simp)]
      rw [keepFrom_all rest xs k (by simpa using h)]
      rw [keepFrom_all _ xs (k + 1)]
      intro j hj
      rcases List.mem_cons.1 hj with rfl | hj
      · simp
      · exact Nat.lt_succ_of_lt (by simpa using h j hj)
    | succ i =>
      rw [List.eraseIdx_cons_succ, keepFrom_cons, keepFrom_cons]
      have e : k + (i + 1) = (k + 1) + i := by omega
      have hih := ih (k + 1) i (fun j hj => by have := h j hj; omega)
      rw [e, ← hih]
      have hk : (k ∈ (k + 1 + i) :: rest) ↔ k ∈ rest := by
        rw [List.mem_cons]
        constructor
        · rintro (h1 | h1)
          · omega
          · exact h1
        · exact Or.inr
      by_cases hr : k ∈ rest
      · rw [if_pos hr, if_pos (hk.2 hr)]
      · rw [if_neg hr, if_neg (fun h1 => hr (hk.1 h1))]

theorem removeDescending {α : Type} (d : List Nat) (m : List α)
    (h : d.Pairwise (fun a b => a > b)) : d.foldl removeVector m = keepFrom d 0 m := by
  induction d generalizing m with
  | nil => rw [List.foldl_nil, keepFrom_all [] m 0 (by simp)]
  | cons i rest ih =>
    rw [List.pairwise_cons] at h
    rw [List.foldl_cons, ih _ h.2]
    unfold removeVector
    have := keepFrom_erase rest m 0 i (by simpa using h.1)
    simpa using this

theorem keepFrom_congr {α : Type} (d e : List Nat) (k : Nat) (xs : List α)
    (h : ∀ c, c ∈ d ↔ c ∈ e) : keepFrom d k xs = keepFrom e k xs := by
  unfold keepFrom
  congr 1
  apply List.filter_congr
  intro p _
  simp [h p.1]

theorem getElem?_removeAbove {α : Type} (pre : List Nat) (m : List α) (c : Nat)
    (h : ∀ j ∈ pre, c < j) : (pre.foldl removeVector m)[c]? = m[c]? := by
  induction pre generalizing m with
  | nil => rfl
  | cons i rest ih =>
    rw [List.foldl_cons, ih _ (fun j hj => h j (List.mem_cons_of_mem _ hj))]
    unfold removeVector
    exact List.getElem?_eraseIdx_of_lt _ _ _ (h i (List.mem_cons_self _ _))

/-- C29: for every list of selected indexes, selectedColumns holds exactly the columns that
occur in the selection, each once, sorted strictly descending. Hence, while removeSelected goes
through that list, the vector at the column about to be removed is still the vector that stood
at this column in the original table, and the result is the table without the originally
selected columns. -/
theorem selected_columns_descending (sel : List QModelIndex) :
    (∀ c, c ∈ selectedColumns sel ↔ ∃ index ∈ sel, index.column = c) ∧
    (∀ c, (∃ index ∈ sel, index.column = c) → (selectedColumns sel).count c = 1) ∧
    (selectedColumns sel).Pairwise (fun a b => a > b) ∧
    ∀ (α : Type) (m : List α),
      (∀ pre c post, selectedColumns sel = pre ++ c :: post →
        (pre.foldl removeVector m)[c]? = m[c]?) ∧
      removeSelected (some m) sel = some (withoutSelected sel m) := by
  refine ⟨selectedColumns_mem sel, ?_, selectedColumns_desc sel, ?_⟩
  · intro c hc
    exact List.count_eq_one_of_mem (selectedColumns_nodup sel) ((selectedColumns_mem sel c).2 hc)
  · intro α m
    constructor
    · intro pre c post hsplit
      apply getElem?_removeAbove
      intro j hj
      have hd := selectedColumns_desc sel
      rw [hsplit, List.pairwise_append] at hd
      exact hd.2.2 j hj c (List.mem_cons_self _ _)
    · unfold removeSelected withoutSelected
      simp only
      rw [removeDescending _ _ (selectedColumns_desc sel)]
      congr 1
      apply keepFrom_congr
      intro c
      rw [selectedColumns_mem]
      simp

/-- A run of selectedColumns and removeSelected: the selection of cells in columns 1, 3, 1, 0, 3 gives the columns 3, 1, 0,
and removing them from a table of five vectors leaves the vectors of columns 2 and 4. -/
theorem selected_columns_descending_example :
    selectedColumns [⟨0, 1⟩, ⟨0, 3⟩, ⟨1, 1⟩, ⟨2, 0⟩, ⟨1, 3⟩] = [3, 1, 0] ∧
    removeSelected (some ["a", "b", "c", "d", "e"])
      [⟨0, 1⟩, ⟨0, 3⟩, ⟨1, 1⟩, ⟨2, 0⟩, ⟨1, 3⟩] = some ["c", "e"] := by
  constructor <;> decide

/-! ## The requested window of a curve -/

/-- Claim C3: for a file token `file` (not an option) and tokens `ts`, `tn`
that `toInt` reads as the integers `s` and `n`, not both -1, processing
`file -f ts -n tn -y f` from the initial parser ends with `ok = false`, no
object and no plot created when the file does not exist.  When the file exists
and the plugin manager yields its source, it ends with `ok = true` and exactly
one new curve, whose X and Y vectors were constructed with requested start
frame `s` and requested frame count `n`.  When the file exists and the plugin
manager yields no source, `-y` hands the null source to
`createOrFindDataVector`, which dereferences it: the run has no result. -/
theorem yField_window (env : Env) (doc : Document) (file ts tn f : String) (s n : Int)
    (hfile : file ∉ optionNames) (hts : ts ≠ "end") (htn : tn ≠ "end")
    (hs : env.toInt ts = some s) (hn : env.toInt tn = some n) (hsn : ¬ (s = -1 ∧ n = -1)) :
    (env.fileExists file = false →
      ∃ st, processCommandLine env
          (CommandLineParser.new doc [file, "-f", ts, "-n", tn, "-y", f]) = some (false, st) ∧
        st.ok = false ∧ st.objectStore.objects = doc.objectStore.objects ∧
        st.plots = doc.plots) ∧
    (∀ ds, env.fileExists file = true → env.findOrLoadSource file = some ds →
      ∃ st c xv yv, processCommandLine env
          (CommandLineParser.new doc [file, "-f", ts, "-n", tn, "-y", f]) = some (true, st) ∧
        st.ok = true ∧ curvesOf st = curvesIn doc.objectStore.objects ++ [c] ∧
        c.xVector = some (Vector.data xv) ∧ c.yVector = some (Vector.data yv) ∧
        xv.reqStartFrame = s ∧ xv.reqNumFrames = n ∧
        yv.reqStartFrame = s ∧ yv.reqNumFrames = n ∧
        xv.filename = ds.fileName ∧ yv.filename = ds.fileName) ∧
    (env.fileExists file = true → env.findOrLoadSource file = none →
      processCommandLine env
        (CommandLineParser.new doc [file, "-f", ts, "-n", tn, "-y", f]) = none) := by
  refine ⟨?_, ?_, ?_⟩
  · intro hex
    simp [processCommandLine, whileLoop, CommandLineParser.new, dispatch_fileArg, hfile, fileArg,
      appendFileName]
    simp [dispatch, _setIntArg, hts, htn, hs, hn, _setStringArg]
    simp [yLoop, hex, printUsage]
  · intro ds hex hds
    simp [processCommandLine, whileLoop, CommandLineParser.new, dispatch_fileArg, hfile, fileArg,
      appendFileName]
    simp [dispatch, _setIntArg, hts, htn, hs, hn, _setStringArg]
    simp [yLoop, yVectors, hex, hds, createOrFindDataVector_snd]
    simp [createCurveInPlot, addCurve, placeRelation_consecutive, curvesOf, curvesIn_append,
      curvesIn_dataVectors, curvesIn_curve, newCurve, createOrFindDataVector_reqStartFrame,
      createOrFindDataVector_reqNumFrames, createOrFindDataVector_filename, hsn]
  · intro hex hds
    simp [processCommandLine, whileLoop, CommandLineParser.new, dispatch_fileArg, hfile, fileArg,
      appendFileName]
    simp [dispatch_d_f, dispatch_d_n, _setIntArg, hts, htn, hs, hn]
    simp [dispatch_d_y, _setStringArg, yLoop, hex, hds]

/-- Witness of claim C3: `nofile.dat -f 10 -n 20 -y 2` fails and creates nothing;
`file.dat -f 10 -n 20 -y 2` gives one curve with start 10 and count 20;
`notes.txt -f 10 -n 20 -y 2`, for an existing file without a data source, has
no result. -/
theorem yField_window_witness :
    (∃ st, processCommandLine (sampleEnv false)
        (CommandLineParser.new sampleDocument ["nofile.dat", "-f", "10", "-n", "20", "-y", "2"])
          = some (false, st) ∧
      st.ok = false ∧ st.objectStore.objects = sampleDocument.objectStore.objects ∧
      st.plots = sampleDocument.plots) ∧
    (∃ st c xv yv, processCommandLine (sampleEnv false)
        (CommandLineParser.new sampleDocument ["file.dat", "-f", "10", "-n", "20", "-y", "2"])
          = some (true, st) ∧
      st.ok = true ∧ curvesOf st = curvesIn sampleDocument.objectStore.objects ++ [c] ∧
      c.xVector = some (Vector.data xv) ∧ c.yVector = some (Vector.data yv) ∧
      xv.reqStartFrame = 10 ∧ xv.reqNumFrames = 20 ∧
      yv.reqStartFrame = 10 ∧ yv.reqNumFrames = 20 ∧
      xv.filename = (sampleSource "file.dat" ["INDEX", "Column 1", "Column 2", "Column 3",
        "Column 4"]).fileName ∧
      yv.filename = (sampleSource "file.dat" ["INDEX", "Column 1", "Column 2", "Column 3",
        "Column 4"]).fileName) ∧
    foreignEnv.fileExists "notes.txt" = true ∧
    foreignEnv.findOrLoadSource "notes.txt" = none ∧
    processCommandLine foreignEnv
      (CommandLineParser.new sampleDocument ["notes.txt", "-f", "10", "-n", "20", "-y", "2"])
        = none :=
  ⟨(yField_window (sampleEnv false) sampleDocument "nofile.dat" "10" "20" "2" 10 20
      (by decide) (by decide) (by decide) (by decide) (by decide) (by decide)).1 (by decide),
    (yField_window (sampleEnv false) sampleDocument "file.dat" "10" "20" "2" 10 20
      (by decide) (by decide) (by decide) (by decide) (by decide) (by decide)).2.1 _
      (by decide) rfl,
    by decide, rfl,
    (yField_window foreignEnv sampleDocument "notes.txt" "10" "20" "2" 10 20
      (by decide) (by decide) (by decide) (by decide) (by decide) (by decide)).2.2
      (by decide) rfl⟩

/-! ## The error field and the style -/

/-- Claim C6, amended: for a file token `file` that exists and whose source the
plugin manager yields, the tokens `file -e E -y F -y G` end with `ok = true`
and create two curves.  With a non-empty error field `E` the first curve has
the vector resolved for `E` as Y error and Y minus error and has points only;
with the empty error field the first curve has no error vector and lines only.
The second curve has no error vector and lines only, and at the end the error
field is empty.  When the plugin manager yields no source for the existing
file, the first `-y` dereferences the null source and the run has no result.
Any `-y` directive that runs over a non-empty file list leaves the error field
empty when it returns, and it returns when relations can be placed and every
existing file of the list has a source. -/
theorem errorField_style (env : Env) (doc : Document) (file E F G : String)
    (hfile : file ∉ optionNames) (hex : env.fileExists file = true) :
    (∀ ds, env.findOrLoadSource file = some ds → E ≠ "" →
      ∃ st c1 c2 ev, processCommandLine env
          (CommandLineParser.new doc [file, "-e", E, "-y", F, "-y", G]) = some (true, st) ∧
        st.ok = true ∧ curvesOf st = curvesIn doc.objectStore.objects ++ [c1, c2] ∧
        c1.yError = some (Vector.data ev) ∧ c1.yMinusError = some (Vector.data ev) ∧
        ev.field = normalizeField E ds ∧ ev.filename = ds.fileName ∧
        c1.hasPoints = some true ∧ c1.hasLines = some false ∧ c1.hasBars = some false ∧
        c2.yError = none ∧ c2.yMinusError = none ∧
        c2.hasPoints = some false ∧ c2.hasLines = some true ∧ c2.hasBars = some false ∧
        st._errorField = "") ∧
    (∀ ds, env.findOrLoadSource file = some ds → E = "" →
      ∃ st c1 c2, processCommandLine env
          (CommandLineParser.new doc [file, "-e", E, "-y", F, "-y", G]) = some (true, st) ∧
        st.ok = true ∧ curvesOf st = curvesIn doc.objectStore.objects ++ [c1, c2] ∧
        c1.yError = none ∧ c1.yMinusError = none ∧
        c1.hasPoints = some false ∧ c1.hasLines = some true ∧ c1.hasBars = some false ∧
        c2.yError = none ∧ c2.yMinusError = none ∧
        c2.hasPoints = some false ∧ c2.hasLines = some true ∧ c2.hasBars = some false ∧
        st._errorField = "") ∧
    (env.findOrLoadSource file = none →
      processCommandLine env
        (CommandLineParser.new doc [file, "-e", E, "-y", F, "-y", G]) = none) ∧
    (∀ s, s._fileNames ≠ [] →
      (∀ s', dispatch env s "-y" = some s' → s'._errorField = "") ∧
      (placeable s → loadable env s._fileNames → ∃ s', dispatch env s "-y" = some s')) := by
  refine ⟨?_, ?_, ?_, ?_⟩
  · intro ds hds hE
    simp [processCommandLine, whileLoop, CommandLineParser.new, dispatch_fileArg, hfile, fileArg,
      appendFileName]
    simp [dispatch, _setStringArg]
    simp [yLoop, yVectors, hex, hds, createOrFindDataVector_snd, hE,
      createCurveInPlot, addCurve, placeRelation_consecutive, curvesOf, curvesIn_append,
      curvesIn_dataVectors, curvesIn_curve, curvesIn_cons_curve, curvesIn_nil, newCurve,
      createOrFindDataVector_field_eq, createOrFindDataVector_filename]
    refine ⟨_, _, ⟨rfl, rfl⟩, ?_⟩
    simp [createOrFindDataVector_field_eq, createOrFindDataVector_filename]
  · intro ds hds hE
    subst hE
    simp [processCommandLine, whileLoop, CommandLineParser.new, dispatch_fileArg, hfile, fileArg,
      appendFileName]
    simp [dispatch, _setStringArg]
    simp [yLoop, yVectors, hex, hds, createOrFindDataVector_snd,
      createCurveInPlot, addCurve, placeRelation_consecutive, curvesOf, curvesIn_append,
      curvesIn_dataVectors, curvesIn_curve, curvesIn_cons_curve, curvesIn_nil, newCurve,
      createOrFindDataVector_field_eq, createOrFindDataVector_filename]
    exact ⟨_, _, ⟨rfl, rfl⟩, rfl, rfl, rfl, rfl, rfl, rfl, rfl, rfl, rfl, rfl⟩
  · intro hds
    simp [processCommandLine, whileLoop, CommandLineParser.new, dispatch_fileArg, hfile, fileArg,
      appendFileName]
    simp [dispatch_d_e, _setStringArg]
    simp [dispatch_d_y, _setStringArg, yLoop, hex, hds]
  · intro s hne
    refine ⟨fun s' hs => ?_, fun hp hl => dispatch_y_returns env s hp hl⟩
    rw [dispatch_d_y] at hs
    simp only [] at hs
    split at hs
    · rename_i hlt
      simp only [_setStringArg_snd] at hlt
      exact absurd (List.length_pos.mpr hne) (by omega)
    · split at hs
      · exact absurd hs (by simp)
      · simp only [Option.some.injEq] at hs
        subst hs
        rfl

/-- Claim C6 as stated fails for the empty error field: in
`file.dat -e "" -y 2 -y 1` the first curve has no error vector and lines only,
not points only. -/
theorem errorField_style_counterexample :
    (run (sampleEnv false) ["file.dat", "-e", "", "-y", "2", "-y", "1"]).map
        (fun t => (curvesOf t).map (fun c =>
          (c.yError.isSome, c.hasPoints, c.hasLines, c.hasBars)))
      = some [(false, some false, some true, some false),
          (false, some false, some true, some false)] ∧
    (run (sampleEnv false) ["file.dat", "-e", "", "-y", "2", "-y", "1"]).map
        (fun t => (t.ok, (curvesOf t).map (fun c => c.yMinusError.isSome)))
      = some (true, [false, false]) := by
  refine ⟨by decide, by decide⟩

/-- Witness of claim C6: `file.dat -e 3 -y 2 -y 1` and `file.dat -e "" -y 2 -y 1`
in the sample environment, and `notes.txt -e 3 -y 2 -y 1` for an existing file
without a data source. -/
theorem errorField_style_witness :
    (∃ st c1 c2 ev, processCommandLine (sampleEnv false)
        (CommandLineParser.new sampleDocument ["file.dat", "-e", "3", "-y", "2", "-y", "1"])
          = some (true, st) ∧
      st.ok = true ∧ curvesOf st = curvesIn sampleDocument.objectStore.objects ++ [c1, c2] ∧
      c1.yError = some (Vector.data ev) ∧ c1.yMinusError = some (Vector.data ev) ∧
      ev.field = normalizeField "3" (sampleSource "file.dat"
        ["INDEX", "Column 1", "Column 2", "Column 3", "Column 4"]) ∧
      ev.filename = (sampleSource "file.dat"
        ["INDEX", "Column 1", "Column 2", "Column 3", "Column 4"]).fileName ∧
      c1.hasPoints = some true ∧ c1.hasLines = some false ∧ c1.hasBars = some false ∧
      c2.yError = none ∧ c2.yMinusError = none ∧
      c2.hasPoints = some false ∧ c2.hasLines = some true ∧ c2.hasBars = some false ∧
      st._errorField = "") ∧
    (∃ st c1 c2, processCommandLine (sampleEnv false)
        (CommandLineParser.new sampleDocument ["file.dat", "-e", "", "-y", "2", "-y", "1"])
          = some (true, st) ∧
      st.ok = true ∧ curvesOf st = curvesIn sampleDocument.objectStore.objects ++ [c1, c2] ∧
      c1.yError = none ∧ c1.yMinusError = none ∧
      c1.hasPoints = some false ∧ c1.hasLines = some true ∧ c1.hasBars = some false ∧
      c2.yError = none ∧ c2.yMinusError = none ∧
      c2.hasPoints = some false ∧ c2.hasLines = some true ∧ c2.hasBars = some false ∧
      st._errorField = "") ∧
    processCommandLine foreignEnv
      (CommandLineParser.new sampleDocument ["notes.txt", "-e", "3", "-y", "2", "-y", "1"])
        = none ∧
    (run (sampleEnv false) ["file.dat", "-e", "3", "-y", "2", "-y", "1"]).map
        (fun t => (curvesOf t).map (fun c =>
          (c.yError.map (fun v => match v with
            | Vector.data d => d.field
            | _ => ""), c.hasPoints, c.hasLines, c.hasBars)))
      = some [(some "Column 3", some true, some false, some false),
          (none, some false, some true, some false)] :=
  ⟨(errorField_style (sampleEnv false) sampleDocument "file.dat" "3" "2" "1"
      (by decide) (by decide)).1 _ rfl (by decide),
    (errorField_style (sampleEnv false) sampleDocument "file.dat" "" "2" "1"
      (by decide) (by decide)).2.1 _ rfl rfl,
    (errorField_style foreignEnv sampleDocument "notes.txt" "3" "2" "1"
      (by decide) (by decide)).2.2.1 rfl,
    by decide⟩


/-! ## The integer flags -/

/-- Claim C11, amended: `-f end` and `-n end` succeed and write -1 to the start
frame, respectively the frame count, and to `f0`, respectively `N`, of the
override record; `-s end` is handed to `toInt` (the sentinel is not accepted
there) and fails with `ok = false` when `toInt` does not read the word `end`.
For any other token the three flags do what `toInt` says: a token it reads as
the integer `v` succeeds and `v` is stored in the parser and in the override
record; a token it does not read (an integer literal outside the range of
`int` included) fails with `ok = false` and 0 is stored. -/
theorem sentinel_end (env : Env) (s : CommandLineParser) (tok : String) (rest : List String)
    (hargs : s._arguments = tok :: rest) :
    (tok = "end" →
      (dispatch env s "-f").map
          (fun t => (t.ok, t._startFrame, t.objectStore.override.f0, t._arguments))
        = some (true, -1, -1, rest) ∧
      (dispatch env s "-n").map
          (fun t => (t.ok, t._numFrames, t.objectStore.override.N, t._arguments))
        = some (true, -1, -1, rest) ∧
      (env.toInt "end" = none →
        (dispatch env s "-s").map (fun t => (t.ok, t._arguments)) = some (false, rest))) ∧
    (tok ≠ "end" →
      (dispatch env s "-f").map
          (fun t => (t.ok, t._startFrame, t.objectStore.override.f0, t._arguments))
        = some ((env.toInt tok).isSome, (env.toInt tok).getD 0, (env.toInt tok).getD 0, rest) ∧
      (dispatch env s "-n").map
          (fun t => (t.ok, t._numFrames, t.objectStore.override.N, t._arguments))
        = some ((env.toInt tok).isSome, (env.toInt tok).getD 0, (env.toInt tok).getD 0, rest)) ∧
    (dispatch env s "-s").map
        (fun t => (t.ok, t._skip, t.objectStore.override.skip, t._arguments))
      = some ((env.toInt tok).isSome, (env.toInt tok).getD 0, (env.toInt tok).getD 0, rest) ∧
    (∀ v, env.toInt tok = some v →
      (tok ≠ "end" →
        (dispatch env s "-f").map
            (fun t => (t.ok, t._startFrame, t.objectStore.override.f0, t._arguments))
          = some (true, v, v, rest) ∧
        (dispatch env s "-n").map
            (fun t => (t.ok, t._numFrames, t.objectStore.override.N, t._arguments))
          = some (true, v, v, rest)) ∧
      (dispatch env s "-s").map
          (fun t => (t.ok, t._skip, t.objectStore.override.skip, t._arguments))
        = some (true, v, v, rest)) := by
  refine ⟨fun h => ⟨?_, ?_, fun hend => ?_⟩, fun hne => ⟨?_, ?_⟩, ?_,
    fun v hv => ⟨fun hne => ⟨?_, ?_⟩, ?_⟩⟩
  · simp [dispatch_d_f, _setIntArg, hargs, h]
  · simp [dispatch_d_n, _setIntArg, hargs, h]
  · subst h
    simp [dispatch_d_s, _setIntArg, hargs, hend, printUsage]
  · cases hv : env.toInt tok <;> simp [dispatch_d_f, _setIntArg, hargs, hv, hne, printUsage]
  · cases hv : env.toInt tok <;> simp [dispatch_d_n, _setIntArg, hargs, hv, hne, printUsage]
  · cases hv : env.toInt tok <;> simp [dispatch_d_s, _setIntArg, hargs, hv, printUsage]
  · simp [dispatch_d_f, _setIntArg, hargs, hv, hne]
  · simp [dispatch_d_n, _setIntArg, hargs, hv, hne]
  · simp [dispatch_d_s, _setIntArg, hargs, hv]

/-- Claim C11 as stated fails: the integer literal 3000000000 is outside the
range of `int`, `toInt` does not read it, and `-f 3000000000`, `-n 3000000000`
and `-s 3000000000` end with `ok = false` and the value 0, in the parser and in
the override record. -/
theorem sentinel_end_counterexample :
    (sampleEnv false).toInt "3000000000" = none ∧
    (run (sampleEnv false) ["-f", "3000000000"]).map
        (fun t => (t.ok, t._startFrame, t.objectStore.override.f0)) = some (false, 0, 0) ∧
    (run (sampleEnv false) ["-n", "3000000000"]).map
        (fun t => (t.ok, t._numFrames, t.objectStore.override.N)) = some (false, 0, 0) ∧
    (run (sampleEnv false) ["-s", "3000000000"]).map
        (fun t => (t.ok, t._skip, t.objectStore.override.skip)) = some (false, 0, 0) := by
  refine ⟨by decide, by decide, by decide, by decide⟩

/-- Witness of claim C11: `-f end`, `-n end`, `-s end`, then `-f 10`, `-s 10`
and `-f -7` in the sample environment. -/
theorem sentinel_end_witness :
    ((dispatch (sampleEnv false) (CommandLineParser.new sampleDocument ["end", "-a"]) "-f").map
        (fun t => (t.ok, t._startFrame, t.objectStore.override.f0, t._arguments))
      = some (true, -1, -1, ["-a"]) ∧
    (dispatch (sampleEnv false) (CommandLineParser.new sampleDocument ["end", "-a"]) "-n").map
        (fun t => (t.ok, t._numFrames, t.objectStore.override.N, t._arguments))
      = some (true, -1, -1, ["-a"]) ∧
    (dispatch (sampleEnv false) (CommandLineParser.new sampleDocument ["end", "-a"]) "-s").map
        (fun t => (t.ok, t._arguments)) = some (false, ["-a"])) ∧
    (dispatch (sampleEnv false) (CommandLineParser.new sampleDocument ["10", "-a"]) "-f").map
        (fun t => (t.ok, t._startFrame, t.objectStore.override.f0, t._arguments))
      = some (true, 10, 10, ["-a"]) ∧
    (dispatch (sampleEnv false) (CommandLineParser.new sampleDocument ["10", "-a"]) "-s").map
        (fun t => (t.ok, t._skip, t.objectStore.override.skip, t._arguments))
      = some (true, 10, 10, ["-a"]) ∧
    (dispatch (sampleEnv false) (CommandLineParser.new sampleDocument ["-7", "-a"]) "-f").map
        (fun t => (t.ok, t._startFrame, t.objectStore.override.f0, t._arguments))
      = some (true, -7, -7, ["-a"]) :=
  have a := (sentinel_end (sampleEnv false) (CommandLineParser.new sampleDocument ["end", "-a"])
    "end" ["-a"] rfl).1 rfl
  have b := (sentinel_end (sampleEnv false) (CommandLineParser.new sampleDocument ["10", "-a"])
    "10" ["-a"] rfl).2.2.2 10 (by decide)
  have c := (sentinel_end (sampleEnv false) (CommandLineParser.new sampleDocument ["-7", "-a"])
    "-7" ["-a"] rfl).2.2.2 (-7) (by decide)
  ⟨⟨a.1, a.2.1, a.2.2 (by decide)⟩, (b.1 (by decide)).1, b.2, (c.1 (by decide)).1⟩

/-- Claim C13, amended: when `-f`, `-n` or `-s` fails because `toInt` does not
read its token (for `-f` and `-n`: a token that is not the sentinel), the value
the flag sets and the matching entry of the override record become 0, the
value `toInt` returns on failure; the token is taken, the usage message is
printed, `ok` is false and nothing else changes, so the other two values and
their override entries are those from before the directive.  When the token is
missing, the usage message is printed, `ok` is false, the three values of the
parser are unchanged and the flag copies its own value into its entry of the
override record (`f0` becomes the start frame, `N` the frame count, `skip` the
skip); nothing else changes. -/
theorem failed_integer_flag (env : Env) (s : CommandLineParser) :
    (∀ tok rest, s._arguments = tok :: rest → env.toInt tok = none →
      (tok ≠ "end" →
        dispatch env s "-f" = some { s with
          _arguments := rest
          printed := s.printed ++ ["Usage: -f <startframe>\n"]
          ok := false
          _startFrame := 0
          objectStore := { s.objectStore with
            override := { s.objectStore.override with f0 := 0 } } } ∧
        dispatch env s "-n" = some { s with
          _arguments := rest
          printed := s.printed ++ ["Usage: -n <numframes>\n"]
          ok := false
          _numFrames := 0
          objectStore := { s.objectStore with
            override := { s.objectStore.override with N := 0 } } }) ∧
      dispatch env s "-s" = some { s with
        _arguments := rest
        printed := s.printed ++ ["Usage: -s <frames per sample>\n"]
        ok := false
        _skip := 0
        objectStore := { s.objectStore with
          override := { s.objectStore.override with skip := 0 } } }) ∧
    (s._arguments = [] →
      dispatch env s "-f" = some { s with
        printed := s.printed ++ ["Usage: -f <startframe>\n"]
        ok := false
        objectStore := { s.objectStore with
          override := { s.objectStore.override with f0 := s._startFrame } } } ∧
      dispatch env s "-n" = some { s with
        printed := s.printed ++ ["Usage: -n <numframes>\n"]
        ok := false
        objectStore := { s.objectStore with
          override := { s.objectStore.override with N := s._numFrames } } } ∧
      dispatch env s "-s" = some { s with
        printed := s.printed ++ ["Usage: -s <frames per sample>\n"]
        ok := false
        objectStore := { s.objectStore with
          override := { s.objectStore.override with skip := s._skip } } }) := by
  refine ⟨fun tok rest h hv => ⟨fun hne => ⟨?_, ?_⟩, ?_⟩, fun h => ⟨?_, ?_, ?_⟩⟩
  · simp [dispatch_d_f, _setIntArg, h, hv, hne, printUsage]
  · simp [dispatch_d_n, _setIntArg, h, hv, hne, printUsage]
  · simp [dispatch_d_s, _setIntArg, h, hv, printUsage]
  · simp [dispatch_d_f, _setIntArg, h, printUsage]
  · simp [dispatch_d_n, _setIntArg, h, printUsage]
  · simp [dispatch_d_s, _setIntArg, h, printUsage]

/-- Claim C13 as stated fails: `-f 10` leaves start frame and `f0` at 10, and
after `-f 10 -f abc` both are 0, not 10. -/
theorem failed_integer_flag_counterexample :
    (run (sampleEnv false) ["-f", "10"]).map
        (fun t => (t.ok, t._startFrame, t.objectStore.override.f0)) = some (true, 10, 10) ∧
    (run (sampleEnv false) ["-f", "10", "-f", "abc"]).map
        (fun t => (t.ok, t._startFrame, t.objectStore.override.f0)) = some (false, 0, 0) ∧
    (run (sampleEnv false) ["-f", "10", "-f", "abc"]).map
        (fun t => (t._startFrame, t.objectStore.override.f0))
      ≠ (run (sampleEnv false) ["-f", "10"]).map
        (fun t => (t._startFrame, t.objectStore.override.f0)) := by
  refine ⟨by decide, by decide, by decide⟩

/-- Witness of claim C13: `-f abc` and `-s abc` on the sample parser, and `-f`
without a token on the sample parser, whose start frame is -1 while `f0` of
the sample document is -5; after `file.dat -y 1` the start frame is 0 and a
closing `-f` writes 0 to `f0`. -/
theorem failed_integer_flag_witness :
    ((dispatch (sampleEnv false) (CommandLineParser.new sampleDocument ["abc", "-a"]) "-f").map
      (fun t => (t.ok, t._startFrame, t.objectStore.override.f0, t._numFrames, t._arguments))
        = some (false, 0, 0, -1, ["-a"])) ∧
    ((dispatch (sampleEnv false) (CommandLineParser.new sampleDocument ["abc", "-a"]) "-s").map
      (fun t => (t.ok, t._skip, t.objectStore.override.skip, t._numFrames, t._arguments))
        = some (false, 0, 0, -1, ["-a"])) ∧
    ((dispatch (sampleEnv false) (CommandLineParser.new sampleDocument []) "-f").map
      (fun t => (t.ok, t._startFrame, t.objectStore.override.f0, t.objectStore.override.N,
        t.objectStore.override.skip))
        = some (false, -1, -1, -5, -5)) ∧
    (run (sampleEnv false) ["file.dat", "-y", "1"]).map
        (fun t => (t.ok, t._startFrame, t.objectStore.override.f0)) = some (true, 0, -5) ∧
    (run (sampleEnv false) ["file.dat", "-y", "1", "-f"]).map
        (fun t => (t.ok, t._startFrame, t.objectStore.override.f0)) = some (false, 0, 0) := by
  have a := (failed_integer_flag (sampleEnv false)
    (CommandLineParser.new sampleDocument ["abc", "-a"])).1 "abc" ["-a"] rfl (by decide)
  have b := (failed_integer_flag (sampleEnv false)
    (CommandLineParser.new sampleDocument [])).2 rfl
  refine ⟨?_, ?_, ?_, by decide, by decide⟩
  · rw [(a.1 (by decide)).1]
    rfl
  · rw [a.2]
    rfl
  · rw [b.1]
    rfl

/-! ## Named tabs and the flag for plotted data -/

theorem createOrFindPlot_storeFlag (s : CommandLineParser) (plot_name : String) :
    storeFlag (createOrFindPlot s plot_name) = storeFlag s := by
  unfold createOrFindPlot
  split
  · rfl
  · simp [storeFlag, applyLabels]

theorem createOrFindTab_storeFlag (env : Env) (s : CommandLineParser) (name : String) :
    storeFlag (createOrFindTab env s name) = storeFlag s := by
  unfold createOrFindTab
  split <;> rfl

theorem dispatch_keeps_storeFlag (env : Env) (s : CommandLineParser) (flag : String)
    (hmem : flag ∈ optionNames) (hdata : flag ∉ dataObjectFlags) :
    (dispatch env s flag).map storeFlag = some (storeFlag s) := by
  simp only [optionNames, List.mem_cons, List.mem_singleton, List.not_mem_nil, or_false] at hmem
  rcases hmem with rfl | rfl | rfl | rfl | rfl | rfl | rfl | rfl | rfl | rfl | rfl | rfl | rfl | rfl | rfl | rfl | rfl | rfl | rfl | rfl | rfl | rfl | rfl | rfl | rfl | rfl | rfl | rfl | rfl | rfl | rfl | rfl
  · rw [dispatch_dd_help]
    simp [storeFlag, printUsage, _setIntArg_snd, _setStringArg_snd, _setDoubleArg_snd]
  · rw [dispatch_d_help]
    simp [storeFlag, printUsage, _setIntArg_snd, _setStringArg_snd, _setDoubleArg_snd]
  · rw [dispatch_dd_version]
    simp [storeFlag, printUsage, _setIntArg_snd, _setStringArg_snd, _setDoubleArg_snd]
  · rw [dispatch_d_version]
    simp [storeFlag, printUsage, _setIntArg_snd, _setStringArg_snd, _setDoubleArg_snd]
  · rw [dispatch_d_f]
    simp [storeFlag, printUsage, _setIntArg_snd, _setStringArg_snd, _setDoubleArg_snd]
  · rw [dispatch_d_n]
    simp [storeFlag, printUsage, _setIntArg_snd, _setStringArg_snd, _setDoubleArg_snd]
  · rw [dispatch_d_s]
    simp [storeFlag, printUsage, _setIntArg_snd, _setStringArg_snd, _setDoubleArg_snd]
  · rw [dispatch_d_a]
    simp [storeFlag, printUsage, _setIntArg_snd, _setStringArg_snd, _setDoubleArg_snd]
  · rw [dispatch_d_P]
    simp only [Option.map_some', createOrFindPlot_storeFlag, _setStringArg_snd]
    rfl
  · rw [dispatch_d_A]
    simp [storeFlag, printUsage, _setIntArg_snd, _setStringArg_snd, _setDoubleArg_snd]
  · rw [dispatch_d_T]
    simp only [_setStringArg_snd]
    split
    · simp only [Option.map_some', createOrFindTab_storeFlag]
      rfl
    · rfl
  · rw [dispatch_d_d]
    simp [storeFlag, printUsage, _setIntArg_snd, _setStringArg_snd, _setDoubleArg_snd]
  · rw [dispatch_d_l]
    simp [storeFlag, printUsage, _setIntArg_snd, _setStringArg_snd, _setDoubleArg_snd]
  · rw [dispatch_d_b]
    simp [storeFlag, printUsage, _setIntArg_snd, _setStringArg_snd, _setDoubleArg_snd]
  · rw [dispatch_d_x]
    simp [storeFlag, printUsage, _setIntArg_snd, _setStringArg_snd, _setDoubleArg_snd]
  · rw [dispatch_d_e]
    simp [storeFlag, printUsage, _setIntArg_snd, _setStringArg_snd, _setDoubleArg_snd]
  · rw [dispatch_d_r]
    simp [storeFlag, printUsage, _setIntArg_snd, _setStringArg_snd, _setDoubleArg_snd]
  · exact absurd (by decide) hdata
  · exact absurd (by decide) hdata
  · rw [dispatch_dd_xlabel]
    simp [storeFlag, printUsage, _setIntArg_snd, _setStringArg_snd, _setDoubleArg_snd]
  · rw [dispatch_dd_ylabel]
    simp [storeFlag, printUsage, _setIntArg_snd, _setStringArg_snd, _setDoubleArg_snd]
  · rw [dispatch_dd_xlabelauto]
    simp [storeFlag, printUsage, _setIntArg_snd, _setStringArg_snd, _setDoubleArg_snd]
  · rw [dispatch_dd_ylabelauto]
    simp [storeFlag, printUsage, _setIntArg_snd, _setStringArg_snd, _setDoubleArg_snd]
  · exact absurd (by decide) hdata
  · exact absurd (by decide) hdata
  · rw [dispatch_d_F]
    simp [storeFlag, printUsage, _setIntArg_snd, _setStringArg_snd, _setDoubleArg_snd]
  · rw [dispatch_dd_png]
    simp [storeFlag, printUsage, _setIntArg_snd, _setStringArg_snd, _setDoubleArg_snd]
  · rw [dispatch_dd_print]
    simp [storeFlag, printUsage, _setIntArg_snd, _setStringArg_snd, _setDoubleArg_snd]
  · rw [dispatch_dd_landscape]
    simp [storeFlag, printUsage, _setIntArg_snd, _setStringArg_snd, _setDoubleArg_snd]
  · rw [dispatch_dd_portrait]
    simp [storeFlag, printUsage, _setIntArg_snd, _setStringArg_snd, _setDoubleArg_snd]
  · rw [dispatch_dd_A4]
    simp [storeFlag, printUsage, _setIntArg_snd, _setStringArg_snd, _setDoubleArg_snd]
  · rw [dispatch_dd_letter]
    simp [storeFlag, printUsage, _setIntArg_snd, _setStringArg_snd, _setDoubleArg_snd]

theorem yLoop_plotted (env : Env) (field : String) (files : List String)
    (s t : CommandLineParser) (hs : yLoop env field files s = some t) :
    (t.dataPlotted = s.dataPlotted ∧ curvesOf t = curvesOf s) ∨
    (t.dataPlotted = true ∧ (curvesOf s).length < (curvesOf t).length) := by
  induction files generalizing s with
  | nil =>
    simp only [yLoop, Option.some.injEq] at hs
    subst hs
    exact Or.inl ⟨rfl, rfl⟩
  | cons file rest ih =>
    unfold yLoop at hs
    split at hs
    · cases hs
      exact Or.inl ⟨rfl, rfl⟩
    · split at hs
      · exact absurd hs (by simp)
      · rename_i ds hds
        split at hs
        · exact absurd hs (by simp)
        · rename_i b hb
          obtain ⟨hc, -⟩ := createCurveInPlot_curvesOf env _ b _ _ _ hb
          have hv := yVectors_samePlacement s field ds
          have hb1 : (curvesOf s).length < (curvesOf b).length := by
            rw [hc, hv.2.2.2]
            simp
          right
          rcases ih _ hs with ⟨h1, h2⟩ | ⟨h1, h2⟩
          · exact ⟨h1, by rw [h2]; exact hb1⟩
          · exact ⟨h1, lt_trans hb1 h2⟩

theorem pLoop_plotted (env : Env) (field : String) (files : List String)
    (s t : CommandLineParser) (hs : pLoop env field files s = some t) :
    (t.dataPlotted = s.dataPlotted ∧ curvesOf t = curvesOf s) ∨
    (t.dataPlotted = true ∧ (curvesOf s).length < (curvesOf t).length) := by
  induction files generalizing s with
  | nil =>
    simp only [pLoop, Option.some.injEq] at hs
    subst hs
    exact Or.inl ⟨rfl, rfl⟩
  | cons file rest ih =>
    unfold pLoop at hs
    split at hs
    · cases hs
      exact Or.inl ⟨rfl, rfl⟩
    · split at hs
      · exact absurd hs (by simp)
      · rename_i ds hds
        split at hs
        · exact absurd hs (by simp)
        · rename_i b hb
          obtain ⟨hc, -⟩ := createCurveInPlot_curvesOf env _ b _ _ _ hb
          have hv := pSpectrum_samePlacement s field ds
          have hb1 : (curvesOf s).length < (curvesOf b).length := by
            rw [hc, hv.2.2.2]
            simp
          right
          rcases ih _ hs with ⟨h1, h2⟩ | ⟨h1, h2⟩
          · exact ⟨h1, by rw [h2]; exact hb1⟩
          · exact ⟨h1, lt_trans hb1 h2⟩

theorem hLoop_plotted (env : Env) (field : String) (files : List String)
    (s t : CommandLineParser) (hs : hLoop env field files s = some t) :
    (t.dataPlotted = s.dataPlotted ∧ curvesOf t = curvesOf s) ∨
    (t.dataPlotted = true ∧ (curvesOf s).length < (curvesOf t).length) := by
  induction files generalizing s with
  | nil =>
    simp only [hLoop, Option.some.injEq] at hs
    subst hs
    exact Or.inl ⟨rfl, rfl⟩
  | cons file rest ih =>
    unfold hLoop at hs
    split at hs
    · cases hs
      exact Or.inl ⟨rfl, rfl⟩
    · split at hs
      · exact absurd hs (by simp)
      · rename_i ds hds
        split at hs
        · exact absurd hs (by simp)
        · rename_i b hb
          obtain ⟨hc, -⟩ := createCurveInPlot_curvesOf env _ b _ _ _ hb
          have hv := hHistogram_samePlacement s field ds
          have hb1 : (curvesOf s).length < (curvesOf b).length := by
            rw [hc, hv.2.2.2]
            simp
          right
          rcases ih _ hs with ⟨h1, h2⟩ | ⟨h1, h2⟩
          · exact ⟨h1, by rw [h2]; exact hb1⟩
          · exact ⟨h1, lt_trans hb1 h2⟩

/-- A `-y`, `-p` or `-h` directive sets `dataPlotted` exactly when it creates
a curve. -/
theorem dispatch_plotted (env : Env) (a t : CommandLineParser) (arg : String)
    (harg : arg = "-y" ∨ arg = "-p" ∨ arg = "-h") (hs : dispatch env a arg = some t) :
    (t.dataPlotted = a.dataPlotted ∧ curvesOf t = curvesOf a) ∨
    (t.dataPlotted = true ∧ (curvesOf a).length < (curvesOf t).length) := by
  rcases harg with rfl | rfl | rfl
  · rw [dispatch_d_y] at hs
    simp only [] at hs
    split at hs
    · cases hs
      left
      simp [_setStringArg_snd, printUsage, curvesOf]
    · split at hs
      · exact absurd hs (by simp)
      · rename_i s2 h2
        cases hs
        have := yLoop_plotted env _ _ _ s2 h2
        simpa [_setStringArg_snd, curvesOf] using this
  · rw [dispatch_d_p] at hs
    simp only [] at hs
    split at hs
    · split at hs
      · exact absurd hs (by simp)
      · rename_i s2 h2
        cases hs
        have := pLoop_plotted env _ _ _ s2 h2
        simpa [_setStringArg_snd, curvesOf] using this
    · cases hs
      left
      simp [_setStringArg_snd, curvesOf]
  · rw [dispatch_d_h] at hs
    simp only [] at hs
    split at hs
    · split at hs
      · exact absurd hs (by simp)
      · rename_i s2 h2
        cases hs
        have := hLoop_plotted env _ _ _ s2 h2
        simpa [_setStringArg_snd, curvesOf] using this
    · cases hs
      left
      simp [_setStringArg_snd, curvesOf]

/-- A `-z` directive with its token present sets `dataPlotted`, also over the
empty file list, where it creates nothing. -/
theorem dispatch_z_plotted (env : Env) (a t : CommandLineParser)
    (hargs : a._arguments ≠ []) (hs : dispatch env a "-z" = some t) :
    t.dataPlotted = true ∧
    (a._fileNames = [] → t.objectStore = a.objectStore ∧ t.plots = a.plots) := by
  obtain ⟨m, rest, hm⟩ := List.exists_cons_of_ne_nil hargs
  rw [dispatch_d_z] at hs
  simp only [_setStringArg, hm] at hs
  split at hs
  · split at hs
    · exact absurd hs (by simp)
    · rename_i s2 h2
      cases hs
      refine ⟨rfl, fun hf => ?_⟩
      simp only [hf, zLoop, Option.some.injEq] at h2
      subst h2
      exact ⟨rfl, rfl⟩
  · rename_i h
    exact absurd trivial h

/-- Claim C23: `-T name` with its token present reads the token, leaves
`ok = true` and switches consecutive mode on.  What happens to the tabs is
decided by the flag `dataPlotted`.  With the flag off the tabs keep their
number and order and the current tab gets the text `name`.  With the flag on,
when a tab has the text `name` the first such tab becomes the current tab and
the tabs are unchanged; when none has, one tab with the text `name` is added
after the existing ones and becomes the current tab.
The flag is not the same as "a data-object directive has plotted": no option
other than `-y`, `-p`, `-h`, `-z` changes it, and `-y`, `-p` and `-h` set it
exactly when they create a curve, but `-z` with its token present sets it
always, also over the empty file list, where it creates nothing.  Hence
`-z m -T name` on a document without a tab `name` ends with one tab more,
although no object and no plot was created. -/
theorem named_tab (env : Env) (s : CommandLineParser) (name : String) (rest : List String)
    (hargs : s._arguments = name :: rest) :
    (s.dataPlotted = false →
      dispatch env s "-T" = some { s with
        _arguments := rest
        ok := true
        _doConsecutivePlots := true
        tabWidget := { s.tabWidget with
          tabs := s.tabWidget.tabs.set s.tabWidget.currentIndex name } } ∧
      (s.tabWidget.tabs.set s.tabWidget.currentIndex name).length = s.tabWidget.tabs.length ∧
      (s.tabWidget.currentIndex < s.tabWidget.tabs.length →
        (s.tabWidget.tabs.set s.tabWidget.currentIndex name)[s.tabWidget.currentIndex]?
          = some name) ∧
      (∀ j, j ≠ s.tabWidget.currentIndex →
        (s.tabWidget.tabs.set s.tabWidget.currentIndex name)[j]? = s.tabWidget.tabs[j]?)) ∧
    (s.dataPlotted = true → name ∈ s.tabWidget.tabs →
      ∃ i, i < s.tabWidget.tabs.length ∧ s.tabWidget.tabs[i]? = some name ∧
        (∀ j, j < i → s.tabWidget.tabs[j]? ≠ some name) ∧
        dispatch env s "-T" = some { s with
          _arguments := rest
          ok := true
          _doConsecutivePlots := true
          tabWidget := { s.tabWidget with currentIndex := i } }) ∧
    (s.dataPlotted = true → name ∉ s.tabWidget.tabs →
      dispatch env s "-T" = some { s with
        _arguments := rest
        ok := true
        _doConsecutivePlots := true
        tabWidget := { tabs := s.tabWidget.tabs ++ [name]
                       currentIndex := s.tabWidget.tabs.length } }) ∧
    (∀ a t flag, flag ∈ optionNames → flag ∉ dataObjectFlags → dispatch env a flag = some t →
      t.dataPlotted = a.dataPlotted) ∧
    (∀ a t arg, arg = "-y" ∨ arg = "-p" ∨ arg = "-h" → dispatch env a arg = some t →
      (t.dataPlotted = a.dataPlotted ∧ curvesOf t = curvesOf a) ∨
      (t.dataPlotted = true ∧ (curvesOf a).length < (curvesOf t).length)) ∧
    (∀ a t, a._arguments ≠ [] → dispatch env a "-z" = some t →
      t.dataPlotted = true ∧
      (a._fileNames = [] → t.objectStore = a.objectStore ∧ t.plots = a.plots)) ∧
    (∀ doc m, name ∉ doc.tabWidget.tabs →
      ∃ t, processCommandLine env (CommandLineParser.new doc ["-z", m, "-T", name])
          = some (true, t) ∧
        t.ok = true ∧
        t.tabWidget = { tabs := doc.tabWidget.tabs ++ [name]
                        currentIndex := doc.tabWidget.tabs.length } ∧
        t.objectStore = doc.objectStore ∧ t.plots = doc.plots) := by
  refine ⟨fun hd => ⟨?_, List.length_set _ _ _, fun hlt => List.getElem?_set_self hlt,
    fun j hj => List.getElem?_set_ne (Ne.symm hj)⟩, fun hd hm => ?_, fun hd hm => ?_,
    fun a t flag hmem hdata hs => ?_, fun a t arg harg hs => dispatch_plotted env a t arg harg hs,
    fun a t ha hs => dispatch_z_plotted env a t ha hs, fun doc m hm => ?_⟩
  · rw [dispatch_d_T]
    simp [_setStringArg, hargs, hd, setCurrentViewName]
  · cases hf : s.tabWidget.tabs.findIdx? (fun t => decide (t = name)) with
    | none =>
      have := List.findIdx?_eq_none_iff.1 hf name hm
      simp at this
    | some i =>
      obtain ⟨hlt, hp, hmin⟩ := List.findIdx?_eq_some_iff_getElem.1 hf
      refine ⟨i, hlt, ?_, fun j hj => ?_, ?_⟩
      · rw [List.getElem?_eq_getElem hlt]
        simpa using hp
      · have := hmin j hj
        rw [List.getElem?_eq_getElem (by omega)]
        simpa using this
      · rw [dispatch_d_T]
        simp [_setStringArg, hargs, hd, createOrFindTab, hf]
  · have hf : s.tabWidget.tabs.findIdx? (fun t => decide (t = name)) = none := by
      rw [List.findIdx?_eq_none_iff]
      intro x hx
      simp only [decide_eq_false_iff_not]
      rintro rfl
      exact hm hx
    rw [dispatch_d_T]
    simp [_setStringArg, hargs, hd, createOrFindTab, hf, setCurrentViewName, createView,
      set_append_length]
  · have h := dispatch_keeps_storeFlag env a flag hmem hdata
    rw [hs] at h
    exact congrArg Prod.snd (Option.some.inj h)
  · have hf : doc.tabWidget.tabs.findIdx? (fun t => decide (t = name)) = none := by
      rw [List.findIdx?_eq_none_iff]
      intro x hx
      simp only [decide_eq_false_iff_not]
      rintro rfl
      exact hm hx
    simp [processCommandLine, whileLoop, CommandLineParser.new, dispatch_d_z, dispatch_d_T,
      _setStringArg, zLoop, createOrFindTab, hf, setCurrentViewName, createView,
      set_append_length]

/-- Witness of claim C23: `-T Two` on the sample parser with the flag
`dataPlotted` off and on, `-T View` with the flag on, a run with two named
tabs, and the run `-z 1 -T A`, which ends with the tabs `View` and `A`, no
object and no plot, where `-T A` alone renames the only tab. -/
theorem named_tab_witness :
    (dispatch (sampleEnv false) (CommandLineParser.new sampleDocument ["Two"]) "-T").map
      (fun t => (t.ok, t._doConsecutivePlots, t.tabWidget)) =
        some (true, true, { tabs := ["Two"], currentIndex := 0 }) ∧
    (dispatch (sampleEnv false)
        { CommandLineParser.new sampleDocument ["Two"] with
          dataPlotted := true, _doConsecutivePlots := false } "-T").map
      (fun t => (t.ok, t._doConsecutivePlots, t.tabWidget)) =
        some (true, true, { tabs := ["View", "Two"], currentIndex := 1 }) ∧
    (∃ t, processCommandLine (sampleEnv false)
        (CommandLineParser.new sampleDocument ["-z", "1", "-T", "Two"]) = some (true, t) ∧
      t.ok = true ∧
      t.tabWidget = { tabs := sampleDocument.tabWidget.tabs ++ ["Two"]
                      currentIndex := sampleDocument.tabWidget.tabs.length } ∧
      t.objectStore = sampleDocument.objectStore ∧ t.plots = sampleDocument.plots) ∧
    (dispatch (sampleEnv false)
        { CommandLineParser.new sampleDocument ["View"] with
          dataPlotted := true
          tabWidget := { tabs := ["View", "Two"], currentIndex := 1 } } "-T").map
      (fun t => (t.ok, t._doConsecutivePlots, t.tabWidget)) =
        some (true, true, { tabs := ["View", "Two"], currentIndex := 0 }) ∧
    (run (sampleEnv false) ["file.dat", "-T", "A", "-y", "1", "-T", "B", "-y", "2", "-T", "A"]).map
      (fun t => (t.ok, t.tabWidget, t.plots.map (fun q => q.view))) =
        some (true, { tabs := ["A", "B"], currentIndex := 0 }, [0, 1]) ∧
    (run (sampleEnv false) ["-z", "1", "-T", "A"]).map
      (fun t => (t.ok, t.tabWidget, t.objectStore.objects.length, t.plots.length)) =
        some (true, { tabs := ["View", "A"], currentIndex := 1 }, 0, 0) ∧
    (run (sampleEnv false) ["-T", "A"]).map
      (fun t => (t.ok, t.tabWidget, t.objectStore.objects.length, t.plots.length)) =
        some (true, { tabs := ["A"], currentIndex := 0 }, 0, 0) := by
  have h1 := ((named_tab (sampleEnv false) (CommandLineParser.new sampleDocument ["Two"])
    "Two" [] rfl).1 rfl).1
  have h2 := (named_tab (sampleEnv false)
    { CommandLineParser.new sampleDocument ["Two"] with
      dataPlotted := true, _doConsecutivePlots := false } "Two" [] rfl).2.2.1 rfl (by decide)
  have h3 := (named_tab (sampleEnv false) (CommandLineParser.new sampleDocument ["Two"])
    "Two" [] rfl).2.2.2.2.2.2 sampleDocument "1" (by decide)
  refine ⟨?_, ?_, h3, by decide, by decide, by decide, by decide⟩
  · rw [h1]
    rfl
  · rw [h2]
    rfl

/-! ## The objects that carry the skip -/

theorem madeWith_refl (k : Int) (s : CommandLineParser) : madeWith k s s :=
  fun _ ho => Or.inl ho

theorem madeWith_trans (k : Int) (s t u : CommandLineParser) (h1 : madeWith k s t)
    (h2 : madeWith k t u) : madeWith k s u := by
  intro o ho
  rcases h2 o ho with h | h
  · exact h1 o h
  · exact Or.inr h

theorem madeWith_of_eq (k : Int) (s t : CommandLineParser)
    (h : t.objectStore.objects = s.objectStore.objects) : madeWith k s t := by
  intro o ho
  rw [h] at ho
  exact Or.inl ho

theorem madeWith_append (k : Int) (s t : CommandLineParser) (l : List Object)
    (h : t.objectStore.objects = s.objectStore.objects ++ l) (hl : ∀ o ∈ l, carries k o) :
    madeWith k s t := by
  intro o ho
  rw [h] at ho
  rcases List.mem_append.1 ho with ho | ho
  · exact Or.inl ho
  · exact Or.inr (hl o ho)

theorem made_refl (s : CommandLineParser) : made s s :=
  ⟨rfl, madeWith_refl _ s⟩

theorem made_trans (s t u : CommandLineParser) (h1 : made s t) (h2 : made t u) : made s u := by
  refine ⟨h2.1.trans h1.1, madeWith_trans _ s t u h1.2 ?_⟩
  have := h2.2
  rw [h1.1] at this
  exact this

theorem made_of_eq (s t : CommandLineParser) (h1 : t._skip = s._skip)
    (h2 : t.objectStore.objects = s.objectStore.objects) : made s t :=
  ⟨h1, madeWith_of_eq _ s t h2⟩

theorem made_append (s t : CommandLineParser) (l : List Object) (h1 : t._skip = s._skip)
    (h2 : t.objectStore.objects = s.objectStore.objects ++ l)
    (hl : ∀ o ∈ l, carries s._skip o) : made s t :=
  ⟨h1, madeWith_append _ s t l h2 hl⟩

theorem createOrFindDataVector_made (s : CommandLineParser) (field : String)
    (ds : DataSource) : made s (createOrFindDataVector s field ds).2 := by
  rw [createOrFindDataVector_snd]
  refine made_append s _ ((createdVector s field ds).map Object.dataVector) rfl rfl ?_
  intro o ho
  obtain ⟨v, hv, rfl⟩ := List.mem_map.1 ho
  unfold createdVector at hv
  split at hv
  · simp at hv
  · rw [List.mem_singleton] at hv
    subst hv
    have hk : (coerceStart s)._skip = s._skip := by
      unfold coerceStart
      split <;> rfl
    exact ⟨hk, by rw [← hk]; rfl⟩

theorem yVectors_made (s : CommandLineParser) (field : String) (ds : DataSource) :
    made s (yVectors s field ds).2.2.2 := by
  have hx := createOrFindDataVector_made s s._xField ds
  have hy := createOrFindDataVector_made (createOrFindDataVector s s._xField ds).2 field ds
  have hxy := made_trans _ _ _ hx hy
  unfold yVectors
  simp only []
  split
  · have he := createOrFindDataVector_made
      (createOrFindDataVector (createOrFindDataVector s s._xField ds).2 field ds).2
      (createOrFindDataVector (createOrFindDataVector s s._xField ds).2 field ds).2._errorField ds
    have hxye := made_trans _ _ _ hxy he
    simp only []
    split
    · exact made_trans _ _ _ hxye (made_of_eq _ _ rfl rfl)
    · exact hxye
  · simp only []
    split
    · exact made_trans _ _ _ hxy (made_of_eq _ _ rfl rfl)
    · exact hxy

theorem pSpectrum_made (s : CommandLineParser) (field : String) (ds : DataSource) :
    made s (pSpectrum s field ds).2 := by
  have hx := createOrFindDataVector_made s field ds
  unfold pSpectrum
  simp only []
  split
  · exact made_trans _ _ _ hx (made_append _ _ [_] rfl rfl (by simp [carries]))
  · exact made_trans _ _ _ hx (made_append _ _ [_] rfl rfl (by simp [carries]))

theorem hHistogram_made (s : CommandLineParser) (field : String) (ds : DataSource) :
    made s (hHistogram s field ds).2 := by
  have hx := createOrFindDataVector_made s field ds
  unfold hHistogram
  simp only []
  split
  · exact made_trans _ _ _ hx (made_append _ _ [_] rfl rfl (by simp [carries]))
  · exact made_trans _ _ _ hx (made_append _ _ [_] rfl rfl (by simp [carries]))

theorem placeRelation_made (s t : CommandLineParser) (r : Relation)
    (h : placeRelation s r = some t) : made s t := by
  obtain ⟨plots, pi, rfl⟩ := placeRelation_footprint s t r h
  exact made_of_eq _ _ rfl rfl

theorem createCurveInPlot_made (env : Env) (s t : CommandLineParser) (xv yv : Vector)
    (ev : Option Vector) (h : createCurveInPlot env s xv yv ev = some t) : made s t := by
  obtain ⟨plots, pi, rfl⟩ := createCurveInPlot_footprint env s t xv yv ev h
  exact made_append _ _ [_] rfl rfl (by simp [carries])

theorem createImageInPlot_made (s t : CommandLineParser) (m : DataMatrix)
    (h : createImageInPlot s m = some t) : made s t := by
  obtain ⟨plots, pi, rfl⟩ := createImageInPlot_footprint s t m h
  exact made_append _ _ [_] rfl rfl (by simp [carries])

theorem yLoop_made (env : Env) (field : String) (files : List String)
    (s t : CommandLineParser) (hs : yLoop env field files s = some t) : made s t := by
  induction files generalizing s with
  | nil =>
    simp only [yLoop, Option.some.injEq] at hs
    subst hs
    exact made_refl s
  | cons file rest ih =>
    unfold yLoop at hs
    split at hs
    · cases hs
      exact made_of_eq _ _ rfl rfl
    · split at hs
      · exact absurd hs (by simp)
      · rename_i ds hds
        split at hs
        · exact absurd hs (by simp)
        · rename_i b hb
          have h1 := yVectors_made s field ds
          have h2 := createCurveInPlot_made env _ b _ _ _ hb
          have h3 : made b { b with dataPlotted := true } := made_of_eq _ _ rfl rfl
          have h4 := ih _ hs
          exact made_trans _ _ _ h1 (made_trans _ _ _ h2 (made_trans _ _ _ h3 h4))

theorem pLoop_made (env : Env) (field : String) (files : List String)
    (s t : CommandLineParser) (hs : pLoop env field files s = some t) : made s t := by
  induction files generalizing s with
  | nil =>
    simp only [pLoop, Option.some.injEq] at hs
    subst hs
    exact made_refl s
  | cons file rest ih =>
    unfold pLoop at hs
    split at hs
    · cases hs
      exact made_of_eq _ _ rfl rfl
    · split at hs
      · exact absurd hs (by simp)
      · rename_i ds hds
        split at hs
        · exact absurd hs (by simp)
        · rename_i b hb
          have h1 := pSpectrum_made s field ds
          have h2 := createCurveInPlot_made env _ b _ _ _ hb
          have h3 : made b { b with dataPlotted := true } := made_of_eq _ _ rfl rfl
          have h4 := ih _ hs
          exact made_trans _ _ _ h1 (made_trans _ _ _ h2 (made_trans _ _ _ h3 h4))

theorem hLoop_made (env : Env) (field : String) (files : List String)
    (s t : CommandLineParser) (hs : hLoop env field files s = some t) : made s t := by
  induction files generalizing s with
  | nil =>
    simp only [hLoop, Option.some.injEq] at hs
    subst hs
    exact made_refl s
  | cons file rest ih =>
    unfold hLoop at hs
    split at hs
    · cases hs
      exact made_of_eq _ _ rfl rfl
    · split at hs
      · exact absurd hs (by simp)
      · rename_i ds hds
        split at hs
        · exact absurd hs (by simp)
        · rename_i b hb
          have h1 := hHistogram_made s field ds
          have h2 := createCurveInPlot_made env _ b _ _ _ hb
          have h3 : made b { b with dataPlotted := true } := made_of_eq _ _ rfl rfl
          have h4 := ih _ hs
          exact made_trans _ _ _ h1 (made_trans _ _ _ h2 (made_trans _ _ _ h3 h4))

theorem zLoop_made (env : Env) (field : String) (files : List String)
    (s t : CommandLineParser) (hs : zLoop env field files s = some t) : made s t := by
  induction files generalizing s with
  | nil =>
    simp only [zLoop, Option.some.injEq] at hs
    subst hs
    exact made_refl s
  | cons file rest ih =>
    unfold zLoop at hs
    split at hs
    · cases hs
      exact made_of_eq _ _ rfl rfl
    · split at hs
      · exact absurd hs (by simp)
      · rename_i ds hds
        split at hs
        · exact absurd hs (by simp)
        · rename_i b hb
          have h1 : made s { s with objectStore := { s.objectStore with
              objects := s.objectStore.objects ++
                [Object.dataMatrix (newDataMatrix s field ds)] } } :=
            made_append _ _ [_] rfl rfl (by simp [carries, newDataMatrix])
          have h2 := createImageInPlot_made _ b _ hb
          have h4 := ih _ hs
          exact made_trans _ _ _ h1 (made_trans _ _ _ h2 h4)

/-- Every object a data-object directive adds to the store carries the skip the
parser has at that time. -/
theorem dispatch_data_made (env : Env) (a t : CommandLineParser) (arg : String)
    (harg : arg ∈ dataObjectFlags) (hs : dispatch env a arg = some t) : made a t := by
  simp only [dataObjectFlags, List.mem_cons, List.mem_singleton, List.not_mem_nil,
    or_false] at harg
  have h0 : ∀ m : String, made a
      { (_setStringArg a "" m).2.2 with ok := (_setStringArg a "" m).1 } := by
    intro m
    rw [_setStringArg_snd]
    exact made_of_eq _ _ rfl rfl
  rcases harg with rfl | rfl | rfl | rfl
  · rw [dispatch_d_y] at hs
    simp only [] at hs
    split at hs
    · cases hs
      exact made_trans _ _ _ (h0 _) (made_of_eq _ _ rfl rfl)
    · split at hs
      · exact absurd hs (by simp)
      · rename_i s2 h2
        cases hs
        exact made_trans _ _ _ (h0 _)
          (made_trans _ _ _ (yLoop_made env _ _ _ s2 h2) (made_of_eq _ _ rfl rfl))
  · rw [dispatch_d_p] at hs
    simp only [] at hs
    split at hs
    · split at hs
      · exact absurd hs (by simp)
      · rename_i s2 h2
        cases hs
        exact made_trans _ _ _ (h0 _)
          (made_trans _ _ _ (pLoop_made env _ _ _ s2 h2) (made_of_eq _ _ rfl rfl))
    · cases hs
      exact h0 _
  · rw [dispatch_d_h] at hs
    simp only [] at hs
    split at hs
    · split at hs
      · exact absurd hs (by simp)
      · rename_i s2 h2
        cases hs
        exact made_trans _ _ _ (h0 _)
          (made_trans _ _ _ (hLoop_made env _ _ _ s2 h2) (made_of_eq _ _ rfl rfl))
    · cases hs
      exact h0 _
  · rw [dispatch_d_z] at hs
    simp only [] at hs
    split at hs
    · split at hs
      · exact absurd hs (by simp)
      · rename_i s2 h2
        cases hs
        exact made_trans _ _ _ (h0 _)
          (made_trans _ _ _ (zLoop_made env _ _ _ s2 h2) (made_of_eq _ _ rfl rfl))
    · cases hs
      exact h0 _

/-- Every object an option adds to the store carries the skip the parser has
when the option is reached. -/
theorem dispatch_option_made (env : Env) (a t : CommandLineParser) (arg : String)
    (hmem : arg ∈ optionNames) (hs : dispatch env a arg = some t) : madeWith a._skip a t := by
  by_cases hdata : arg ∈ dataObjectFlags
  · exact (dispatch_data_made env a t arg hdata hs).2
  · have h := dispatch_keeps_storeFlag env a arg hmem hdata
    rw [hs] at h
    exact madeWith_of_eq _ a t (congrArg Prod.fst (Option.some.inj h))

theorem autoCurvesLoop_madeWith (ds : DataSource) (xv : DataVector) (fields : List String)
    (curves : List Object) (s : CommandLineParser) :
    madeWith 0 s (autoCurvesLoop ds xv fields curves s).2 := by
  induction fields generalizing curves s with
  | nil => exact madeWith_refl 0 s
  | cons f rest ih =>
    unfold autoCurvesLoop
    split
    · refine madeWith_trans 0 s _ _ (madeWith_append 0 s _ [_, _] rfl ?_) (ih _ _)
      intro o ho
      simp only [List.mem_cons, List.mem_singleton, List.not_mem_nil, or_false] at ho
      rcases ho with rfl | rfl
      · exact ⟨rfl, rfl⟩
      · trivial
    · exact ih _ _

theorem autoCurves_madeWith (s : CommandLineParser) (ds : DataSource) :
    madeWith 0 s (autoCurves s ds).2 := by
  unfold autoCurves
  split
  · exact madeWith_refl 0 s
  · refine madeWith_trans 0 s _ _ (madeWith_append 0 s _ [_] rfl ?_)
      (autoCurvesLoop_madeWith _ _ _ _ _)
    intro o ho
    rw [List.mem_singleton] at ho
    subst ho
    exact ⟨rfl, rfl⟩

theorem placeAutoCurves_objects (env : Env) (curve_count : Nat) (curves : List Object)
    (count : Nat) (asked : Bool) (s s' : CommandLineParser)
    (hs : placeAutoCurves env curve_count curves count asked s = some s') :
    s'.objectStore.objects = s.objectStore.objects := by
  induction curves generalizing s count asked with
  | nil =>
    simp [placeAutoCurves] at hs
    subst hs
    rfl
  | cons o rest ih =>
    cases o with
    | curve c =>
      unfold placeAutoCurves at hs
      split at hs
      · split at hs
        · cases hs
          rfl
        · split at hs
          · exact absurd hs (by simp)
          · rename_i s2 h2
            obtain ⟨plots, pi, rfl⟩ := placeRelation_footprint _ s2 _ h2
            exact (ih _ _ _ hs).trans rfl
      · split at hs
        · exact absurd hs (by simp)
        · rename_i s2 h2
          obtain ⟨plots, pi, rfl⟩ := placeRelation_footprint _ s2 _ h2
          exact (ih _ _ _ hs).trans rfl
    | dataVector v => exact ih _ _ _ (by simpa [placeAutoCurves] using hs)
    | psd v => exact ih _ _ _ (by simpa [placeAutoCurves] using hs)
    | histogram v => exact ih _ _ _ (by simpa [placeAutoCurves] using hs)
    | dataMatrix v => exact ih _ _ _ (by simpa [placeAutoCurves] using hs)
    | image v => exact ih _ _ _ (by simpa [placeAutoCurves] using hs)

theorem autoDetectCurves_objects (s : CommandLineParser) (ds : DataSource) :
    ∀ o ∈ (autoDetectCurves s ds).2.objectStore.objects,
      carries 0 o ∨ o ∈ (ds.autoCurves s.objectStore).2.objects := by
  intro o ho
  unfold autoDetectCurves at ho
  split at ho
  · rcases autoCurves_madeWith _ ds o ho with h | h
    · exact Or.inr h
    · exact Or.inl h
  · exact Or.inr ho

/-- The objects in the store after a file token: those from before, those the
generator of the file's data source left there, and those of the parser's own
`autoCurves`, whose vectors have the skip 0. -/
theorem fileArg_objects (env : Env) (s t : CommandLineParser) (arg : String)
    (hs : fileArg env s arg = some t) :
    ∀ o ∈ t.objectStore.objects, o ∈ s.objectStore.objects ∨ carries 0 o ∨
      ∃ ds, env.findOrLoadSource arg = some ds ∧ o ∈ (ds.autoCurves s.objectStore).2.objects := by
  have hf := (appendFileName_frame s arg).1
  intro o ho
  unfold fileArg at hs
  split at hs
  · split at hs
    · cases hs
      rw [hf] at ho
      exact Or.inl ho
    · rename_i ds hds
      have key : ∀ o ∈ (autoDetectCurves (appendFileName s arg) ds).2.objectStore.objects,
          o ∈ s.objectStore.objects ∨ carries 0 o ∨
            ∃ ds, env.findOrLoadSource arg = some ds ∧
              o ∈ (ds.autoCurves s.objectStore).2.objects := by
        intro o ho
        rcases autoDetectCurves_objects (appendFileName s arg) ds o ho with h | h
        · exact Or.inr (Or.inl h)
        · rw [hf] at h
          exact Or.inr (Or.inr ⟨ds, hds, h⟩)
      split at hs
      · have := placeAutoCurves_objects env _ _ _ _ _ t hs
        rw [this] at ho
        exact key o ho
      · cases hs
        exact key o ho
  · cases hs
    rw [hf] at ho
    exact Or.inl ho

theorem dispatch_s_exact (env : Env) (a t : CommandLineParser)
    (hs : dispatch env a "-s" = some t) :
    t._skip = a._skip ∨ t._skip = 0 ∨
      ∃ tok rest, a._arguments = tok :: rest ∧ env.toInt tok = some t._skip := by
  rw [dispatch_d_s] at hs
  cases hargs : a._arguments with
  | nil =>
    simp only [_setIntArg, hargs, Option.some.injEq] at hs
    subst hs
    exact Or.inl rfl
  | cons tok rest =>
    cases hv : env.toInt tok with
    | none =>
      simp only [_setIntArg, hargs, hv, Option.some.injEq] at hs
      subst hs
      simp
    | some v =>
      simp only [_setIntArg, hargs, hv, Option.some.injEq] at hs
      subst hs
      exact Or.inr (Or.inr ⟨tok, rest, rfl, by simp [hv]⟩)

theorem reachable_suffix (env : Env) (s0 s : CommandLineParser)
    (hr : Reachable env s0 s) : s._arguments <:+ s0._arguments := by
  induction hr with
  | start => exact List.suffix_refl _
  | turn s t arg rest _ hok hargs hd ih =>
    have hrest : rest <:+ s0._arguments := by
      rw [hargs] at ih
      exact (List.suffix_cons arg rest).trans ih
    rcases dispatch_arguments env _ t arg hd with h | h
    · rw [h]
      exact hrest
    · rw [h]
      exact (List.tail_suffix rest).trans hrest

theorem adjacent_mem (pre rest : List String) (a b : String) :
    (a, b) ∈ (pre ++ a :: b :: rest).zip (pre ++ a :: b :: rest).tail := by
  induction pre with
  | nil => simp
  | cons p pre ih =>
    cases hl : pre ++ a :: b :: rest with
    | nil => simp at hl
    | cons x l =>
      rw [hl] at ih
      simp only [List.cons_append, hl, List.tail_cons, List.zip_cons_cons, List.mem_cons]
      exact Or.inr ih

/-- A token a `-s` directive of the run reads stands right after a `-s` in the
token list. -/
theorem skipRead_adjacent (env : Env) (doc : Document) (args : List String) (v : Int)
    (h : skipRead env (startState env (CommandLineParser.new doc args)) v) :
    ∃ tok, ("-s", tok) ∈ args.zip args.tail ∧ env.toInt tok = some v := by
  obtain ⟨s, tok, rest, hr, -, hargs, hv⟩ := h
  have hsuf := reachable_suffix env _ s hr
  rw [hargs] at hsuf
  obtain ⟨pre, hpre⟩ := hsuf
  have : args = pre ++ "-s" :: tok :: rest := hpre.symm
  rw [this]
  exact ⟨tok, adjacent_mem pre rest "-s" tok, hv⟩

/-- The skip of a state of the run, and of every vector of its cache, is 0 or
an integer a `-s` directive of the run has read; the skip flag of a cached
vector is set exactly when its skip is `> 0`. -/
theorem reachable_skip (env : Env) (s0 s : CommandLineParser) (h0 : s0._skip = 0)
    (hv0 : s0._vectors = []) (hr : Reachable env s0 s) :
    (s._skip = 0 ∨ skipRead env s0 s._skip) ∧
    ∀ v ∈ s._vectors, (v.skip = 0 ∨ skipRead env s0 v.skip) ∧ v.doSkip = decide (v.skip > 0) := by
  induction hr with
  | start => exact ⟨Or.inl h0, fun v hv => absurd hv (by simp [hv0])⟩
  | turn s t arg rest hr hok hargs hd ih =>
    obtain ⟨i1, i2⟩ := ih
    by_cases hs : arg = "-s"
    · subst hs
      have hvec := (dispatch_setting env _ t "-s" (by decide) hd).1
      refine ⟨?_, fun v hv => i2 v (by rw [← hvec]; exact hv)⟩
      rcases dispatch_s_exact env _ t hd with h | h | ⟨tok, rest', h1, h2⟩
      · rw [h]
        exact i1
      · exact Or.inl h
      · have h1' : rest = tok :: rest' := h1
        exact Or.inr ⟨s, tok, rest', hr, hok, by rw [hargs, h1'], h2⟩
    · obtain ⟨h1, h2⟩ := dispatch_keeps_skip env _ t arg hs hd
      refine ⟨by rw [h1]; exact i1, fun v hv => ?_⟩
      rcases h2 v hv with h | h
      · exact i2 v h
      · refine ⟨?_, by rw [h.1, h.2]⟩
        rw [h.1]
        exact i1

theorem carries_inRange (k : Int) (o : Object) (hk : 0 ≤ k) (h : carries k o) :
    skipInRange o := by
  cases o with
  | dataVector v =>
    have h1 : v.skip = k := h.1
    show 0 ≤ v.skip
    rw [h1]
    exact hk
  | dataMatrix m =>
    have h1 : m.skip = k := h.1
    show 0 ≤ m.skip
    rw [h1]
    exact hk
  | psd p => trivial
  | histogram p => trivial
  | curve c => trivial
  | image i => trivial

/-- Claim C25, amended: the skip is not range-checked, it is 0 or the integer
the last successful `-s` read.  In every state of the run the skip is 0 or an
integer that a `-s` directive of the run has read from its token, and every
vector of the cache has its skip flag set exactly when its skip is `> 0`.
Every data vector and data matrix that an option adds to the store carries the
skip the parser has when the option is reached, every vector that enters the
cache does so too, and the vectors of the parser's `autoCurves` have the skip
0.  Hence, when no `-s` directive of the run reads its token as a negative
integer, every state of the run and the final state have a skip `>= 0`, every
vector of the cache has a skip `>= 0`, and so has every data vector and data
matrix of the store that was not in the document's store and was not put
there by the generator of a data source.  The condition cannot be dropped: an
integer that a `-s` directive reads is the skip of a state of the run. -/
theorem skip_range (env : Env) (doc : Document) (args : List String) :
    (∀ s, Reachable env (startState env (CommandLineParser.new doc args)) s →
      (s._skip = 0 ∨
        skipRead env (startState env (CommandLineParser.new doc args)) s._skip) ∧
      ∀ v ∈ s._vectors, v.doSkip = decide (v.skip > 0)) ∧
    (∀ a t arg, dispatch env a arg = some t →
      (arg ∈ optionNames →
        ∀ o ∈ t.objectStore.objects, o ∈ a.objectStore.objects ∨ carries a._skip o) ∧
      (arg ∉ optionNames →
        ∀ o ∈ t.objectStore.objects, o ∈ a.objectStore.objects ∨ carries 0 o ∨
          ∃ ds, env.findOrLoadSource arg = some ds ∧
            o ∈ (ds.autoCurves a.objectStore).2.objects) ∧
      (∀ v ∈ t._vectors,
        v ∈ a._vectors ∨ (v.skip = a._skip ∧ v.doSkip = decide (a._skip > 0)))) ∧
    ((∀ v, skipRead env (startState env (CommandLineParser.new doc args)) v → 0 ≤ v) →
      (∀ s, Reachable env (startState env (CommandLineParser.new doc args)) s →
        0 ≤ s._skip ∧ (∀ v ∈ s._vectors, 0 ≤ v.skip) ∧
        ∀ o ∈ s.objectStore.objects, o ∈ doc.objectStore.objects ∨ skipInRange o ∨
          pluginObject env (startState env (CommandLineParser.new doc args)) o) ∧
      (∀ b t, processCommandLine env (CommandLineParser.new doc args) = some (b, t) →
        0 ≤ t._skip ∧ (∀ v ∈ t._vectors, 0 ≤ v.skip) ∧
        ∀ o ∈ t.objectStore.objects, o ∈ doc.objectStore.objects ∨ skipInRange o ∨
          pluginObject env (startState env (CommandLineParser.new doc args)) o)) ∧
    (∀ v, skipRead env (startState env (CommandLineParser.new doc args)) v →
      ∃ s, Reachable env (startState env (CommandLineParser.new doc args)) s ∧ s._skip = v) := by
  have prov := fun s hr => reachable_skip env
    (startState env (CommandLineParser.new doc args)) s rfl rfl hr
  have range : (∀ v, skipRead env (startState env (CommandLineParser.new doc args)) v → 0 ≤ v) →
      ∀ s, Reachable env (startState env (CommandLineParser.new doc args)) s →
        0 ≤ s._skip ∧ (∀ v ∈ s._vectors, 0 ≤ v.skip) ∧
        ∀ o ∈ s.objectStore.objects, o ∈ doc.objectStore.objects ∨ skipInRange o ∨
          pluginObject env (startState env (CommandLineParser.new doc args)) o := by
    intro H s hr
    have hskip : ∀ s, Reachable env (startState env (CommandLineParser.new doc args)) s →
        0 ≤ s._skip := by
      intro s hr
      rcases (prov s hr).1 with h | h
      · rw [h]
      · exact H _ h
    refine ⟨hskip s hr, fun v hv => ?_, ?_⟩
    · rcases ((prov s hr).2 v hv).1 with h | h
      · rw [h]
      · exact H _ h
    · induction hr with
      | start => exact fun o ho => Or.inl ho
      | turn s t arg rest hr hok hargs hd ih =>
        intro o ho
        by_cases hmem : arg ∈ optionNames
        · rcases dispatch_option_made env _ t arg hmem hd o ho with h | h
          · exact ih o h
          · exact Or.inr (Or.inl (carries_inRange _ o (hskip s hr) h))
        · rw [dispatch_fileArg env _ arg hmem] at hd
          rcases fileArg_objects env _ t arg hd o ho with h | h | ⟨ds, hds, h⟩
          · exact ih o h
          · exact Or.inr (Or.inl (carries_inRange 0 o (le_refl _) h))
          · exact Or.inr (Or.inr ⟨s, arg, ds, hr, hds, h⟩)
  refine ⟨fun s hr => ⟨(prov s hr).1, fun v hv => ((prov s hr).2 v hv).2⟩,
    fun a t arg hd => ⟨fun hmem => dispatch_option_made env a t arg hmem hd, fun hmem => ?_,
      fun v hv => ?_⟩,
    fun H => ⟨range H, fun b t h => ?_⟩, fun v hv => ?_⟩
  · rw [dispatch_fileArg env a arg hmem] at hd
    exact fileArg_objects env a t arg hd
  · by_cases hs : arg = "-s"
    · subst hs
      exact Or.inl (by rw [← (dispatch_setting env a t "-s" (by decide) hd).1]; exact hv)
    · exact (dispatch_keeps_skip env a t arg hs hd).2 v hv
  · obtain ⟨t1, hr, rfl⟩ := processCommandLine_reachable env _ t b h
    have := range H t1 hr
    split
    · exact this
    · exact this
  · obtain ⟨s, tok, rest, hr, hok, hargs, htok⟩ := hv
    refine ⟨_, Reachable.turn s _ "-s" (tok :: rest) hr hok hargs (dispatch_d_s env _), ?_⟩
    simp [_setIntArg, htok]

/-- Claim C25 as stated fails: `-s -5` leaves the skip -5, and in
`file.dat -s -5 -y 1` the two vectors of the curve carry the skip -5. -/
theorem skip_range_counterexample :
    (run (sampleEnv false) ["-s", "-5"]).map (fun t => (t.ok, t._skip)) = some (true, -5) ∧
    (run (sampleEnv false) ["file.dat", "-s", "-5", "-y", "1"]).map
      (fun t => (t.ok, t._skip, (dataVectorsOf t).map (fun v => (v.skip, v.doSkip))))
      = some (true, -5, [(-5, false), (-5, false)]) ∧
    ¬ ((0 : Int) ≤ -5) := by
  refine ⟨by decide, by decide, by decide⟩

/-- Witness of claim C25: in the tokens `file.dat -f -10 -s 3 -y 1 -z 2` a
negative integer is read by `-f`, the only `-s` reads 3; the run ends with the
skip 3, and the two vectors and the matrix it constructed have the skip 3. -/
theorem skip_range_witness :
    (∀ v, skipRead (sampleEnv false) (startState (sampleEnv false)
        (CommandLineParser.new sampleDocument
          ["file.dat", "-f", "-10", "-s", "3", "-y", "1", "-z", "2"])) v → 0 ≤ v) ∧
    (∀ b t, processCommandLine (sampleEnv false)
        (CommandLineParser.new sampleDocument
          ["file.dat", "-f", "-10", "-s", "3", "-y", "1", "-z", "2"]) = some (b, t) →
      0 ≤ t._skip ∧ (∀ v ∈ t._vectors, 0 ≤ v.skip) ∧
      ∀ o ∈ t.objectStore.objects, o ∈ sampleDocument.objectStore.objects ∨ skipInRange o ∨
        pluginObject (sampleEnv false) (startState (sampleEnv false)
          (CommandLineParser.new sampleDocument
            ["file.dat", "-f", "-10", "-s", "3", "-y", "1", "-z", "2"])) o) ∧
    (run (sampleEnv false) ["file.dat", "-f", "-10", "-s", "3", "-y", "1", "-z", "2"]).map
      (fun t => (t.ok, t._skip, t._startFrame,
        (dataVectorsOf t).map (fun v => (v.skip, v.doSkip))))
      = some (true, 3, -10, [(3, true), (3, true)]) ∧
    (run (sampleEnv false) ["file.dat", "-f", "-10", "-s", "3", "-y", "1", "-z", "2"]).map
      (fun t => t.objectStore.objects.filterMap (fun o => match o with
        | Object.dataMatrix m => some (m.skip, m.doSkip)
        | _ => none))
      = some [(3, true)] := by
  have H : ∀ v, skipRead (sampleEnv false) (startState (sampleEnv false)
      (CommandLineParser.new sampleDocument
        ["file.dat", "-f", "-10", "-s", "3", "-y", "1", "-z", "2"])) v → 0 ≤ v := by
    intro v hv
    obtain ⟨tok, hmem, htok⟩ := skipRead_adjacent _ _ _ v hv
    simp at hmem
    subst hmem
    have h3 : (sampleEnv false).toInt "3" = some 3 := by decide
    rw [h3] at htok
    cases htok
    decide
  exact ⟨H, ((skip_range (sampleEnv false) sampleDocument
    ["file.dat", "-f", "-10", "-s", "3", "-y", "1", "-z", "2"]).2.2.1 H).2, by decide, by decide⟩

end Kst
